import Mathlib

/-!
# VoxelTerrain block lifecycle manager

A shallow embedding of `voxel_terrain.cpp` (godot_voxel): the dirty-state map,
the pending queues, the dirty-marking entry points and the scheduling tick
`_process`, followed by theorems about them.

Conventions of the embedding.

* C++ `int` values are `Int`; no claim below depends on 32-bit overflow except
  the millisecond clock of the commit loop, which is reduced modulo `2 ^ 32`.
* `HashMap<Vector3i, T>` is a total function `Vector3i → Option T`
  (`getptr` is application, `operator[]=` is `Function.update _ _ (some _)`,
  `erase` is `Function.update _ _ none`).
* `Vector<T>` is `List T`, `push_back` appends at the end.
* The two worker threads are represented by the lists of coordinates that
  were pushed to them and have not been popped back yet.
-/

namespace VoxelTerrain

/-! ## Data model -/

/-- Integer 3-vector (`Vector3i`), used for voxel and block coordinates. -/
structure Vector3i where
  x : Int
  y : Int
  z : Int
deriving DecidableEq, Repr

namespace Vector3i

/-- Componentwise sum (`operator+`). -/
def add (a b : Vector3i) : Vector3i := ⟨a.x + b.x, a.y + b.y, a.z + b.z⟩

/-- Componentwise difference (`operator-`). -/
def sub (a b : Vector3i) : Vector3i := ⟨a.x - b.x, a.y - b.y, a.z - b.z⟩

instance : Add Vector3i := ⟨add⟩
instance : Sub Vector3i := ⟨sub⟩

/-- The constructor `Vector3i(int xyz)` with three equal components. -/
def splat (v : Int) : Vector3i := ⟨v, v, v⟩

/-- The default constructor `Vector3i()`. -/
def zero : Vector3i := ⟨0, 0, 0⟩

end Vector3i

/-- The enum `VoxelTerrain::BlockDirtyState`. -/
inductive BlockDirtyState where
  | BLOCK_NONE
  | BLOCK_LOAD
  | BLOCK_UPDATE_NOT_SENT
  | BLOCK_UPDATE_SENT
  | BLOCK_IDLE
deriving DecidableEq, Repr

open BlockDirtyState

/-- Modelled from the spec: the voxel data container (`VoxelBuffer`, declared in
`voxel_buffer.h`), reduced to the three observations the manager makes of it:
its dimensions, whether the voxel-type channel is uniform, and the type value
at `(0, 0, 0)`. -/
structure VoxelBuffer where
  size : Vector3i
  is_uniform_type : Bool
  type_at_origin : Int
deriving DecidableEq, Repr

/-- One surface of a mesh result: a Godot `Array`, reduced to whether it is
empty and the length of its vertex array. -/
structure Surface where
  empty : Bool
  array_len : Nat
deriving DecidableEq, Repr

/-- A mesh under construction: the surfaces added to it, each with the
material slot bound to it (`none` for smooth surfaces). -/
structure Mesh where
  surfaces : List (Surface × Option Nat)
deriving DecidableEq, Repr

/-- Modelled from the spec: a resident block (`VoxelBlock`, declared in
`voxel_block.h`): its voxel buffer and the mesh on its rendering handle
(`none` is the null mesh). -/
structure VoxelBlock where
  voxels : VoxelBuffer
  mesh : Option Mesh
deriving DecidableEq, Repr

/-- A finished load (`VoxelProviderThread::EmergeOutput`). -/
structure EmergeOutput where
  origin_in_voxels : Vector3i
  voxels : VoxelBuffer
deriving DecidableEq, Repr

/-- A finished mesh job (`VoxelMeshUpdater::OutputBlock`). -/
structure OutputBlock where
  position : Vector3i
  model_surfaces : List Surface
  smooth_surfaces : List Surface
deriving DecidableEq, Repr

/-- The counters of `_stats` that the manager itself maintains. -/
structure Stats where
  dropped_provider_blocks : Nat
  dropped_updater_blocks : Nat
  updated_blocks : Nat
deriving DecidableEq, Repr

/-- Modelled from the spec: an axis-aligned integer box (`Rect3i`, declared in
`rect3i.h`), given by its minimum corner and its size. -/
structure Rect3i where
  pos : Vector3i
  size : Vector3i
deriving DecidableEq, Repr

/-- The manager: the members of `VoxelTerrain` that the lifecycle logic reads
or writes, the Spatial Index `_map` (its block table and block size), and the
coordinates currently held by the two workers. -/
structure Terrain where
  /-- Value of `_map->get_block_size()`. -/
  block_size : Int
  /-- Block table of `_map`. -/
  blocks : Vector3i → Option VoxelBlock
  view_distance_blocks : Int
  last_view_distance_blocks : Int
  last_viewer_block_pos : Vector3i
  dirty_blocks : Vector3i → Option BlockDirtyState
  blocks_pending_load : List Vector3i
  blocks_pending_update : List Vector3i
  blocks_pending_main_thread_update : List OutputBlock
  stats : Stats
  /-- Coordinates pushed to `_provider_thread` and not yet popped back. -/
  provider_requests : List Vector3i
  /-- Coordinates pushed to `_block_updater` and not yet popped back. -/
  updater_jobs : List Vector3i

/-! ## Spatial Index queries -/

/-- The query `_map->has_block(bpos)`. -/
def has_block (s : Terrain) (bpos : Vector3i) : Bool := (s.blocks bpos).isSome

/-! ## Dirty marking -/

/-- Embedding of `VoxelTerrain::make_block_dirty`. -/
def make_block_dirty (s : Terrain) (bpos : Vector3i) : Terrain :=
  match s.dirty_blocks bpos with
  | none =>
    if has_block s bpos then
      { s with
        blocks_pending_update := s.blocks_pending_update ++ [bpos]
        dirty_blocks := Function.update s.dirty_blocks bpos (some BLOCK_UPDATE_NOT_SENT) }
    else
      { s with
        blocks_pending_load := s.blocks_pending_load ++ [bpos]
        dirty_blocks := Function.update s.dirty_blocks bpos (some BLOCK_LOAD) }
  | some BLOCK_UPDATE_SENT =>
    { s with
      dirty_blocks := Function.update s.dirty_blocks bpos (some BLOCK_UPDATE_NOT_SENT)
      blocks_pending_update := s.blocks_pending_update ++ [bpos] }
  | some _ => s

/-- Embedding of `VoxelTerrain::immerge_block` (`_map` is never null). -/
def immerge_block (s : Terrain) (bpos : Vector3i) : Terrain :=
  { s with
    blocks := Function.update s.blocks bpos none
    dirty_blocks := Function.update s.dirty_blocks bpos none }

/-- Embedding of `VoxelTerrain::is_block_dirty`. -/
def is_block_dirty (s : Terrain) (bpos : Vector3i) : Bool := (s.dirty_blocks bpos).isSome

/-- Calling `make_block_dirty(bpos)` `n` times in a row. -/
def make_block_dirty_times (s : Terrain) (bpos : Vector3i) : Nat → Terrain
  | 0 => s
  | n + 1 => make_block_dirty (make_block_dirty_times s bpos n) bpos

/-! ## Coordinate conversions and boxes -/

/-- Modelled from the spec: `VoxelMap::voxel_to_block` (declared in
`voxel_map.h`): voxel-space divided by the block size, floored. For a positive
block size `/` on `Int` is the floored quotient. -/
def voxel_to_block (block_size : Int) (pos : Vector3i) : Vector3i :=
  ⟨pos.x / block_size, pos.y / block_size, pos.z / block_size⟩

/-- Modelled from the spec: `VoxelMap::to_local` (declared in `voxel_map.h`):
the local coordinate of a voxel inside its block, each component in
`0 .. block_size - 1`. -/
def to_local (block_size : Int) (pos : Vector3i) : Vector3i :=
  ⟨pos.x % block_size, pos.y % block_size, pos.z % block_size⟩

/-- The values taken by `i` in `for (i = lo; i < hi; ++i)`. -/
def int_range (lo hi : Int) : List Int :=
  (List.range (hi - lo).toNat).map (fun (k : Nat) => lo + (k : Int))

namespace Rect3i

/-- Modelled from the spec: `Rect3i::contains` (declared in `rect3i.h`): the
half-open box `pos ≤ p < pos + size`. -/
def contains (b : Rect3i) (p : Vector3i) : Bool :=
  decide (b.pos.x ≤ p.x) && decide (b.pos.y ≤ p.y) && decide (b.pos.z ≤ p.z) &&
  decide (p.x < b.pos.x + b.size.x) && decide (p.y < b.pos.y + b.size.y) &&
  decide (p.z < b.pos.z + b.size.z)

/-- Modelled from the spec: `Rect3i::from_center_extents` (declared in
`rect3i.h`): the box centered on `center` with radius `extents`, so that a
radius of 2 gives a 5×5×5 cube. -/
def from_center_extents (center extents : Vector3i) : Rect3i :=
  ⟨center - extents,
   ⟨2 * extents.x + 1, 2 * extents.y + 1, 2 * extents.z + 1⟩⟩

/-- Modelled from the spec: `Rect3i::get_bounding_box` (declared in
`rect3i.h`): the smallest box containing both arguments. -/
def get_bounding_box (a b : Rect3i) : Rect3i :=
  let p : Vector3i := ⟨min a.pos.x b.pos.x, min a.pos.y b.pos.y, min a.pos.z b.pos.z⟩
  let max_a := a.pos + a.size
  let max_b := b.pos + b.size
  ⟨p, ⟨max max_a.x max_b.x - p.x, max max_a.y max_b.y - p.y, max max_a.z max_b.z - p.z⟩⟩

end Rect3i

/-! ## Neighbour dirtying -/

/-- Embedding of `get_border_index`. -/
def get_border_index (x max : Int) : Nat :=
  if x = 0 then 0 else if x ≠ max then 1 else 2

/-- The table `normals[27][3]` of `make_voxel_dirty`. -/
def normals : List (Int × Int × Int) :=
  [ (-1, -1, -1), (0, -1, -1), (1, -1, -1),
    (-1, -1, 0), (0, -1, 0), (1, -1, 0),
    (-1, -1, 1), (0, -1, 1), (1, -1, 1),

    (-1, 0, -1), (0, 0, -1), (1, 0, -1),
    (-1, 0, 0), (0, 0, 0), (1, 0, 0),
    (-1, 0, 1), (0, 0, 1), (1, 0, 1),

    (-1, 1, -1), (0, 1, -1), (1, 1, -1),
    (-1, 1, 0), (0, 1, 0), (1, 1, 0),
    (-1, 1, 1), (0, 1, 1), (1, 1, 1) ]

/-- The table `ce_counts[27]` of `make_voxel_dirty`. -/
def ce_counts : List Nat :=
  [ 4, 1, 4,
    1, 0, 1,
    4, 1, 4,

    1, 0, 1,
    0, 0, 0,
    1, 0, 1,

    4, 1, 4,
    1, 0, 1,
    4, 1, 4 ]

/-- The table `ce_indexes_lut[27][4]` of `make_voxel_dirty`; entries the C++
initialiser leaves out are zero. -/
def ce_indexes_lut : List (List Nat) :=
  [ [0, 1, 3, 9], [1, 0, 0, 0], [2, 1, 5, 11],
    [3, 0, 0, 0], [0, 0, 0, 0], [5, 0, 0, 0],
    [6, 3, 7, 15], [7, 0, 0, 0], [8, 7, 5, 17],

    [9, 0, 0, 0], [0, 0, 0, 0], [11, 0, 0, 0],
    [0, 0, 0, 0], [0, 0, 0, 0], [0, 0, 0, 0],
    [15, 0, 0, 0], [0, 0, 0, 0], [17, 0, 0, 0],

    [18, 9, 19, 21], [19, 0, 0, 0], [20, 11, 19, 23],
    [21, 0, 0, 0], [0, 0, 0, 0], [23, 0, 0, 0],
    [24, 15, 21, 25], [25, 0, 0, 0], [26, 17, 23, 25] ]

/-- The normals visited by the corner loop of `make_voxel_dirty` for the
border class `m`: `normals[ce_indexes_lut[m][i]]` for `i < ce_counts[m]`. -/
def corner_normals (m : Nat) : List (Int × Int × Int) :=
  let ce_indexes := ce_indexes_lut.getD m []
  let ce_count := ce_counts.getD m 0
  (List.range ce_count).map (fun i => normals.getD (ce_indexes.getD i 0) (0, 0, 0))

/-- The block coordinates passed to `make_block_dirty` by
`VoxelTerrain::make_voxel_dirty(pos)`, in call order. -/
def make_voxel_dirty_calls (block_size : Int) (pos : Vector3i) : List Vector3i :=
  let bpos := voxel_to_block block_size pos
  let rpos := to_local block_size pos
  let check_corners := true
  let max := block_size - 1
  [bpos]
  ++ (if rpos.x = 0 then [bpos - ⟨1, 0, 0⟩]
      else if rpos.x = max then [bpos + ⟨1, 0, 0⟩] else [])
  ++ (if rpos.y = 0 then [bpos - ⟨0, 1, 0⟩]
      else if rpos.y = max then [bpos + ⟨0, 1, 0⟩] else [])
  ++ (if rpos.z = 0 then [bpos - ⟨0, 0, 1⟩]
      else if rpos.z = max then [bpos + ⟨0, 0, 1⟩] else [])
  ++ (if check_corners then
        let m := get_border_index rpos.x max + 3 * get_border_index rpos.z max
                  + 9 * get_border_index rpos.y max
        (corner_normals m).map (fun normal =>
          (⟨bpos.x + normal.1, bpos.y + normal.2.1, bpos.z + normal.2.2⟩ : Vector3i))
      else [])

/-- Embedding of `VoxelTerrain::make_voxel_dirty`. -/
def make_voxel_dirty (s : Terrain) (pos : Vector3i) : Terrain :=
  (make_voxel_dirty_calls s.block_size pos).foldl make_block_dirty s

/-- The block coordinates passed to `make_block_dirty` by
`VoxelTerrain::make_area_dirty(box)`, in call order (`z` outermost, then `x`,
then `y`). -/
def make_area_dirty_calls (block_size : Int) (box : Rect3i) : List Vector3i :=
  let min_pos := box.pos
  let max_pos := box.pos + box.size - Vector3i.splat 1
  let check_corners := true
  let min_max : Vector3i × Vector3i :=
    if check_corners then
      (min_pos - Vector3i.splat 1, max_pos + Vector3i.splat 1)
    else
      let min_rpos := to_local block_size min_pos
      let min_pos1 : Vector3i :=
        ⟨if min_rpos.x = 0 then min_pos.x - 1 else min_pos.x,
         if min_rpos.y = 0 then min_pos.y - 1 else min_pos.y,
         if min_rpos.z = 0 then min_pos.z - 1 else min_pos.z⟩
      let max := block_size - 1
      let max_rpos := to_local block_size max_pos
      let max_pos1 : Vector3i :=
        ⟨if max_rpos.x = max then max_pos.x + 1 else max_pos.x,
         if max_rpos.y = max then max_pos.y + 1 else max_pos.y,
         if max_rpos.z = max then max_pos.z + 1 else max_pos.z⟩
      (min_pos1, max_pos1)
  let min_block_pos := voxel_to_block block_size min_max.1
  let max_block_pos := voxel_to_block block_size min_max.2
  (int_range min_block_pos.z (max_block_pos.z + 1)).flatMap (fun z =>
    (int_range min_block_pos.x (max_block_pos.x + 1)).flatMap (fun x =>
      (int_range min_block_pos.y (max_block_pos.y + 1)).map (fun y =>
        (⟨x, y, z⟩ : Vector3i))))

/-- Embedding of `VoxelTerrain::make_area_dirty`. -/
def make_area_dirty (s : Terrain) (box : Rect3i) : Terrain :=
  (make_area_dirty_calls s.block_size box).foldl make_block_dirty s

/-! ## Configuration -/

/-- Embedding of `VoxelTerrain::get_view_distance`. -/
def get_view_distance (s : Terrain) : Int := s.view_distance_blocks * s.block_size

/-- Embedding of `VoxelTerrain::set_view_distance`; `ERR_FAIL_COND` returns
without a change. C++ integer division truncates. -/
def set_view_distance (s : Terrain) (distance_in_voxels : Int) : Terrain :=
  if distance_in_voxels < 0 then s
  else
    let d := Int.tdiv distance_in_voxels s.block_size
    if d ≠ s.view_distance_blocks then { s with view_distance_blocks := d } else s

/-- Embedding of `VoxelTerrain::make_all_view_dirty_deferred`. -/
def make_all_view_dirty_deferred (s : Terrain) : Terrain :=
  { s with last_view_distance_blocks := 0 }

/-- Embedding of `VoxelTerrain::get_block_state`. -/
def get_block_state (s : Terrain) (bpos : Vector3i) : BlockDirtyState :=
  match s.dirty_blocks bpos with
  | some state => state
  | none => if !has_block s bpos then BLOCK_NONE else BLOCK_IDLE

/-! ## The scheduling tick -/

/-- Embedding of `VoxelTerrain::remove_positions_outside_box`, as the loop
over `i` with the remaining number of iterations as fuel: every iteration
either advances `i` or shortens `positions`, so `positions.size()` iterations
always reach `i == positions.size()`. -/
def remove_positions_loop (box : Rect3i) :
    Nat → Nat → List Vector3i → (Vector3i → Option BlockDirtyState) →
    List Vector3i × (Vector3i → Option BlockDirtyState)
  | 0, _, positions, state_map => (positions, state_map)
  | fuel + 1, i, positions, state_map =>
    if i < positions.length then
      let bpos := positions.getD i Vector3i.zero
      if !box.contains bpos then
        let last := positions.length - 1
        let positions1 := (positions.set i (positions.getD last Vector3i.zero)).take last
        remove_positions_loop box fuel i positions1 (Function.update state_map bpos none)
      else
        remove_positions_loop box fuel (i + 1) positions state_map
    else (positions, state_map)

/-- Embedding of `VoxelTerrain::remove_positions_outside_box`. -/
def remove_positions_outside_box (positions : List Vector3i) (box : Rect3i)
    (state_map : Vector3i → Option BlockDirtyState) :
    List Vector3i × (Vector3i → Option BlockDirtyState) :=
  remove_positions_loop box positions.length 0 positions state_map

/-- Embedding of `is_mesh_empty`. -/
def is_mesh_empty (mesh_ref : Option Mesh) : Bool :=
  match mesh_ref with
  | none => true
  | some mesh =>
    match mesh.surfaces with
    | [] => true
    | (surface, _) :: _ => surface.array_len == 0

/-- The positions visited by the three nested loops over a box in the
required-area diff (`z` outermost, then `y`, then `x`). -/
def box_positions (pos max : Vector3i) : List Vector3i :=
  (int_range pos.z max.z).flatMap (fun z =>
    (int_range pos.y max.y).flatMap (fun y =>
      (int_range pos.x max.x).map (fun x => (⟨x, y, z⟩ : Vector3i))))

/-- Body of the required-area diff loop of `_process` for one position. -/
def update_required_block (prev_box new_box : Rect3i) (s : Terrain) (pos : Vector3i) :
    Terrain :=
  let prev_contains := prev_box.contains pos
  let new_contains := new_box.contains pos
  if prev_contains && !new_contains then immerge_block s pos
  else if !prev_contains && new_contains then make_block_dirty s pos
  else s

/-- The block coordinate of the viewer: the origin when the viewer is not
resolved (or in the editor), else `voxel_to_block` of its position. -/
def viewer_block_pos (s : Terrain) (viewer : Option Vector3i) : Vector3i :=
  match viewer with
  | none => Vector3i.zero
  | some translation => voxel_to_block s.block_size translation

/-- The box `new_box` of `_process`. -/
def required_box (s : Terrain) (viewer : Option Vector3i) : Rect3i :=
  Rect3i.from_center_extents (viewer_block_pos s viewer)
    (Vector3i.splat s.view_distance_blocks)

/-- The box `prev_box` of `_process`. -/
def previous_box (s : Terrain) : Rect3i :=
  Rect3i.from_center_extents s.last_viewer_block_pos
    (Vector3i.splat s.last_view_distance_blocks)

/-- The required-area diff loop of `_process` (skipped when the box did not
change). -/
def update_required_blocks (s : Terrain) (prev_box new_box : Rect3i) : Terrain :=
  if prev_box ≠ new_box then
    let bounds := Rect3i.get_bounding_box prev_box new_box
    let max := bounds.pos + bounds.size
    (box_positions bounds.pos max).foldl (update_required_block prev_box new_box) s
  else s

/-- First block of `_process`: "find out which blocks need to appear and which
need to be unloaded", the pruning of the two queues, and the update of
`_last_view_distance_blocks` and `_last_viewer_block_pos`. -/
def detect_required_blocks (s : Terrain) (viewer : Option Vector3i) : Terrain :=
  let new_box := required_box s viewer
  let prev_box := previous_box s
  let s1 := update_required_blocks s prev_box new_box
  let r1 := remove_positions_outside_box s1.blocks_pending_load new_box s1.dirty_blocks
  let r2 := remove_positions_outside_box s1.blocks_pending_update new_box r1.2
  { s1 with
    blocks_pending_load := r1.1
    blocks_pending_update := r2.1
    dirty_blocks := r2.2
    last_view_distance_blocks := s.view_distance_blocks
    last_viewer_block_pos := viewer_block_pos s viewer }

/-- Second block of `_process`: "send block loading requests". -/
def send_load_requests (s : Terrain) : Terrain :=
  { s with
    provider_requests := s.provider_requests ++ s.blocks_pending_load
    blocks_pending_load := [] }

/-- Modelled from the spec: `VoxelMap::is_block_surrounded` (declared in
`voxel_map.h`): all 26 face, edge and corner neighbours of the block are
present in the Spatial Index. -/
def is_block_surrounded (s : Terrain) (pos : Vector3i) : Bool :=
  ([-1, 0, 1] : List Int).all (fun dz =>
    ([-1, 0, 1] : List Int).all (fun dx =>
      ([-1, 0, 1] : List Int).all (fun dy =>
        (dx == 0 && dy == 0 && dz == 0) || has_block s (pos + ⟨dx, dy, dz⟩))))

/-- Modelled from the spec: `VoxelMap::set_block_buffer` (declared in
`voxel_map.h`): install the buffer in the Spatial Index, creating the block
(without a mesh) when it is not resident. -/
def set_block_buffer (s : Terrain) (bpos : Vector3i) (buffer : VoxelBuffer) : Terrain :=
  match s.blocks bpos with
  | none => { s with blocks := Function.update s.blocks bpos (some ⟨buffer, none⟩) }
  | some block =>
    { s with blocks := Function.update s.blocks bpos (some { block with voxels := buffer }) }

/-- The values of `ndir` in the neighbour loop of the load drain (`z`
outermost, then `x`, then `y`). -/
def neighbor_dirs : List Vector3i :=
  (int_range (-1) 2).flatMap (fun z =>
    (int_range (-1) 2).flatMap (fun x =>
      (int_range (-1) 2).map (fun y => (⟨x, y, z⟩ : Vector3i))))

/-- Body of the neighbour loop of the load drain for one `npos`. -/
def update_neighbor (s : Terrain) (npos : Vector3i) : Terrain :=
  if is_block_surrounded s npos then
    match s.dirty_blocks npos with
    | some BLOCK_UPDATE_NOT_SENT => s
    | _ =>
      { s with
        dirty_blocks := Function.update s.dirty_blocks npos (some BLOCK_UPDATE_NOT_SENT)
        blocks_pending_update := s.blocks_pending_update ++ [npos] }
  else s

/-- How a loop body of `_process` ends: it goes on with the next iteration, or
an `ERR_FAIL_COND` returns from `_process` with the state reached so far. -/
inductive Flow where
  | next (s : Terrain)
  | ret (s : Terrain)

/-- Body of the load-result loop of `_process` for one result. -/
def process_load_response (s : Terrain) (o : EmergeOutput) : Flow :=
  let block_pos := voxel_to_block s.block_size o.origin_in_voxels
  if s.dirty_blocks block_pos ≠ some BLOCK_LOAD then
    Flow.next { s with stats :=
      { s.stats with dropped_provider_blocks := s.stats.dropped_provider_blocks + 1 } }
  else if o.voxels.size ≠ Vector3i.splat s.block_size then
    Flow.ret s
  else
    let update_neighbors := !has_block s block_pos
    let s1 := set_block_buffer s block_pos o.voxels
    if update_neighbors then
      Flow.next (neighbor_dirs.foldl (fun acc ndir => update_neighbor acc (block_pos + ndir)) s1)
    else
      Flow.next { s1 with
        dirty_blocks := Function.update s1.dirty_blocks block_pos (some BLOCK_UPDATE_NOT_SENT)
        blocks_pending_update := s1.blocks_pending_update ++ [block_pos] }

/-- The load-result loop of `_process` over the popped results. -/
def process_load_loop (s : Terrain) : List EmergeOutput → Flow
  | [] => Flow.next s
  | o :: rest =>
    match process_load_response s o with
    | Flow.next s1 => process_load_loop s1 rest
    | Flow.ret s1 => Flow.ret s1

/-- The block coordinate a finished load answers. -/
def emerged_block_pos (s : Terrain) (o : EmergeOutput) : Vector3i :=
  voxel_to_block s.block_size o.origin_in_voxels

/-- Start of the third block of `_process`: the finished loads are popped from
the worker and the dropped counter is reset. -/
def pop_load_responses (s : Terrain) (emerged_blocks : List EmergeOutput) : Terrain :=
  { s with
    provider_requests := s.provider_requests.diff (emerged_blocks.map (emerged_block_pos s))
    stats := { s.stats with dropped_provider_blocks := 0 } }

/-- Third block of `_process`: "get block loading responses": the results are
popped from the worker, the dropped counter is reset and the results are
processed in order. -/
def process_load_responses (s : Terrain) (emerged_blocks : List EmergeOutput) : Flow :=
  process_load_loop (pop_load_responses s emerged_blocks) emerged_blocks

/-- The state a loop of `_process` leaves, however it ended. -/
def Flow.state : Flow → Terrain
  | Flow.next s => s
  | Flow.ret s => s

/-- The number of results of a batch whose coordinate has no `LOAD` entry when
the load-result loop examines them; the loop examines the results in order,
up to the end of the batch or to the result at which `ERR_FAIL_COND` returns. -/
def stale_load_count (s : Terrain) : List EmergeOutput → Nat
  | [] => 0
  | o :: rest =>
    (if s.dirty_blocks (emerged_block_pos s o) ≠ some BLOCK_LOAD then 1 else 0) +
    (match process_load_response s o with
     | Flow.next s1 => stale_load_count s1 rest
     | Flow.ret _ => 0)

/-- Whether the block is empty for the mesh dispatch: its type channel is
uniform and its voxel at `(0, 0, 0)` is the air type `0`. -/
def is_air (block : VoxelBlock) : Bool :=
  block.voxels.is_uniform_type && block.voxels.type_at_origin == 0

/-- Body of the mesh-dispatch loop of `_process` for one queue entry; the
second component is `input.blocks` (positions only). `none` is a `CRASH_COND`. -/
def send_mesh_update (acc : Terrain × List Vector3i) (block_pos : Vector3i) :
    Option (Terrain × List Vector3i) :=
  let s := acc.1
  match s.blocks block_pos with
  | none => some acc
  | some block =>
    match s.dirty_blocks block_pos with
    | none => none
    | some block_state =>
      if block_state ≠ BLOCK_UPDATE_NOT_SENT then none
      else if is_air block then
        some ({ s with
                blocks := Function.update s.blocks block_pos (some { block with mesh := none })
                dirty_blocks := Function.update s.dirty_blocks block_pos none },
              acc.2)
      else
        some ({ s with
                dirty_blocks := Function.update s.dirty_blocks block_pos (some BLOCK_UPDATE_SENT) },
              acc.2 ++ [block_pos])

/-- The mesh-dispatch loop of `_process` over a list of queue entries. -/
def send_mesh_loop (acc : Terrain × List Vector3i) : List Vector3i →
    Option (Terrain × List Vector3i)
  | [] => some acc
  | block_pos :: rest =>
    match send_mesh_update acc block_pos with
    | none => none
    | some acc1 => send_mesh_loop acc1 rest

/-- Fourth block of `_process`: "send mesh updates": the loop over
`_blocks_pending_update`, the push of the batch and the clearing of the queue.
Returns the new state and the batch. -/
def send_mesh_updates (s : Terrain) : Option (Terrain × List Vector3i) :=
  match send_mesh_loop (s, []) s.blocks_pending_update with
  | none => none
  | some (s1, input) =>
    some ({ s1 with
            updater_jobs := s1.updater_jobs ++ input
            blocks_pending_update := [] },
          input)

/-- The mesh built by the commit loop from a result: the non-empty model
surfaces with their material slot, then the non-empty smooth surfaces; the
null mesh when `is_mesh_empty`. -/
def build_mesh (ob : OutputBlock) : Option Mesh :=
  let model := (ob.model_surfaces.enum.filter (fun e => !e.2.empty)).map
    (fun e => (e.2, some e.1))
  let smooth := (ob.smooth_surfaces.filter (fun sf => !sf.empty)).map
    (fun sf => (sf, (none : Option Nat)))
  let mesh : Mesh := ⟨model ++ smooth⟩
  if is_mesh_empty (some mesh) then none else some mesh

/-- First statement of the commit loop body: the dirty-state entry of the
result's coordinate is erased when it is `UPDATE_SENT`. -/
def clear_sent_entry (s : Terrain) (position : Vector3i) : Terrain :=
  match s.dirty_blocks position with
  | some BLOCK_UPDATE_SENT =>
    { s with dirty_blocks := Function.update s.dirty_blocks position none }
  | _ => s

/-- Body of the commit loop of `_process` for one result. -/
def commit_block (s : Terrain) (ob : OutputBlock) : Terrain :=
  let s1 := clear_sent_entry s ob.position
  match s1.blocks ob.position with
  | none =>
    { s1 with stats :=
      { s1.stats with dropped_updater_blocks := s1.stats.dropped_updater_blocks + 1 } }
  | some block =>
    { s1 with blocks :=
      Function.update s1.blocks ob.position (some { block with mesh := build_mesh ob }) }

/-- The commit loop of `_process`: `clock n` is the `n`-th reading of
`os.get_ticks_msec()`; the loop reads the clock only while results remain.
Returns the state and the final `queue_index`. -/
def commit_loop (clock : Nat → Nat) (timeout : Nat) :
    Nat → Terrain → List OutputBlock → Terrain × Nat
  | _, s, [] => (s, 0)
  | n, s, ob :: rest =>
    if clock n % 2 ^ 32 < timeout then
      let r := commit_loop clock timeout (n + 1) (commit_block s ob) rest
      (r.1, r.2 + 1)
    else (s, 0)

/-- Modelled from the spec: `shift_up` (declared in `utility.h`): remove the
first `pos` entries, preserving the order of the remainder. -/
def shift_up (v : List OutputBlock) (pos : Nat) : List OutputBlock := v.drop pos

/-- The `timeout` of the commit loop: the second clock reading plus 10 ms, as
a `uint32_t`. -/
def commit_timeout (clock : Nat → Nat) : Nat := (clock 1 % 2 ^ 32 + 10) % 2 ^ 32

/-- Start of the fifth block of `_process`: the finished mesh jobs are popped
from the worker, the statistics are reset and the results are appended to
`_blocks_pending_main_thread_update`. -/
def pop_mesh_responses (s : Terrain) (blocks : List OutputBlock) : Terrain :=
  { s with
    updater_jobs := s.updater_jobs.diff (blocks.map (fun ob => ob.position))
    stats := { s.stats with updated_blocks := blocks.length, dropped_updater_blocks := 0 }
    blocks_pending_main_thread_update := s.blocks_pending_main_thread_update ++ blocks }

/-- Fifth block of `_process`: "get mesh updates": the popped results are
appended to `_blocks_pending_main_thread_update`, the commit loop runs until
the queue or the time budget is exhausted, and `shift_up` removes the
processed entries. -/
def process_mesh_responses (s : Terrain) (blocks : List OutputBlock) (clock : Nat → Nat) :
    Terrain :=
  let s1 := pop_mesh_responses s blocks
  let r := commit_loop clock (commit_timeout clock) 2 s1 s1.blocks_pending_main_thread_update
  { r.1 with
    blocks_pending_main_thread_update := shift_up r.1.blocks_pending_main_thread_update r.2 }

/-- What the environment supplies to one tick: the viewer position (`none`
when the viewer path does not resolve or in the editor), the results popped
from the two workers, and the clock readings. -/
structure TickInput where
  viewer : Option Vector3i
  emerged_blocks : List EmergeOutput
  mesh_blocks : List OutputBlock
  clock : Nat → Nat

/-- How `_process` ends. -/
inductive Outcome where
  /-- Ran to the end. -/
  | done (s : Terrain)
  /-- An `ERR_FAIL_COND` returned early, leaving `s`. -/
  | failed (s : Terrain)
  /-- A `CRASH_COND` fired. -/
  | crashed

/-- Embedding of `VoxelTerrain::_process`. -/
def _process (s : Terrain) (inp : TickInput) : Outcome :=
  let s1 := detect_required_blocks s inp.viewer
  let s2 := send_load_requests s1
  match process_load_responses s2 inp.emerged_blocks with
  | Flow.ret s3 => Outcome.failed s3
  | Flow.next s3 =>
    match send_mesh_updates s3 with
    | none => Outcome.crashed
    | some (s4, _) => Outcome.done (process_mesh_responses s4 inp.mesh_blocks inp.clock)

/-! ## Reachable states -/

/-- The freshly constructed manager (`VoxelTerrain::VoxelTerrain`) over an
empty Spatial Index of block size `B`, with both workers idle. -/
def fresh (B : Int) : Terrain where
  block_size := B
  blocks := fun _ => none
  view_distance_blocks := 8
  last_view_distance_blocks := 0
  last_viewer_block_pos := Vector3i.zero
  dirty_blocks := fun _ => none
  blocks_pending_load := []
  blocks_pending_update := []
  blocks_pending_main_thread_update := []
  stats := ⟨0, 0, 0⟩
  provider_requests := []
  updater_jobs := []

/-- The operations of the manager that change its state. -/
inductive Op where
  | tick (inp : TickInput)
  | block_dirty (bpos : Vector3i)
  | voxel_dirty (pos : Vector3i)
  | area_dirty (box : Rect3i)
  | view_distance (distance_in_voxels : Int)
  | all_view_dirty_deferred

/-- The state after an operation; `none` when the process crashed. After an
`ERR_FAIL_COND` the program goes on from the state `_process` left. -/
def Op.run (s : Terrain) : Op → Option Terrain
  | Op.tick inp =>
    match _process s inp with
    | Outcome.done s1 => some s1
    | Outcome.failed s1 => some s1
    | Outcome.crashed => none
  | Op.block_dirty bpos => some (make_block_dirty s bpos)
  | Op.voxel_dirty pos => some (make_voxel_dirty s pos)
  | Op.area_dirty box => some (make_area_dirty s box)
  | Op.view_distance d => some (set_view_distance s d)
  | Op.all_view_dirty_deferred => some (make_all_view_dirty_deferred s)

/-- The workers only return what they were given: in a tick, the popped load
results answer requests held by the Loader Worker after this tick's push, and
the popped mesh results answer jobs held by the Mesh Worker after this tick's
push. Their timing is otherwise arbitrary. -/
def tick_valid (s : Terrain) (inp : TickInput) : Prop :=
  let s2 := send_load_requests (detect_required_blocks s inp.viewer)
  (inp.emerged_blocks.map (emerged_block_pos s)).Subperm s2.provider_requests ∧
  ∀ s3 s4 batch, process_load_responses s2 inp.emerged_blocks = Flow.next s3 →
    send_mesh_updates s3 = some (s4, batch) →
    (inp.mesh_blocks.map (fun ob => ob.position)).Subperm s4.updater_jobs

/-- When an operation can happen. -/
def Op.valid (s : Terrain) : Op → Prop
  | Op.tick inp => tick_valid s inp
  | _ => True

/-- States reachable from the fresh manager by the operations in `allowed`. -/
inductive ReachableBy (allowed : Op → Prop) (B : Int) : Terrain → Prop where
  | init : ReachableBy allowed B (fresh B)
  | step {s s1 : Terrain} {op : Op} :
      ReachableBy allowed B s → allowed op → op.valid s → op.run s = some s1 →
      ReachableBy allowed B s1

/-- Scheduling ticks with the viewer left where it is (unresolved, hence at
the origin) and dirty-marking calls. -/
def Op.is_tick_or_dirty : Op → Prop
  | Op.tick inp => inp.viewer = none
  | Op.block_dirty _ => True
  | Op.voxel_dirty _ => True
  | Op.area_dirty _ => True
  | _ => False

/-- States reachable by any of the manager's operations. -/
def Reachable (B : Int) (s : Terrain) : Prop := ReachableBy (fun _ => True) B s

/-- States reachable by scheduling ticks and dirty-marking calls only. -/
def ReachableTD (B : Int) (s : Terrain) : Prop := ReachableBy Op.is_tick_or_dirty B s

/-! ## Sample states -/

/-- A sample coordinate. -/
def sample_pos : Vector3i := ⟨1, 0, 0⟩

/-- A sample non-air block buffer of size 16. -/
def sample_buffer : VoxelBuffer := ⟨Vector3i.splat 16, false, 1⟩

/-- A sample state: block size 16, a non-air block resident at `sample_pos`
and no dirty-state entry. -/
def sample_resident : Terrain :=
  { fresh 16 with blocks := Function.update (fun _ => none) sample_pos (some ⟨sample_buffer, none⟩) }

/-- A sample state: as `sample_resident`, with `sample_pos` in state
`UPDATE_SENT` and its mesh job held by the Mesh Worker. -/
def sample_sent : Terrain :=
  { sample_resident with
    dirty_blocks := Function.update (fun _ => none) sample_pos (some BLOCK_UPDATE_SENT)
    updater_jobs := [sample_pos] }

/-- The offsets from the owning block of the calls made by `make_voxel_dirty`
for a voxel whose border indices along `x`, `y`, `z` are `ix`, `iy`, `iz`
(when `0 ≠ max`): the block itself, the face neighbours, the corner loop. -/
def class_offsets (ix iy iz : Nat) : List (Int × Int × Int) :=
  [(0, 0, 0)]
  ++ (if ix = 0 then [(-1, 0, 0)] else if ix = 2 then [(1, 0, 0)] else [])
  ++ (if iy = 0 then [(0, -1, 0)] else if iy = 2 then [(0, 1, 0)] else [])
  ++ (if iz = 0 then [(0, 0, -1)] else if iz = 2 then [(0, 0, 1)] else [])
  ++ corner_normals (ix + 3 * iz + 9 * iy)

/-- Whether the offset `d` along one axis is allowed for border index `i`:
`-1` only at the minimum boundary, `+1` only at the maximum boundary. -/
def axis_allowed (i : Nat) (d : Int) : Bool :=
  d == 0 || (i == 0 && d == -1) || (i == 2 && d == 1)

/-- A sample uniformly-air block buffer of size 16. -/
def sample_air_buffer : VoxelBuffer := ⟨Vector3i.splat 16, true, 0⟩

/-- A sample mesh with one surface. -/
def sample_mesh : Mesh := ⟨[(⟨false, 3⟩, some 0)]⟩

/-- A sample state: a uniformly-air block with a mesh resident at `sample_pos`,
in state `UPDATE_NOT_SENT` and queued for a mesh update. -/
def sample_air : Terrain :=
  { fresh 16 with
    blocks := Function.update (fun _ => none) sample_pos (some ⟨sample_air_buffer, some sample_mesh⟩)
    dirty_blocks := Function.update (fun _ => none) sample_pos (some BLOCK_UPDATE_NOT_SENT)
    blocks_pending_update := [sample_pos] }

/-- A sample state: the fresh manager of block size 16 after
`set_view_distance(0)`. -/
def sample_idle : Terrain := set_view_distance (fresh 16) 0

/-- A sample mesh result for `sample_pos`, without surfaces. -/
def sample_result : OutputBlock := ⟨sample_pos, [], []⟩

/-- A sample tick: no viewer, no finished load, one finished mesh job, and a
clock that stands still. -/
def sample_tick : TickInput := ⟨none, [], [sample_result], fun _ => 0⟩

/-- The entry `make_block_dirty` leaves at a coordinate whose entry was `d` and
whose block is resident or not. -/
def dirty_after (d : Option BlockDirtyState) (resident : Bool) : Option BlockDirtyState :=
  match d with
  | none => if resident then some BLOCK_UPDATE_NOT_SENT else some BLOCK_LOAD
  | some BLOCK_UPDATE_SENT => some BLOCK_UPDATE_NOT_SENT
  | some state => some state

/-- Whether `make_block_dirty(q)` appends `q` to the pending-load queue. -/
def loads_on_dirty (s : Terrain) (q : Vector3i) : Bool :=
  (s.dirty_blocks q).isNone && !has_block s q

/-- Whether `make_block_dirty(q)` appends `q` to the pending-update queue. -/
def updates_on_dirty (s : Terrain) (q : Vector3i) : Bool :=
  ((s.dirty_blocks q).isNone && has_block s q) ||
    decide (s.dirty_blocks q = some BLOCK_UPDATE_SENT)

/-- A tick without a viewer in which neither worker returns anything. -/
def quiet_tick : TickInput := ⟨none, [], [], fun _ => 0⟩

/-- A tick without a viewer in which the Loader Worker returns a buffer of the
right size for block `sample_pos` (block size 16). -/
def load_tick : TickInput := ⟨none, [⟨⟨16, 0, 0⟩, sample_buffer⟩], [], fun _ => 0⟩

/-! ## Predicates used by the theorems -/

/-- What a run of `make_block_dirty` calls on the coordinates `l` may change
between `s` and `t`: entries are only added or rewritten at coordinates of `l`,
both queues only grow, by coordinates of `l`, and nothing else changes. -/
structure DirtyFrame (l : List Vector3i) (s t : Terrain) : Prop where
  dirty_off : ∀ q, q ∉ l → t.dirty_blocks q = s.dirty_blocks q
  dirty_some : ∀ q, (s.dirty_blocks q).isSome → (t.dirty_blocks q).isSome
  load : ∃ l1, t.blocks_pending_load = s.blocks_pending_load ++ l1 ∧ ∀ q ∈ l1, q ∈ l
  update : ∃ l2, t.blocks_pending_update = s.blocks_pending_update ++ l2 ∧ ∀ q ∈ l2, q ∈ l
  blocks : t.blocks = s.blocks
  block_size : t.block_size = s.block_size

/-- Scheduler invariant, relative to a set `C` of coordinates: a coordinate in
state `UPDATE_SENT` has a resident block, and the coordinates of `C` in the
pending-load queue have the entry `LOAD`, those in the pending-update queue the
entry `UPDATE_NOT_SENT`. -/
structure InvOn (C : Vector3i → Prop) (s : Terrain) : Prop where
  sent_resident : ∀ p, s.dirty_blocks p = some BLOCK_UPDATE_SENT → (s.blocks p).isSome
  load_queue : ∀ p ∈ s.blocks_pending_load, C p → s.dirty_blocks p = some BLOCK_LOAD
  update_queue : ∀ p ∈ s.blocks_pending_update, C p →
    s.dirty_blocks p = some BLOCK_UPDATE_NOT_SENT

/-- Scheduler invariant between operations: `InvOn` for all coordinates. -/
def Inv (s : Terrain) : Prop := InvOn (fun _ => True) s

/-- The coordinate has work outstanding: it is in the pending-load queue, in a
load request not yet answered, in the pending-update queue, in a mesh job not
yet returned, or in a result waiting in the pending-main-thread-commit queue. -/
def work_outstanding (s : Terrain) (p : Vector3i) : Prop :=
  p ∈ s.blocks_pending_load ∨ p ∈ s.provider_requests ∨ p ∈ s.blocks_pending_update ∨
  p ∈ s.updater_jobs ∨ p ∈ s.blocks_pending_main_thread_update.map (fun ob => ob.position)

/-- Invariant of the load side while the viewer stays at the origin and the
view distance stays `d` blocks: every coordinate held by the Loader Worker has
a dirty-state entry, no resident block, lies in the required box and is held
once; the pending-load queue has no duplicates, no resident coordinate and
nothing the Loader Worker already holds. -/
structure LoadInv (d : Int) (s : Terrain) : Prop where
  view : s.view_distance_blocks = d
  last_view : s.last_view_distance_blocks = 0 ∨ s.last_view_distance_blocks = d
  last_pos : s.last_viewer_block_pos = Vector3i.zero
  req_entry : ∀ p ∈ s.provider_requests, (s.dirty_blocks p).isSome
  req_absent : ∀ p ∈ s.provider_requests, s.blocks p = none
  req_box : ∀ p ∈ s.provider_requests,
    (Rect3i.from_center_extents Vector3i.zero (Vector3i.splat d)).contains p = true
  req_nodup : s.provider_requests.Nodup
  load_nodup : s.blocks_pending_load.Nodup
  load_absent : ∀ p ∈ s.blocks_pending_load, s.blocks p = none
  load_disjoint : ∀ p ∈ s.blocks_pending_load, p ∉ s.provider_requests

/-- Every entry of a dirty-state map is one of the three states the manager
stores: `LOAD`, `UPDATE_NOT_SENT` or `UPDATE_SENT` (`BLOCK_NONE` and
`BLOCK_IDLE` are only ever reported, never stored). -/
def StoredStates (m : Vector3i → Option BlockDirtyState) : Prop :=
  ∀ p st, m p = some st →
    st = BLOCK_LOAD ∨ st = BLOCK_UPDATE_NOT_SENT ∨ st = BLOCK_UPDATE_SENT

/-! ## Sample runs and further predicates -/

/-- A sample load result for block `sample_pos` (block size 16) whose buffer
has the wrong dimensions, 8×8×8. -/
def sample_wrong_size : EmergeOutput := ⟨⟨16, 0, 0⟩, ⟨Vector3i.splat 8, false, 1⟩⟩

/-- A sample state: the fresh manager of block size 16 after
`make_block_dirty(sample_pos)`, so that `sample_pos` is in state `LOAD`. -/
def sample_loading : Terrain := make_block_dirty (fresh 16) sample_pos

/-- No block coordinate occurs more than once in the pending-load queue, and
none occurs more than once in the pending-update queue. -/
structure QueuesNodup (s : Terrain) : Prop where
  load : s.blocks_pending_load.Nodup
  update : s.blocks_pending_update.Nodup

/-- The state after an operation that does not crash (the state itself when it
crashes). -/
def run_op (s : Terrain) (op : Op) : Terrain := (op.run s).getD s

/-- A tick with the viewer in block `(1, 0, 0)` (block size 16) in which
neither worker returns anything. -/
def away_tick : TickInput := ⟨some ⟨16, 0, 0⟩, [], [], fun _ => 0⟩

/-- A tick with the viewer in block `(1, 0, 0)` in which the Loader Worker
returns two buffers of the right size for block `sample_pos`. -/
def away_reload_tick : TickInput :=
  ⟨some ⟨16, 0, 0⟩, [⟨⟨16, 0, 0⟩, sample_buffer⟩, ⟨⟨16, 0, 0⟩, sample_buffer⟩], [],
    fun _ => 0⟩

/-- A sample reachable state: view distance 0, the viewer in block
`sample_pos`, and the load of `sample_pos` requested. -/
def sample_requested : Terrain := run_op sample_idle (Op.tick away_tick)

/-- A sample reachable state: after `sample_requested` the viewer went to the
origin and came back, so that the load of `sample_pos` is requested twice. -/
def sample_requested_twice : Terrain :=
  run_op (run_op sample_requested (Op.tick quiet_tick)) (Op.tick away_tick)

/-- Whether a loop of `_process` ran to its end (no `ERR_FAIL_COND` returned). -/
def Flow.is_next : Flow → Bool
  | Flow.next _ => true
  | Flow.ret _ => false

/-- The state in which the mesh dispatch of the tick `away_reload_tick` starts
from `sample_requested_twice`: both results for `sample_pos` were accepted. -/
def sample_reloaded : Terrain :=
  (process_load_responses
    (send_load_requests (detect_required_blocks sample_requested_twice away_reload_tick.viewer))
    away_reload_tick.emerged_blocks).state

/-- Whether the mesh-dispatch loop puts the coordinate in the batch: its block
is resident and not uniformly air. -/
def is_dispatched (s : Terrain) (q : Vector3i) : Bool :=
  match s.blocks q with
  | some block => !is_air block
  | none => false

/-- The 26 block coordinates around the origin. -/
def ring_positions : List Vector3i :=
  (box_positions ⟨-1, -1, -1⟩ ⟨2, 2, 2⟩).filter (fun q => decide (q ≠ Vector3i.zero))

/-- A sample reachable state: view distance 1 block (16 voxels), and the first
tick has requested the 26 blocks around the origin. -/
def sample_ring_requested : Terrain :=
  run_op (run_op (fresh 16) (Op.view_distance 16)) (Op.tick quiet_tick)

/-- Whether `_process` ran to its end. -/
def Outcome.is_done : Outcome → Bool
  | Outcome.done _ => true
  | _ => false

/-- A sample coordinate on the other side of the origin. -/
def west_pos : Vector3i := ⟨-1, 0, 0⟩

/-- A tick without a viewer in which the Loader Worker returns a buffer of the
right size for block `west_pos` (block size 16). -/
def west_load_tick : TickInput := ⟨none, [⟨⟨-16, 0, 0⟩, sample_buffer⟩], [], fun _ => 0⟩

/-- A sample reachable state: after `sample_ring_requested` (view distance 1
block) the block `west_pos` has been loaded. -/
def sample_one_loaded : Terrain := run_op sample_ring_requested (Op.tick west_load_tick)

/-- A sample reachable state: after `sample_one_loaded`,
`make_all_view_dirty_deferred` (as `set_provider` calls it) and
`set_view_distance(0)` have been called. -/
def sample_shrunk : Terrain :=
  run_op (run_op sample_one_loaded Op.all_view_dirty_deferred) (Op.view_distance 0)

/-- The state after the next tick from `sample_shrunk`, without a viewer. -/
def sample_after_shrink : Terrain := run_op sample_shrunk (Op.tick quiet_tick)

/-- A sample reachable state: the fresh manager of block size 16 after
`set_view_distance(32)`, that is a view distance of 2 blocks. -/
def sample_view2 : Terrain := run_op (fresh 16) (Op.view_distance 32)

/-- The state after the required-area diff and the pruning of the first tick
from `sample_view2`, the viewer at the origin. -/
def sample_view2_detected : Terrain := detect_required_blocks sample_view2 none

/-- The offsets `ndir` of the neighbour loop of the load drain: each component
is -1, 0 or 1. -/
def is_neighbor_dir (d : Vector3i) : Prop :=
  (-1 ≤ d.x ∧ d.x ≤ 1) ∧ (-1 ≤ d.y ∧ d.y ≤ 1) ∧ (-1 ≤ d.z ∧ d.z ≤ 1)

/-- All 26 face, edge and corner neighbours of `q` are resident. -/
def Surrounded (s : Terrain) (q : Vector3i) : Prop :=
  ∀ d : Vector3i, is_neighbor_dir d → d ≠ Vector3i.zero → (s.blocks (q + d)).isSome = true

/-- A sample state: block size 16, the blocks around the origin resident except
`sample_pos`, which is in state `LOAD`. -/
def sample_ring_gap : Terrain :=
  { fresh 16 with
    blocks := fun q =>
      if q ∈ ring_positions ∧ q ≠ sample_pos then some ⟨sample_buffer, none⟩ else none
    dirty_blocks := Function.update (fun _ => none) sample_pos (some BLOCK_LOAD) }

/-- A tick with the viewer in block `(3, 0, 0)` (block size 16) in which
neither worker returns anything. -/
def far_tick : TickInput := ⟨some ⟨48, 0, 0⟩, [], [], fun _ => 0⟩

/-- A tick without a viewer in which the Loader Worker returns two buffers of
the right size for block `west_pos` (block size 16). -/
def west_reload_tick : TickInput :=
  ⟨none, [⟨⟨-16, 0, 0⟩, sample_buffer⟩, ⟨⟨-16, 0, 0⟩, sample_buffer⟩], [], fun _ => 0⟩

/-- A sample reachable state: after `sample_ring_requested` (view distance 1
block) the viewer went to block `(3, 0, 0)` and came back, so that the blocks
around the origin are requested twice and the origin once; both loads of
`west_pos` have come back, the second as a re-supply, and `west_pos` has been
dispatched: it is resident, in state `UPDATE_SENT`, and its mesh job is out. -/
def sample_west_sent : Terrain :=
  run_op (run_op sample_ring_requested (Op.tick far_tick)) (Op.tick west_reload_tick)

/-- The state after `make_block_dirty(west_pos)` in `sample_west_sent`. -/
def sample_west_redirtied : Terrain := run_op sample_west_sent (Op.block_dirty west_pos)

/-- A tick without a viewer in which the Loader Worker returns, for the block
at the origin, a buffer with the wrong dimensions, 8×8×8. -/
def origin_wrong_size_tick : TickInput :=
  ⟨none, [⟨⟨0, 0, 0⟩, ⟨Vector3i.splat 8, false, 1⟩⟩], [], fun _ => 0⟩

/-- The state in which the load drain of the tick `origin_wrong_size_tick`
from `sample_west_redirtied` ends. -/
def sample_west_halted : Terrain :=
  (process_load_responses
    (send_load_requests
      (detect_required_blocks sample_west_redirtied origin_wrong_size_tick.viewer))
    origin_wrong_size_tick.emerged_blocks).state

/-- Two states agree on what the load-result loop reads and writes besides the
statistics: the block size, the Spatial Index, the dirty-state map and the
pending-update queue. -/
structure DrainEq (s t : Terrain) : Prop where
  block_size : s.block_size = t.block_size
  blocks : s.blocks = t.blocks
  dirty : s.dirty_blocks = t.dirty_blocks
  update : s.blocks_pending_update = t.blocks_pending_update

/-- A sample coordinate inside the required box of the fresh manager, away
from the origin. -/
def hole_pos : Vector3i := ⟨3, 0, 0⟩

/-- The 26 block coordinates around `hole_pos`. -/
def hole_ring : List Vector3i := ring_positions.map (fun d => hole_pos + d)

/-- A tick without a viewer in which the Loader Worker returns buffers of the
right size for the 26 blocks around `hole_pos` (block size 16). -/
def hole_tick : TickInput :=
  ⟨none,
    hole_ring.map (fun q =>
      (⟨⟨16 * q.x, 16 * q.y, 16 * q.z⟩, sample_buffer⟩ : EmergeOutput)),
    [], fun _ => 0⟩

/-- The part of the state after the first tick of the fresh manager (block
size 16, no viewer) that the load-result loop works on, in closed form: no
resident block, every coordinate of the required box outside the previous box
in state `LOAD`, nothing queued. -/
def sample_wide_model : Terrain :=
  { fresh 16 with
    dirty_blocks := fun q =>
      if (required_box (fresh 16) none).contains q = true ∧
          (previous_box (fresh 16)).contains q = false
      then some BLOCK_LOAD else none }

/-- A tick without a viewer in which the Loader Worker returns, first, a
buffer with the wrong dimensions (8×8×8) for the block at the origin and,
second, a buffer of the right size for block `(3, 0, 0)` (block size 16). -/
def halted_drop_tick : TickInput :=
  ⟨none, [⟨⟨0, 0, 0⟩, ⟨Vector3i.splat 8, false, 1⟩⟩, ⟨⟨48, 0, 0⟩, sample_buffer⟩], [],
    fun _ => 0⟩

/-- The state in which the load drain of the tick `halted_drop_tick` from
`sample_west_sent` starts: the results have been popped from the Loader Worker
and the dropped counter has been reset. -/
def sample_drop_start : Terrain :=
  pop_load_responses
    (send_load_requests (detect_required_blocks sample_west_sent halted_drop_tick.viewer))
    halted_drop_tick.emerged_blocks

/-- The state in which the load drain of the tick `halted_drop_tick` from
`sample_west_sent` ends. -/
def sample_drop_halted : Terrain :=
  (process_load_responses
    (send_load_requests (detect_required_blocks sample_west_sent halted_drop_tick.viewer))
    halted_drop_tick.emerged_blocks).state

/-! ## Dirty marking: theorems -/

theorem make_block_dirty_of_none_absent (s : Terrain) (p : Vector3i)
    (h : s.dirty_blocks p = none) (hb : has_block s p = false) :
    make_block_dirty s p =
      { s with
        blocks_pending_load := s.blocks_pending_load ++ [p]
        dirty_blocks := Function.update s.dirty_blocks p (some BLOCK_LOAD) } := by
  simp [make_block_dirty, h, hb]

theorem make_block_dirty_of_none_resident (s : Terrain) (p : Vector3i)
    (h : s.dirty_blocks p = none) (hb : has_block s p = true) :
    make_block_dirty s p =
      { s with
        blocks_pending_update := s.blocks_pending_update ++ [p]
        dirty_blocks := Function.update s.dirty_blocks p (some BLOCK_UPDATE_NOT_SENT) } := by
  simp [make_block_dirty, h, hb]

theorem make_block_dirty_of_sent (s : Terrain) (p : Vector3i)
    (h : s.dirty_blocks p = some BLOCK_UPDATE_SENT) :
    make_block_dirty s p =
      { s with
        dirty_blocks := Function.update s.dirty_blocks p (some BLOCK_UPDATE_NOT_SENT)
        blocks_pending_update := s.blocks_pending_update ++ [p] } := by
  simp [make_block_dirty, h]

theorem make_block_dirty_of_other (s : Terrain) (p : Vector3i) (st : BlockDirtyState)
    (h : s.dirty_blocks p = some st) (hst : st ≠ BLOCK_UPDATE_SENT) :
    make_block_dirty s p = s := by
  cases st <;> simp_all [make_block_dirty]

/-- C1: for a coordinate `p` without a dirty-state entry, `make_block_dirty(p)`
sets `p` to `LOAD` and appends `p` once to the pending-load queue when no block
is resident at `p`, and sets `p` to `UPDATE_NOT_SENT` and appends `p` once to
the pending-update queue when the block is resident; the other queue, the
dirty state of every other coordinate and the Spatial Index are unchanged. -/
theorem make_block_dirty_absent_entry (s : Terrain) (p : Vector3i)
    (h : s.dirty_blocks p = none) :
    (has_block s p = false →
      (make_block_dirty s p).dirty_blocks p = some BLOCK_LOAD ∧
      (make_block_dirty s p).blocks_pending_load = s.blocks_pending_load ++ [p] ∧
      (make_block_dirty s p).blocks_pending_update = s.blocks_pending_update) ∧
    (has_block s p = true →
      (make_block_dirty s p).dirty_blocks p = some BLOCK_UPDATE_NOT_SENT ∧
      (make_block_dirty s p).blocks_pending_update = s.blocks_pending_update ++ [p] ∧
      (make_block_dirty s p).blocks_pending_load = s.blocks_pending_load) ∧
    (∀ q, q ≠ p → (make_block_dirty s p).dirty_blocks q = s.dirty_blocks q) ∧
    (make_block_dirty s p).blocks = s.blocks := by
  cases hb : has_block s p
  · rw [make_block_dirty_of_none_absent s p h hb]
    refine ⟨fun _ => ⟨by simp, rfl, rfl⟩, fun h1 => by simp at h1, ?_, rfl⟩
    intro q hq
    simp [Function.update_noteq hq]
  · rw [make_block_dirty_of_none_resident s p h hb]
    refine ⟨fun h1 => by simp at h1, fun _ => ⟨by simp, rfl, rfl⟩, ?_, rfl⟩
    intro q hq
    simp [Function.update_noteq hq]

/-- Witness for C1 at the fresh manager (block absent) and at a state with a
resident block. -/
theorem make_block_dirty_absent_entry_witness :
    ((make_block_dirty (fresh 16) sample_pos).dirty_blocks sample_pos = some BLOCK_LOAD ∧
      (make_block_dirty (fresh 16) sample_pos).blocks_pending_load = [sample_pos] ∧
      (make_block_dirty (fresh 16) sample_pos).blocks_pending_update = []) ∧
    ((make_block_dirty sample_resident sample_pos).dirty_blocks sample_pos
        = some BLOCK_UPDATE_NOT_SENT ∧
      (make_block_dirty sample_resident sample_pos).blocks_pending_update = [sample_pos] ∧
      (make_block_dirty sample_resident sample_pos).blocks_pending_load = []) :=
  ⟨(make_block_dirty_absent_entry (fresh 16) sample_pos rfl).1 rfl,
   (make_block_dirty_absent_entry sample_resident sample_pos rfl).2.1 rfl⟩

theorem make_block_dirty_times_succ_of_sent (s : Terrain) (p : Vector3i) (n : Nat)
    (h : s.dirty_blocks p = some BLOCK_UPDATE_SENT) :
    make_block_dirty_times s p (n + 1) = make_block_dirty s p := by
  induction n with
  | zero => rfl
  | succ n ih =>
    show make_block_dirty (make_block_dirty_times s p (n + 1)) p = _
    rw [ih, make_block_dirty_of_sent s p h]
    exact make_block_dirty_of_other _ p BLOCK_UPDATE_NOT_SENT (by simp) (by decide)

/-- C2: when `p` is in state `UPDATE_SENT`, calling `make_block_dirty(p)`
`n ≥ 1` times in a row leaves `p` in `UPDATE_NOT_SENT` and the pending-update
queue equal to the old queue followed by a single `p`, whatever `n` is; the
state reached is the one reached by a single call. -/
theorem make_block_dirty_times_sent (s : Terrain) (p : Vector3i) (n : Nat)
    (h : s.dirty_blocks p = some BLOCK_UPDATE_SENT) (hn : 1 ≤ n) :
    (make_block_dirty_times s p n).dirty_blocks p = some BLOCK_UPDATE_NOT_SENT ∧
    (make_block_dirty_times s p n).blocks_pending_update = s.blocks_pending_update ++ [p] ∧
    (make_block_dirty_times s p n).blocks_pending_load = s.blocks_pending_load ∧
    make_block_dirty_times s p n = make_block_dirty s p := by
  obtain ⟨m, rfl⟩ : ∃ m, n = m + 1 := ⟨n - 1, by omega⟩
  rw [make_block_dirty_times_succ_of_sent s p m h, make_block_dirty_of_sent s p h]
  simp

/-- Witness for C2: three calls on a coordinate in state `UPDATE_SENT`. -/
theorem make_block_dirty_times_sent_witness :
    (make_block_dirty_times sample_sent sample_pos 3).dirty_blocks sample_pos
      = some BLOCK_UPDATE_NOT_SENT ∧
    (make_block_dirty_times sample_sent sample_pos 3).blocks_pending_update = [sample_pos] :=
  ⟨(make_block_dirty_times_sent sample_sent sample_pos 3 rfl (by decide)).1,
   (make_block_dirty_times_sent sample_sent sample_pos 3 rfl (by decide)).2.1⟩

/-- C3: `make_block_dirty` is idempotent: a second call on the same coordinate
returns exactly the state left by the first; and when `p` is already `LOAD` or
already `UPDATE_NOT_SENT` the call returns the state unchanged. -/
theorem make_block_dirty_idempotent (s : Terrain) (p : Vector3i) :
    make_block_dirty (make_block_dirty s p) p = make_block_dirty s p ∧
    ((s.dirty_blocks p = some BLOCK_LOAD ∨ s.dirty_blocks p = some BLOCK_UPDATE_NOT_SENT) →
      make_block_dirty s p = s) := by
  constructor
  · cases h : s.dirty_blocks p with
    | none =>
      cases hb : has_block s p
      · rw [make_block_dirty_of_none_absent s p h hb]
        exact make_block_dirty_of_other _ p BLOCK_LOAD (by simp) (by decide)
      · rw [make_block_dirty_of_none_resident s p h hb]
        exact make_block_dirty_of_other _ p BLOCK_UPDATE_NOT_SENT (by simp) (by decide)
    | some st =>
      by_cases hst : st = BLOCK_UPDATE_SENT
      · subst hst
        rw [make_block_dirty_of_sent s p h]
        exact make_block_dirty_of_other _ p BLOCK_UPDATE_NOT_SENT (by simp) (by decide)
      · rw [make_block_dirty_of_other s p st h hst, make_block_dirty_of_other s p st h hst]
  · rintro (h | h)
    · exact make_block_dirty_of_other s p _ h (by decide)
    · exact make_block_dirty_of_other s p _ h (by decide)

/-! ## Neighbour dirtying: theorems -/

theorem vector3i_add_def (a b : Vector3i) : a + b = ⟨a.x + b.x, a.y + b.y, a.z + b.z⟩ := rfl

theorem vector3i_sub_def (a b : Vector3i) : a - b = ⟨a.x - b.x, a.y - b.y, a.z - b.z⟩ := rfl

theorem vector3i_ext_iff3 (a b : Vector3i) : a = b ↔ a.x = b.x ∧ a.y = b.y ∧ a.z = b.z := by
  cases a; cases b; simp

theorem exists_offset_iff (b c : Vector3i) (P : Int → Int → Int → Prop) :
    (∃ d : Vector3i, c = b + d ∧ P d.x d.y d.z) ↔ P (c.x - b.x) (c.y - b.y) (c.z - b.z) := by
  constructor
  · rintro ⟨d, rfl, h⟩
    simpa [vector3i_add_def] using h
  · intro h
    refine ⟨⟨c.x - b.x, c.y - b.y, c.z - b.z⟩, ?_, h⟩
    rw [vector3i_ext_iff3]
    simp [vector3i_add_def]

set_option maxRecDepth 100000 in
theorem class_offsets_check :
    ((List.range 3).all fun ix => (List.range 3).all fun iy => (List.range 3).all fun iz =>
      ((class_offsets ix iy iz).all fun d => decide (d ∈ normals)) &&
      (normals.all fun d => decide (d ∈ class_offsets ix iy iz)
        == (axis_allowed ix d.1 && axis_allowed iy d.2.1 && axis_allowed iz d.2.2))) = true := by
  decide

theorem class_offsets_spec (ix iy iz : Nat) (hx : ix < 3) (hy : iy < 3) (hz : iz < 3) :
    (∀ d ∈ class_offsets ix iy iz, d ∈ normals) ∧
    (∀ d ∈ normals, (d ∈ class_offsets ix iy iz ↔
      (axis_allowed ix d.1 = true ∧ axis_allowed iy d.2.1 = true ∧ axis_allowed iz d.2.2 = true))) := by
  have h := class_offsets_check
  simp only [List.all_eq_true, List.mem_range, Bool.and_eq_true, decide_eq_true_eq, beq_iff_eq] at h
  obtain ⟨h1, h2⟩ := h ix hx iy hy iz hz
  refine ⟨h1, fun d hd => ?_⟩
  have := h2 d hd
  rw [← Bool.and_eq_true, ← Bool.and_eq_true, ← Bool.and_assoc, ← this]
  simp

theorem mem_normals_iff (d : Int × Int × Int) :
    d ∈ normals ↔ (d.1 = -1 ∨ d.1 = 0 ∨ d.1 = 1) ∧ (d.2.1 = -1 ∨ d.2.1 = 0 ∨ d.2.1 = 1) ∧
      (d.2.2 = -1 ∨ d.2.2 = 0 ∨ d.2.2 = 1) := by
  constructor
  · revert d
    decide
  · obtain ⟨dx, dy, dz⟩ := d
    rintro ⟨hx | hx | hx, hy | hy | hy, hz | hz | hz⟩ <;> simp only at hx hy hz <;>
      subst hx hy hz <;> decide

theorem get_border_index_lt (r max : Int) : get_border_index r max < 3 := by
  unfold get_border_index
  split_ifs <;> decide

theorem get_border_index_cases (B : Int) (hB : 2 ≤ B) (r : Int) :
    ((r = 0) = True ∧ (r = B - 1) = False ∧ get_border_index r (B - 1) = 0) ∨
    ((r = 0) = False ∧ (r = B - 1) = True ∧ get_border_index r (B - 1) = 2) ∨
    ((r = 0) = False ∧ (r = B - 1) = False ∧ get_border_index r (B - 1) = 1) := by
  unfold get_border_index
  by_cases h0 : r = 0 <;> by_cases h1 : r = B - 1 <;> simp [h0, h1] <;> omega

theorem axis_allowed_iff (B : Int) (hB : 2 ≤ B) (r d : Int) (hd : d = -1 ∨ d = 0 ∨ d = 1) :
    axis_allowed (get_border_index r (B - 1)) d = true ↔
      (d = -1 → r = 0) ∧ (d = 1 → r = B - 1) := by
  unfold axis_allowed get_border_index
  by_cases h0 : r = 0 <;> by_cases h1 : r = B - 1 <;> rcases hd with rfl | rfl | rfl <;>
    simp [h0, h1] <;> omega

theorem make_voxel_dirty_calls_eq (B : Int) (hB : 2 ≤ B) (v : Vector3i) :
    make_voxel_dirty_calls B v =
      (class_offsets (get_border_index (to_local B v).x (B - 1))
        (get_border_index (to_local B v).y (B - 1))
        (get_border_index (to_local B v).z (B - 1))).map
        (fun n => (⟨(voxel_to_block B v).x + n.1, (voxel_to_block B v).y + n.2.1,
          (voxel_to_block B v).z + n.2.2⟩ : Vector3i)) := by
  have key : ∀ (r : Int) (pn mn : Int × Int × Int) (f : Int × Int × Int → Vector3i),
      (if get_border_index r (B - 1) = 0 then [mn]
          else if get_border_index r (B - 1) = 2 then [pn] else []).map f =
      (if r = 0 then [f mn] else if r = B - 1 then [f pn] else []) := by
    intro r pn mn f
    rcases get_border_index_cases B hB r with ⟨e0, e1, ei⟩ | ⟨e0, e1, ei⟩ | ⟨e0, e1, ei⟩ <;>
      simp [e0, e1, ei]
  simp only [make_voxel_dirty_calls, class_offsets, List.map_append, if_true, key]
  simp [vector3i_add_def, vector3i_sub_def, sub_eq_add_neg]

theorem make_voxel_dirty_calls_mem (B : Int) (hB : 2 ≤ B) (v c : Vector3i) :
    c ∈ make_voxel_dirty_calls B v ↔
      ((c.x - (voxel_to_block B v).x = -1 ∨ c.x - (voxel_to_block B v).x = 0 ∨
          c.x - (voxel_to_block B v).x = 1) ∧
        (c.y - (voxel_to_block B v).y = -1 ∨ c.y - (voxel_to_block B v).y = 0 ∨
          c.y - (voxel_to_block B v).y = 1) ∧
        (c.z - (voxel_to_block B v).z = -1 ∨ c.z - (voxel_to_block B v).z = 0 ∨
          c.z - (voxel_to_block B v).z = 1)) ∧
      ((c.x - (voxel_to_block B v).x = -1 → (to_local B v).x = 0) ∧
        (c.x - (voxel_to_block B v).x = 1 → (to_local B v).x = B - 1)) ∧
      ((c.y - (voxel_to_block B v).y = -1 → (to_local B v).y = 0) ∧
        (c.y - (voxel_to_block B v).y = 1 → (to_local B v).y = B - 1)) ∧
      ((c.z - (voxel_to_block B v).z = -1 → (to_local B v).z = 0) ∧
        (c.z - (voxel_to_block B v).z = 1 → (to_local B v).z = B - 1)) := by
  rw [make_voxel_dirty_calls_eq B hB]
  generalize voxel_to_block B v = b
  generalize to_local B v = r
  obtain ⟨cx, cy, cz⟩ := c
  have hspec := class_offsets_spec _ _ _ (get_border_index_lt r.x (B - 1))
    (get_border_index_lt r.y (B - 1)) (get_border_index_lt r.z (B - 1))
  have hmem : (⟨cx, cy, cz⟩ : Vector3i) ∈ (class_offsets (get_border_index r.x (B - 1))
        (get_border_index r.y (B - 1)) (get_border_index r.z (B - 1))).map
        (fun n => (⟨b.x + n.1, b.y + n.2.1, b.z + n.2.2⟩ : Vector3i)) ↔
      (cx - b.x, cy - b.y, cz - b.z) ∈ class_offsets (get_border_index r.x (B - 1))
        (get_border_index r.y (B - 1)) (get_border_index r.z (B - 1)) := by
    rw [List.mem_map]
    constructor
    · rintro ⟨⟨n1, n2, n3⟩, hn, he⟩
      simp only [Vector3i.mk.injEq] at he
      obtain ⟨rfl, rfl, rfl⟩ := he
      simpa using hn
    · intro h
      exact ⟨_, h, by simp⟩
  rw [hmem]
  constructor
  · intro h
    have hn := hspec.1 _ h
    have ha := (hspec.2 _ hn).1 h
    rw [mem_normals_iff] at hn
    simp only at hn ha
    refine ⟨hn, ?_, ?_, ?_⟩
    · exact (axis_allowed_iff B hB _ _ hn.1).1 ha.1
    · exact (axis_allowed_iff B hB _ _ hn.2.1).1 ha.2.1
    · exact (axis_allowed_iff B hB _ _ hn.2.2).1 ha.2.2
  · rintro ⟨hn, h1, h2, h3⟩
    have hn2 : (cx - b.x, cy - b.y, cz - b.z) ∈ normals := (mem_normals_iff _).2 hn
    exact (hspec.2 _ hn2).2 ⟨(axis_allowed_iff B hB _ _ hn.1).2 h1,
      (axis_allowed_iff B hB _ _ hn.2.1).2 h2, (axis_allowed_iff B hB _ _ hn.2.2).2 h3⟩

theorem to_local_range (B : Int) (hB : 0 < B) (v : Vector3i) :
    (0 ≤ (to_local B v).x ∧ (to_local B v).x ≤ B - 1) ∧
    (0 ≤ (to_local B v).y ∧ (to_local B v).y ≤ B - 1) ∧
    (0 ≤ (to_local B v).z ∧ (to_local B v).z ≤ B - 1) := by
  have hne : B ≠ 0 := by omega
  have h1 := Int.emod_nonneg v.x hne
  have h2 := Int.emod_lt_of_pos v.x hB
  have h3 := Int.emod_nonneg v.y hne
  have h4 := Int.emod_lt_of_pos v.y hB
  have h5 := Int.emod_nonneg v.z hne
  have h6 := Int.emod_lt_of_pos v.z hB
  simp only [to_local]
  omega

/-- C4: for block size `B ≥ 2` and a voxel `v` with owning block
`b = voxel_to_block v` and local coordinate `r = to_local v` (each component in
`0 .. B-1`), `make_voxel_dirty(v)` calls `make_block_dirty` on exactly the
blocks `b + d` with `d ∈ {-1,0,1}³` such that on each axis `d = -1` only if
`r = 0` and `d = +1` only if `r = B-1`. Hence a voxel at local `(0, k, m)` with
`0 < k, m < B-1` dirties exactly `b` and `b - (1,0,0)`, and a voxel at local
`(0,0,0)` dirties exactly the 8 blocks `b + d`, `d ∈ {-1,0}³`. -/
theorem make_voxel_dirty_calls_exact (B : Int) (hB : 2 ≤ B) (v : Vector3i) :
    ((0 ≤ (to_local B v).x ∧ (to_local B v).x ≤ B - 1) ∧
      (0 ≤ (to_local B v).y ∧ (to_local B v).y ≤ B - 1) ∧
      (0 ≤ (to_local B v).z ∧ (to_local B v).z ≤ B - 1)) ∧
    (∀ s : Terrain, s.block_size = B →
      make_voxel_dirty s v = (make_voxel_dirty_calls B v).foldl make_block_dirty s) ∧
    (∀ c, c ∈ make_voxel_dirty_calls B v ↔
      ∃ d : Vector3i, c = voxel_to_block B v + d ∧
        ((d.x = -1 ∨ d.x = 0 ∨ d.x = 1) ∧ (d.y = -1 ∨ d.y = 0 ∨ d.y = 1) ∧
          (d.z = -1 ∨ d.z = 0 ∨ d.z = 1)) ∧
        ((d.x = -1 → (to_local B v).x = 0) ∧ (d.x = 1 → (to_local B v).x = B - 1)) ∧
        ((d.y = -1 → (to_local B v).y = 0) ∧ (d.y = 1 → (to_local B v).y = B - 1)) ∧
        ((d.z = -1 → (to_local B v).z = 0) ∧ (d.z = 1 → (to_local B v).z = B - 1))) ∧
    (∀ k m : Int, to_local B v = ⟨0, k, m⟩ → 0 < k → k < B - 1 → 0 < m → m < B - 1 →
      ∀ c, c ∈ make_voxel_dirty_calls B v ↔
        (c = voxel_to_block B v ∨ c = voxel_to_block B v - ⟨1, 0, 0⟩)) ∧
    (to_local B v = ⟨0, 0, 0⟩ →
      ∀ c, c ∈ make_voxel_dirty_calls B v ↔
        ∃ d : Vector3i, c = voxel_to_block B v + d ∧
          (d.x = -1 ∨ d.x = 0) ∧ (d.y = -1 ∨ d.y = 0) ∧ (d.z = -1 ∨ d.z = 0)) := by
  refine ⟨to_local_range B (by omega) v, ?_, ?_, ?_, ?_⟩
  · rintro s rfl
    rfl
  · intro c
    rw [make_voxel_dirty_calls_mem B hB v c]
    exact (exists_offset_iff (voxel_to_block B v) c (fun dx dy dz =>
      ((dx = -1 ∨ dx = 0 ∨ dx = 1) ∧ (dy = -1 ∨ dy = 0 ∨ dy = 1) ∧ (dz = -1 ∨ dz = 0 ∨ dz = 1)) ∧
      ((dx = -1 → (to_local B v).x = 0) ∧ (dx = 1 → (to_local B v).x = B - 1)) ∧
      ((dy = -1 → (to_local B v).y = 0) ∧ (dy = 1 → (to_local B v).y = B - 1)) ∧
      ((dz = -1 → (to_local B v).z = 0) ∧ (dz = 1 → (to_local B v).z = B - 1)))).symm
  · intro k m hr hk0 hk1 hm0 hm1 c
    rw [make_voxel_dirty_calls_mem B hB v c, hr, vector3i_ext_iff3, vector3i_ext_iff3]
    simp only [vector3i_sub_def]
    constructor
    · rintro ⟨⟨hx, hy, hz⟩, ⟨_, hx1⟩, ⟨hy0, hy1⟩, ⟨hz0, hz1⟩⟩
      have ey : c.y - (voxel_to_block B v).y = 0 := by
        rcases hy with h | h | h
        · have := hy0 h; omega
        · exact h
        · have := hy1 h; omega
      have ez : c.z - (voxel_to_block B v).z = 0 := by
        rcases hz with h | h | h
        · have := hz0 h; omega
        · exact h
        · have := hz1 h; omega
      rcases hx with h | h | h
      · right; omega
      · left; omega
      · have := hx1 h; omega
    · rintro (⟨hx, hy, hz⟩ | ⟨hx, hy, hz⟩)
      · refine ⟨⟨by omega, by omega, by omega⟩, ⟨fun _ => trivial, fun h => by omega⟩,
          ⟨fun h => by omega, fun h => by omega⟩, ⟨fun h => by omega, fun h => by omega⟩⟩
      · refine ⟨⟨by omega, by omega, by omega⟩, ⟨fun _ => trivial, fun h => by omega⟩,
          ⟨fun h => by omega, fun h => by omega⟩, ⟨fun h => by omega, fun h => by omega⟩⟩
  · intro hr c
    rw [make_voxel_dirty_calls_mem B hB v c, hr]
    simp only []
    rw [exists_offset_iff (voxel_to_block B v) c (fun dx dy dz =>
      (dx = -1 ∨ dx = 0) ∧ (dy = -1 ∨ dy = 0) ∧ (dz = -1 ∨ dz = 0))]
    constructor
    · rintro ⟨⟨hx, hy, hz⟩, ⟨_, hx1⟩, ⟨_, hy1⟩, ⟨_, hz1⟩⟩
      refine ⟨?_, ?_, ?_⟩
      · rcases hx with h | h | h
        · exact Or.inl h
        · exact Or.inr h
        · have := hx1 h; omega
      · rcases hy with h | h | h
        · exact Or.inl h
        · exact Or.inr h
        · have := hy1 h; omega
      · rcases hz with h | h | h
        · exact Or.inl h
        · exact Or.inr h
        · have := hz1 h; omega
    · rintro ⟨hx, hy, hz⟩
      refine ⟨⟨by omega, by omega, by omega⟩, ⟨fun _ => trivial, fun h => by omega⟩,
        ⟨fun _ => trivial, fun h => by omega⟩, ⟨fun _ => trivial, fun h => by omega⟩⟩

/-- Witness for C4 at block size 16: the voxel `(16, 5, 7)` (local `(0, 5, 7)`
in block `(1, 0, 0)`) dirties exactly the blocks `(1, 0, 0)` and `(0, 0, 0)`. -/
theorem make_voxel_dirty_calls_exact_witness :
    (2 : Int) ≤ 16 ∧ to_local 16 ⟨16, 5, 7⟩ = ⟨0, 5, 7⟩ ∧
    ∀ c, c ∈ make_voxel_dirty_calls 16 ⟨16, 5, 7⟩ ↔
      (c = voxel_to_block 16 ⟨16, 5, 7⟩ ∨ c = voxel_to_block 16 ⟨16, 5, 7⟩ - ⟨1, 0, 0⟩) :=
  ⟨by decide, by decide,
   (make_voxel_dirty_calls_exact 16 (by decide) ⟨16, 5, 7⟩).2.2.2.1 5 7 (by decide)
     (by decide) (by decide) (by decide) (by decide)⟩

/-! ## Loops over boxes -/

theorem mem_int_range (lo hi x : Int) : x ∈ int_range lo hi ↔ lo ≤ x ∧ x < hi := by
  unfold int_range
  rw [List.mem_map]
  constructor
  · rintro ⟨k, hk, rfl⟩
    rw [List.mem_range] at hk
    omega
  · rintro ⟨h1, h2⟩
    refine ⟨(x - lo).toNat, ?_, ?_⟩
    · rw [List.mem_range]; omega
    · omega

theorem mem_box_positions (pos max c : Vector3i) :
    c ∈ box_positions pos max ↔
      (pos.x ≤ c.x ∧ c.x < max.x) ∧ (pos.y ≤ c.y ∧ c.y < max.y) ∧ (pos.z ≤ c.z ∧ c.z < max.z) := by
  obtain ⟨cx, cy, cz⟩ := c
  simp only [box_positions, List.mem_flatMap, List.mem_map, mem_int_range, Vector3i.mk.injEq]
  constructor
  · rintro ⟨z, hz, y, hy, x, hx, rfl, rfl, rfl⟩
    exact ⟨hx, hy, hz⟩
  · rintro ⟨hx, hy, hz⟩
    exact ⟨cz, hz, cy, hy, cx, hx, rfl, rfl, rfl⟩

theorem mem_make_area_dirty_calls (B : Int) (box : Rect3i) (c : Vector3i) :
    c ∈ make_area_dirty_calls B box ↔
      ((voxel_to_block B (box.pos - Vector3i.splat 1)).x ≤ c.x ∧
        c.x ≤ (voxel_to_block B (box.pos + box.size)).x) ∧
      ((voxel_to_block B (box.pos - Vector3i.splat 1)).y ≤ c.y ∧
        c.y ≤ (voxel_to_block B (box.pos + box.size)).y) ∧
      ((voxel_to_block B (box.pos - Vector3i.splat 1)).z ≤ c.z ∧
        c.z ≤ (voxel_to_block B (box.pos + box.size)).z) := by
  have hmax : box.pos + box.size - Vector3i.splat 1 + Vector3i.splat 1 = box.pos + box.size := by
    rw [vector3i_ext_iff3]
    simp only [vector3i_add_def, vector3i_sub_def, Vector3i.splat]
    omega
  obtain ⟨cx, cy, cz⟩ := c
  simp only [make_area_dirty_calls, if_true, hmax, List.mem_flatMap, List.mem_map,
    mem_int_range, Vector3i.mk.injEq]
  constructor
  · rintro ⟨z, hz, x, hx, y, hy, rfl, rfl, rfl⟩
    omega
  · rintro ⟨hx, hy, hz⟩
    exact ⟨cz, by omega, cx, by omega, cy, by omega, rfl, rfl, rfl⟩

/-! ## Effect of a sequence of `make_block_dirty` calls -/

theorem dirtyFrame_refl (l : List Vector3i) (s : Terrain) : DirtyFrame l s s :=
  ⟨fun _ _ => rfl, fun _ h => h, ⟨[], by simp⟩, ⟨[], by simp⟩, rfl, rfl⟩

theorem dirtyFrame_mono {l l' : List Vector3i} {s t : Terrain} (h : DirtyFrame l s t)
    (hl : ∀ q ∈ l, q ∈ l') : DirtyFrame l' s t := by
  obtain ⟨h1, h2, ⟨l1, e1, m1⟩, ⟨l2, e2, m2⟩, h5, h6⟩ := h
  exact ⟨fun q hq => h1 q (fun hq' => hq (hl q hq')), h2, ⟨l1, e1, fun q hq => hl q (m1 q hq)⟩,
    ⟨l2, e2, fun q hq => hl q (m2 q hq)⟩, h5, h6⟩

theorem dirtyFrame_trans {l : List Vector3i} {s t u : Terrain} (h : DirtyFrame l s t)
    (h' : DirtyFrame l t u) : DirtyFrame l s u := by
  obtain ⟨h1, h2, ⟨l1, e1, m1⟩, ⟨l2, e2, m2⟩, h5, h6⟩ := h
  obtain ⟨k1, k2, ⟨l3, e3, m3⟩, ⟨l4, e4, m4⟩, k5, k6⟩ := h'
  refine ⟨fun q hq => (k1 q hq).trans (h1 q hq), fun q hq => k2 q (h2 q hq),
    ⟨l1 ++ l3, by rw [e3, e1, List.append_assoc], ?_⟩,
    ⟨l2 ++ l4, by rw [e4, e2, List.append_assoc], ?_⟩, k5.trans h5, k6.trans h6⟩
  · intro q hq
    rcases List.mem_append.1 hq with h | h
    · exact m1 q h
    · exact m3 q h
  · intro q hq
    rcases List.mem_append.1 hq with h | h
    · exact m2 q h
    · exact m4 q h

theorem make_block_dirty_frame (s : Terrain) (p : Vector3i) :
    DirtyFrame [p] s (make_block_dirty s p) ∧ ((make_block_dirty s p).dirty_blocks p).isSome := by
  have hoff : ∀ (v : Option BlockDirtyState) (q : Vector3i), q ∉ [p] →
      Function.update s.dirty_blocks p v q = s.dirty_blocks q := by
    intro v q hq
    exact Function.update_noteq (by simpa using hq) _ _
  have hsome : ∀ (v : BlockDirtyState) (q : Vector3i), (s.dirty_blocks q).isSome →
      (Function.update s.dirty_blocks p (some v) q).isSome := by
    intro v q hq
    by_cases hqp : q = p
    · subst hqp; simp
    · rwa [Function.update_noteq hqp]
  cases h : s.dirty_blocks p with
  | none =>
    cases hb : has_block s p
    · rw [make_block_dirty_of_none_absent s p h hb]
      exact ⟨⟨hoff _, hsome _, ⟨[p], rfl, fun q hq => hq⟩, ⟨[], by simp⟩, rfl, rfl⟩, by simp⟩
    · rw [make_block_dirty_of_none_resident s p h hb]
      exact ⟨⟨hoff _, hsome _, ⟨[], by simp⟩, ⟨[p], rfl, fun q hq => hq⟩, rfl, rfl⟩, by simp⟩
  | some st =>
    by_cases hst : st = BLOCK_UPDATE_SENT
    · subst hst
      rw [make_block_dirty_of_sent s p h]
      exact ⟨⟨hoff _, hsome _, ⟨[], by simp⟩, ⟨[p], rfl, fun q hq => hq⟩, rfl, rfl⟩, by simp⟩
    · rw [make_block_dirty_of_other s p st h hst]
      exact ⟨dirtyFrame_refl _ _, by simp [h]⟩

theorem foldl_make_block_dirty_frame (l : List Vector3i) (s : Terrain) :
    DirtyFrame l s (l.foldl make_block_dirty s) ∧
    ∀ q ∈ l, ((l.foldl make_block_dirty s).dirty_blocks q).isSome := by
  induction l generalizing s with
  | nil => exact ⟨dirtyFrame_refl _ _, by simp⟩
  | cons p l ih =>
    obtain ⟨hf, hp⟩ := make_block_dirty_frame s p
    obtain ⟨hf', hl⟩ := ih (make_block_dirty s p)
    rw [List.foldl_cons]
    refine ⟨dirtyFrame_trans (dirtyFrame_mono hf (by simp))
      (dirtyFrame_mono hf' (fun q hq => List.mem_cons_of_mem _ hq)), ?_⟩
    intro q hq
    rcases List.mem_cons.1 hq with rfl | hq
    · exact hf'.dirty_some _ hp
    · exact hl q hq

/-- C5: `make_area_dirty(box)` calls `make_block_dirty` on exactly the block
coordinates `c` with `voxel_to_block(pos - (1,1,1)) ≤ c ≤ voxel_to_block(pos + size)`
componentwise; afterwards every coordinate in that range has a dirty-state
entry, no coordinate outside the range has its dirty state changed, and both
queues are the old queues followed by coordinates of the range only. This
holds for every box and every block size. -/
theorem make_area_dirty_exact (s : Terrain) (box : Rect3i) :
    (make_area_dirty s box
      = (make_area_dirty_calls s.block_size box).foldl make_block_dirty s) ∧
    (∀ c, c ∈ make_area_dirty_calls s.block_size box ↔
      ((voxel_to_block s.block_size (box.pos - Vector3i.splat 1)).x ≤ c.x ∧
        c.x ≤ (voxel_to_block s.block_size (box.pos + box.size)).x) ∧
      ((voxel_to_block s.block_size (box.pos - Vector3i.splat 1)).y ≤ c.y ∧
        c.y ≤ (voxel_to_block s.block_size (box.pos + box.size)).y) ∧
      ((voxel_to_block s.block_size (box.pos - Vector3i.splat 1)).z ≤ c.z ∧
        c.z ≤ (voxel_to_block s.block_size (box.pos + box.size)).z)) ∧
    (∀ c, c ∈ make_area_dirty_calls s.block_size box →
      ((make_area_dirty s box).dirty_blocks c).isSome) ∧
    (∀ c, c ∉ make_area_dirty_calls s.block_size box →
      (make_area_dirty s box).dirty_blocks c = s.dirty_blocks c) ∧
    (∃ l1, (make_area_dirty s box).blocks_pending_load = s.blocks_pending_load ++ l1 ∧
      ∀ c ∈ l1, c ∈ make_area_dirty_calls s.block_size box) ∧
    (∃ l2, (make_area_dirty s box).blocks_pending_update = s.blocks_pending_update ++ l2 ∧
      ∀ c ∈ l2, c ∈ make_area_dirty_calls s.block_size box) := by
  obtain ⟨hf, hl⟩ := foldl_make_block_dirty_frame (make_area_dirty_calls s.block_size box) s
  exact ⟨rfl, mem_make_area_dirty_calls s.block_size box, hl, hf.dirty_off, hf.load, hf.update⟩

/-! ## `remove_positions_outside_box` -/

theorem perm_getD_last_cons_take (d : Vector3i) (t : List Vector3i) (ht : t ≠ []) :
    t.Perm (t.getD (t.length - 1) d :: t.take (t.length - 1)) := by
  induction t with
  | nil => exact absurd rfl ht
  | cons a t ih =>
    cases t with
    | nil => simp
    | cons b t =>
      have ih' := ih (by simp)
      simp only [List.length_cons, Nat.add_sub_cancel, List.getD_cons_succ, List.take_succ_cons]
        at ih' ⊢
      exact (List.Perm.cons a ih').trans (List.Perm.swap _ _ _)

theorem swap_remove_perm (d : Vector3i) (l : List Vector3i) (i : Nat) (h : i < l.length) :
    l.Perm (l.getD i d :: (l.set i (l.getD (l.length - 1) d)).take (l.length - 1)) := by
  induction l generalizing i with
  | nil => simp at h
  | cons a t ih =>
    cases t with
    | nil =>
      have hi : i = 0 := by simpa using h
      subst hi
      simp
    | cons b t =>
      cases i with
      | zero =>
        have hp := perm_getD_last_cons_take d (b :: t) (by simp)
        simp only [List.length_cons, Nat.add_sub_cancel, List.getD_cons_succ, List.getD_cons_zero,
          List.set_cons_zero, List.take_succ_cons] at hp ⊢
        exact List.Perm.cons a hp
      | succ j =>
        have hj : j < (b :: t).length := by simpa using h
        have ih' := ih j hj
        simp only [List.length_cons, Nat.add_sub_cancel, List.getD_cons_succ,
          List.set_cons_succ, List.take_succ_cons] at ih' ⊢
        exact (List.Perm.cons a ih').trans (List.Perm.swap _ _ _)

theorem getD_set_take_of_lt (d x : Vector3i) (l : List Vector3i) (i j : Nat) (hj : j < i)
    (hi : i < l.length) :
    ((l.set i x).take (l.length - 1)).getD j d = l.getD j d := by
  have h1 : j < l.length - 1 := by omega
  have h2 : j < ((l.set i x).take (l.length - 1)).length := by
    simp [List.length_take]; omega
  rw [List.getD_eq_getElem _ _ h2, List.getD_eq_getElem _ _ (by omega)]
  simp only [List.getElem_take]
  rw [List.getElem_set_ne (by omega)]

theorem remove_positions_loop_spec (box : Rect3i) (fuel : Nat) :
    ∀ (i : Nat) (positions : List Vector3i) (m : Vector3i → Option BlockDirtyState),
      positions.length - i ≤ fuel →
      (∀ j, j < i → j < positions.length → box.contains (positions.getD j Vector3i.zero) = true) →
      (remove_positions_loop box fuel i positions m).1.Perm
          (positions.filter (fun q => box.contains q)) ∧
      (∀ q, (remove_positions_loop box fuel i positions m).2 q =
        if q ∈ positions ∧ box.contains q = false then none else m q) := by
  have base : ∀ (i : Nat) (positions : List Vector3i) (m : Vector3i → Option BlockDirtyState),
      positions.length ≤ i →
      (∀ j, j < i → j < positions.length → box.contains (positions.getD j Vector3i.zero) = true) →
      positions.Perm (positions.filter (fun q => box.contains q)) ∧
      (∀ q, m q = if q ∈ positions ∧ box.contains q = false then none else m q) := by
    intro i positions m hlen hpre
    have hall : ∀ q ∈ positions, box.contains q = true := by
      intro q hq
      obtain ⟨j, hj, rfl⟩ := List.getElem_of_mem hq
      have := hpre j (by omega) hj
      rwa [List.getD_eq_getElem _ _ hj] at this
    constructor
    · rw [List.filter_eq_self.2 hall]
    · intro q
      rw [if_neg]
      rintro ⟨hq, hc⟩
      rw [hall q hq] at hc
      exact absurd hc (by decide)
  induction fuel with
  | zero =>
    intro i positions m hfuel hpre
    simp only [remove_positions_loop]
    exact base i positions m (by omega) hpre
  | succ fuel ih =>
    intro i positions m hfuel hpre
    simp only [remove_positions_loop]
    by_cases hi : i < positions.length
    · rw [if_pos hi]
      by_cases hc : box.contains (positions.getD i Vector3i.zero) = true
      · simp only [hc, Bool.not_true, Bool.false_eq_true, if_false]
        apply ih (i + 1) positions m (by omega)
        intro j hj hjl
        by_cases hji : j = i
        · subst hji; exact hc
        · exact hpre j (by omega) hjl
      · have hc' : box.contains (positions.getD i Vector3i.zero) = false := by
          simpa using hc
        simp only [hc', Bool.not_false, if_true]
        have hperm := swap_remove_perm Vector3i.zero positions i hi
        have hlen : ((positions.set i (positions.getD (positions.length - 1) Vector3i.zero)).take
            (positions.length - 1)).length = positions.length - 1 := by
          simp [List.length_take]
        obtain ⟨h1, h2⟩ := ih i _ (Function.update m (positions.getD i Vector3i.zero) none)
          (by rw [hlen]; omega)
          (by
            intro j hj _
            rw [getD_set_take_of_lt _ _ _ i j hj hi]
            exact hpre j hj (by omega))
        constructor
        · refine h1.trans ?_
          have := (hperm.filter (fun q => box.contains q)).symm
          rwa [List.filter_cons_of_neg hc] at this
        · intro q
          rw [h2 q]
          have hmem : q ∈ positions ↔ q = positions.getD i Vector3i.zero ∨
              q ∈ (positions.set i (positions.getD (positions.length - 1) Vector3i.zero)).take
                (positions.length - 1) := by
            rw [hperm.mem_iff, List.mem_cons]
          by_cases hq : q = positions.getD i Vector3i.zero
          · subst hq
            have : positions.getD i Vector3i.zero ∈ positions := by
              rw [hmem]; exact Or.inl rfl
            have hR : (if positions.getD i Vector3i.zero ∈ positions ∧
                box.contains (positions.getD i Vector3i.zero) = false then none
                else m (positions.getD i Vector3i.zero)) = none := if_pos ⟨this, hc'⟩
            rw [hR]
            split_ifs
            · rfl
            · exact Function.update_same _ _ _
          · rw [Function.update_noteq hq]
            simp only [hmem, hq, false_or]
    · rw [if_neg hi]
      exact base i positions m (by omega) hpre

theorem remove_positions_outside_box_spec (positions : List Vector3i) (box : Rect3i)
    (m : Vector3i → Option BlockDirtyState) :
    (remove_positions_outside_box positions box m).1.Perm
        (positions.filter (fun q => box.contains q)) ∧
    (∀ q, (remove_positions_outside_box positions box m).2 q =
      if q ∈ positions ∧ box.contains q = false then none else m q) :=
  remove_positions_loop_spec box positions.length 0 positions m (by omega)
    (fun j hj _ => absurd hj (by omega))

/-! ## The load-result drain -/

theorem update_neighbor_stats (s : Terrain) (npos : Vector3i) :
    (update_neighbor s npos).stats = s.stats ∧
    (update_neighbor s npos).blocks = s.blocks ∧
    (update_neighbor s npos).block_size = s.block_size ∧
    (update_neighbor s npos).blocks_pending_load = s.blocks_pending_load ∧
    (update_neighbor s npos).provider_requests = s.provider_requests ∧
    (update_neighbor s npos).updater_jobs = s.updater_jobs ∧
    (update_neighbor s npos).blocks_pending_main_thread_update
      = s.blocks_pending_main_thread_update ∧
    (update_neighbor s npos).view_distance_blocks = s.view_distance_blocks ∧
    (update_neighbor s npos).last_view_distance_blocks = s.last_view_distance_blocks ∧
    (update_neighbor s npos).last_viewer_block_pos = s.last_viewer_block_pos := by
  unfold update_neighbor
  split_ifs
  · split <;> simp
  · simp

theorem foldl_update_neighbor_stats (l : List Vector3i) (c : Vector3i) (s : Terrain) :
    (l.foldl (fun acc ndir => update_neighbor acc (c + ndir)) s).stats = s.stats ∧
    (l.foldl (fun acc ndir => update_neighbor acc (c + ndir)) s).blocks = s.blocks ∧
    (l.foldl (fun acc ndir => update_neighbor acc (c + ndir)) s).block_size = s.block_size ∧
    (l.foldl (fun acc ndir => update_neighbor acc (c + ndir)) s).blocks_pending_load
      = s.blocks_pending_load ∧
    (l.foldl (fun acc ndir => update_neighbor acc (c + ndir)) s).provider_requests
      = s.provider_requests ∧
    (l.foldl (fun acc ndir => update_neighbor acc (c + ndir)) s).updater_jobs
      = s.updater_jobs ∧
    (l.foldl (fun acc ndir => update_neighbor acc (c + ndir)) s).blocks_pending_main_thread_update
      = s.blocks_pending_main_thread_update ∧
    (l.foldl (fun acc ndir => update_neighbor acc (c + ndir)) s).view_distance_blocks
      = s.view_distance_blocks ∧
    (l.foldl (fun acc ndir => update_neighbor acc (c + ndir)) s).last_view_distance_blocks
      = s.last_view_distance_blocks ∧
    (l.foldl (fun acc ndir => update_neighbor acc (c + ndir)) s).last_viewer_block_pos
      = s.last_viewer_block_pos := by
  induction l generalizing s with
  | nil => simp
  | cons d l ih =>
    rw [List.foldl_cons]
    obtain ⟨h1, h2, h3, h4, h5, h6, h7, h8, h9, h10⟩ := ih (update_neighbor s (c + d))
    obtain ⟨k1, k2, k3, k4, k5, k6, k7, k8, k9, k10⟩ := update_neighbor_stats s (c + d)
    exact ⟨h1.trans k1, h2.trans k2, h3.trans k3, h4.trans k4, h5.trans k5, h6.trans k6,
      h7.trans k7, h8.trans k8, h9.trans k9, h10.trans k10⟩

theorem set_block_buffer_stats (s : Terrain) (bpos : Vector3i) (buffer : VoxelBuffer) :
    (set_block_buffer s bpos buffer).stats = s.stats ∧
    (set_block_buffer s bpos buffer).dirty_blocks = s.dirty_blocks ∧
    (set_block_buffer s bpos buffer).block_size = s.block_size ∧
    (set_block_buffer s bpos buffer).blocks_pending_load = s.blocks_pending_load ∧
    (set_block_buffer s bpos buffer).blocks_pending_update = s.blocks_pending_update ∧
    (set_block_buffer s bpos buffer).provider_requests = s.provider_requests ∧
    (set_block_buffer s bpos buffer).updater_jobs = s.updater_jobs ∧
    (set_block_buffer s bpos buffer).blocks_pending_main_thread_update
      = s.blocks_pending_main_thread_update ∧
    (set_block_buffer s bpos buffer).view_distance_blocks = s.view_distance_blocks ∧
    (set_block_buffer s bpos buffer).last_view_distance_blocks = s.last_view_distance_blocks ∧
    (set_block_buffer s bpos buffer).last_viewer_block_pos = s.last_viewer_block_pos := by
  unfold set_block_buffer
  split <;> simp

theorem process_load_response_stale (s : Terrain) (o : EmergeOutput)
    (h : s.dirty_blocks (emerged_block_pos s o) ≠ some BLOCK_LOAD) :
    process_load_response s o = Flow.next { s with stats :=
      { s.stats with dropped_provider_blocks := s.stats.dropped_provider_blocks + 1 } } := by
  unfold emerged_block_pos at h
  simp only [process_load_response, h, ne_eq, not_false_eq_true, if_true]

theorem process_load_response_counter (s : Terrain) (o : EmergeOutput) :
    (process_load_response s o).state.stats.dropped_provider_blocks =
      s.stats.dropped_provider_blocks +
        (if s.dirty_blocks (emerged_block_pos s o) ≠ some BLOCK_LOAD then 1 else 0) := by
  by_cases h : s.dirty_blocks (emerged_block_pos s o) ≠ some BLOCK_LOAD
  · rw [process_load_response_stale s o h, if_pos h]
    rfl
  · rw [if_neg h]
    have h' : s.dirty_blocks (voxel_to_block s.block_size o.origin_in_voxels)
        = some BLOCK_LOAD := by
      simpa [emerged_block_pos] using h
    by_cases hsz : o.voxels.size = Vector3i.splat s.block_size
    · by_cases hb : has_block s (voxel_to_block s.block_size o.origin_in_voxels) = true
      · simp [process_load_response, h', hsz, hb, Flow.state, set_block_buffer_stats]
      · simp [process_load_response, h', hsz, hb, Flow.state, set_block_buffer_stats,
          foldl_update_neighbor_stats]
    · simp [process_load_response, h', hsz, Flow.state]

theorem process_load_loop_counter (batch : List EmergeOutput) (s : Terrain) :
    (process_load_loop s batch).state.stats.dropped_provider_blocks =
      s.stats.dropped_provider_blocks + stale_load_count s batch := by
  induction batch generalizing s with
  | nil => simp [process_load_loop, stale_load_count, Flow.state]
  | cons o rest ih =>
    have hc := process_load_response_counter s o
    simp only [process_load_loop, stale_load_count]
    cases hr : process_load_response s o with
    | next s1 =>
      rw [hr] at hc
      simp only [Flow.state] at hc
      simp only [ih s1, hc]
      omega
    | ret s1 =>
      rw [hr] at hc
      simp only [Flow.state] at hc ⊢
      omega

theorem process_load_loop_all_stale (batch : List EmergeOutput) (s : Terrain)
    (h : ∀ o ∈ batch, s.dirty_blocks (emerged_block_pos s o) ≠ some BLOCK_LOAD) :
    process_load_loop s batch = Flow.next { s with stats :=
      { s.stats with
        dropped_provider_blocks := s.stats.dropped_provider_blocks + batch.length } } := by
  induction batch generalizing s with
  | nil => simp [process_load_loop]
  | cons o rest ih =>
    simp only [process_load_loop, process_load_response_stale s o (h o (by simp))]
    rw [ih]
    · simp only [List.length_cons]
      congr 3
      omega
    · intro o' ho'
      exact h o' (by simp [ho'])

theorem process_load_response_mismatch (s : Terrain) (o : EmergeOutput)
    (h : s.dirty_blocks (emerged_block_pos s o) = some BLOCK_LOAD)
    (hsz : o.voxels.size ≠ Vector3i.splat s.block_size) :
    process_load_response s o = Flow.ret s := by
  unfold emerged_block_pos at h
  simp [process_load_response, h, hsz]

theorem process_load_response_install (s : Terrain) (o : EmergeOutput)
    (h : s.dirty_blocks (emerged_block_pos s o) = some BLOCK_LOAD)
    (hsz : o.voxels.size = Vector3i.splat s.block_size)
    (hb : has_block s (emerged_block_pos s o) = false) :
    process_load_response s o = Flow.next
      (neighbor_dirs.foldl (fun acc ndir => update_neighbor acc (emerged_block_pos s o + ndir))
        (set_block_buffer s (emerged_block_pos s o) o.voxels)) := by
  unfold emerged_block_pos at h hb ⊢
  simp [process_load_response, h, hsz, hb]

theorem process_load_response_resupply (s : Terrain) (o : EmergeOutput)
    (h : s.dirty_blocks (emerged_block_pos s o) = some BLOCK_LOAD)
    (hsz : o.voxels.size = Vector3i.splat s.block_size)
    (hb : has_block s (emerged_block_pos s o) = true) :
    process_load_response s o = Flow.next
      { set_block_buffer s (emerged_block_pos s o) o.voxels with
        dirty_blocks := Function.update
          (set_block_buffer s (emerged_block_pos s o) o.voxels).dirty_blocks
          (emerged_block_pos s o) (some BLOCK_UPDATE_NOT_SENT)
        blocks_pending_update :=
          (set_block_buffer s (emerged_block_pos s o) o.voxels).blocks_pending_update
            ++ [emerged_block_pos s o] } := by
  unfold emerged_block_pos at h hb ⊢
  simp [process_load_response, h, hsz, hb]

theorem process_load_response_block_size (s : Terrain) (o : EmergeOutput) :
    (process_load_response s o).state.block_size = s.block_size := by
  by_cases h : s.dirty_blocks (emerged_block_pos s o) = some BLOCK_LOAD
  · by_cases hsz : o.voxels.size = Vector3i.splat s.block_size
    · cases hb : has_block s (emerged_block_pos s o)
      · rw [process_load_response_install s o h hsz hb]
        simp [Flow.state, set_block_buffer_stats, foldl_update_neighbor_stats]
      · rw [process_load_response_resupply s o h hsz hb]
        simp [Flow.state, set_block_buffer_stats]
    · rw [process_load_response_mismatch s o h hsz]; rfl
  · rw [process_load_response_stale s o h]; rfl

theorem process_load_response_next_of_size (s : Terrain) (o : EmergeOutput)
    (hsz : o.voxels.size = Vector3i.splat s.block_size) :
    ∃ s1, process_load_response s o = Flow.next s1 := by
  by_cases h : s.dirty_blocks (emerged_block_pos s o) = some BLOCK_LOAD
  · cases hb : has_block s (emerged_block_pos s o)
    · exact ⟨_, process_load_response_install s o h hsz hb⟩
    · exact ⟨_, process_load_response_resupply s o h hsz hb⟩
  · exact ⟨_, process_load_response_stale s o h⟩

theorem process_load_loop_next_of_size (batch : List EmergeOutput) (s : Terrain)
    (h : ∀ o ∈ batch, o.voxels.size = Vector3i.splat s.block_size) :
    ∃ s1, process_load_loop s batch = Flow.next s1 := by
  induction batch generalizing s with
  | nil => exact ⟨s, rfl⟩
  | cons o rest ih =>
    obtain ⟨s1, hs1⟩ := process_load_response_next_of_size s o (h o (by simp))
    have hb := process_load_response_block_size s o
    rw [hs1] at hb
    simp only [Flow.state] at hb
    simp only [process_load_loop, hs1]
    apply ih
    intro o' ho'
    rw [hb]
    exact h o' (by simp [ho'])

/-- Drop accounting of the load-result drain: a result whose coordinate has no
dirty-state entry, or an entry other than `LOAD`, increments
`dropped_provider_blocks` by one and changes nothing else (dirty-state map,
pending-update queue and Spatial Index included); the counter is reset at the
start of the drain, so after the drain it equals the number of results that
had no `LOAD` entry among those the loop examined, which are the results up to
the first buffer of the wrong size for a `LOAD` coordinate; when no result of
the batch has a `LOAD` entry at the start, the drain changes nothing but the
counter, which ends at the size of the batch. The loop examines the whole
batch whenever every buffer has the configured size. -/
theorem load_drain_drop_accounting :
    (∀ (s : Terrain) (o : EmergeOutput),
      s.dirty_blocks (emerged_block_pos s o) ≠ some BLOCK_LOAD →
      process_load_response s o = Flow.next { s with stats :=
        { s.stats with dropped_provider_blocks := s.stats.dropped_provider_blocks + 1 } }) ∧
    (∀ (s : Terrain) (batch : List EmergeOutput),
      (pop_load_responses s batch).stats.dropped_provider_blocks = 0 ∧
      (process_load_responses s batch).state.stats.dropped_provider_blocks =
        stale_load_count (pop_load_responses s batch) batch) ∧
    (∀ (s : Terrain) (batch : List EmergeOutput),
      (∀ o ∈ batch, s.dirty_blocks (emerged_block_pos s o) ≠ some BLOCK_LOAD) →
      process_load_responses s batch = Flow.next { pop_load_responses s batch with stats :=
        { s.stats with dropped_provider_blocks := batch.length } }) ∧
    (∀ (s : Terrain) (batch : List EmergeOutput),
      (∀ o ∈ batch, o.voxels.size = Vector3i.splat s.block_size) →
      ∃ s1, process_load_responses s batch = Flow.next s1) := by
  refine ⟨process_load_response_stale, ?_, ?_, ?_⟩
  · intro s batch
    refine ⟨rfl, ?_⟩
    unfold process_load_responses
    rw [process_load_loop_counter]
    simp [pop_load_responses]
  · intro s batch h
    unfold process_load_responses
    rw [process_load_loop_all_stale batch (pop_load_responses s batch) h]
    simp [pop_load_responses]
  · intro s batch h
    exact process_load_loop_next_of_size batch (pop_load_responses s batch) h

/-! ## The mesh dispatch -/

theorem send_mesh_update_absent (acc : Terrain × List Vector3i) (q : Vector3i)
    (h : acc.1.blocks q = none) : send_mesh_update acc q = some acc := by
  simp [send_mesh_update, h]

theorem send_mesh_update_air (acc : Terrain × List Vector3i) (q : Vector3i) (block : VoxelBlock)
    (h : acc.1.blocks q = some block)
    (hd : acc.1.dirty_blocks q = some BLOCK_UPDATE_NOT_SENT) (hair : is_air block = true) :
    send_mesh_update acc q =
      some ({ acc.1 with
              blocks := Function.update acc.1.blocks q (some { block with mesh := none })
              dirty_blocks := Function.update acc.1.dirty_blocks q none },
            acc.2) := by
  simp [send_mesh_update, h, hd, hair]

theorem send_mesh_update_send (acc : Terrain × List Vector3i) (q : Vector3i) (block : VoxelBlock)
    (h : acc.1.blocks q = some block)
    (hd : acc.1.dirty_blocks q = some BLOCK_UPDATE_NOT_SENT) (hair : is_air block = false) :
    send_mesh_update acc q =
      some ({ acc.1 with
              dirty_blocks := Function.update acc.1.dirty_blocks q (some BLOCK_UPDATE_SENT) },
            acc.2 ++ [q]) := by
  simp [send_mesh_update, h, hd, hair]

theorem send_mesh_update_crash (acc : Terrain × List Vector3i) (q : Vector3i) (block : VoxelBlock)
    (h : acc.1.blocks q = some block)
    (hd : acc.1.dirty_blocks q ≠ some BLOCK_UPDATE_NOT_SENT) :
    send_mesh_update acc q = none := by
  cases hq : acc.1.dirty_blocks q with
  | none => simp [send_mesh_update, h, hq]
  | some st =>
    have : st ≠ BLOCK_UPDATE_NOT_SENT := fun e => hd (by rw [hq, e])
    simp [send_mesh_update, h, hq, this]

/-- The cases of one iteration of the mesh-dispatch loop that does not crash. -/
theorem send_mesh_update_some (acc acc1 : Terrain × List Vector3i) (q : Vector3i)
    (h : send_mesh_update acc q = some acc1) :
    (acc.1.blocks q = none ∧ acc1 = acc) ∨
    (∃ block, acc.1.blocks q = some block ∧
      acc.1.dirty_blocks q = some BLOCK_UPDATE_NOT_SENT ∧ is_air block = true ∧
      acc1 = ({ acc.1 with
                blocks := Function.update acc.1.blocks q (some { block with mesh := none })
                dirty_blocks := Function.update acc.1.dirty_blocks q none }, acc.2)) ∨
    (∃ block, acc.1.blocks q = some block ∧
      acc.1.dirty_blocks q = some BLOCK_UPDATE_NOT_SENT ∧ is_air block = false ∧
      acc1 = ({ acc.1 with
                dirty_blocks := Function.update acc.1.dirty_blocks q (some BLOCK_UPDATE_SENT) },
              acc.2 ++ [q])) := by
  cases hb : acc.1.blocks q with
  | none =>
    rw [send_mesh_update_absent acc q hb] at h
    exact Or.inl ⟨rfl, (Option.some.inj h).symm⟩
  | some block =>
    by_cases hd : acc.1.dirty_blocks q = some BLOCK_UPDATE_NOT_SENT
    · cases hair : is_air block
      · rw [send_mesh_update_send acc q block hb hd hair] at h
        exact Or.inr (Or.inr ⟨block, rfl, hd, hair, (Option.some.inj h).symm⟩)
      · rw [send_mesh_update_air acc q block hb hd hair] at h
        exact Or.inr (Or.inl ⟨block, rfl, hd, hair, (Option.some.inj h).symm⟩)
    · rw [send_mesh_update_crash acc q block hb hd] at h
      exact absurd h (by simp)

/-- An iteration at `q` leaves the block, the entry and the batch membership
of every other coordinate as they were. -/
theorem send_mesh_update_other (acc acc1 : Terrain × List Vector3i) (q p : Vector3i)
    (h : send_mesh_update acc q = some acc1) (hpq : p ≠ q) :
    acc1.1.blocks p = acc.1.blocks p ∧ acc1.1.dirty_blocks p = acc.1.dirty_blocks p ∧
    (p ∈ acc1.2 ↔ p ∈ acc.2) := by
  rcases send_mesh_update_some acc acc1 q h with ⟨_, rfl⟩ | ⟨b, _, _, _, rfl⟩ | ⟨b, _, _, _, rfl⟩
  · exact ⟨rfl, rfl, Iff.rfl⟩
  · exact ⟨Function.update_noteq hpq _ _, Function.update_noteq hpq _ _, Iff.rfl⟩
  · refine ⟨rfl, Function.update_noteq hpq _ _, ?_⟩
    simp [hpq]

theorem send_mesh_loop_cons (acc : Terrain × List Vector3i) (q : Vector3i) (l : List Vector3i) :
    send_mesh_loop acc (q :: l) =
      (send_mesh_update acc q).bind (fun acc1 => send_mesh_loop acc1 l) := by
  simp only [send_mesh_loop]
  cases send_mesh_update acc q <;> rfl

/-- Once a resident coordinate has lost its entry, a loop that does not crash
never meets it again and leaves it as it is. -/
theorem send_mesh_loop_stable (l : List Vector3i) (acc r : Terrain × List Vector3i)
    (p : Vector3i) (b : VoxelBlock) (hb : acc.1.blocks p = some b)
    (hd : acc.1.dirty_blocks p = none) (hp : p ∉ acc.2)
    (h : send_mesh_loop acc l = some r) :
    r.1.blocks p = some b ∧ r.1.dirty_blocks p = none ∧ p ∉ r.2 ∧ p ∉ l := by
  induction l generalizing acc with
  | nil =>
    simp only [send_mesh_loop, Option.some.injEq] at h
    subst h
    exact ⟨hb, hd, hp, by simp⟩
  | cons q l ih =>
    rw [send_mesh_loop_cons] at h
    cases h1 : send_mesh_update acc q with
    | none => rw [h1] at h; simp at h
    | some acc1 =>
      rw [h1] at h
      simp only [Option.some_bind] at h
      by_cases hpq : p = q
      · subst hpq
        rw [send_mesh_update_crash acc p b hb (by rw [hd]; simp)] at h1
        simp at h1
      · obtain ⟨e1, e2, e3⟩ := send_mesh_update_other acc acc1 q p h1 hpq
        obtain ⟨r1, r2, r3, r4⟩ := ih acc1 (by rw [e1]; exact hb) (by rw [e2]; exact hd)
          (by rw [e3]; exact hp) h
        exact ⟨r1, r2, r3, by simp [hpq, r4]⟩

theorem send_mesh_loop_air (l : List Vector3i) (acc r : Terrain × List Vector3i)
    (p : Vector3i) (block : VoxelBlock) (hb : acc.1.blocks p = some block)
    (hair : is_air block = true) (hp : p ∉ acc.2) (hl : p ∈ l)
    (h : send_mesh_loop acc l = some r) :
    r.1.blocks p = some { block with mesh := none } ∧ r.1.dirty_blocks p = none ∧ p ∉ r.2 := by
  induction l generalizing acc with
  | nil => simp at hl
  | cons q l ih =>
    rw [send_mesh_loop_cons] at h
    cases h1 : send_mesh_update acc q with
    | none => rw [h1] at h; simp at h
    | some acc1 =>
      rw [h1] at h
      simp only [Option.some_bind] at h
      by_cases hpq : p = q
      · subst hpq
        rcases send_mesh_update_some acc acc1 p h1 with ⟨h0, _⟩ | ⟨b, hb', _, _, rfl⟩ |
          ⟨b, hb', _, hair', _⟩
        · rw [hb] at h0; simp at h0
        · rw [hb] at hb'
          obtain rfl := Option.some.inj hb'
          obtain ⟨r1, r2, r3, _⟩ := send_mesh_loop_stable l
            ({ acc.1 with
               blocks := Function.update acc.1.blocks p (some { block with mesh := none })
               dirty_blocks := Function.update acc.1.dirty_blocks p none }, acc.2)
            r p { block with mesh := none } (by simp) (by simp) hp h
          exact ⟨r1, r2, r3⟩
        · rw [hb] at hb'
          obtain rfl := Option.some.inj hb'
          rw [hair] at hair'
          simp at hair'
      · obtain ⟨e1, e2, e3⟩ := send_mesh_update_other acc acc1 q p h1 hpq
        have hl' : p ∈ l := by
          rcases List.mem_cons.1 hl with h' | h'
          · exact absurd h' hpq
          · exact h'
        exact ih acc1 (by rw [e1]; exact hb) (by rw [e3]; exact hp) hl' h

theorem send_mesh_updates_some (s s1 : Terrain) (batch : List Vector3i)
    (h : send_mesh_updates s = some (s1, batch)) :
    ∃ r, send_mesh_loop (s, []) s.blocks_pending_update = some r ∧
      s1 = { r.1 with updater_jobs := r.1.updater_jobs ++ r.2, blocks_pending_update := [] } ∧
      batch = r.2 := by
  unfold send_mesh_updates at h
  cases hr : send_mesh_loop (s, []) s.blocks_pending_update with
  | none => rw [hr] at h; simp at h
  | some r =>
    rw [hr] at h
    obtain ⟨r1, r2⟩ := r
    simp only [Option.some.injEq, Prod.mk.injEq] at h
    exact ⟨(r1, r2), rfl, h.1.symm, h.2.symm⟩

/-- C8: when the mesh-dispatch phase runs to its end (no `CRASH_COND` fires),
every coordinate of the pending-update queue whose resident block has a
uniform type channel equal to the air value 0 is left out of the batch pushed
to the Mesh Worker, has its mesh set to null (the block stays resident, its
buffer unchanged) and has no dirty-state entry, so `get_block_state` reports
`BLOCK_IDLE` for it. -/
theorem send_mesh_updates_air (s s1 : Terrain) (batch : List Vector3i)
    (h : send_mesh_updates s = some (s1, batch)) (p : Vector3i) (block : VoxelBlock)
    (hp : p ∈ s.blocks_pending_update) (hb : s.blocks p = some block)
    (hair : is_air block = true) :
    p ∉ batch ∧ s1.blocks p = some { block with mesh := none } ∧
    s1.dirty_blocks p = none ∧ get_block_state s1 p = BLOCK_IDLE := by
  obtain ⟨r, hr, rfl, rfl⟩ := send_mesh_updates_some s s1 batch h
  obtain ⟨r1, r2, r3⟩ := send_mesh_loop_air s.blocks_pending_update (s, []) r p block hb hair
    (by simp) hp hr
  refine ⟨r3, r1, r2, ?_⟩
  simp only [get_block_state, has_block] at r1 r2 ⊢
  simp [r1, r2]

/-- Witness for C8: the dispatch phase on `sample_air` ends, pushes an empty
batch, clears the mesh of the air block and reports it idle. -/
theorem send_mesh_updates_air_witness :
    ∃ s1 batch, send_mesh_updates sample_air = some (s1, batch) ∧
      sample_pos ∉ batch ∧
      s1.blocks sample_pos = some ⟨sample_air_buffer, none⟩ ∧
      s1.dirty_blocks sample_pos = none ∧ get_block_state s1 sample_pos = BLOCK_IDLE :=
  ⟨_, _, rfl,
    send_mesh_updates_air sample_air _ _ rfl sample_pos ⟨sample_air_buffer, some sample_mesh⟩
      (List.mem_singleton.2 rfl) rfl rfl⟩

/-! ## The time-boxed commit -/

theorem clear_sent_entry_frame (s : Terrain) (p : Vector3i) :
    (clear_sent_entry s p).blocks = s.blocks ∧
    (clear_sent_entry s p).stats = s.stats ∧
    (clear_sent_entry s p).blocks_pending_main_thread_update
      = s.blocks_pending_main_thread_update ∧
    (clear_sent_entry s p).blocks_pending_load = s.blocks_pending_load ∧
    (clear_sent_entry s p).blocks_pending_update = s.blocks_pending_update ∧
    (clear_sent_entry s p).provider_requests = s.provider_requests ∧
    (clear_sent_entry s p).updater_jobs = s.updater_jobs ∧
    (clear_sent_entry s p).block_size = s.block_size ∧
    (clear_sent_entry s p).view_distance_blocks = s.view_distance_blocks ∧
    (clear_sent_entry s p).last_view_distance_blocks = s.last_view_distance_blocks ∧
    (clear_sent_entry s p).last_viewer_block_pos = s.last_viewer_block_pos := by
  unfold clear_sent_entry
  split <;> simp

theorem commit_block_absent (s : Terrain) (ob : OutputBlock) (h : s.blocks ob.position = none) :
    commit_block s ob =
      { (clear_sent_entry s ob.position) with
        stats := { s.stats with
          dropped_updater_blocks := s.stats.dropped_updater_blocks + 1 } } := by
  have hb : (clear_sent_entry s ob.position).blocks ob.position = none := by
    rw [(clear_sent_entry_frame s ob.position).1, h]
  simp only [commit_block, hb, (clear_sent_entry_frame s ob.position).2.1]

theorem commit_block_resident (s : Terrain) (ob : OutputBlock) (block : VoxelBlock)
    (h : s.blocks ob.position = some block) :
    commit_block s ob =
      { (clear_sent_entry s ob.position) with
        blocks := Function.update s.blocks ob.position
          (some { block with mesh := build_mesh ob }) } := by
  have hb : (clear_sent_entry s ob.position).blocks ob.position = some block := by
    rw [(clear_sent_entry_frame s ob.position).1, h]
  simp only [commit_block, hb, (clear_sent_entry_frame s ob.position).1]

theorem commit_block_frame (s : Terrain) (ob : OutputBlock) :
    (commit_block s ob).blocks_pending_main_thread_update
      = s.blocks_pending_main_thread_update ∧
    (commit_block s ob).blocks_pending_load = s.blocks_pending_load ∧
    (commit_block s ob).blocks_pending_update = s.blocks_pending_update ∧
    (commit_block s ob).provider_requests = s.provider_requests ∧
    (commit_block s ob).updater_jobs = s.updater_jobs ∧
    (commit_block s ob).block_size = s.block_size ∧
    (commit_block s ob).view_distance_blocks = s.view_distance_blocks ∧
    (commit_block s ob).last_view_distance_blocks = s.last_view_distance_blocks ∧
    (commit_block s ob).last_viewer_block_pos = s.last_viewer_block_pos := by
  obtain ⟨_, _, h3, h4, h5, h6, h7, h8, h9, h10, h11⟩ := clear_sent_entry_frame s ob.position
  cases hb : s.blocks ob.position with
  | none =>
    rw [commit_block_absent s ob hb]
    exact ⟨h3, h4, h5, h6, h7, h8, h9, h10, h11⟩
  | some block =>
    rw [commit_block_resident s ob block hb]
    exact ⟨h3, h4, h5, h6, h7, h8, h9, h10, h11⟩

theorem foldl_commit_block_queue (l : List OutputBlock) (s : Terrain) :
    (l.foldl commit_block s).blocks_pending_main_thread_update
      = s.blocks_pending_main_thread_update := by
  induction l generalizing s with
  | nil => rfl
  | cons ob l ih => rw [List.foldl_cons, ih, (commit_block_frame s ob).1]

theorem commit_loop_spec (clock : Nat → Nat) (timeout : Nat) (l : List OutputBlock) :
    ∀ (n : Nat) (s : Terrain),
      (commit_loop clock timeout n s l).2 ≤ l.length ∧
      (commit_loop clock timeout n s l).1
        = (l.take (commit_loop clock timeout n s l).2).foldl commit_block s ∧
      (∀ j, j < (commit_loop clock timeout n s l).2 → clock (n + j) % 2 ^ 32 < timeout) ∧
      ((commit_loop clock timeout n s l).2 < l.length →
        ¬ clock (n + (commit_loop clock timeout n s l).2) % 2 ^ 32 < timeout) := by
  induction l with
  | nil =>
    intro n s
    simp [commit_loop]
  | cons ob rest ih =>
    intro n s
    by_cases hc : clock n % 2 ^ 32 < timeout
    · obtain ⟨h1, h2, h3, h4⟩ := ih (n + 1) (commit_block s ob)
      simp only [commit_loop, hc, if_true, List.length_cons, List.take_succ_cons,
        List.foldl_cons]
      refine ⟨by omega, h2, ?_, ?_⟩
      · intro j hj
        cases j with
        | zero => simpa using hc
        | succ j =>
          have := h3 j (by omega)
          rwa [show n + 1 + j = n + (j + 1) by omega] at this
      · intro hlt
        have := h4 (by omega)
        rwa [show n + 1 + (commit_loop clock timeout (n + 1) (commit_block s ob) rest).2
          = n + ((commit_loop clock timeout (n + 1) (commit_block s ob) rest).2 + 1) by omega]
          at this
    · simp only [commit_loop, hc, if_false, List.take_zero, List.foldl_nil, Nat.add_zero]
      exact ⟨by omega, trivial, fun j hj => absurd hj (by omega), fun _ => not_false⟩

/-- The state the fifth block leaves: the first `k` entries of the queue are
committed in order and the queue keeps the entries from `k` on, with `k` the
final `queue_index` of the commit loop. -/
theorem process_mesh_responses_eq (s : Terrain) (blocks : List OutputBlock) (clock : Nat → Nat) :
    process_mesh_responses s blocks clock =
      { ((s.blocks_pending_main_thread_update ++ blocks).take
            (commit_loop clock (commit_timeout clock) 2 (pop_mesh_responses s blocks)
              (s.blocks_pending_main_thread_update ++ blocks)).2).foldl commit_block
          (pop_mesh_responses s blocks) with
        blocks_pending_main_thread_update :=
          (s.blocks_pending_main_thread_update ++ blocks).drop
            (commit_loop clock (commit_timeout clock) 2 (pop_mesh_responses s blocks)
              (s.blocks_pending_main_thread_update ++ blocks)).2 } := by
  obtain ⟨_, h2, _, _⟩ := commit_loop_spec clock (commit_timeout clock)
    (s.blocks_pending_main_thread_update ++ blocks) 2 (pop_mesh_responses s blocks)
  have hq : (pop_mesh_responses s blocks).blocks_pending_main_thread_update
      = s.blocks_pending_main_thread_update ++ blocks := rfl
  simp only [process_mesh_responses, hq, shift_up]
  rw [h2, foldl_commit_block_queue, hq]

/-- C9: in every tick and for every behaviour of the clock, with `N` the length
of the pending-main-thread-commit queue after the popped results were appended
and `k` the number of results the commit loop processes: `0 ≤ k ≤ N`; the
state after the loop is the one obtained by committing the first `k` entries
in order; the queue left for the next tick is exactly the entries `k .. N-1`
in their original order; the loop stopped before the end of the queue only on
a clock reading that reached the timeout; and if no reading reaches the
timeout, `k = N` and the queue is left empty. -/
theorem commit_time_box (s : Terrain) (blocks : List OutputBlock) (clock : Nat → Nat) :
    (pop_mesh_responses s blocks).blocks_pending_main_thread_update
      = s.blocks_pending_main_thread_update ++ blocks ∧
    (commit_loop clock (commit_timeout clock) 2 (pop_mesh_responses s blocks)
        (s.blocks_pending_main_thread_update ++ blocks)).2
      ≤ (s.blocks_pending_main_thread_update ++ blocks).length ∧
    process_mesh_responses s blocks clock =
      { ((s.blocks_pending_main_thread_update ++ blocks).take
            (commit_loop clock (commit_timeout clock) 2 (pop_mesh_responses s blocks)
              (s.blocks_pending_main_thread_update ++ blocks)).2).foldl commit_block
          (pop_mesh_responses s blocks) with
        blocks_pending_main_thread_update :=
          (s.blocks_pending_main_thread_update ++ blocks).drop
            (commit_loop clock (commit_timeout clock) 2 (pop_mesh_responses s blocks)
              (s.blocks_pending_main_thread_update ++ blocks)).2 } ∧
    ((commit_loop clock (commit_timeout clock) 2 (pop_mesh_responses s blocks)
        (s.blocks_pending_main_thread_update ++ blocks)).2
      < (s.blocks_pending_main_thread_update ++ blocks).length →
      ¬ clock (2 + (commit_loop clock (commit_timeout clock) 2 (pop_mesh_responses s blocks)
        (s.blocks_pending_main_thread_update ++ blocks)).2) % 2 ^ 32 < commit_timeout clock) ∧
    ((∀ n, clock n % 2 ^ 32 < commit_timeout clock) →
      (commit_loop clock (commit_timeout clock) 2 (pop_mesh_responses s blocks)
          (s.blocks_pending_main_thread_update ++ blocks)).2
        = (s.blocks_pending_main_thread_update ++ blocks).length ∧
      (process_mesh_responses s blocks clock).blocks_pending_main_thread_update = []) := by
  obtain ⟨h1, h2, h3, h4⟩ := commit_loop_spec clock (commit_timeout clock)
    (s.blocks_pending_main_thread_update ++ blocks) 2 (pop_mesh_responses s blocks)
  have hq : (pop_mesh_responses s blocks).blocks_pending_main_thread_update
      = s.blocks_pending_main_thread_update ++ blocks := rfl
  have hp := process_mesh_responses_eq s blocks clock
  refine ⟨hq, h1, hp, h4, ?_⟩
  intro hall
  have hk : (commit_loop clock (commit_timeout clock) 2 (pop_mesh_responses s blocks)
      (s.blocks_pending_main_thread_update ++ blocks)).2
      = (s.blocks_pending_main_thread_update ++ blocks).length := by
    by_contra hne
    exact h4 (lt_of_le_of_ne h1 hne) (hall _)
  refine ⟨hk, ?_⟩
  rw [hp, hk]
  simp

/-! ## The scheduler invariant -/

theorem invOn_mono {C D : Vector3i → Prop} {s : Terrain} (h : InvOn C s)
    (hCD : ∀ p, D p → C p) : InvOn D s :=
  ⟨h.sent_resident, fun p hp hd => h.load_queue p hp (hCD p hd),
    fun p hp hd => h.update_queue p hp (hCD p hd)⟩

theorem fresh_inv (B : Int) : Inv (fresh B) :=
  ⟨fun p h => by simp [fresh] at h, fun p h => by simp [fresh] at h,
    fun p h => by simp [fresh] at h⟩

theorem make_block_dirty_inv (C : Vector3i → Prop) (s : Terrain) (pos : Vector3i)
    (h : InvOn C s) (hC : C pos) : InvOn C (make_block_dirty s pos) := by
  obtain ⟨h1, h2, h3⟩ := h
  have hupd : ∀ (v : BlockDirtyState), v ≠ BLOCK_UPDATE_SENT → ∀ (p : Vector3i),
      Function.update s.dirty_blocks pos (some v) p = some BLOCK_UPDATE_SENT →
      (s.blocks p).isSome := by
    intro v hv p hp
    by_cases hpp : p = pos
    · subst hpp
      rw [Function.update_same] at hp
      exact absurd (Option.some.inj hp) hv
    · rw [Function.update_noteq hpp] at hp
      exact h1 p hp
  cases hd : s.dirty_blocks pos with
  | none =>
    cases hb : has_block s pos
    · rw [make_block_dirty_of_none_absent s pos hd hb]
      refine ⟨hupd _ (by decide), ?_, ?_⟩
      · intro p hp hCp
        by_cases hpp : p = pos
        · subst hpp; simp
        · rcases List.mem_append.1 hp with hp | hp
          · simpa [Function.update_noteq hpp] using h2 p hp hCp
          · exact absurd (List.mem_singleton.1 hp) hpp
      · intro p hp hCp
        by_cases hpp : p = pos
        · subst hpp
          have := h3 p hp hCp
          rw [hd] at this
          exact absurd this (by simp)
        · simpa [Function.update_noteq hpp] using h3 p hp hCp
    · rw [make_block_dirty_of_none_resident s pos hd hb]
      refine ⟨hupd _ (by decide), ?_, ?_⟩
      · intro p hp hCp
        by_cases hpp : p = pos
        · subst hpp
          have := h2 p hp hCp
          rw [hd] at this
          exact absurd this (by simp)
        · simpa [Function.update_noteq hpp] using h2 p hp hCp
      · intro p hp hCp
        by_cases hpp : p = pos
        · subst hpp; simp
        · rcases List.mem_append.1 hp with hp | hp
          · simpa [Function.update_noteq hpp] using h3 p hp hCp
          · exact absurd (List.mem_singleton.1 hp) hpp
  | some st =>
    by_cases hst : st = BLOCK_UPDATE_SENT
    · subst hst
      rw [make_block_dirty_of_sent s pos hd]
      refine ⟨hupd _ (by decide), ?_, ?_⟩
      · intro p hp hCp
        by_cases hpp : p = pos
        · subst hpp
          have := h2 p hp hCp
          rw [hd] at this
          exact absurd (Option.some.inj this) (by decide)
        · simpa [Function.update_noteq hpp] using h2 p hp hCp
      · intro p hp hCp
        by_cases hpp : p = pos
        · subst hpp; simp
        · rcases List.mem_append.1 hp with hp | hp
          · simpa [Function.update_noteq hpp] using h3 p hp hCp
          · exact absurd (List.mem_singleton.1 hp) hpp
    · rw [make_block_dirty_of_other s pos st hd hst]
      exact ⟨h1, h2, h3⟩

theorem foldl_make_block_dirty_inv (l : List Vector3i) (s : Terrain) (h : Inv s) :
    Inv (l.foldl make_block_dirty s) := by
  induction l generalizing s with
  | nil => exact h
  | cons p l ih => exact ih _ (make_block_dirty_inv _ s p h trivial)

theorem immerge_block_inv (C : Vector3i → Prop) (s : Terrain) (pos : Vector3i)
    (h : InvOn C s) (hC : ¬ C pos) : InvOn C (immerge_block s pos) := by
  obtain ⟨h1, h2, h3⟩ := h
  refine ⟨?_, ?_, ?_⟩
  · intro p hp
    by_cases hpp : p = pos
    · subst hpp; simp [immerge_block] at hp
    · simp only [immerge_block, Function.update_noteq hpp] at hp ⊢
      exact h1 p hp
  · intro p hp hCp
    have hpp : p ≠ pos := fun e => hC (e ▸ hCp)
    simp only [immerge_block, Function.update_noteq hpp]
    exact h2 p hp hCp
  · intro p hp hCp
    have hpp : p ≠ pos := fun e => hC (e ▸ hCp)
    simp only [immerge_block, Function.update_noteq hpp]
    exact h3 p hp hCp

theorem update_required_block_inv (prev_box new_box : Rect3i) (s : Terrain) (pos : Vector3i)
    (h : InvOn (fun p => new_box.contains p = true) s) :
    InvOn (fun p => new_box.contains p = true) (update_required_block prev_box new_box s pos) := by
  unfold update_required_block
  cases hP : prev_box.contains pos <;> cases hN : new_box.contains pos <;>
    simp only [Bool.not_true, Bool.not_false, Bool.and_true, Bool.and_false, Bool.true_and,
      Bool.false_and, if_true, if_false, Bool.false_eq_true]
  · exact h
  · exact make_block_dirty_inv _ s pos h hN
  · exact immerge_block_inv _ s pos h (by simp [hN])
  · exact h

theorem foldl_update_required_block_inv (prev_box new_box : Rect3i) (l : List Vector3i)
    (t : Terrain) (h : InvOn (fun p => new_box.contains p = true) t) :
    InvOn (fun p => new_box.contains p = true)
      (l.foldl (update_required_block prev_box new_box) t) := by
  induction l generalizing t with
  | nil => exact h
  | cons q l ih => exact ih _ (update_required_block_inv prev_box new_box t q h)

theorem update_required_blocks_inv (s : Terrain) (prev_box new_box : Rect3i) (h : Inv s) :
    InvOn (fun p => new_box.contains p = true) (update_required_blocks s prev_box new_box) := by
  have h0 : InvOn (fun p => new_box.contains p = true) s := invOn_mono h (fun _ _ => trivial)
  unfold update_required_blocks
  split_ifs
  · exact foldl_update_required_block_inv prev_box new_box _ s h0
  · exact h0

theorem make_block_dirty_fields (s : Terrain) (pos : Vector3i) :
    (make_block_dirty s pos).block_size = s.block_size ∧
    (make_block_dirty s pos).view_distance_blocks = s.view_distance_blocks ∧
    (make_block_dirty s pos).provider_requests = s.provider_requests ∧
    (make_block_dirty s pos).updater_jobs = s.updater_jobs ∧
    (make_block_dirty s pos).blocks_pending_main_thread_update
      = s.blocks_pending_main_thread_update ∧
    (make_block_dirty s pos).stats = s.stats ∧
    (make_block_dirty s pos).last_view_distance_blocks = s.last_view_distance_blocks ∧
    (make_block_dirty s pos).last_viewer_block_pos = s.last_viewer_block_pos := by
  cases hd : s.dirty_blocks pos with
  | none =>
    cases hb : has_block s pos
    · rw [make_block_dirty_of_none_absent s pos hd hb]; simp
    · rw [make_block_dirty_of_none_resident s pos hd hb]; simp
  | some st =>
    by_cases hst : st = BLOCK_UPDATE_SENT
    · subst hst
      rw [make_block_dirty_of_sent s pos hd]; simp
    · rw [make_block_dirty_of_other s pos st hd hst]; simp

theorem update_required_block_cases (prev_box new_box : Rect3i) (s : Terrain) (pos : Vector3i) :
    (prev_box.contains pos = true ∧ new_box.contains pos = false ∧
      update_required_block prev_box new_box s pos = immerge_block s pos) ∨
    (prev_box.contains pos = false ∧ new_box.contains pos = true ∧
      update_required_block prev_box new_box s pos = make_block_dirty s pos) ∨
    (prev_box.contains pos = new_box.contains pos ∧
      update_required_block prev_box new_box s pos = s) := by
  unfold update_required_block
  cases hP : prev_box.contains pos <;> cases hN : new_box.contains pos <;> simp

theorem update_required_block_frame (prev_box new_box : Rect3i) (s : Terrain) (pos : Vector3i) :
    (update_required_block prev_box new_box s pos).block_size = s.block_size ∧
    (update_required_block prev_box new_box s pos).view_distance_blocks
      = s.view_distance_blocks ∧
    (update_required_block prev_box new_box s pos).provider_requests = s.provider_requests ∧
    (update_required_block prev_box new_box s pos).updater_jobs = s.updater_jobs ∧
    (update_required_block prev_box new_box s pos).blocks_pending_main_thread_update
      = s.blocks_pending_main_thread_update ∧
    (update_required_block prev_box new_box s pos).stats = s.stats := by
  rcases update_required_block_cases prev_box new_box s pos with ⟨_, _, e⟩ | ⟨_, _, e⟩ | ⟨_, e⟩
  · rw [e]; simp [immerge_block]
  · rw [e]
    obtain ⟨h1, h2, h3, h4, h5, h6, _, _⟩ := make_block_dirty_fields s pos
    exact ⟨h1, h2, h3, h4, h5, h6⟩
  · rw [e]; simp

theorem foldl_update_required_block_frame (prev_box new_box : Rect3i) (l : List Vector3i)
    (s : Terrain) :
    (l.foldl (update_required_block prev_box new_box) s).block_size = s.block_size ∧
    (l.foldl (update_required_block prev_box new_box) s).view_distance_blocks
      = s.view_distance_blocks ∧
    (l.foldl (update_required_block prev_box new_box) s).provider_requests
      = s.provider_requests ∧
    (l.foldl (update_required_block prev_box new_box) s).updater_jobs = s.updater_jobs ∧
    (l.foldl (update_required_block prev_box new_box) s).blocks_pending_main_thread_update
      = s.blocks_pending_main_thread_update ∧
    (l.foldl (update_required_block prev_box new_box) s).stats = s.stats := by
  induction l generalizing s with
  | nil => simp
  | cons q l ih =>
    rw [List.foldl_cons]
    obtain ⟨h1, h2, h3, h4, h5, h6⟩ := ih (update_required_block prev_box new_box s q)
    obtain ⟨k1, k2, k3, k4, k5, k6⟩ := update_required_block_frame prev_box new_box s q
    exact ⟨h1.trans k1, h2.trans k2, h3.trans k3, h4.trans k4, h5.trans k5, h6.trans k6⟩

theorem update_required_blocks_frame (s : Terrain) (prev_box new_box : Rect3i) :
    (update_required_blocks s prev_box new_box).block_size = s.block_size ∧
    (update_required_blocks s prev_box new_box).view_distance_blocks
      = s.view_distance_blocks ∧
    (update_required_blocks s prev_box new_box).provider_requests = s.provider_requests ∧
    (update_required_blocks s prev_box new_box).updater_jobs = s.updater_jobs ∧
    (update_required_blocks s prev_box new_box).blocks_pending_main_thread_update
      = s.blocks_pending_main_thread_update ∧
    (update_required_blocks s prev_box new_box).stats = s.stats := by
  unfold update_required_blocks
  split_ifs
  · exact foldl_update_required_block_frame prev_box new_box _ s
  · simp

theorem detect_required_blocks_inv (s : Terrain) (viewer : Option Vector3i) (h : Inv s) :
    Inv (detect_required_blocks s viewer) := by
  have hmid := update_required_blocks_inv s (previous_box s) (required_box s viewer) h
  generalize hs1 : update_required_blocks s (previous_box s) (required_box s viewer) = s1
    at hmid
  obtain ⟨p1, m1⟩ := remove_positions_outside_box_spec s1.blocks_pending_load
    (required_box s viewer) s1.dirty_blocks
  obtain ⟨p2, m2⟩ := remove_positions_outside_box_spec s1.blocks_pending_update
    (required_box s viewer)
    (remove_positions_outside_box s1.blocks_pending_load (required_box s viewer)
      s1.dirty_blocks).2
  have hkeep : ∀ q, (required_box s viewer).contains q = true →
      (remove_positions_outside_box s1.blocks_pending_update (required_box s viewer)
        (remove_positions_outside_box s1.blocks_pending_load (required_box s viewer)
          s1.dirty_blocks).2).2 q = s1.dirty_blocks q := by
    intro q hq
    rw [m2 q, if_neg (by simp [hq]), m1 q, if_neg (by simp [hq])]
  have hsub : ∀ q v, (remove_positions_outside_box s1.blocks_pending_update
        (required_box s viewer)
        (remove_positions_outside_box s1.blocks_pending_load (required_box s viewer)
          s1.dirty_blocks).2).2 q = some v → s1.dirty_blocks q = some v := by
    intro q v hq
    rw [m2 q] at hq
    split_ifs at hq
    rw [m1 q] at hq
    split_ifs at hq
    exact hq
  refine ⟨?_, ?_, ?_⟩
  · intro p hp
    simp only [detect_required_blocks, hs1] at hp ⊢
    exact hmid.sent_resident p (hsub p _ hp)
  · intro p hp _
    simp only [detect_required_blocks, hs1] at hp ⊢
    have hp' := p1.mem_iff.1 hp
    rw [List.mem_filter] at hp'
    rw [hkeep p hp'.2]
    exact hmid.load_queue p hp'.1 hp'.2
  · intro p hp _
    simp only [detect_required_blocks, hs1] at hp ⊢
    have hp' := p2.mem_iff.1 hp
    rw [List.mem_filter] at hp'
    rw [hkeep p hp'.2]
    exact hmid.update_queue p hp'.1 hp'.2

theorem send_load_requests_inv (s : Terrain) (h : Inv s) :
    Inv (send_load_requests s) ∧ (send_load_requests s).blocks_pending_load = [] :=
  ⟨⟨h.sent_resident, fun p hp => by simp [send_load_requests] at hp, h.update_queue⟩, rfl⟩

theorem update_neighbor_inv (s : Terrain) (npos : Vector3i) (h : Inv s)
    (hl : s.blocks_pending_load = []) : Inv (update_neighbor s npos) := by
  unfold update_neighbor
  split_ifs
  · split
    · exact h
    · rename_i hne
      refine ⟨?_, ?_, ?_⟩
      · intro p hp
        by_cases hpp : p = npos
        · subst hpp; simp at hp
        · simp only [Function.update_noteq hpp] at hp
          exact h.sent_resident p hp
      · intro p hp
        simp [hl] at hp
      · intro p hp _
        by_cases hpp : p = npos
        · subst hpp; simp
        · simp only [Function.update_noteq hpp]
          rcases List.mem_append.1 hp with hp | hp
          · exact h.update_queue p hp trivial
          · exact absurd (List.mem_singleton.1 hp) hpp
  · exact h

theorem foldl_update_neighbor_inv (l : List Vector3i) (c : Vector3i) (s : Terrain) (h : Inv s)
    (hl : s.blocks_pending_load = []) :
    Inv (l.foldl (fun acc ndir => update_neighbor acc (c + ndir)) s) := by
  induction l generalizing s with
  | nil => exact h
  | cons d l ih =>
    rw [List.foldl_cons]
    exact ih _ (update_neighbor_inv s (c + d) h hl)
      (by rw [(update_neighbor_stats s (c + d)).2.2.2.1, hl])

theorem set_block_buffer_blocks (s : Terrain) (bpos : Vector3i) (buffer : VoxelBuffer)
    (p : Vector3i) (hp : (s.blocks p).isSome) :
    ((set_block_buffer s bpos buffer).blocks p).isSome := by
  unfold set_block_buffer
  split
  · by_cases hpp : p = bpos
    · subst hpp; simp
    · simpa [Function.update_noteq hpp] using hp
  · by_cases hpp : p = bpos
    · subst hpp; simp
    · simpa [Function.update_noteq hpp] using hp

theorem set_block_buffer_inv (s : Terrain) (bpos : Vector3i) (buffer : VoxelBuffer) (h : Inv s) :
    Inv (set_block_buffer s bpos buffer) := by
  obtain ⟨_, k2, _, k4, k5, _⟩ := set_block_buffer_stats s bpos buffer
  refine ⟨?_, ?_, ?_⟩
  · intro p hp
    rw [k2] at hp
    exact set_block_buffer_blocks s bpos buffer p (h.sent_resident p hp)
  · intro p hp _
    rw [k4] at hp
    rw [k2]
    exact h.load_queue p hp trivial
  · intro p hp _
    rw [k5] at hp
    rw [k2]
    exact h.update_queue p hp trivial

theorem process_load_response_inv (s : Terrain) (o : EmergeOutput) (h : Inv s)
    (hl : s.blocks_pending_load = []) :
    Inv (process_load_response s o).state ∧
    (process_load_response s o).state.blocks_pending_load = [] := by
  by_cases hd : s.dirty_blocks (emerged_block_pos s o) = some BLOCK_LOAD
  · by_cases hsz : o.voxels.size = Vector3i.splat s.block_size
    · have hset := set_block_buffer_inv s (emerged_block_pos s o) o.voxels h
      have hsl : (set_block_buffer s (emerged_block_pos s o) o.voxels).blocks_pending_load
          = [] := by
        rw [(set_block_buffer_stats _ _ _).2.2.2.1, hl]
      cases hb : has_block s (emerged_block_pos s o)
      · rw [process_load_response_install s o hd hsz hb]
        simp only [Flow.state]
        exact ⟨foldl_update_neighbor_inv _ _ _ hset hsl,
          by rw [(foldl_update_neighbor_stats _ _ _).2.2.2.1, hsl]⟩
      · rw [process_load_response_resupply s o hd hsz hb]
        simp only [Flow.state]
        refine ⟨⟨?_, ?_, ?_⟩, hsl⟩
        · intro p hp
          by_cases hpp : p = emerged_block_pos s o
          · subst hpp; simp at hp
          · simp only [Function.update_noteq hpp] at hp
            exact hset.sent_resident p hp
        · intro p hp
          simp [hsl] at hp
        · intro p hp _
          by_cases hpp : p = emerged_block_pos s o
          · subst hpp; simp
          · simp only [Function.update_noteq hpp]
            rcases List.mem_append.1 hp with hp | hp
            · exact hset.update_queue p hp trivial
            · exact absurd (List.mem_singleton.1 hp) hpp
    · rw [process_load_response_mismatch s o hd hsz]
      exact ⟨h, hl⟩
  · rw [process_load_response_stale s o hd]
    exact ⟨⟨h.sent_resident, h.load_queue, h.update_queue⟩, hl⟩

theorem process_load_loop_inv (batch : List EmergeOutput) (s : Terrain) (h : Inv s)
    (hl : s.blocks_pending_load = []) :
    Inv (process_load_loop s batch).state ∧
    (process_load_loop s batch).state.blocks_pending_load = [] := by
  induction batch generalizing s with
  | nil => exact ⟨h, hl⟩
  | cons o rest ih =>
    have hstep := process_load_response_inv s o h hl
    simp only [process_load_loop]
    cases hr : process_load_response s o with
    | next s1 =>
      rw [hr] at hstep
      exact ih s1 hstep.1 hstep.2
    | ret s1 =>
      rw [hr] at hstep
      exact hstep

theorem process_load_responses_inv (s : Terrain) (batch : List EmergeOutput) (h : Inv s)
    (hl : s.blocks_pending_load = []) :
    Inv (process_load_responses s batch).state ∧
    (process_load_responses s batch).state.blocks_pending_load = [] :=
  process_load_loop_inv batch (pop_load_responses s batch)
    ⟨h.sent_resident, h.load_queue, h.update_queue⟩ hl

theorem send_mesh_update_sent_resident (acc acc1 : Terrain × List Vector3i) (q : Vector3i)
    (h : send_mesh_update acc q = some acc1)
    (hsr : ∀ p, acc.1.dirty_blocks p = some BLOCK_UPDATE_SENT → (acc.1.blocks p).isSome) :
    (∀ p, acc1.1.dirty_blocks p = some BLOCK_UPDATE_SENT → (acc1.1.blocks p).isSome) ∧
    acc1.1.blocks_pending_load = acc.1.blocks_pending_load ∧
    acc1.1.blocks_pending_main_thread_update = acc.1.blocks_pending_main_thread_update := by
  rcases send_mesh_update_some acc acc1 q h with ⟨_, rfl⟩ | ⟨b, hb, _, _, rfl⟩ | ⟨b, hb, _, _, rfl⟩
  · exact ⟨hsr, rfl, rfl⟩
  · refine ⟨?_, rfl, rfl⟩
    intro p hp
    by_cases hpq : p = q
    · subst hpq; simp at hp
    · simp only [Function.update_noteq hpq] at hp ⊢
      exact hsr p hp
  · refine ⟨?_, rfl, rfl⟩
    intro p hp
    by_cases hpq : p = q
    · subst hpq; simp [hb]
    · simp only [Function.update_noteq hpq] at hp
      exact hsr p hp

theorem send_mesh_loop_sent_resident (l : List Vector3i) (acc r : Terrain × List Vector3i)
    (h : send_mesh_loop acc l = some r)
    (hsr : ∀ p, acc.1.dirty_blocks p = some BLOCK_UPDATE_SENT → (acc.1.blocks p).isSome) :
    (∀ p, r.1.dirty_blocks p = some BLOCK_UPDATE_SENT → (r.1.blocks p).isSome) ∧
    r.1.blocks_pending_load = acc.1.blocks_pending_load ∧
    r.1.blocks_pending_main_thread_update = acc.1.blocks_pending_main_thread_update := by
  induction l generalizing acc with
  | nil =>
    simp only [send_mesh_loop, Option.some.injEq] at h
    subst h
    exact ⟨hsr, rfl, rfl⟩
  | cons q l ih =>
    rw [send_mesh_loop_cons] at h
    cases h1 : send_mesh_update acc q with
    | none => rw [h1] at h; simp at h
    | some acc1 =>
      rw [h1] at h
      simp only [Option.some_bind] at h
      obtain ⟨k1, k2, k3⟩ := send_mesh_update_sent_resident acc acc1 q h1 hsr
      obtain ⟨r1, r2, r3⟩ := ih acc1 h k1
      exact ⟨r1, r2.trans k2, r3.trans k3⟩

theorem send_mesh_updates_inv (s s1 : Terrain) (batch : List Vector3i)
    (h : send_mesh_updates s = some (s1, batch)) (hinv : Inv s)
    (hl : s.blocks_pending_load = []) :
    Inv s1 ∧ s1.blocks_pending_load = [] ∧ s1.blocks_pending_update = [] ∧
    s1.blocks_pending_main_thread_update = s.blocks_pending_main_thread_update := by
  obtain ⟨r, hr, rfl, rfl⟩ := send_mesh_updates_some s s1 batch h
  obtain ⟨r1, r2, r3⟩ := send_mesh_loop_sent_resident _ (s, []) r hr hinv.sent_resident
  refine ⟨⟨r1, ?_, ?_⟩, ?_, rfl, r3⟩
  · intro p hp
    simp only at hp
    rw [r2, hl] at hp
    simp at hp
  · intro p hp
    simp at hp
  · simp only
    rw [r2, hl]

theorem clear_sent_entry_sent_resident (s : Terrain) (pos : Vector3i)
    (hsr : ∀ p, s.dirty_blocks p = some BLOCK_UPDATE_SENT → (s.blocks p).isSome) :
    ∀ p, (clear_sent_entry s pos).dirty_blocks p = some BLOCK_UPDATE_SENT →
      ((clear_sent_entry s pos).blocks p).isSome := by
  intro p hp
  rw [(clear_sent_entry_frame s pos).1]
  unfold clear_sent_entry at hp
  split at hp
  · by_cases hpp : p = pos
    · subst hpp; simp at hp
    · simp only [Function.update_noteq hpp] at hp
      exact hsr p hp
  · exact hsr p hp

theorem commit_block_sent_resident (s : Terrain) (ob : OutputBlock)
    (hsr : ∀ p, s.dirty_blocks p = some BLOCK_UPDATE_SENT → (s.blocks p).isSome) :
    ∀ p, (commit_block s ob).dirty_blocks p = some BLOCK_UPDATE_SENT →
      ((commit_block s ob).blocks p).isSome := by
  have hc := clear_sent_entry_sent_resident s ob.position hsr
  have hb := (clear_sent_entry_frame s ob.position).1
  cases hblk : s.blocks ob.position with
  | none =>
    rw [commit_block_absent s ob hblk]
    exact hc
  | some block =>
    rw [commit_block_resident s ob block hblk]
    intro p hp
    have := hc p hp
    rw [hb] at this
    by_cases hpp : p = ob.position
    · subst hpp; simp
    · simpa [Function.update_noteq hpp] using this

theorem foldl_commit_block_sent_resident (l : List OutputBlock) (s : Terrain)
    (hsr : ∀ p, s.dirty_blocks p = some BLOCK_UPDATE_SENT → (s.blocks p).isSome) :
    ∀ p, (l.foldl commit_block s).dirty_blocks p = some BLOCK_UPDATE_SENT →
      ((l.foldl commit_block s).blocks p).isSome := by
  induction l generalizing s with
  | nil => exact hsr
  | cons ob l ih =>
    rw [List.foldl_cons]
    exact ih _ (commit_block_sent_resident s ob hsr)

theorem foldl_commit_block_frame (l : List OutputBlock) (s : Terrain) :
    (l.foldl commit_block s).blocks_pending_load = s.blocks_pending_load ∧
    (l.foldl commit_block s).blocks_pending_update = s.blocks_pending_update := by
  induction l generalizing s with
  | nil => exact ⟨rfl, rfl⟩
  | cons ob l ih =>
    rw [List.foldl_cons]
    obtain ⟨h1, h2⟩ := ih (commit_block s ob)
    obtain ⟨_, k2, k3, _⟩ := commit_block_frame s ob
    exact ⟨h1.trans k2, h2.trans k3⟩

theorem process_mesh_responses_inv (s : Terrain) (blocks : List OutputBlock)
    (clock : Nat → Nat) (hinv : Inv s) (hl : s.blocks_pending_load = [])
    (hu : s.blocks_pending_update = []) :
    Inv (process_mesh_responses s blocks clock) := by
  rw [process_mesh_responses_eq s blocks clock]
  generalize (commit_loop clock (commit_timeout clock) 2 (pop_mesh_responses s blocks)
    (s.blocks_pending_main_thread_update ++ blocks)).2 = k
  have hsr := foldl_commit_block_sent_resident
    ((s.blocks_pending_main_thread_update ++ blocks).take k) (pop_mesh_responses s blocks)
    hinv.sent_resident
  obtain ⟨f1, f2⟩ := foldl_commit_block_frame
    ((s.blocks_pending_main_thread_update ++ blocks).take k) (pop_mesh_responses s blocks)
  refine ⟨hsr, ?_, ?_⟩
  · intro p hp'
    simp only at hp'
    rw [f1] at hp'
    simp [pop_mesh_responses, hl] at hp'
  · intro p hp'
    simp only at hp'
    rw [f2] at hp'
    simp [pop_mesh_responses, hu] at hp'

theorem process_of_ret (s s3 : Terrain) (inp : TickInput)
    (h : process_load_responses (send_load_requests (detect_required_blocks s inp.viewer))
      inp.emerged_blocks = Flow.ret s3) :
    _process s inp = Outcome.failed s3 := by
  simp only [_process, h]

theorem process_of_crash (s s3 : Terrain) (inp : TickInput)
    (h : process_load_responses (send_load_requests (detect_required_blocks s inp.viewer))
      inp.emerged_blocks = Flow.next s3)
    (hm : send_mesh_updates s3 = none) :
    _process s inp = Outcome.crashed := by
  simp only [_process, h, hm]

theorem process_of_done (s s3 s4 : Terrain) (batch : List Vector3i) (inp : TickInput)
    (h : process_load_responses (send_load_requests (detect_required_blocks s inp.viewer))
      inp.emerged_blocks = Flow.next s3)
    (hm : send_mesh_updates s3 = some (s4, batch)) :
    _process s inp = Outcome.done (process_mesh_responses s4 inp.mesh_blocks inp.clock) := by
  simp only [_process, h, hm]

/-- Every outcome of `_process` other than a crash leaves the invariant. -/
theorem process_inv (s : Terrain) (inp : TickInput) (h : Inv s) :
    (∀ s1, _process s inp = Outcome.done s1 → Inv s1) ∧
    (∀ s1, _process s inp = Outcome.failed s1 → Inv s1) := by
  have h1 := detect_required_blocks_inv s inp.viewer h
  obtain ⟨h2, l2⟩ := send_load_requests_inv _ h1
  obtain ⟨h3, l3⟩ := process_load_responses_inv _ inp.emerged_blocks h2 l2
  cases hr : process_load_responses (send_load_requests (detect_required_blocks s inp.viewer))
      inp.emerged_blocks with
  | ret s3 =>
    rw [hr] at h3
    rw [process_of_ret s s3 inp hr]
    refine ⟨fun s1 e => by simp at e, fun s1 e => ?_⟩
    simp only [Outcome.failed.injEq] at e
    subst e
    exact h3
  | next s3 =>
    rw [hr] at h3 l3
    simp only [Flow.state] at h3 l3
    cases hm : send_mesh_updates s3 with
    | none =>
      rw [process_of_crash s s3 inp hr hm]
      exact ⟨fun s1 e => by simp at e, fun s1 e => by simp at e⟩
    | some r =>
      obtain ⟨s4, batch⟩ := r
      obtain ⟨h4, l4, u4, _⟩ := send_mesh_updates_inv s3 s4 batch hm h3 l3
      rw [process_of_done s s3 s4 batch inp hr hm]
      refine ⟨fun s1 e => ?_, fun s1 e => by simp at e⟩
      simp only [Outcome.done.injEq] at e
      subst e
      exact process_mesh_responses_inv s4 _ _ h4 l4 u4

theorem set_view_distance_cases (s : Terrain) (d : Int) :
    set_view_distance s d = s ∨
    set_view_distance s d = { s with view_distance_blocks := Int.tdiv d s.block_size } := by
  unfold set_view_distance
  by_cases h1 : d < 0
  · simp [h1]
  · by_cases h2 : Int.tdiv d s.block_size ≠ s.view_distance_blocks
    · right; simp [h1, h2]
    · left; simp [h1, h2]

theorem op_run_inv (s s1 : Terrain) (op : Op) (h : Inv s) (hr : op.run s = some s1) : Inv s1 := by
  cases op with
  | tick inp =>
    obtain ⟨hd, hf⟩ := process_inv s inp h
    simp only [Op.run] at hr
    cases ho : _process s inp with
    | done s2 =>
      rw [ho] at hr
      simp only [Option.some.injEq] at hr
      subst hr
      exact hd _ ho
    | failed s2 =>
      rw [ho] at hr
      simp only [Option.some.injEq] at hr
      subst hr
      exact hf _ ho
    | crashed => rw [ho] at hr; simp at hr
  | block_dirty bpos =>
    simp only [Op.run, Option.some.injEq] at hr
    subst hr
    exact make_block_dirty_inv _ s bpos h trivial
  | voxel_dirty pos =>
    simp only [Op.run, Option.some.injEq] at hr
    subst hr
    exact foldl_make_block_dirty_inv _ s h
  | area_dirty box =>
    simp only [Op.run, Option.some.injEq] at hr
    subst hr
    exact foldl_make_block_dirty_inv _ s h
  | view_distance d =>
    simp only [Op.run, Option.some.injEq] at hr
    subst hr
    rcases set_view_distance_cases s d with e | e
    · rw [e]; exact h
    · rw [e]; exact ⟨h.sent_resident, h.load_queue, h.update_queue⟩
  | all_view_dirty_deferred =>
    simp only [Op.run, Option.some.injEq] at hr
    subst hr
    exact ⟨h.sent_resident, h.load_queue, h.update_queue⟩

theorem reachable_inv (allowed : Op → Prop) (B : Int) (s : Terrain)
    (h : ReachableBy allowed B s) : Inv s := by
  induction h with
  | init => exact fresh_inv B
  | step _ _ _ hr ih => exact op_run_inv _ _ _ ih hr

theorem clear_sent_entry_of_absent (s : Terrain) (pos : Vector3i)
    (hsr : ∀ p, s.dirty_blocks p = some BLOCK_UPDATE_SENT → (s.blocks p).isSome)
    (h : s.blocks pos = none) : clear_sent_entry s pos = s := by
  unfold clear_sent_entry
  split
  · rename_i hd
    have := hsr pos hd
    rw [h] at this
    simp at this
  · rfl

/-- C7: in a tick that starts in a state reachable by the manager's operations
and reaches the commit step, when the commit loop comes to the entry `ob` at
index `k` of the pending-main-thread-commit queue (the state then is the one
obtained by committing the first `k` entries) and no block is resident at
`ob.position`, the iteration increments `dropped_updater_blocks` by one and
changes nothing else: no mesh is installed, and the dirty-state map and the
Spatial Index are unchanged. -/
theorem commit_drop_nonresident (B : Int) (s : Terrain) (inp : TickInput) (s3 s4 : Terrain)
    (batch : List Vector3i) (k : Nat) (ob : OutputBlock)
    (hs : Reachable B s)
    (h3 : process_load_responses (send_load_requests (detect_required_blocks s inp.viewer))
      inp.emerged_blocks = Flow.next s3)
    (h4 : send_mesh_updates s3 = some (s4, batch))
    (hk : (s4.blocks_pending_main_thread_update ++ inp.mesh_blocks)[k]? = some ob)
    (hnone : (((s4.blocks_pending_main_thread_update ++ inp.mesh_blocks).take k).foldl
      commit_block (pop_mesh_responses s4 inp.mesh_blocks)).blocks ob.position = none) :
    commit_block
        (((s4.blocks_pending_main_thread_update ++ inp.mesh_blocks).take k).foldl
          commit_block (pop_mesh_responses s4 inp.mesh_blocks)) ob =
      { (((s4.blocks_pending_main_thread_update ++ inp.mesh_blocks).take k).foldl
          commit_block (pop_mesh_responses s4 inp.mesh_blocks)) with
        stats :=
          { (((s4.blocks_pending_main_thread_update ++ inp.mesh_blocks).take k).foldl
              commit_block (pop_mesh_responses s4 inp.mesh_blocks)).stats with
            dropped_updater_blocks :=
              (((s4.blocks_pending_main_thread_update ++ inp.mesh_blocks).take k).foldl
                commit_block
                (pop_mesh_responses s4 inp.mesh_blocks)).stats.dropped_updater_blocks + 1 } } := by
  have _ := hk
  have h0 := reachable_inv _ B s hs
  have h1 := detect_required_blocks_inv s inp.viewer h0
  obtain ⟨h2, l2⟩ := send_load_requests_inv _ h1
  obtain ⟨h3', l3⟩ := process_load_responses_inv _ inp.emerged_blocks h2 l2
  rw [h3] at h3' l3
  simp only [Flow.state] at h3' l3
  obtain ⟨h4', _, _, _⟩ := send_mesh_updates_inv s3 s4 batch h4 h3' l3
  have hsr := foldl_commit_block_sent_resident
    ((s4.blocks_pending_main_thread_update ++ inp.mesh_blocks).take k)
    (pop_mesh_responses s4 inp.mesh_blocks) h4'.sent_resident
  generalize ((s4.blocks_pending_main_thread_update ++ inp.mesh_blocks).take k).foldl
    commit_block (pop_mesh_responses s4 inp.mesh_blocks) = t at hsr hnone ⊢
  rw [commit_block_absent t ob hnone, clear_sent_entry_of_absent t ob.position hsr hnone]

/-- Witness for C7: after `set_view_distance(0)` on the fresh manager, a tick
that pops a mesh result for the non-resident `sample_pos` drops it. -/
theorem commit_drop_nonresident_witness :
    (commit_block (pop_mesh_responses
        { send_load_requests (detect_required_blocks sample_idle none) with
          provider_requests := [], stats := ⟨0, 0, 0⟩ } [sample_result])
      sample_result).stats.dropped_updater_blocks = 1 ∧
    (commit_block (pop_mesh_responses
        { send_load_requests (detect_required_blocks sample_idle none) with
          provider_requests := [], stats := ⟨0, 0, 0⟩ } [sample_result])
      sample_result).blocks sample_pos = none :=
  ⟨congrArg (fun t => t.stats.dropped_updater_blocks)
      (commit_drop_nonresident 16 sample_idle sample_tick _ _ _ 0 sample_result
        (@ReachableBy.step (fun _ => True) 16 (fresh 16) sample_idle (Op.view_distance 0)
          ReachableBy.init trivial trivial rfl) rfl rfl rfl rfl),
    congrArg (fun t => t.blocks sample_pos)
      (commit_drop_nonresident 16 sample_idle sample_tick _ _ _ 0 sample_result
        (@ReachableBy.step (fun _ => True) 16 (fresh 16) sample_idle (Op.view_distance 0)
          ReachableBy.init trivial trivial rfl) rfl rfl rfl rfl)⟩

/-! ## The required-area diff loop -/

theorem make_block_dirty_eq (s : Terrain) (q : Vector3i) :
    make_block_dirty s q =
      { s with
        dirty_blocks := Function.update s.dirty_blocks q
          (dirty_after (s.dirty_blocks q) (has_block s q))
        blocks_pending_load :=
          s.blocks_pending_load ++ (if loads_on_dirty s q = true then [q] else [])
        blocks_pending_update :=
          s.blocks_pending_update ++ (if updates_on_dirty s q = true then [q] else []) } := by
  cases hd : s.dirty_blocks q with
  | none =>
    cases hb : has_block s q
    · rw [make_block_dirty_of_none_absent s q hd hb]
      simp [dirty_after, loads_on_dirty, updates_on_dirty, hd, hb]
    · rw [make_block_dirty_of_none_resident s q hd hb]
      simp [dirty_after, loads_on_dirty, updates_on_dirty, hd, hb]
  | some st =>
    by_cases hst : st = BLOCK_UPDATE_SENT
    · subst hst
      rw [make_block_dirty_of_sent s q hd]
      simp [dirty_after, loads_on_dirty, updates_on_dirty, hd]
    · rw [make_block_dirty_of_other s q st hd hst]
      have h1 : dirty_after (some st) (has_block s q) = some st := by
        cases st <;> simp_all [dirty_after]
      have h2 : Function.update s.dirty_blocks q (some st) = s.dirty_blocks := by
        rw [← hd]; exact Function.update_eq_self q s.dirty_blocks
      simp [loads_on_dirty, updates_on_dirty, hd, hst, h1, h2]

/-- The state after the diff loop has visited the distinct positions `l`:
blocks and entries are erased at the visited positions that left the box,
`make_block_dirty` has acted at the visited positions that entered it, and
nothing else has changed. -/
theorem foldl_update_required_block_spec (P N : Rect3i) (s : Terrain) (l : List Vector3i)
    (hl : l.Nodup) :
    (∀ q, (l.foldl (update_required_block P N) s).blocks q =
      if q ∈ l ∧ P.contains q = true ∧ N.contains q = false then none else s.blocks q) ∧
    (∀ q, (l.foldl (update_required_block P N) s).dirty_blocks q =
      if q ∈ l ∧ P.contains q = true ∧ N.contains q = false then none
      else if q ∈ l ∧ P.contains q = false ∧ N.contains q = true then
        dirty_after (s.dirty_blocks q) (has_block s q)
      else s.dirty_blocks q) ∧
    (l.foldl (update_required_block P N) s).blocks_pending_load =
      s.blocks_pending_load ++
        l.filter (fun q => !P.contains q && N.contains q && loads_on_dirty s q) ∧
    (l.foldl (update_required_block P N) s).blocks_pending_update =
      s.blocks_pending_update ++
        l.filter (fun q => !P.contains q && N.contains q && updates_on_dirty s q) := by
  induction l using List.reverseRecOn with
  | nil => simp
  | append_singleton l a ih =>
    have hnd : l.Nodup ∧ a ∉ l := by
      rw [List.nodup_append] at hl
      refine ⟨hl.1, fun ha => hl.2.2 ha (List.mem_singleton.2 rfl)⟩
    obtain ⟨ib, idt, il, iu⟩ := ih hnd.1
    rw [List.foldl_append, List.foldl_cons, List.foldl_nil]
    generalize l.foldl (update_required_block P N) s = t at ib idt il iu
    have tb : t.blocks a = s.blocks a := by
      rw [ib a, if_neg (fun h => hnd.2 h.1)]
    have td : t.dirty_blocks a = s.dirty_blocks a := by
      rw [idt a, if_neg (fun h => hnd.2 h.1), if_neg (fun h => hnd.2 h.1)]
    have thb : has_block t a = has_block s a := by simp [has_block, tb]
    have tl : loads_on_dirty t a = loads_on_dirty s a := by simp [loads_on_dirty, td, thb]
    have tu : updates_on_dirty t a = updates_on_dirty s a := by
      simp [updates_on_dirty, td, thb]
    rcases update_required_block_cases P N t a with ⟨hP, hN, e⟩ | ⟨hP, hN, e⟩ | ⟨hPN, e⟩
    · rw [e]
      refine ⟨?_, ?_, ?_, ?_⟩
      · intro q
        by_cases hq : q = a
        · subst hq; simp [immerge_block, hP, hN]
        · simp [immerge_block, Function.update_noteq hq, ib q, hq]
      · intro q
        by_cases hq : q = a
        · subst hq; simp [immerge_block, hP, hN]
        · simp [immerge_block, Function.update_noteq hq, idt q, hq]
      · simp [immerge_block, il, List.filter_append, hP, hN]
      · simp [immerge_block, iu, List.filter_append, hP, hN]
    · rw [e, make_block_dirty_eq t a]
      refine ⟨?_, ?_, ?_, ?_⟩
      · intro q
        by_cases hq : q = a
        · subst hq; simp [tb, hP, hN]
        · simp [ib q, hq]
      · intro q
        by_cases hq : q = a
        · subst hq; simp [td, thb, hP, hN]
        · simp [Function.update_noteq hq, idt q, hq]
      · simp [il, List.filter_append, List.filter_cons, hP, hN, tl]
      · simp [iu, List.filter_append, List.filter_cons, hP, hN, tu]
    · rw [e]
      refine ⟨?_, ?_, ?_, ?_⟩
      · intro q
        by_cases hq : q = a
        · subst hq
          rw [tb, if_neg]
          rintro ⟨_, h1, h2⟩
          rw [h1, h2] at hPN
          exact absurd hPN (by decide)
        · simp [ib q, hq]
      · intro q
        by_cases hq : q = a
        · subst hq
          rw [td, if_neg, if_neg]
          · rintro ⟨_, h1, h2⟩
            rw [h1, h2] at hPN
            exact absurd hPN (by decide)
          · rintro ⟨_, h1, h2⟩
            rw [h1, h2] at hPN
            exact absurd hPN (by decide)
        · simp [idt q, hq]
      · have hf : (!P.contains a && N.contains a && loads_on_dirty s a) = false := by
          rw [hPN]; cases N.contains a <;> simp
        simp [il, List.filter_append, hf]
      · have hf : (!P.contains a && N.contains a && updates_on_dirty s a) = false := by
          rw [hPN]; cases N.contains a <;> simp
        simp [iu, List.filter_append, hf]

theorem int_range_nodup (lo hi : Int) : (int_range lo hi).Nodup := by
  unfold int_range
  refine List.Nodup.map ?_ (List.nodup_range _)
  intro a b h
  simp only at h
  omega

theorem box_positions_nodup (pos max : Vector3i) : (box_positions pos max).Nodup := by
  unfold box_positions
  rw [List.nodup_flatMap]
  constructor
  · intro z _
    rw [List.nodup_flatMap]
    constructor
    · intro y _
      refine List.Nodup.map ?_ (int_range_nodup _ _)
      intro a b h
      simp only [Vector3i.mk.injEq] at h
      exact h.1
    · refine List.Pairwise.imp ?_ (int_range_nodup pos.y max.y)
      intro a b hab
      rw [Function.onFun, List.disjoint_left]
      intro v hv1 hv2
      simp only [List.mem_map] at hv1 hv2
      obtain ⟨x1, _, rfl⟩ := hv1
      obtain ⟨x2, _, h2⟩ := hv2
      simp only [Vector3i.mk.injEq] at h2
      exact hab h2.2.1.symm
  · refine List.Pairwise.imp ?_ (int_range_nodup pos.z max.z)
    intro a b hab
    rw [Function.onFun, List.disjoint_left]
    intro v hv1 hv2
    simp only [List.mem_flatMap, List.mem_map] at hv1 hv2
    obtain ⟨y1, _, x1, _, rfl⟩ := hv1
    obtain ⟨y2, _, x2, _, h2⟩ := hv2
    simp only [Vector3i.mk.injEq] at h2
    exact hab h2.2.2.symm

theorem contains_iff (b : Rect3i) (p : Vector3i) :
    b.contains p = true ↔
      (b.pos.x ≤ p.x ∧ p.x < b.pos.x + b.size.x) ∧ (b.pos.y ≤ p.y ∧ p.y < b.pos.y + b.size.y) ∧
      (b.pos.z ≤ p.z ∧ p.z < b.pos.z + b.size.z) := by
  simp only [Rect3i.contains, Bool.and_eq_true, decide_eq_true_eq]
  constructor
  · rintro ⟨⟨⟨⟨⟨h1, h2⟩, h3⟩, h4⟩, h5⟩, h6⟩
    exact ⟨⟨h1, h4⟩, ⟨h2, h5⟩, ⟨h3, h6⟩⟩
  · rintro ⟨⟨h1, h4⟩, ⟨h2, h5⟩, ⟨h3, h6⟩⟩
    exact ⟨⟨⟨⟨⟨h1, h2⟩, h3⟩, h4⟩, h5⟩, h6⟩

/-- The diff loop visits every position of both boxes. -/
theorem mem_bounds_of_contains (P N : Rect3i) (q : Vector3i)
    (h : P.contains q = true ∨ N.contains q = true) :
    q ∈ box_positions (Rect3i.get_bounding_box P N).pos
      ((Rect3i.get_bounding_box P N).pos + (Rect3i.get_bounding_box P N).size) := by
  rw [mem_box_positions]
  simp only [contains_iff] at h
  simp only [Rect3i.get_bounding_box, vector3i_add_def]
  omega

theorem update_required_blocks_pristine (s : Terrain) (P N : Rect3i)
    (hb : s.blocks = fun _ => none) (hd : s.dirty_blocks = fun _ => none)
    (hl : s.blocks_pending_load = []) (hu : s.blocks_pending_update = []) :
    (update_required_blocks s P N).blocks = (fun _ => none) ∧
    (∀ q, (update_required_blocks s P N).dirty_blocks q =
      if N.contains q = true ∧ P.contains q = false then some BLOCK_LOAD else none) ∧
    (update_required_blocks s P N).blocks_pending_load.Nodup ∧
    (∀ q, q ∈ (update_required_blocks s P N).blocks_pending_load ↔
      N.contains q = true ∧ P.contains q = false) ∧
    (update_required_blocks s P N).blocks_pending_update = [] := by
  unfold update_required_blocks
  by_cases hPN : P = N
  · subst hPN
    simp only [ne_eq, not_true_eq_false, if_false, hl, hu, hb, hd]
    refine ⟨trivial, ?_, List.nodup_nil, ?_, trivial⟩
    · intro q
      rw [if_neg]
      rintro ⟨h1, h2⟩
      rw [h1] at h2
      exact absurd h2 (by decide)
    · intro q
      constructor
      · intro h; simp at h
      · rintro ⟨h1, h2⟩
        rw [h1] at h2
        exact absurd h2 (by decide)
  · simp only [ne_eq, hPN, not_false_eq_true, if_true]
    obtain ⟨g1, g2, g3, g4⟩ := foldl_update_required_block_spec P N s _
      (box_positions_nodup (Rect3i.get_bounding_box P N).pos
        ((Rect3i.get_bounding_box P N).pos + (Rect3i.get_bounding_box P N).size))
    have hmem := mem_bounds_of_contains P N
    have hloads : ∀ q, loads_on_dirty s q = true := by
      intro q; simp [loads_on_dirty, has_block, hb, hd]
    have hupd : ∀ q, updates_on_dirty s q = false := by
      intro q; simp [updates_on_dirty, has_block, hb, hd]
    refine ⟨?_, ?_, ?_, ?_, ?_⟩
    · funext q
      rw [g1 q, hb]
      simp
    · intro q
      rw [g2 q, hd]
      by_cases hN : N.contains q = true
      · cases hP : P.contains q
        · simp [hN, hmem q (Or.inr hN), dirty_after, has_block, hb]
        · simp [hN]
      · have hN' : N.contains q = false := by simpa using hN
        simp [hN']
    · rw [g3, hl, List.nil_append]
      exact (box_positions_nodup _ _).filter _
    · intro q
      rw [g3, hl, List.nil_append, List.mem_filter]
      simp only [hloads, Bool.and_true, Bool.and_eq_true, Bool.not_eq_true']
      constructor
      · rintro ⟨_, h1, h2⟩
        exact ⟨h2, h1⟩
      · rintro ⟨h1, h2⟩
        exact ⟨hmem q (Or.inr h1), h2, h1⟩
    · rw [g4, hu, List.nil_append, List.filter_eq_nil_iff]
      intro q _
      simp [hupd]

theorem remove_positions_outside_box_nil (box : Rect3i)
    (m : Vector3i → Option BlockDirtyState) :
    remove_positions_outside_box [] box m = ([], m) := rfl

/-- The first block of `_process` on a state without resident blocks, entries
or queued coordinates: exactly the coordinates of the new box outside the
previous one become `LOAD`, each once in the pending-load queue. -/
theorem detect_required_blocks_pristine (s : Terrain) (viewer : Option Vector3i)
    (hb : s.blocks = fun _ => none) (hd : s.dirty_blocks = fun _ => none)
    (hl : s.blocks_pending_load = []) (hu : s.blocks_pending_update = []) :
    (detect_required_blocks s viewer).blocks = (fun _ => none) ∧
    (∀ q, (detect_required_blocks s viewer).dirty_blocks q =
      if (required_box s viewer).contains q = true ∧ (previous_box s).contains q = false
      then some BLOCK_LOAD else none) ∧
    (detect_required_blocks s viewer).blocks_pending_load.Nodup ∧
    (∀ q, q ∈ (detect_required_blocks s viewer).blocks_pending_load ↔
      (required_box s viewer).contains q = true ∧ (previous_box s).contains q = false) ∧
    (detect_required_blocks s viewer).blocks_pending_update = [] := by
  obtain ⟨u1, u2, u3, u4, u5⟩ :=
    update_required_blocks_pristine s (previous_box s) (required_box s viewer) hb hd hl hu
  obtain ⟨p1, m1⟩ := remove_positions_outside_box_spec
    (update_required_blocks s (previous_box s) (required_box s viewer)).blocks_pending_load
    (required_box s viewer)
    (update_required_blocks s (previous_box s) (required_box s viewer)).dirty_blocks
  have hfil : ((update_required_blocks s (previous_box s)
      (required_box s viewer)).blocks_pending_load.filter
        (fun q => (required_box s viewer).contains q))
      = (update_required_blocks s (previous_box s) (required_box s viewer)).blocks_pending_load := by
    rw [List.filter_eq_self]
    intro q hq
    exact ((u4 q).1 hq).1
  rw [hfil] at p1
  have hm : ∀ q, (remove_positions_outside_box
      (update_required_blocks s (previous_box s) (required_box s viewer)).blocks_pending_load
      (required_box s viewer)
      (update_required_blocks s (previous_box s) (required_box s viewer)).dirty_blocks).2 q
      = (update_required_blocks s (previous_box s) (required_box s viewer)).dirty_blocks q := by
    intro q
    rw [m1 q, if_neg]
    rintro ⟨hq, hc⟩
    rw [((u4 q).1 hq).1] at hc
    exact absurd hc (by decide)
  simp only [detect_required_blocks, u5, remove_positions_outside_box_nil]
  refine ⟨u1, ?_, ?_, ?_, trivial⟩
  · intro q
    rw [hm q, u2 q]
  · exact p1.nodup_iff.2 u3
  · intro q
    rw [p1.mem_iff, u4 q]

/-! ## Ticks in which the mesh pipeline is idle -/

theorem detect_required_blocks_frame (s : Terrain) (viewer : Option Vector3i) :
    (detect_required_blocks s viewer).block_size = s.block_size ∧
    (detect_required_blocks s viewer).view_distance_blocks = s.view_distance_blocks ∧
    (detect_required_blocks s viewer).provider_requests = s.provider_requests ∧
    (detect_required_blocks s viewer).updater_jobs = s.updater_jobs ∧
    (detect_required_blocks s viewer).blocks_pending_main_thread_update
      = s.blocks_pending_main_thread_update ∧
    (detect_required_blocks s viewer).stats = s.stats ∧
    (detect_required_blocks s viewer).last_view_distance_blocks = s.view_distance_blocks ∧
    (detect_required_blocks s viewer).last_viewer_block_pos = viewer_block_pos s viewer := by
  obtain ⟨h1, h2, h3, h4, h5, h6⟩ :=
    update_required_blocks_frame s (previous_box s) (required_box s viewer)
  exact ⟨h1, h2, h3, h4, h5, h6, rfl, rfl⟩

theorem send_mesh_updates_nil (s : Terrain) (h : s.blocks_pending_update = []) :
    send_mesh_updates s =
      some ({ s with updater_jobs := s.updater_jobs ++ [], blocks_pending_update := [] }, []) := by
  simp [send_mesh_updates, h, send_mesh_loop]

theorem process_mesh_responses_nil (s : Terrain) (clock : Nat → Nat)
    (h : s.blocks_pending_main_thread_update = []) :
    process_mesh_responses s [] clock =
      { s with
        updater_jobs := s.updater_jobs.diff []
        stats := { s.stats with updated_blocks := 0, dropped_updater_blocks := 0 }
        blocks_pending_main_thread_update := [] } := by
  simp [process_mesh_responses, pop_mesh_responses, h, commit_loop, shift_up]

/-- A tick whose load drain runs to its end with an empty pending-update
queue, an empty commit queue and no popped mesh result only resets the mesh
statistics after the drain. -/
theorem process_idle_mesh (s s3 : Terrain) (inp : TickInput)
    (h3 : process_load_responses (send_load_requests (detect_required_blocks s inp.viewer))
      inp.emerged_blocks = Flow.next s3)
    (hu : s3.blocks_pending_update = []) (hq : s3.blocks_pending_main_thread_update = [])
    (hm : inp.mesh_blocks = []) :
    _process s inp = Outcome.done
      { s3 with
        stats := { s3.stats with updated_blocks := 0, dropped_updater_blocks := 0 } } := by
  rw [process_of_done s s3 _ [] inp h3 (send_mesh_updates_nil s3 hu), hm,
    process_mesh_responses_nil
      { s3 with updater_jobs := s3.updater_jobs ++ [], blocks_pending_update := [] }
      inp.clock hq]
  simp only [List.append_nil, List.diff_nil]
  cases s3
  simp_all

theorem process_load_responses_nil (s : Terrain) :
    process_load_responses s [] =
      Flow.next { s with stats := { s.stats with dropped_provider_blocks := 0 } } := by
  simp [process_load_responses, pop_load_responses, process_load_loop]

theorem terrain_ext_fields (s t : Terrain) (h1 : s.block_size = t.block_size)
    (h2 : s.blocks = t.blocks) (h3 : s.view_distance_blocks = t.view_distance_blocks)
    (h4 : s.last_view_distance_blocks = t.last_view_distance_blocks)
    (h5 : s.last_viewer_block_pos = t.last_viewer_block_pos)
    (h6 : s.dirty_blocks = t.dirty_blocks)
    (h7 : s.blocks_pending_load = t.blocks_pending_load)
    (h8 : s.blocks_pending_update = t.blocks_pending_update)
    (h9 : s.blocks_pending_main_thread_update = t.blocks_pending_main_thread_update)
    (h10 : s.stats = t.stats) (h11 : s.provider_requests = t.provider_requests)
    (h12 : s.updater_jobs = t.updater_jobs) : s = t := by
  cases s
  cases t
  simp only [Terrain.mk.injEq]
  exact ⟨h1, h2, h3, h4, h5, h6, h7, h8, h9, h10, h11, h12⟩

theorem detect_required_blocks_same_box (s : Terrain) (viewer : Option Vector3i)
    (hbox : previous_box s = required_box s viewer)
    (hl : s.blocks_pending_load = []) (hu : s.blocks_pending_update = [])
    (hv : s.last_view_distance_blocks = s.view_distance_blocks)
    (hp : s.last_viewer_block_pos = viewer_block_pos s viewer) :
    detect_required_blocks s viewer = s := by
  have e1 : update_required_blocks s (previous_box s) (required_box s viewer) = s := by
    simp [update_required_blocks, hbox]
  apply terrain_ext_fields
  · show (update_required_blocks s (previous_box s) (required_box s viewer)).block_size = _
    rw [e1]
  · show (update_required_blocks s (previous_box s) (required_box s viewer)).blocks = _
    rw [e1]
  · show (update_required_blocks s (previous_box s) (required_box s viewer)).view_distance_blocks
      = _
    rw [e1]
  · exact hv.symm
  · exact hp.symm
  · show (remove_positions_outside_box
      (update_required_blocks s (previous_box s) (required_box s viewer)).blocks_pending_update
      (required_box s viewer) (remove_positions_outside_box
        (update_required_blocks s (previous_box s) (required_box s viewer)).blocks_pending_load
        (required_box s viewer)
        (update_required_blocks s (previous_box s)
          (required_box s viewer)).dirty_blocks).2).2 = _
    rw [e1, hl, hu]
    rfl
  · show (remove_positions_outside_box
      (update_required_blocks s (previous_box s) (required_box s viewer)).blocks_pending_load
      (required_box s viewer)
      (update_required_blocks s (previous_box s) (required_box s viewer)).dirty_blocks).1 = _
    rw [e1, hl]
    rfl
  · show (remove_positions_outside_box
      (update_required_blocks s (previous_box s) (required_box s viewer)).blocks_pending_update
      (required_box s viewer) (remove_positions_outside_box
        (update_required_blocks s (previous_box s) (required_box s viewer)).blocks_pending_load
        (required_box s viewer)
        (update_required_blocks s (previous_box s)
          (required_box s viewer)).dirty_blocks).2).1 = _
    rw [e1, hu]
    rfl
  · show (update_required_blocks s (previous_box s)
      (required_box s viewer)).blocks_pending_main_thread_update = _
    rw [e1]
  · show (update_required_blocks s (previous_box s) (required_box s viewer)).stats = _
    rw [e1]
  · show (update_required_blocks s (previous_box s) (required_box s viewer)).provider_requests
      = _
    rw [e1]
  · show (update_required_blocks s (previous_box s) (required_box s viewer)).updater_jobs = _
    rw [e1]

/-- When only the block at `p` is resident, no block is surrounded. -/
theorem is_block_surrounded_of_single (s : Terrain) (p npos : Vector3i)
    (h : ∀ q, q ≠ p → s.blocks q = none) : is_block_surrounded s npos = false := by
  have h1 : npos + ⟨1, 0, 0⟩ ≠ p ∨ npos + ⟨-1, 0, 0⟩ ≠ p := by
    by_contra hc
    push_neg at hc
    obtain ⟨e1, e2⟩ := hc
    rw [← e2, vector3i_ext_iff3] at e1
    simp only [vector3i_add_def] at e1
    omega
  rcases h1 with h1 | h1
  · have hb : has_block s (npos + ⟨1, 0, 0⟩) = false := by simp [has_block, h _ h1]
    simp [is_block_surrounded, hb]
  · have hb : has_block s (npos + ⟨-1, 0, 0⟩) = false := by simp [has_block, h _ h1]
    simp [is_block_surrounded, hb]

theorem foldl_update_neighbor_of_single (l : List Vector3i) (c p : Vector3i) (s : Terrain)
    (h : ∀ q, q ≠ p → s.blocks q = none) :
    l.foldl (fun acc ndir => update_neighbor acc (c + ndir)) s = s := by
  induction l with
  | nil => rfl
  | cons d l ih =>
    rw [List.foldl_cons]
    have : update_neighbor s (c + d) = s := by
      simp [update_neighbor, is_block_surrounded_of_single s p (c + d) h]
    rw [this, ih]

/-- First tick on a state without resident blocks, entries or queued work, in
which neither worker returns anything: the coordinates of the new box outside
the previous one become `LOAD` and are handed to the Loader Worker. -/
theorem quiet_tick_pristine (s : Terrain) (inp : TickInput)
    (hb : s.blocks = fun _ => none) (hd : s.dirty_blocks = fun _ => none)
    (hl : s.blocks_pending_load = []) (hu : s.blocks_pending_update = [])
    (hq : s.blocks_pending_main_thread_update = [])
    (he : inp.emerged_blocks = []) (hm : inp.mesh_blocks = []) :
    ∃ s1, _process s inp = Outcome.done s1 ∧ tick_valid s inp ∧
      s1.blocks = (fun _ => none) ∧
      (∀ q, s1.dirty_blocks q =
        if (required_box s inp.viewer).contains q = true ∧ (previous_box s).contains q = false
        then some BLOCK_LOAD else none) ∧
      s1.blocks_pending_load = [] ∧ s1.blocks_pending_update = [] ∧
      (∃ L, s1.provider_requests = s.provider_requests ++ L ∧ L.Nodup ∧
        ∀ q, q ∈ L ↔ (required_box s inp.viewer).contains q = true ∧
          (previous_box s).contains q = false) ∧
      s1.updater_jobs = s.updater_jobs ∧ s1.blocks_pending_main_thread_update = [] ∧
      s1.block_size = s.block_size ∧ s1.view_distance_blocks = s.view_distance_blocks ∧
      s1.last_view_distance_blocks = s.view_distance_blocks ∧
      s1.last_viewer_block_pos = viewer_block_pos s inp.viewer := by
  obtain ⟨d1, d2, d3, d4, d5⟩ := detect_required_blocks_pristine s inp.viewer hb hd hl hu
  obtain ⟨f1, f2, f3, f4, f5, f6, f7, f8⟩ := detect_required_blocks_frame s inp.viewer
  have h3 : process_load_responses (send_load_requests (detect_required_blocks s inp.viewer))
      inp.emerged_blocks = Flow.next
        { send_load_requests (detect_required_blocks s inp.viewer) with
          stats := { (send_load_requests (detect_required_blocks s inp.viewer)).stats with
            dropped_provider_blocks := 0 } } := by
    rw [he, process_load_responses_nil]
  have hidle := process_idle_mesh s _ inp h3 d5 (by simp only [send_load_requests]; rw [f5, hq]) hm
  refine ⟨_, hidle, ?_, d1, d2, rfl, d5, ⟨_, ?_, d3, d4⟩, f4, ?_, f1, f2, f7, f8⟩
  · refine ⟨?_, ?_⟩
    · rw [he]; exact List.nil_subperm
    · intro s3 s4 batch _ _
      rw [hm]; exact List.nil_subperm
  · simp only [send_load_requests]
    rw [f3]
  · simp only [send_load_requests]
    rw [f5, hq]

/-- A tick with an unchanged box in which the Loader Worker returns one buffer
of the right size, for a requested coordinate `p` in state `LOAD`, while no
block is resident: the block is installed, nothing is surrounded, so `p` stays
`LOAD` and nothing is queued. -/
theorem load_tick_single (s : Terrain) (inp : TickInput) (o : EmergeOutput) (p : Vector3i)
    (hb : s.blocks = fun _ => none) (hd : s.dirty_blocks p = some BLOCK_LOAD)
    (hl : s.blocks_pending_load = []) (hu : s.blocks_pending_update = [])
    (hq : s.blocks_pending_main_thread_update = [])
    (hbox : previous_box s = required_box s inp.viewer)
    (hv : s.last_view_distance_blocks = s.view_distance_blocks)
    (hvp : s.last_viewer_block_pos = viewer_block_pos s inp.viewer)
    (he : inp.emerged_blocks = [o]) (hm : inp.mesh_blocks = [])
    (hp : voxel_to_block s.block_size o.origin_in_voxels = p)
    (hsz : o.voxels.size = Vector3i.splat s.block_size)
    (hreq : p ∈ s.provider_requests) :
    ∃ s2, _process s inp = Outcome.done s2 ∧ tick_valid s inp ∧
      s2.dirty_blocks = s.dirty_blocks ∧
      s2.blocks = Function.update s.blocks p (some ⟨o.voxels, none⟩) ∧
      s2.blocks_pending_load = [] ∧ s2.blocks_pending_update = [] ∧
      s2.provider_requests = s.provider_requests.erase p ∧
      s2.updater_jobs = s.updater_jobs ∧ s2.blocks_pending_main_thread_update = [] := by
  have hdet := detect_required_blocks_same_box s inp.viewer hbox hl hu hv hvp
  have hpos : ∀ t : Terrain, t.block_size = s.block_size → emerged_block_pos t o = p := by
    intro t ht
    rw [emerged_block_pos, ht, hp]
  have hset : set_block_buffer (pop_load_responses (send_load_requests s) [o]) p o.voxels =
      { pop_load_responses (send_load_requests s) [o] with
        blocks := Function.update s.blocks p (some ⟨o.voxels, none⟩) } := by
    have : (pop_load_responses (send_load_requests s) [o]).blocks p = none := by
      show s.blocks p = none
      rw [hb]
    simp only [set_block_buffer, this]
    rfl
  have h3 : process_load_responses (send_load_requests (detect_required_blocks s inp.viewer))
      inp.emerged_blocks = Flow.next
        { pop_load_responses (send_load_requests s) [o] with
          blocks := Function.update s.blocks p (some ⟨o.voxels, none⟩) } := by
    rw [hdet, he]
    simp only [process_load_responses, process_load_loop]
    rw [process_load_response_install (pop_load_responses (send_load_requests s) [o]) o
      (by rw [hpos (pop_load_responses (send_load_requests s) [o]) rfl]; exact hd) hsz
      (by
        rw [hpos (pop_load_responses (send_load_requests s) [o]) rfl]
        show (s.blocks p).isSome = false
        rw [hb]; rfl)]
    simp only [hpos (pop_load_responses (send_load_requests s) [o]) rfl]
    rw [hset, foldl_update_neighbor_of_single _ p p]
    intro q hq
    show Function.update s.blocks p _ q = none
    rw [Function.update_noteq hq, hb]
  have hidle := process_idle_mesh s _ inp h3 hu hq hm
  refine ⟨_, hidle, ?_, rfl, rfl, rfl, hu, ?_, rfl, hq⟩
  · refine ⟨?_, ?_⟩
    · rw [he, hdet]
      simp only [List.map_cons, List.map_nil, hpos s rfl, List.singleton_subperm_iff,
        send_load_requests, hl, List.append_nil]
      exact hreq
    · intro s3 s4 batch _ _
      rw [hm]; exact List.nil_subperm
  · show (s.provider_requests ++ s.blocks_pending_load).diff [emerged_block_pos _ o] = _
    rw [hpos (send_load_requests s) rfl, hl, List.append_nil, List.diff_cons, List.diff_nil]

theorem op_run_tick_done (s s1 : Terrain) (inp : TickInput)
    (h : _process s inp = Outcome.done s1) : Op.run s (Op.tick inp) = some s1 := by
  simp [Op.run, h]

/-- C10 (counterexample): two ticks of the fresh manager (block size 16, no
viewer). In the first no worker returns anything; in the second the Loader
Worker returns the block `(1, 0, 0)` it was asked for. Afterwards `(1, 0, 0)`
still has the entry `LOAD`, although its block is resident and no work is
outstanding for it: it is in no queue, in no unanswered load request, in no
mesh job and in no waiting result. -/
theorem dirty_entry_without_work :
    ∃ s1 s2, Op.run (fresh 16) (Op.tick quiet_tick) = some s1 ∧
      tick_valid (fresh 16) quiet_tick ∧
      Op.run s1 (Op.tick load_tick) = some s2 ∧ tick_valid s1 load_tick ∧
      ReachableTD 16 s2 ∧
      s2.dirty_blocks sample_pos = some BLOCK_LOAD ∧ (s2.blocks sample_pos).isSome ∧
      ¬ work_outstanding s2 sample_pos ∧
      ¬ ((s2.dirty_blocks sample_pos).isSome ↔ work_outstanding s2 sample_pos) := by
  obtain ⟨s1, hp1, hv1, a1, a2, a3, a4, ⟨L, a5, a6, a7⟩, a8, a9, a10, a11, a12, a13⟩ :=
    quiet_tick_pristine (fresh 16) quiet_tick rfl rfl rfl rfl rfl rfl rfl
  have hN : (required_box (fresh 16) quiet_tick.viewer).contains sample_pos = true := by decide
  have hP : (previous_box (fresh 16)).contains sample_pos = false := by decide
  have hd : s1.dirty_blocks sample_pos = some BLOCK_LOAD := by
    rw [a2 sample_pos, if_pos ⟨hN, hP⟩]
  have hL : sample_pos ∈ L := (a7 sample_pos).2 ⟨hN, hP⟩
  have hreq : s1.provider_requests = L := by
    rw [a5]; rfl
  have hbs : s1.block_size = 16 := a10
  have hvd : s1.view_distance_blocks = 8 := a11
  have hlv : s1.last_view_distance_blocks = 8 := a12
  have hlp : s1.last_viewer_block_pos = Vector3i.zero := a13
  obtain ⟨s2, hp2, hv2, b1, b2, b3, b4, b5, b6, b7⟩ :=
    load_tick_single s1 load_tick ⟨⟨16, 0, 0⟩, sample_buffer⟩ sample_pos a1 hd a3 a4 a9
      (by
        show Rect3i.from_center_extents s1.last_viewer_block_pos
            (Vector3i.splat s1.last_view_distance_blocks)
          = Rect3i.from_center_extents Vector3i.zero (Vector3i.splat s1.view_distance_blocks)
        rw [hlp, hlv, hvd])
      (by rw [hlv, hvd]) hlp rfl rfl
      (by rw [hbs]; decide)
      (by rw [hbs]; rfl)
      (by rw [hreq]; exact hL)
  have hr1 : Op.run (fresh 16) (Op.tick quiet_tick) = some s1 := op_run_tick_done _ _ _ hp1
  have hr2 : Op.run s1 (Op.tick load_tick) = some s2 := op_run_tick_done _ _ _ hp2
  have hreach1 : ReachableTD 16 s1 :=
    @ReachableBy.step Op.is_tick_or_dirty 16 (fresh 16) s1 (Op.tick quiet_tick)
      ReachableBy.init rfl hv1 hr1
  have hreach : ReachableTD 16 s2 :=
    @ReachableBy.step Op.is_tick_or_dirty 16 s1 s2 (Op.tick load_tick) hreach1 rfl hv2 hr2
  have hentry : s2.dirty_blocks sample_pos = some BLOCK_LOAD := by rw [b1]; exact hd
  have hres : (s2.blocks sample_pos).isSome := by
    rw [b2, Function.update_same]; rfl
  have hwork : ¬ work_outstanding s2 sample_pos := by
    unfold work_outstanding
    rw [b3, b4, b5, b6, b7, hreq, a8]
    have := a6.not_mem_erase (a := sample_pos)
    simpa [fresh] using this
  refine ⟨s1, s2, hr1, hv1, hr2, hv2, hreach, hentry, hres, hwork, ?_⟩
  intro h
  exact hwork (h.1 (by rw [hentry]; rfl))

/-! ## The load-side invariant -/

theorem fresh_load_inv (B : Int) : LoadInv 8 (fresh B) where
  view := rfl
  last_view := Or.inl rfl
  last_pos := rfl
  req_entry := fun p h => by simp [fresh] at h
  req_absent := fun p h => by simp [fresh] at h
  req_box := fun p h => by simp [fresh] at h
  req_nodup := List.nodup_nil
  load_nodup := List.nodup_nil
  load_absent := fun p h => by simp [fresh] at h
  load_disjoint := fun p h => by simp [fresh] at h

theorem make_block_dirty_load_inv (d : Int) (s : Terrain) (q : Vector3i) (hinv : Inv s)
    (h : LoadInv d s) : LoadInv d (make_block_dirty s q) := by
  obtain ⟨f1, f2, f3, _, _, _, f7, f8⟩ := make_block_dirty_fields s q
  obtain ⟨hf, _⟩ := make_block_dirty_frame s q
  have hload : (make_block_dirty s q).blocks_pending_load =
      s.blocks_pending_load ++ (if loads_on_dirty s q = true then [q] else []) := by
    rw [make_block_dirty_eq s q]
  have hnew : ∀ p ∈ (make_block_dirty s q).blocks_pending_load,
      p ∈ s.blocks_pending_load ∨ (p = q ∧ loads_on_dirty s q = true) := by
    intro p hp
    rw [hload] at hp
    rcases List.mem_append.1 hp with hp | hp
    · exact Or.inl hp
    · by_cases hq : loads_on_dirty s q = true
      · rw [if_pos hq] at hp
        exact Or.inr ⟨List.mem_singleton.1 hp, hq⟩
      · rw [if_neg hq] at hp
        simp at hp
  have hnone : loads_on_dirty s q = true → s.dirty_blocks q = none ∧ s.blocks q = none := by
    intro hq
    simp only [loads_on_dirty, has_block, Bool.and_eq_true, Option.isNone_iff_eq_none,
      Bool.not_eq_true'] at hq
    refine ⟨hq.1, ?_⟩
    cases hb : s.blocks q with
    | none => rfl
    | some b => rw [hb] at hq; simp at hq
  refine ⟨f2.trans h.view, by rw [f7]; exact h.last_view, f8.trans h.last_pos, ?_, ?_, ?_, ?_,
    ?_, ?_, ?_⟩
  · intro p hp
    rw [f3] at hp
    exact hf.dirty_some p (h.req_entry p hp)
  · intro p hp
    rw [f3] at hp
    rw [hf.blocks]
    exact h.req_absent p hp
  · intro p hp
    rw [f3] at hp
    exact h.req_box p hp
  · rw [f3]; exact h.req_nodup
  · rw [hload]
    by_cases hq : loads_on_dirty s q = true
    · rw [if_pos hq]
      refine List.Nodup.append h.load_nodup (List.nodup_singleton q) ?_
      rw [List.disjoint_singleton]
      intro hmem
      have := hinv.load_queue q hmem trivial
      rw [(hnone hq).1] at this
      exact absurd this (by simp)
    · rw [if_neg hq, List.append_nil]
      exact h.load_nodup
  · intro p hp
    rw [hf.blocks]
    rcases hnew p hp with hp | ⟨rfl, hq⟩
    · exact h.load_absent p hp
    · exact (hnone hq).2
  · intro p hp
    rw [f3]
    rcases hnew p hp with hp | ⟨rfl, hq⟩
    · exact h.load_disjoint p hp
    · intro hreq
      have := h.req_entry p hreq
      rw [(hnone hq).1] at this
      simp at this

theorem foldl_make_block_dirty_load_inv (d : Int) (l : List Vector3i) (s : Terrain)
    (hinv : Inv s) (h : LoadInv d s) : LoadInv d (l.foldl make_block_dirty s) := by
  induction l generalizing s with
  | nil => exact h
  | cons q l ih =>
    exact ih _ (make_block_dirty_inv _ s q hinv trivial) (make_block_dirty_load_inv d s q hinv h)

theorem dirty_after_isSome (e : Option BlockDirtyState) (b : Bool) :
    (dirty_after e b).isSome := by
  cases e with
  | none => cases b <;> rfl
  | some st => cases st <;> rfl

/-- When the previous box lies inside the new one the diff loop evicts
nothing: blocks are untouched, entries are only added or rewritten, and the
pending-load queue grows by distinct coordinates that had neither an entry
nor a block. -/
theorem update_required_blocks_growing (s : Terrain) (P N : Rect3i)
    (hPN : ∀ q, P.contains q = true → N.contains q = true) :
    (update_required_blocks s P N).blocks = s.blocks ∧
    (∀ q, (s.dirty_blocks q).isSome → ((update_required_blocks s P N).dirty_blocks q).isSome) ∧
    ∃ F, (update_required_blocks s P N).blocks_pending_load = s.blocks_pending_load ++ F ∧
      F.Nodup ∧ ∀ q ∈ F, s.dirty_blocks q = none ∧ s.blocks q = none := by
  by_cases hne : P = N
  · have hs : update_required_blocks s P N = s := by
      unfold update_required_blocks
      simp [hne]
    rw [hs]
    exact ⟨rfl, fun _ h => h, [], by simp, List.nodup_nil, by simp⟩
  · unfold update_required_blocks
    simp only [ne_eq, hne, not_false_eq_true, if_true]
    obtain ⟨g1, g2, g3, _⟩ := foldl_update_required_block_spec P N s _
      (box_positions_nodup (Rect3i.get_bounding_box P N).pos
        ((Rect3i.get_bounding_box P N).pos + (Rect3i.get_bounding_box P N).size))
    have hno : ∀ (q : Vector3i) (X : Prop), ¬ (X ∧ P.contains q = true ∧ N.contains q = false) := by
      rintro q X ⟨_, h1, h2⟩
      rw [hPN q h1] at h2
      exact absurd h2 (by decide)
    refine ⟨?_, ?_, _, g3, (box_positions_nodup _ _).filter _, ?_⟩
    · funext q
      rw [g1 q, if_neg (hno q _)]
    · intro q hq
      rw [g2 q, if_neg (hno q _)]
      split_ifs
      · exact dirty_after_isSome _ _
      · exact hq
    · intro q hq
      rw [List.mem_filter] at hq
      have hl := hq.2
      simp only [loads_on_dirty, has_block, Bool.and_eq_true, Option.isNone_iff_eq_none,
        Bool.not_eq_true'] at hl
      refine ⟨hl.2.1, ?_⟩
      cases hb : s.blocks q with
      | none => rfl
      | some b => rw [hb] at hl; simp at hl

theorem home_box_contains (l d : Int) (hd : 0 ≤ d) (hl : l = 0 ∨ l = d) (q : Vector3i)
    (h : (Rect3i.from_center_extents Vector3i.zero (Vector3i.splat l)).contains q = true) :
    (Rect3i.from_center_extents Vector3i.zero (Vector3i.splat d)).contains q = true := by
  rw [contains_iff] at h ⊢
  simp only [Rect3i.from_center_extents, Vector3i.zero, Vector3i.splat, vector3i_sub_def] at h ⊢
  rcases hl with rfl | rfl <;> omega

theorem detect_required_blocks_load_inv (d : Int) (hd : 0 ≤ d) (s : Terrain) (hinv : Inv s)
    (h : LoadInv d s) :
    LoadInv d (detect_required_blocks s none) ∧
    ∀ q ∈ (detect_required_blocks s none).blocks_pending_load,
      (Rect3i.from_center_extents Vector3i.zero (Vector3i.splat d)).contains q = true := by
  have hN : required_box s none
      = Rect3i.from_center_extents Vector3i.zero (Vector3i.splat d) := by
    simp only [required_box, viewer_block_pos, h.view]
  have hP : ∀ q, (previous_box s).contains q = true → (required_box s none).contains q = true := by
    intro q hq
    rw [hN]
    simp only [previous_box, h.last_pos] at hq
    exact home_box_contains _ d hd h.last_view q hq
  obtain ⟨u1, u2, F, u3, u4, u5⟩ :=
    update_required_blocks_growing s (previous_box s) (required_box s none) hP
  obtain ⟨f1, f2, f3, f4, f5, f6, f7, f8⟩ := detect_required_blocks_frame s none
  obtain ⟨p1, m1⟩ := remove_positions_outside_box_spec
    (update_required_blocks s (previous_box s) (required_box s none)).blocks_pending_load
    (required_box s none)
    (update_required_blocks s (previous_box s) (required_box s none)).dirty_blocks
  obtain ⟨p2, m2⟩ := remove_positions_outside_box_spec
    (update_required_blocks s (previous_box s) (required_box s none)).blocks_pending_update
    (required_box s none)
    (remove_positions_outside_box
      (update_required_blocks s (previous_box s) (required_box s none)).blocks_pending_load
      (required_box s none)
      (update_required_blocks s (previous_box s) (required_box s none)).dirty_blocks).2
  have hblocks : (detect_required_blocks s none).blocks = s.blocks := u1
  have hdirty : ∀ q, (required_box s none).contains q = true →
      (detect_required_blocks s none).dirty_blocks q =
        (update_required_blocks s (previous_box s) (required_box s none)).dirty_blocks q := by
    intro q hq
    show (remove_positions_outside_box _ _ _).2 q = _
    rw [m2 q, if_neg (by simp [hq]), m1 q, if_neg (by simp [hq])]
  have hmem : ∀ q, q ∈ (detect_required_blocks s none).blocks_pending_load →
      (q ∈ s.blocks_pending_load ∨ q ∈ F) ∧ (required_box s none).contains q = true := by
    intro q hq
    have hq' : q ∈ (remove_positions_outside_box
      (update_required_blocks s (previous_box s) (required_box s none)).blocks_pending_load
      (required_box s none)
      (update_required_blocks s (previous_box s) (required_box s none)).dirty_blocks).1 := hq
    rw [p1.mem_iff, List.mem_filter, u3, List.mem_append] at hq'
    exact hq'
  have hdisj : List.Disjoint s.blocks_pending_load F := by
    intro q hq1 hq2
    have := hinv.load_queue q hq1 trivial
    rw [(u5 q hq2).1] at this
    exact absurd this (by simp)
  refine ⟨⟨f2.trans h.view, Or.inr (f7.trans h.view), f8, ?_, ?_, ?_, ?_, ?_, ?_, ?_⟩, ?_⟩
  · intro p hp
    rw [f3] at hp
    rw [hdirty p (by rw [hN]; exact h.req_box p hp)]
    exact u2 p (h.req_entry p hp)
  · intro p hp
    rw [f3] at hp
    rw [hblocks]
    exact h.req_absent p hp
  · intro p hp
    rw [f3] at hp
    exact h.req_box p hp
  · rw [f3]; exact h.req_nodup
  · show (remove_positions_outside_box _ _ _).1.Nodup
    rw [p1.nodup_iff, u3]
    exact (List.Nodup.append h.load_nodup u4 hdisj).filter _
  · intro p hp
    rw [hblocks]
    rcases (hmem p hp).1 with hp | hp
    · exact h.load_absent p hp
    · exact (u5 p hp).2
  · intro p hp
    rw [f3]
    rcases (hmem p hp).1 with hp | hp
    · exact h.load_disjoint p hp
    · intro hreq
      have := h.req_entry p hreq
      rw [(u5 p hp).1] at this
      simp at this
  · intro q hq
    rw [← hN]
    exact (hmem q hq).2

theorem send_load_requests_load_inv (d : Int) (s : Terrain) (hinv : Inv s) (h : LoadInv d s)
    (hbox : ∀ q ∈ s.blocks_pending_load,
      (Rect3i.from_center_extents Vector3i.zero (Vector3i.splat d)).contains q = true) :
    LoadInv d (send_load_requests s) ∧ (send_load_requests s).blocks_pending_load = [] := by
  refine ⟨⟨h.view, h.last_view, h.last_pos, ?_, ?_, ?_, ?_, List.nodup_nil, ?_, ?_⟩, rfl⟩
  · intro p hp
    rcases List.mem_append.1 hp with hp | hp
    · exact h.req_entry p hp
    · show (s.dirty_blocks p).isSome
      rw [hinv.load_queue p hp trivial]; rfl
  · intro p hp
    rcases List.mem_append.1 hp with hp | hp
    · exact h.req_absent p hp
    · exact h.load_absent p hp
  · intro p hp
    rcases List.mem_append.1 hp with hp | hp
    · exact h.req_box p hp
    · exact hbox p hp
  · show (s.provider_requests ++ s.blocks_pending_load).Nodup
    refine List.Nodup.append h.req_nodup h.load_nodup ?_
    intro p hp1 hp2
    exact h.load_disjoint p hp2 hp1
  · intro p hp
    exact absurd hp (List.not_mem_nil p)
  · intro p hp
    exact absurd hp (List.not_mem_nil p)

theorem update_neighbor_entry (s : Terrain) (npos q : Vector3i)
    (h : (s.dirty_blocks q).isSome) : ((update_neighbor s npos).dirty_blocks q).isSome := by
  unfold update_neighbor
  split_ifs
  · split
    · exact h
    · show (Function.update s.dirty_blocks npos (some BLOCK_UPDATE_NOT_SENT) q).isSome
      by_cases hq : q = npos
      · subst hq; simp
      · rw [Function.update_noteq hq]; exact h
  · exact h

theorem foldl_update_neighbor_entry (l : List Vector3i) (c : Vector3i) (s : Terrain)
    (q : Vector3i) (h : (s.dirty_blocks q).isSome) :
    ((l.foldl (fun acc ndir => update_neighbor acc (c + ndir)) s).dirty_blocks q).isSome := by
  induction l generalizing s with
  | nil => exact h
  | cons n l ih =>
    rw [List.foldl_cons]
    exact ih _ (update_neighbor_entry s (c + n) q h)

theorem set_block_buffer_other (s : Terrain) (bpos : Vector3i) (buffer : VoxelBuffer)
    (q : Vector3i) (hq : q ≠ bpos) : (set_block_buffer s bpos buffer).blocks q = s.blocks q := by
  unfold set_block_buffer
  split
  · exact Function.update_noteq hq _ _
  · exact Function.update_noteq hq _ _

/-- A load result whose coordinate the Loader Worker no longer holds keeps the
load-side invariant. -/
theorem process_load_response_load_inv (d : Int) (s : Terrain) (o : EmergeOutput)
    (h : LoadInv d s) (hp : emerged_block_pos s o ∉ s.provider_requests)
    (hl : s.blocks_pending_load = []) :
    LoadInv d (process_load_response s o).state ∧
    (process_load_response s o).state.blocks_pending_load = [] ∧
    (process_load_response s o).state.provider_requests = s.provider_requests := by
  have hne : ∀ q ∈ s.provider_requests, q ≠ emerged_block_pos s o := by
    rintro q hq rfl
    exact hp hq
  by_cases hd : s.dirty_blocks (emerged_block_pos s o) = some BLOCK_LOAD
  · by_cases hsz : o.voxels.size = Vector3i.splat s.block_size
    · obtain ⟨_, k2, _, k4, _, k6, _, _, k9, k10, k11⟩ :=
        set_block_buffer_stats s (emerged_block_pos s o) o.voxels
      cases hb : has_block s (emerged_block_pos s o)
      · rw [process_load_response_install s o hd hsz hb]
        obtain ⟨_, f2, _, f4, f5, _, _, f8, f9, f10⟩ :=
          foldl_update_neighbor_stats neighbor_dirs (emerged_block_pos s o)
            (set_block_buffer s (emerged_block_pos s o) o.voxels)
        simp only [Flow.state]
        refine ⟨⟨f8.trans (k9.trans h.view), ?_, f10.trans (k11.trans h.last_pos), ?_, ?_, ?_,
          ?_, ?_, ?_, ?_⟩, f4.trans (k4.trans hl), f5.trans k6⟩
        · rw [f9, k10]; exact h.last_view
        · intro p hp'
          rw [f5, k6] at hp'
          apply foldl_update_neighbor_entry
          rw [k2]
          exact h.req_entry p hp'
        · intro p hp'
          rw [f5, k6] at hp'
          rw [f2, set_block_buffer_other s _ _ p (hne p hp')]
          exact h.req_absent p hp'
        · intro p hp'
          rw [f5, k6] at hp'
          exact h.req_box p hp'
        · rw [f5, k6]; exact h.req_nodup
        · rw [f4, k4, hl]; exact List.nodup_nil
        · intro p hp'
          rw [f4, k4, hl] at hp'
          exact absurd hp' (List.not_mem_nil p)
        · intro p hp'
          rw [f4, k4, hl] at hp'
          exact absurd hp' (List.not_mem_nil p)
      · rw [process_load_response_resupply s o hd hsz hb]
        simp only [Flow.state]
        refine ⟨⟨k9.trans h.view, ?_, k11.trans h.last_pos, ?_, ?_, ?_,
          ?_, ?_, ?_, ?_⟩, k4.trans hl, k6⟩
        · show (set_block_buffer s (emerged_block_pos s o) o.voxels).last_view_distance_blocks = 0
            ∨ (set_block_buffer s (emerged_block_pos s o) o.voxels).last_view_distance_blocks = d
          rw [k10]; exact h.last_view
        · intro p hp'
          have hp2 : p ∈ s.provider_requests := by rw [← k6]; exact hp'
          show (Function.update (set_block_buffer s (emerged_block_pos s o) o.voxels).dirty_blocks
            (emerged_block_pos s o) (some BLOCK_UPDATE_NOT_SENT) p).isSome
          rw [Function.update_noteq (hne p hp2), k2]
          exact h.req_entry p hp2
        · intro p hp'
          have hp2 : p ∈ s.provider_requests := by rw [← k6]; exact hp'
          show (set_block_buffer s (emerged_block_pos s o) o.voxels).blocks p = none
          rw [set_block_buffer_other s _ _ p (hne p hp2)]
          exact h.req_absent p hp2
        · intro p hp'
          have hp2 : p ∈ s.provider_requests := by rw [← k6]; exact hp'
          exact h.req_box p hp2
        · show (set_block_buffer s (emerged_block_pos s o) o.voxels).provider_requests.Nodup
          rw [k6]; exact h.req_nodup
        · show (set_block_buffer s (emerged_block_pos s o) o.voxels).blocks_pending_load.Nodup
          rw [k4, hl]; exact List.nodup_nil
        · intro p hp'
          have hp2 : p ∈ s.blocks_pending_load := by rw [← k4]; exact hp'
          rw [hl] at hp2
          exact absurd hp2 (List.not_mem_nil p)
        · intro p hp'
          have hp2 : p ∈ s.blocks_pending_load := by rw [← k4]; exact hp'
          rw [hl] at hp2
          exact absurd hp2 (List.not_mem_nil p)
    · rw [process_load_response_mismatch s o hd hsz]
      exact ⟨h, hl, rfl⟩
  · rw [process_load_response_stale s o hd]
    exact ⟨⟨h.view, h.last_view, h.last_pos, h.req_entry, h.req_absent, h.req_box, h.req_nodup,
      h.load_nodup, h.load_absent, h.load_disjoint⟩, hl, rfl⟩

theorem process_load_loop_load_inv (d : Int) (batch : List EmergeOutput) (s : Terrain)
    (h : LoadInv d s) (hp : ∀ o ∈ batch, emerged_block_pos s o ∉ s.provider_requests)
    (hl : s.blocks_pending_load = []) :
    LoadInv d (process_load_loop s batch).state ∧
    (process_load_loop s batch).state.blocks_pending_load = [] := by
  induction batch generalizing s with
  | nil => exact ⟨h, hl⟩
  | cons o rest ih =>
    obtain ⟨g1, g2, g3⟩ := process_load_response_load_inv d s o h (hp o (by simp)) hl
    have hb := process_load_response_block_size s o
    simp only [process_load_loop]
    cases hr : process_load_response s o with
    | next s1 =>
      rw [hr] at g1 g2 g3 hb
      simp only [Flow.state] at g1 g2 g3 hb
      refine ih s1 g1 ?_ g2
      intro o' ho'
      have := hp o' (by simp [ho'])
      simpa only [emerged_block_pos, hb, g3] using this
    | ret s1 =>
      rw [hr] at g1 g2
      exact ⟨g1, g2⟩

theorem process_load_responses_load_inv (d : Int) (s : Terrain) (batch : List EmergeOutput)
    (h : LoadInv d s) (hl : s.blocks_pending_load = []) :
    LoadInv d (process_load_responses s batch).state ∧
    (process_load_responses s batch).state.blocks_pending_load = [] := by
  unfold process_load_responses
  refine process_load_loop_load_inv d batch (pop_load_responses s batch) ?_ ?_ hl
  · have hsub : ∀ p ∈ (pop_load_responses s batch).provider_requests, p ∈ s.provider_requests :=
      fun p hp => (List.diff_sublist _ _).subset hp
    exact ⟨h.view, h.last_view, h.last_pos, fun p hp => h.req_entry p (hsub p hp),
      fun p hp => h.req_absent p (hsub p hp), fun p hp => h.req_box p (hsub p hp),
      List.Nodup.sublist (List.diff_sublist _ _) h.req_nodup,
      h.load_nodup, h.load_absent,
      fun p hp => absurd hp (by rw [show (pop_load_responses s batch).blocks_pending_load
        = s.blocks_pending_load from rfl, hl]; exact List.not_mem_nil p)⟩
  · intro o ho hmem
    have hmem' : emerged_block_pos s o ∈
        s.provider_requests.diff (batch.map (emerged_block_pos s)) := hmem
    rw [h.req_nodup.mem_diff_iff] at hmem'
    exact hmem'.2 (List.mem_map_of_mem _ ho)

/-- The load-side invariant only speaks of coordinates without a resident
block: a step that leaves the Loader Worker, the pending-load queue and the
view parameters alone, and that changes neither the absence of a block nor
the entry of a coordinate without one, keeps it. -/
theorem load_inv_of_frame (d : Int) (s s1 : Terrain) (h : LoadInv d s)
    (hv : s1.view_distance_blocks = s.view_distance_blocks)
    (hlv : s1.last_view_distance_blocks = s.last_view_distance_blocks)
    (hlp : s1.last_viewer_block_pos = s.last_viewer_block_pos)
    (hr : s1.provider_requests = s.provider_requests)
    (hl : s1.blocks_pending_load = s.blocks_pending_load)
    (hn : ∀ q, s.blocks q = none → s1.blocks q = none ∧ s1.dirty_blocks q = s.dirty_blocks q) :
    LoadInv d s1 := by
  refine ⟨hv.trans h.view, by rw [hlv]; exact h.last_view, hlp.trans h.last_pos, ?_, ?_, ?_,
    by rw [hr]; exact h.req_nodup, by rw [hl]; exact h.load_nodup, ?_, ?_⟩
  · intro p hp
    rw [hr] at hp
    rw [(hn p (h.req_absent p hp)).2]
    exact h.req_entry p hp
  · intro p hp
    rw [hr] at hp
    exact (hn p (h.req_absent p hp)).1
  · intro p hp
    rw [hr] at hp
    exact h.req_box p hp
  · intro p hp
    rw [hl] at hp
    exact (hn p (h.load_absent p hp)).1
  · intro p hp
    rw [hl] at hp
    rw [hr]
    exact h.load_disjoint p hp

theorem send_mesh_update_load_inv (d : Int) (acc acc1 : Terrain × List Vector3i) (q : Vector3i)
    (h : send_mesh_update acc q = some acc1) (hl : LoadInv d acc.1) : LoadInv d acc1.1 := by
  rcases send_mesh_update_some acc acc1 q h with ⟨_, rfl⟩ | ⟨b, hb, _, _, rfl⟩ | ⟨b, hb, _, _, rfl⟩
  · exact hl
  · refine load_inv_of_frame d acc.1 _ hl rfl rfl rfl rfl rfl ?_
    intro p hp
    have hpq : p ≠ q := by
      rintro rfl
      rw [hb] at hp
      exact absurd hp (by simp)
    exact ⟨(Function.update_noteq hpq _ _).trans hp, Function.update_noteq hpq _ _⟩
  · refine load_inv_of_frame d acc.1 _ hl rfl rfl rfl rfl rfl ?_
    intro p hp
    have hpq : p ≠ q := by
      rintro rfl
      rw [hb] at hp
      exact absurd hp (by simp)
    exact ⟨hp, Function.update_noteq hpq _ _⟩

theorem send_mesh_loop_load_inv (d : Int) (l : List Vector3i) (acc r : Terrain × List Vector3i)
    (h : send_mesh_loop acc l = some r) (hl : LoadInv d acc.1) : LoadInv d r.1 := by
  induction l generalizing acc with
  | nil =>
    simp only [send_mesh_loop, Option.some.injEq] at h
    subst h
    exact hl
  | cons q l ih =>
    rw [send_mesh_loop_cons] at h
    cases h1 : send_mesh_update acc q with
    | none => rw [h1] at h; simp at h
    | some acc1 =>
      rw [h1] at h
      simp only [Option.some_bind] at h
      exact ih acc1 h (send_mesh_update_load_inv d acc acc1 q h1 hl)

theorem send_mesh_updates_load_inv (d : Int) (s s1 : Terrain) (batch : List Vector3i)
    (h : send_mesh_updates s = some (s1, batch)) (hl : LoadInv d s) : LoadInv d s1 := by
  obtain ⟨r, hr, rfl, rfl⟩ := send_mesh_updates_some s s1 batch h
  have := send_mesh_loop_load_inv d s.blocks_pending_update (s, []) r hr hl
  exact load_inv_of_frame d r.1 _ this rfl rfl rfl rfl rfl (fun q hq => ⟨hq, rfl⟩)

theorem clear_sent_entry_other (s : Terrain) (pos q : Vector3i) (hq : q ≠ pos) :
    (clear_sent_entry s pos).dirty_blocks q = s.dirty_blocks q := by
  unfold clear_sent_entry
  split
  · exact Function.update_noteq hq _ _
  · rfl

theorem commit_block_load_inv (d : Int) (s : Terrain) (ob : OutputBlock)
    (hsr : ∀ p, s.dirty_blocks p = some BLOCK_UPDATE_SENT → (s.blocks p).isSome)
    (hl : LoadInv d s) : LoadInv d (commit_block s ob) := by
  obtain ⟨_, _, _, f4, _, f6, _, _, f9, f10, f11⟩ := clear_sent_entry_frame s ob.position
  cases hb : s.blocks ob.position with
  | none =>
    rw [commit_block_absent s ob hb, clear_sent_entry_of_absent s ob.position hsr hb]
    exact load_inv_of_frame d s _ hl rfl rfl rfl rfl rfl (fun q hq => ⟨hq, rfl⟩)
  | some block =>
    rw [commit_block_resident s ob block hb]
    refine load_inv_of_frame d s _ hl f9 f10 f11 f6 f4 ?_
    intro q hq
    have hqp : q ≠ ob.position := by
      rintro rfl
      rw [hb] at hq
      exact absurd hq (by simp)
    exact ⟨(Function.update_noteq hqp _ _).trans hq, clear_sent_entry_other s ob.position q hqp⟩

theorem foldl_commit_block_load_inv (d : Int) (l : List OutputBlock) (s : Terrain)
    (hsr : ∀ p, s.dirty_blocks p = some BLOCK_UPDATE_SENT → (s.blocks p).isSome)
    (hl : LoadInv d s) : LoadInv d (l.foldl commit_block s) := by
  induction l generalizing s with
  | nil => exact hl
  | cons ob l ih =>
    rw [List.foldl_cons]
    exact ih _ (commit_block_sent_resident s ob hsr) (commit_block_load_inv d s ob hsr hl)

theorem process_mesh_responses_load_inv (d : Int) (s : Terrain) (blocks : List OutputBlock)
    (clock : Nat → Nat) (hinv : Inv s) (hl : LoadInv d s) :
    LoadInv d (process_mesh_responses s blocks clock) := by
  rw [process_mesh_responses_eq s blocks clock]
  generalize (commit_loop clock (commit_timeout clock) 2 (pop_mesh_responses s blocks)
    (s.blocks_pending_main_thread_update ++ blocks)).2 = k
  have h0 : LoadInv d (pop_mesh_responses s blocks) :=
    load_inv_of_frame d s _ hl rfl rfl rfl rfl rfl (fun q hq => ⟨hq, rfl⟩)
  have h1 := foldl_commit_block_load_inv d
    ((s.blocks_pending_main_thread_update ++ blocks).take k) (pop_mesh_responses s blocks)
    hinv.sent_resident h0
  exact load_inv_of_frame d _ _ h1 rfl rfl rfl rfl rfl (fun q hq => ⟨hq, rfl⟩)

/-- A tick without a resolved viewer keeps the load-side invariant, however it
ends. -/
theorem process_load_inv (d : Int) (hd : 0 ≤ d) (s : Terrain) (inp : TickInput)
    (hv : inp.viewer = none) (hinv : Inv s) (h : LoadInv d s) :
    (∀ s1, _process s inp = Outcome.done s1 → LoadInv d s1) ∧
    (∀ s1, _process s inp = Outcome.failed s1 → LoadInv d s1) := by
  have i1 := detect_required_blocks_inv s inp.viewer hinv
  obtain ⟨i2, l2⟩ := send_load_requests_inv _ i1
  obtain ⟨i3, l3⟩ := process_load_responses_inv _ inp.emerged_blocks i2 l2
  rw [hv] at i1 i2 l2 i3 l3
  obtain ⟨g1, b1⟩ := detect_required_blocks_load_inv d hd s hinv h
  obtain ⟨g2, e2⟩ := send_load_requests_load_inv d _ i1 g1 b1
  obtain ⟨g3, _⟩ := process_load_responses_load_inv d _ inp.emerged_blocks g2 e2
  cases hr : process_load_responses (send_load_requests (detect_required_blocks s inp.viewer))
      inp.emerged_blocks with
  | ret s3 =>
    rw [process_of_ret s s3 inp hr]
    rw [hv] at hr
    rw [hr] at g3
    refine ⟨fun s1 h1 => (by cases h1), fun s1 h1 => ?_⟩
    cases h1
    exact g3
  | next s3 =>
    cases hm : send_mesh_updates s3 with
    | none =>
      rw [process_of_crash s s3 inp hr hm]
      exact ⟨fun s1 h1 => (by cases h1), fun s1 h1 => (by cases h1)⟩
    | some r =>
      obtain ⟨s4, batch⟩ := r
      rw [process_of_done s s3 s4 batch inp hr hm]
      rw [hv] at hr
      rw [hr] at g3 i3 l3
      refine ⟨fun s1 h1 => ?_, fun s1 h1 => (by cases h1)⟩
      cases h1
      have i4 := (send_mesh_updates_inv s3 s4 batch hm i3 l3).1
      exact process_mesh_responses_load_inv d s4 inp.mesh_blocks inp.clock i4
        (send_mesh_updates_load_inv d s3 s4 batch hm g3)

theorem op_run_load_inv (d : Int) (hd : 0 ≤ d) (s s1 : Terrain) (op : Op)
    (ha : op.is_tick_or_dirty) (hinv : Inv s) (h : LoadInv d s) (hr : op.run s = some s1) :
    LoadInv d s1 := by
  cases op with
  | tick inp =>
    obtain ⟨hdone, hfail⟩ := process_load_inv d hd s inp ha hinv h
    simp only [Op.run] at hr
    cases ho : _process s inp with
    | done s2 =>
      rw [ho] at hr
      simp only [Option.some.injEq] at hr
      subst hr
      exact hdone _ ho
    | failed s2 =>
      rw [ho] at hr
      simp only [Option.some.injEq] at hr
      subst hr
      exact hfail _ ho
    | crashed => rw [ho] at hr; simp at hr
  | block_dirty bpos =>
    simp only [Op.run, Option.some.injEq] at hr
    subst hr
    exact make_block_dirty_load_inv d s bpos hinv h
  | voxel_dirty pos =>
    simp only [Op.run, Option.some.injEq] at hr
    subst hr
    exact foldl_make_block_dirty_load_inv d _ s hinv h
  | area_dirty box =>
    simp only [Op.run, Option.some.injEq] at hr
    subst hr
    exact foldl_make_block_dirty_load_inv d _ s hinv h
  | view_distance d => exact absurd ha (fun hf => hf)
  | all_view_dirty_deferred => exact absurd ha (fun hf => hf)

/-- While the viewer stays unresolved, every state reached by ticks and
dirty-marking calls satisfies the load-side invariant at the constructor's
view distance of 8 blocks. -/
theorem reachable_load_inv (B : Int) (s : Terrain) (h : ReachableTD B s) : LoadInv 8 s := by
  induction h with
  | init => exact fresh_load_inv B
  | step hprev ha _ hr ih =>
    exact op_run_load_inv 8 (by decide) _ _ _ ha (reachable_inv _ B _ hprev) ih hr

/-- C10 (amended): in every state reachable from the freshly constructed
manager by scheduling ticks (the viewer left unresolved, hence at the origin)
and dirty-marking calls, queued load and mesh work always has a dirty-state
entry: a coordinate in the pending-load queue has the entry `LOAD`, a
coordinate in a load request not yet answered has an entry and no resident
block, and a coordinate in the pending-update queue has the entry
`UPDATE_NOT_SENT`. -/
theorem queued_work_has_entry (B : Int) (s : Terrain) (h : ReachableTD B s) :
    (∀ p ∈ s.blocks_pending_load, s.dirty_blocks p = some BLOCK_LOAD) ∧
    (∀ p ∈ s.provider_requests, (s.dirty_blocks p).isSome ∧ s.blocks p = none) ∧
    (∀ p ∈ s.blocks_pending_update, s.dirty_blocks p = some BLOCK_UPDATE_NOT_SENT) ∧
    (∀ p, p ∈ s.blocks_pending_load ∨ p ∈ s.provider_requests ∨ p ∈ s.blocks_pending_update →
      (s.dirty_blocks p).isSome) := by
  have hinv := reachable_inv _ B s h
  have hload := reachable_load_inv B s h
  refine ⟨fun p hp => hinv.load_queue p hp trivial,
    fun p hp => ⟨hload.req_entry p hp, hload.req_absent p hp⟩,
    fun p hp => hinv.update_queue p hp trivial, ?_⟩
  rintro p (hp | hp | hp)
  · rw [hinv.load_queue p hp trivial]; rfl
  · exact hload.req_entry p hp
  · rw [hinv.update_queue p hp trivial]; rfl

/-- Witness for the amended C10: the state after `make_block_dirty(sample_pos)`
on the fresh manager. -/
theorem queued_work_has_entry_witness :
    ReachableTD 16 (make_block_dirty (fresh 16) sample_pos) ∧
    sample_pos ∈ (make_block_dirty (fresh 16) sample_pos).blocks_pending_load ∧
    (make_block_dirty (fresh 16) sample_pos).dirty_blocks sample_pos = some BLOCK_LOAD :=
  ⟨@ReachableBy.step Op.is_tick_or_dirty 16 (fresh 16) _ (Op.block_dirty sample_pos)
      ReachableBy.init trivial trivial rfl,
    List.mem_singleton.2 rfl,
    (queued_work_has_entry 16 (make_block_dirty (fresh 16) sample_pos)
      (@ReachableBy.step Op.is_tick_or_dirty 16 (fresh 16) _ (Op.block_dirty sample_pos)
        ReachableBy.init trivial trivial rfl)).1 sample_pos (List.mem_singleton.2 rfl)⟩

/-! ## Configuration and queries: theorems -/

theorem terrain_with_view_self (s : Terrain) :
    { s with view_distance_blocks := s.view_distance_blocks } = s := rfl

/-- C18: for a block size `B > 0`, `set_view_distance(d)` with `d < 0` is
rejected and leaves the state unchanged; with `d ≥ 0` it sets the block radius
to `d div B` and changes nothing else, so that `get_view_distance()` afterwards
returns `(d div B) * B`, the largest multiple of `B` not exceeding `d`; and
`set_view_distance(get_view_distance())` changes nothing. -/
theorem set_view_distance_spec (s : Terrain) (hB : 0 < s.block_size) :
    (∀ d, d < 0 → set_view_distance s d = s) ∧
    (∀ d, 0 ≤ d →
      set_view_distance s d = { s with view_distance_blocks := d / s.block_size } ∧
      get_view_distance (set_view_distance s d) = d / s.block_size * s.block_size ∧
      get_view_distance (set_view_distance s d) ≤ d ∧
      (∀ m : Int, s.block_size ∣ m → m ≤ d → m ≤ get_view_distance (set_view_distance s d))) ∧
    set_view_distance s (get_view_distance s) = s := by
  refine ⟨?_, ?_, ?_⟩
  · intro d hd
    simp [set_view_distance, hd]
  · intro d hd
    have ht : Int.tdiv d s.block_size = d / s.block_size :=
      Int.tdiv_eq_ediv hd (le_of_lt hB)
    have hset : set_view_distance s d = { s with view_distance_blocks := d / s.block_size } := by
      unfold set_view_distance
      rw [if_neg (not_lt.2 hd)]
      simp only [ht]
      by_cases hc : d / s.block_size = s.view_distance_blocks
      · rw [if_neg (by simp [hc]), hc]
      · rw [if_pos hc]
    have hget : get_view_distance (set_view_distance s d) = d / s.block_size * s.block_size := by
      rw [hset]; rfl
    refine ⟨hset, hget, ?_, ?_⟩
    · rw [hget]
      exact Int.ediv_mul_le d (ne_of_gt hB)
    · intro m hm hmd
      rw [hget]
      obtain ⟨k, rfl⟩ := hm
      have hk : k ≤ d / s.block_size := by
        rw [Int.le_ediv_iff_mul_le hB]
        rw [mul_comm]
        exact hmd
      rw [mul_comm]
      exact Int.mul_le_mul_of_nonneg_right hk (le_of_lt hB)
  · unfold set_view_distance get_view_distance
    by_cases hneg : s.view_distance_blocks * s.block_size < 0
    · rw [if_pos hneg]
    · rw [if_neg hneg]
      have : Int.tdiv (s.view_distance_blocks * s.block_size) s.block_size
          = s.view_distance_blocks := Int.mul_tdiv_cancel _ (ne_of_gt hB)
      simp only [this, ne_eq, not_true_eq_false, if_false]

/-- Witness for C18: the fresh manager of block size 16 and a view distance of
40 voxels, which becomes 2 blocks, that is 32 voxels. -/
theorem set_view_distance_spec_witness :
    (set_view_distance (fresh 16) 40).view_distance_blocks = 2 ∧
    get_view_distance (set_view_distance (fresh 16) 40) = 32 ∧
    set_view_distance (fresh 16) (-1) = fresh 16 := by
  obtain ⟨h1, h2, _⟩ := set_view_distance_spec (fresh 16) (by decide)
  obtain ⟨e1, e2, _, _⟩ := h2 40 (by decide)
  refine ⟨?_, ?_, h1 (-1) (by decide)⟩
  · rw [e1]; rfl
  · rw [e2]; rfl

theorem get_block_state_cases (s : Terrain) (p : Vector3i) :
    (∀ st, s.dirty_blocks p = some st → get_block_state s p = st) ∧
    (s.dirty_blocks p = none → has_block s p = false → get_block_state s p = BLOCK_NONE) ∧
    (s.dirty_blocks p = none → has_block s p = true → get_block_state s p = BLOCK_IDLE) := by
  refine ⟨?_, ?_, ?_⟩
  · intro st h
    simp [get_block_state, h]
  · intro h hb
    simp [get_block_state, h, hb]
  · intro h hb
    simp [get_block_state, h, hb]

/-! ## Only three states are ever stored -/

theorem storedStates_update (m : Vector3i → Option BlockDirtyState) (p : Vector3i)
    (v : Option BlockDirtyState) (h : StoredStates m)
    (hv : ∀ st, v = some st →
      st = BLOCK_LOAD ∨ st = BLOCK_UPDATE_NOT_SENT ∨ st = BLOCK_UPDATE_SENT) :
    StoredStates (Function.update m p v) := by
  intro q st hq
  by_cases hqp : q = p
  · subst hqp
    rw [Function.update_same] at hq
    exact hv st hq
  · rw [Function.update_noteq hqp] at hq
    exact h q st hq

theorem storedStates_erase (m : Vector3i → Option BlockDirtyState) (p : Vector3i)
    (h : StoredStates m) : StoredStates (Function.update m p none) :=
  storedStates_update m p none h (fun st hst => by cases hst)

theorem storedStates_set (m : Vector3i → Option BlockDirtyState) (p : Vector3i)
    (v : BlockDirtyState) (h : StoredStates m)
    (hv : v = BLOCK_LOAD ∨ v = BLOCK_UPDATE_NOT_SENT ∨ v = BLOCK_UPDATE_SENT) :
    StoredStates (Function.update m p (some v)) :=
  storedStates_update m p (some v) h (fun st hst => by cases hst; exact hv)

theorem make_block_dirty_stored (s : Terrain) (q : Vector3i) (h : StoredStates s.dirty_blocks) :
    StoredStates (make_block_dirty s q).dirty_blocks := by
  rw [make_block_dirty_eq]
  refine storedStates_update _ _ _ h ?_
  intro st hst
  cases hd : s.dirty_blocks q with
  | none =>
    rw [hd] at hst
    cases hb : has_block s q <;> rw [hb] at hst <;> simp [dirty_after] at hst <;> simp [← hst]
  | some st0 =>
    rw [hd] at hst
    have h0 := h q st0 hd
    rcases h0 with rfl | rfl | rfl <;> simp [dirty_after] at hst <;> simp [← hst]

theorem foldl_make_block_dirty_stored (l : List Vector3i) (s : Terrain)
    (h : StoredStates s.dirty_blocks) :
    StoredStates (l.foldl make_block_dirty s).dirty_blocks := by
  induction l generalizing s with
  | nil => exact h
  | cons q l ih => exact ih _ (make_block_dirty_stored s q h)

theorem update_required_block_stored (P N : Rect3i) (s : Terrain) (pos : Vector3i)
    (h : StoredStates s.dirty_blocks) :
    StoredStates (update_required_block P N s pos).dirty_blocks := by
  rcases update_required_block_cases P N s pos with ⟨_, _, e⟩ | ⟨_, _, e⟩ | ⟨_, e⟩
  · rw [e]; exact storedStates_erase _ _ h
  · rw [e]; exact make_block_dirty_stored s pos h
  · rw [e]; exact h

theorem foldl_update_required_block_stored (P N : Rect3i) (l : List Vector3i) (s : Terrain)
    (h : StoredStates s.dirty_blocks) :
    StoredStates (l.foldl (update_required_block P N) s).dirty_blocks := by
  induction l generalizing s with
  | nil => exact h
  | cons q l ih => exact ih _ (update_required_block_stored P N s q h)

theorem update_required_blocks_stored (s : Terrain) (P N : Rect3i)
    (h : StoredStates s.dirty_blocks) :
    StoredStates (update_required_blocks s P N).dirty_blocks := by
  unfold update_required_blocks
  split_ifs
  · exact foldl_update_required_block_stored P N _ s h
  · exact h

theorem remove_positions_outside_box_stored (positions : List Vector3i) (box : Rect3i)
    (m : Vector3i → Option BlockDirtyState) (h : StoredStates m) :
    StoredStates (remove_positions_outside_box positions box m).2 := by
  intro q st hq
  rw [(remove_positions_outside_box_spec positions box m).2 q] at hq
  split_ifs at hq
  exact h q st hq

theorem detect_required_blocks_stored (s : Terrain) (viewer : Option Vector3i)
    (h : StoredStates s.dirty_blocks) :
    StoredStates (detect_required_blocks s viewer).dirty_blocks :=
  remove_positions_outside_box_stored _ _ _
    (remove_positions_outside_box_stored _ _ _
      (update_required_blocks_stored s (previous_box s) (required_box s viewer) h))

theorem update_neighbor_stored (s : Terrain) (npos : Vector3i)
    (h : StoredStates s.dirty_blocks) : StoredStates (update_neighbor s npos).dirty_blocks := by
  unfold update_neighbor
  split_ifs
  · split
    · exact h
    · exact storedStates_set _ _ _ h (Or.inr (Or.inl rfl))
  · exact h

theorem foldl_update_neighbor_stored (l : List Vector3i) (c : Vector3i) (s : Terrain)
    (h : StoredStates s.dirty_blocks) :
    StoredStates (l.foldl (fun acc ndir => update_neighbor acc (c + ndir)) s).dirty_blocks := by
  induction l generalizing s with
  | nil => exact h
  | cons n l ih => exact ih _ (update_neighbor_stored s (c + n) h)

theorem process_load_response_stored (s : Terrain) (o : EmergeOutput)
    (h : StoredStates s.dirty_blocks) :
    StoredStates (process_load_response s o).state.dirty_blocks := by
  by_cases hd : s.dirty_blocks (emerged_block_pos s o) = some BLOCK_LOAD
  · by_cases hsz : o.voxels.size = Vector3i.splat s.block_size
    · have k2 := (set_block_buffer_stats s (emerged_block_pos s o) o.voxels).2.1
      cases hb : has_block s (emerged_block_pos s o)
      · rw [process_load_response_install s o hd hsz hb]
        simp only [Flow.state]
        exact foldl_update_neighbor_stored neighbor_dirs (emerged_block_pos s o)
          (set_block_buffer s (emerged_block_pos s o) o.voxels) (by rw [k2]; exact h)
      · rw [process_load_response_resupply s o hd hsz hb]
        simp only [Flow.state]
        exact storedStates_set
          (set_block_buffer s (emerged_block_pos s o) o.voxels).dirty_blocks
          (emerged_block_pos s o) BLOCK_UPDATE_NOT_SENT (by rw [k2]; exact h)
          (Or.inr (Or.inl rfl))
    · rw [process_load_response_mismatch s o hd hsz]; exact h
  · rw [process_load_response_stale s o hd]; exact h

theorem process_load_loop_stored (batch : List EmergeOutput) (s : Terrain)
    (h : StoredStates s.dirty_blocks) :
    StoredStates (process_load_loop s batch).state.dirty_blocks := by
  induction batch generalizing s with
  | nil => exact h
  | cons o rest ih =>
    have h1 := process_load_response_stored s o h
    simp only [process_load_loop]
    cases hr : process_load_response s o with
    | next s1 => rw [hr] at h1; exact ih s1 h1
    | ret s1 => rw [hr] at h1; exact h1

theorem send_mesh_update_stored (acc acc1 : Terrain × List Vector3i) (q : Vector3i)
    (hs : send_mesh_update acc q = some acc1) (h : StoredStates acc.1.dirty_blocks) :
    StoredStates acc1.1.dirty_blocks := by
  rcases send_mesh_update_some acc acc1 q hs with ⟨_, rfl⟩ | ⟨b, _, _, _, rfl⟩ | ⟨b, _, _, _, rfl⟩
  · exact h
  · exact storedStates_erase _ _ h
  · exact storedStates_set _ _ _ h (Or.inr (Or.inr rfl))

theorem send_mesh_loop_stored (l : List Vector3i) (acc r : Terrain × List Vector3i)
    (hs : send_mesh_loop acc l = some r) (h : StoredStates acc.1.dirty_blocks) :
    StoredStates r.1.dirty_blocks := by
  induction l generalizing acc with
  | nil =>
    simp only [send_mesh_loop, Option.some.injEq] at hs
    subst hs
    exact h
  | cons q l ih =>
    rw [send_mesh_loop_cons] at hs
    cases h1 : send_mesh_update acc q with
    | none => rw [h1] at hs; simp at hs
    | some acc1 =>
      rw [h1] at hs
      simp only [Option.some_bind] at hs
      exact ih acc1 hs (send_mesh_update_stored acc acc1 q h1 h)

theorem send_mesh_updates_stored (s s1 : Terrain) (batch : List Vector3i)
    (hs : send_mesh_updates s = some (s1, batch)) (h : StoredStates s.dirty_blocks) :
    StoredStates s1.dirty_blocks := by
  obtain ⟨r, hr, rfl, rfl⟩ := send_mesh_updates_some s s1 batch hs
  exact send_mesh_loop_stored s.blocks_pending_update (s, []) r hr h

theorem clear_sent_entry_stored (s : Terrain) (pos : Vector3i)
    (h : StoredStates s.dirty_blocks) : StoredStates (clear_sent_entry s pos).dirty_blocks := by
  unfold clear_sent_entry
  split
  · exact storedStates_erase _ _ h
  · exact h

theorem commit_block_stored (s : Terrain) (ob : OutputBlock)
    (h : StoredStates s.dirty_blocks) : StoredStates (commit_block s ob).dirty_blocks := by
  cases hb : s.blocks ob.position with
  | none =>
    rw [commit_block_absent s ob hb]
    exact clear_sent_entry_stored s ob.position h
  | some block =>
    rw [commit_block_resident s ob block hb]
    exact clear_sent_entry_stored s ob.position h

theorem foldl_commit_block_stored (l : List OutputBlock) (s : Terrain)
    (h : StoredStates s.dirty_blocks) : StoredStates (l.foldl commit_block s).dirty_blocks := by
  induction l generalizing s with
  | nil => exact h
  | cons ob l ih => exact ih _ (commit_block_stored s ob h)

theorem process_mesh_responses_stored (s : Terrain) (blocks : List OutputBlock)
    (clock : Nat → Nat) (h : StoredStates s.dirty_blocks) :
    StoredStates (process_mesh_responses s blocks clock).dirty_blocks := by
  rw [process_mesh_responses_eq s blocks clock]
  exact foldl_commit_block_stored _ (pop_mesh_responses s blocks) h

theorem process_stored (s : Terrain) (inp : TickInput) (h : StoredStates s.dirty_blocks) :
    (∀ s1, _process s inp = Outcome.done s1 → StoredStates s1.dirty_blocks) ∧
    (∀ s1, _process s inp = Outcome.failed s1 → StoredStates s1.dirty_blocks) := by
  have h2 : StoredStates
      (send_load_requests (detect_required_blocks s inp.viewer)).dirty_blocks :=
    detect_required_blocks_stored s inp.viewer h
  have h3 := process_load_loop_stored inp.emerged_blocks
    (pop_load_responses (send_load_requests (detect_required_blocks s inp.viewer))
      inp.emerged_blocks) h2
  cases hr : process_load_responses (send_load_requests (detect_required_blocks s inp.viewer))
      inp.emerged_blocks with
  | ret s3 =>
    rw [process_of_ret s s3 inp hr]
    have h3' : StoredStates s3.dirty_blocks := by
      unfold process_load_responses at hr
      rw [hr] at h3
      exact h3
    refine ⟨fun s1 h1 => (by cases h1), fun s1 h1 => ?_⟩
    cases h1
    exact h3'
  | next s3 =>
    have h3' : StoredStates s3.dirty_blocks := by
      unfold process_load_responses at hr
      rw [hr] at h3
      exact h3
    cases hm : send_mesh_updates s3 with
    | none =>
      rw [process_of_crash s s3 inp hr hm]
      exact ⟨fun s1 h1 => (by cases h1), fun s1 h1 => (by cases h1)⟩
    | some r =>
      obtain ⟨s4, batch⟩ := r
      rw [process_of_done s s3 s4 batch inp hr hm]
      refine ⟨fun s1 h1 => ?_, fun s1 h1 => (by cases h1)⟩
      cases h1
      exact process_mesh_responses_stored s4 inp.mesh_blocks inp.clock
        (send_mesh_updates_stored s3 s4 batch hm h3')

theorem op_run_stored (s s1 : Terrain) (op : Op) (h : StoredStates s.dirty_blocks)
    (hr : op.run s = some s1) : StoredStates s1.dirty_blocks := by
  cases op with
  | tick inp =>
    obtain ⟨hd, hf⟩ := process_stored s inp h
    simp only [Op.run] at hr
    cases ho : _process s inp with
    | done s2 =>
      rw [ho] at hr
      simp only [Option.some.injEq] at hr
      subst hr
      exact hd _ ho
    | failed s2 =>
      rw [ho] at hr
      simp only [Option.some.injEq] at hr
      subst hr
      exact hf _ ho
    | crashed => rw [ho] at hr; simp at hr
  | block_dirty bpos =>
    simp only [Op.run, Option.some.injEq] at hr
    subst hr
    exact make_block_dirty_stored s bpos h
  | voxel_dirty pos =>
    simp only [Op.run, Option.some.injEq] at hr
    subst hr
    exact foldl_make_block_dirty_stored _ s h
  | area_dirty box =>
    simp only [Op.run, Option.some.injEq] at hr
    subst hr
    exact foldl_make_block_dirty_stored _ s h
  | view_distance d =>
    simp only [Op.run, Option.some.injEq] at hr
    subst hr
    rcases set_view_distance_cases s d with e | e
    · rw [e]; exact h
    · rw [e]; exact h
  | all_view_dirty_deferred =>
    simp only [Op.run, Option.some.injEq] at hr
    subst hr
    exact h

theorem reachable_stored (allowed : Op → Prop) (B : Int) (s : Terrain)
    (h : ReachableBy allowed B s) : StoredStates s.dirty_blocks := by
  induction h with
  | init => intro p st hp; cases hp
  | step _ _ _ hr ih => exact op_run_stored _ _ _ ih hr

/-- C17: for every state and block coordinate `p`, `get_block_state(p)`
returns the dirty-state entry of `p` when one exists, otherwise `BLOCK_NONE`
when no block is resident at `p` and `BLOCK_IDLE` when the block is resident.
It is a pure query of the state. The entries stored in any state the manager can be
in are `LOAD`, `UPDATE_NOT_SENT` or `UPDATE_SENT`, so `BLOCK_IDLE` is returned
only for a resident block without an entry, and `BLOCK_NONE` only for a
coordinate with neither entry nor block. -/
theorem get_block_state_spec :
    (∀ (s : Terrain) (p : Vector3i),
      (∀ st, s.dirty_blocks p = some st → get_block_state s p = st) ∧
      (s.dirty_blocks p = none → has_block s p = false → get_block_state s p = BLOCK_NONE) ∧
      (s.dirty_blocks p = none → has_block s p = true → get_block_state s p = BLOCK_IDLE)) ∧
    (∀ (allowed : Op → Prop) (B : Int) (s : Terrain), ReachableBy allowed B s →
      ∀ p,
        (∀ st, s.dirty_blocks p = some st →
          st = BLOCK_LOAD ∨ st = BLOCK_UPDATE_NOT_SENT ∨ st = BLOCK_UPDATE_SENT) ∧
        (get_block_state s p = BLOCK_IDLE ↔ s.dirty_blocks p = none ∧ has_block s p = true) ∧
        (get_block_state s p = BLOCK_NONE ↔
          s.dirty_blocks p = none ∧ has_block s p = false)) := by
  refine ⟨get_block_state_cases, ?_⟩
  intro allowed B s hs p
  have hst := reachable_stored allowed B s hs p
  obtain ⟨c1, c2, c3⟩ := get_block_state_cases s p
  refine ⟨hst, ?_, ?_⟩
  · constructor
    · intro hg
      cases hd : s.dirty_blocks p with
      | none =>
        refine ⟨rfl, ?_⟩
        cases hb : has_block s p
        · rw [c2 hd hb] at hg; cases hg
        · rfl
      | some st =>
        rw [c1 st hd] at hg
        rcases hst st hd with h | h | h <;> rw [h] at hg <;> cases hg
    · rintro ⟨hd, hb⟩
      exact c3 hd hb
  · constructor
    · intro hg
      cases hd : s.dirty_blocks p with
      | none =>
        refine ⟨rfl, ?_⟩
        cases hb : has_block s p
        · rfl
        · rw [c3 hd hb] at hg; cases hg
      | some st =>
        rw [c1 st hd] at hg
        rcases hst st hd with h | h | h <;> rw [h] at hg <;> cases hg
    · rintro ⟨hd, hb⟩
      exact c2 hd hb

/-! ## Rejected load results -/

theorem process_load_loop_append (a b : List EmergeOutput) (s : Terrain) :
    process_load_loop s (a ++ b) =
      match process_load_loop s a with
      | Flow.next s1 => process_load_loop s1 b
      | Flow.ret s1 => Flow.ret s1 := by
  induction a generalizing s with
  | nil => rfl
  | cons o a ih =>
    simp only [List.cons_append, process_load_loop]
    cases process_load_response s o with
    | next s1 => exact ih s1
    | ret s1 => rfl

/-- C19: in the load-result drain, a result for a coordinate in state `LOAD`
whose buffer dimensions differ from `(B, B, B)` is rejected: the iteration
leaves the whole state as it was, so the buffer is not installed in the
Spatial Index, the entry stays `LOAD` and nothing is appended to the
pending-update queue. The rejection is an `ERR_FAIL_COND`: the drain stops at
this result and `_process` returns with the state reached so far. -/
theorem load_size_mismatch_rejected (s : Terrain) (o : EmergeOutput)
    (h : s.dirty_blocks (emerged_block_pos s o) = some BLOCK_LOAD)
    (hsz : o.voxels.size ≠ Vector3i.splat s.block_size) :
    process_load_response s o = Flow.ret s ∧
    (process_load_response s o).state.blocks = s.blocks ∧
    (process_load_response s o).state.dirty_blocks = s.dirty_blocks ∧
    (process_load_response s o).state.dirty_blocks (emerged_block_pos s o)
      = some BLOCK_LOAD ∧
    (process_load_response s o).state.blocks_pending_update = s.blocks_pending_update ∧
    (∀ (s0 : Terrain) (before rest : List EmergeOutput),
      process_load_loop s0 before = Flow.next s →
      process_load_loop s0 (before ++ o :: rest) = Flow.ret s) ∧
    (∀ (t : Terrain) (inp : TickInput) (before rest : List EmergeOutput),
      inp.emerged_blocks = before ++ o :: rest →
      process_load_loop
        (pop_load_responses (send_load_requests (detect_required_blocks t inp.viewer))
          inp.emerged_blocks) before = Flow.next s →
      _process t inp = Outcome.failed s) := by
  have hr := process_load_response_mismatch s o h hsz
  have hloop : ∀ (s0 : Terrain) (before rest : List EmergeOutput),
      process_load_loop s0 before = Flow.next s →
      process_load_loop s0 (before ++ o :: rest) = Flow.ret s := by
    intro s0 before rest hb
    rw [process_load_loop_append, hb]
    simp only [process_load_loop, hr]
  refine ⟨hr, ?_, ?_, ?_, ?_, hloop, ?_⟩
  · rw [hr]; rfl
  · rw [hr]; rfl
  · rw [hr]; exact h
  · rw [hr]; rfl
  · intro t inp before rest he hb
    apply process_of_ret
    unfold process_load_responses
    rw [he] at hb ⊢
    exact hloop _ before rest hb

/-- Witness for C19: `sample_pos` is in state `LOAD` in `sample_loading`, and
the result `sample_wrong_size` for it has an 8×8×8 buffer, not 16×16×16. -/
theorem load_size_mismatch_rejected_witness :
    sample_loading.dirty_blocks (emerged_block_pos sample_loading sample_wrong_size)
      = some BLOCK_LOAD ∧
    sample_wrong_size.voxels.size ≠ Vector3i.splat sample_loading.block_size ∧
    process_load_response sample_loading sample_wrong_size = Flow.ret sample_loading ∧
    (process_load_response sample_loading sample_wrong_size).state.blocks_pending_update = [] :=
  ⟨by decide, by decide,
    (load_size_mismatch_rejected sample_loading sample_wrong_size (by decide) (by decide)).1,
    (load_size_mismatch_rejected sample_loading sample_wrong_size (by decide)
      (by decide)).2.2.2.2.1⟩

/-! ## Pruning the queues: exactness and termination -/

/-- Once the fuel covers the entries still to be examined, more fuel changes
nothing: the loop of `remove_positions_outside_box` ends because `i` reaches
`positions.size()`, not because the fuel runs out. -/
theorem remove_positions_loop_fuel (box : Rect3i) (fuel : Nat) :
    ∀ (i : Nat) (positions : List Vector3i) (m : Vector3i → Option BlockDirtyState),
      positions.length - i ≤ fuel →
      remove_positions_loop box (fuel + 1) i positions m
        = remove_positions_loop box fuel i positions m := by
  induction fuel with
  | zero =>
    intro i positions m h
    have hi : ¬ i < positions.length := by omega
    simp only [remove_positions_loop, hi, if_false]
  | succ fuel ih =>
    intro i positions m h
    by_cases hi : i < positions.length
    · by_cases hc : box.contains (positions.getD i Vector3i.zero) = true
      · have e1 : ∀ f, remove_positions_loop box (f + 1) i positions m
            = remove_positions_loop box f (i + 1) positions m := by
          intro f
          simp only [remove_positions_loop, hi, if_true, hc, Bool.not_true]
          rfl
        rw [e1 (fuel + 1), e1 fuel]
        exact ih (i + 1) positions m (by omega)
      · have e1 : ∀ f, remove_positions_loop box (f + 1) i positions m
            = remove_positions_loop box f i
                ((positions.set i (positions.getD (positions.length - 1) Vector3i.zero)).take
                  (positions.length - 1))
                (Function.update m (positions.getD i Vector3i.zero) none) := by
          intro f
          simp only [Bool.not_eq_true] at hc
          simp only [remove_positions_loop, hi, if_true, hc, Bool.not_false]
        rw [e1 (fuel + 1), e1 fuel]
        refine ih i _ _ ?_
        simp only [List.length_take, List.length_set]
        omega
    · simp only [remove_positions_loop, hi, if_false]

theorem remove_positions_loop_fuel_le (box : Rect3i) (positions : List Vector3i)
    (m : Vector3i → Option BlockDirtyState) (fuel : Nat) (h : positions.length ≤ fuel) :
    remove_positions_loop box fuel 0 positions m
      = remove_positions_outside_box positions box m := by
  unfold remove_positions_outside_box
  induction fuel with
  | zero =>
    have : positions.length = 0 := by omega
    rw [this]
  | succ fuel ih =>
    by_cases hf : positions.length ≤ fuel
    · rw [remove_positions_loop_fuel box fuel 0 positions m (by omega)]
      exact ih hf
    · have : positions.length = fuel + 1 := by omega
      rw [this]

theorem detect_required_blocks_queues (s : Terrain) (viewer : Option Vector3i) :
    (detect_required_blocks s viewer).blocks_pending_load.Perm
      ((update_required_blocks s (previous_box s)
        (required_box s viewer)).blocks_pending_load.filter
          (fun q => (required_box s viewer).contains q)) ∧
    (detect_required_blocks s viewer).blocks_pending_update.Perm
      ((update_required_blocks s (previous_box s)
        (required_box s viewer)).blocks_pending_update.filter
          (fun q => (required_box s viewer).contains q)) :=
  ⟨(remove_positions_outside_box_spec _ _ _).1, (remove_positions_outside_box_spec _ _ _).1⟩

/-- C14: for every list of positions, box and state map,
`remove_positions_outside_box` terminates (its loop ends by reaching the end
of the list: any fuel of at least the length of the list gives the same
result) and leaves in the list exactly the entries inside the box, each with
its original multiplicity (a permutation of the list filtered by
`box.contains`); it erases the state-map entry of every removed coordinate and
leaves every other entry unchanged. So after the prune phase of a tick every
coordinate in the pending-load and pending-update queues lies in the new
box. -/
theorem remove_positions_outside_box_exact :
    (∀ (positions : List Vector3i) (box : Rect3i) (m : Vector3i → Option BlockDirtyState),
      (∀ fuel, positions.length ≤ fuel →
        remove_positions_loop box fuel 0 positions m
          = remove_positions_outside_box positions box m) ∧
      (remove_positions_outside_box positions box m).1.Perm
        (positions.filter (fun q => box.contains q)) ∧
      (∀ q, (remove_positions_outside_box positions box m).1.count q =
        if box.contains q = true then positions.count q else 0) ∧
      (∀ q, q ∈ (remove_positions_outside_box positions box m).1 ↔
        q ∈ positions ∧ box.contains q = true) ∧
      (∀ q, q ∈ positions → box.contains q = false →
        (remove_positions_outside_box positions box m).2 q = none) ∧
      (∀ q, ¬ (q ∈ positions ∧ box.contains q = false) →
        (remove_positions_outside_box positions box m).2 q = m q)) ∧
    (∀ (s : Terrain) (viewer : Option Vector3i) (q : Vector3i),
      q ∈ (detect_required_blocks s viewer).blocks_pending_load ∨
        q ∈ (detect_required_blocks s viewer).blocks_pending_update →
      (required_box s viewer).contains q = true) := by
  refine ⟨?_, ?_⟩
  · intro positions box m
    obtain ⟨hp, hm⟩ := remove_positions_outside_box_spec positions box m
    refine ⟨fun fuel hf => remove_positions_loop_fuel_le box positions m fuel hf, hp, ?_, ?_,
      ?_, ?_⟩
    · intro q
      rw [hp.count_eq]
      split_ifs with hc
      · exact List.count_filter (by simpa using hc)
      · apply List.count_eq_zero_of_not_mem
        rw [List.mem_filter]
        exact fun h => hc h.2
    · intro q
      rw [hp.mem_iff, List.mem_filter]
    · intro q hq hc
      rw [hm q, if_pos ⟨hq, hc⟩]
    · intro q hq
      rw [hm q, if_neg hq]
  · intro s viewer q hq
    obtain ⟨h1, h2⟩ := detect_required_blocks_queues s viewer
    rcases hq with hq | hq
    · rw [h1.mem_iff, List.mem_filter] at hq
      exact hq.2
    · rw [h2.mem_iff, List.mem_filter] at hq
      exact hq.2

/-! ## No duplicates in the pending queues -/

theorem nodup_append_if (l : List Vector3i) (q : Vector3i) (c : Prop) [Decidable c]
    (h : l.Nodup) (hq : c → q ∉ l) : (l ++ (if c then [q] else [])).Nodup := by
  split_ifs with hc
  · rw [List.nodup_append]
    refine ⟨h, List.nodup_singleton q, ?_⟩
    intro a ha hb
    rw [List.mem_singleton] at hb
    subst hb
    exact hq hc ha
  · simpa using h

theorem make_block_dirty_nodup (C : Vector3i → Prop) (s : Terrain) (q : Vector3i)
    (hinv : InvOn C s) (hC : C q) (h : QueuesNodup s) : QueuesNodup (make_block_dirty s q) := by
  rw [make_block_dirty_eq]
  refine ⟨nodup_append_if _ q _ h.load ?_, nodup_append_if _ q _ h.update ?_⟩
  · intro hl hq
    have := hinv.load_queue q hq hC
    simp [loads_on_dirty, this] at hl
  · intro hu hq
    have := hinv.update_queue q hq hC
    simp [updates_on_dirty, this] at hu

theorem foldl_make_block_dirty_nodup (l : List Vector3i) (s : Terrain) (hinv : Inv s)
    (h : QueuesNodup s) : QueuesNodup (l.foldl make_block_dirty s) := by
  induction l generalizing s with
  | nil => exact h
  | cons q l ih =>
    exact ih _ (make_block_dirty_inv _ s q hinv trivial)
      (make_block_dirty_nodup _ s q hinv trivial h)

theorem update_required_block_nodup (P N : Rect3i) (s : Terrain) (pos : Vector3i)
    (hinv : InvOn (fun p => N.contains p = true) s) (h : QueuesNodup s) :
    QueuesNodup (update_required_block P N s pos) := by
  rcases update_required_block_cases P N s pos with ⟨_, _, e⟩ | ⟨_, hN, e⟩ | ⟨_, e⟩
  · rw [e]; exact ⟨h.load, h.update⟩
  · rw [e]; exact make_block_dirty_nodup _ s pos hinv hN h
  · rw [e]; exact h

theorem foldl_update_required_block_nodup (P N : Rect3i) (l : List Vector3i) (s : Terrain)
    (hinv : InvOn (fun p => N.contains p = true) s) (h : QueuesNodup s) :
    QueuesNodup (l.foldl (update_required_block P N) s) := by
  induction l generalizing s with
  | nil => exact h
  | cons q l ih =>
    exact ih _ (update_required_block_inv P N s q hinv)
      (update_required_block_nodup P N s q hinv h)

theorem update_required_blocks_nodup (s : Terrain) (P N : Rect3i) (hinv : Inv s)
    (h : QueuesNodup s) : QueuesNodup (update_required_blocks s P N) := by
  unfold update_required_blocks
  split_ifs
  · exact foldl_update_required_block_nodup P N _ s (invOn_mono hinv (fun _ _ => trivial)) h
  · exact h

theorem detect_required_blocks_nodup (s : Terrain) (viewer : Option Vector3i) (hinv : Inv s)
    (h : QueuesNodup s) : QueuesNodup (detect_required_blocks s viewer) := by
  have h1 := update_required_blocks_nodup s (previous_box s) (required_box s viewer) hinv h
  obtain ⟨p1, p2⟩ := detect_required_blocks_queues s viewer
  exact ⟨p1.nodup_iff.2 (h1.load.filter _), p2.nodup_iff.2 (h1.update.filter _)⟩

theorem update_neighbor_nodup (s : Terrain) (npos : Vector3i) (hinv : Inv s)
    (h : s.blocks_pending_update.Nodup) : (update_neighbor s npos).blocks_pending_update.Nodup := by
  unfold update_neighbor
  split_ifs
  · split
    · exact h
    · rename_i hne
      show (s.blocks_pending_update ++ [npos]).Nodup
      rw [List.nodup_append]
      refine ⟨h, List.nodup_singleton npos, ?_⟩
      intro a ha hb
      rw [List.mem_singleton] at hb
      subst hb
      exact hne (hinv.update_queue a ha trivial)
  · exact h

theorem foldl_update_neighbor_nodup (l : List Vector3i) (c : Vector3i) (s : Terrain)
    (hinv : Inv s) (hl : s.blocks_pending_load = []) (h : s.blocks_pending_update.Nodup) :
    (l.foldl (fun acc ndir => update_neighbor acc (c + ndir)) s).blocks_pending_update.Nodup := by
  induction l generalizing s with
  | nil => exact h
  | cons n l ih =>
    rw [List.foldl_cons]
    exact ih _ (update_neighbor_inv s (c + n) hinv hl)
      (by rw [(update_neighbor_stats s (c + n)).2.2.2.1]; exact hl)
      (update_neighbor_nodup s (c + n) hinv h)

theorem process_load_response_nodup (s : Terrain) (o : EmergeOutput) (hinv : Inv s)
    (hl : s.blocks_pending_load = []) (h : s.blocks_pending_update.Nodup) :
    (process_load_response s o).state.blocks_pending_update.Nodup := by
  by_cases hd : s.dirty_blocks (emerged_block_pos s o) = some BLOCK_LOAD
  · by_cases hsz : o.voxels.size = Vector3i.splat s.block_size
    · obtain ⟨_, _, _, k4, k5, _⟩ := set_block_buffer_stats s (emerged_block_pos s o) o.voxels
      cases hb : has_block s (emerged_block_pos s o)
      · rw [process_load_response_install s o hd hsz hb]
        simp only [Flow.state]
        exact foldl_update_neighbor_nodup neighbor_dirs (emerged_block_pos s o)
          (set_block_buffer s (emerged_block_pos s o) o.voxels)
          (set_block_buffer_inv s (emerged_block_pos s o) o.voxels hinv)
          (k4.trans hl) (by rw [k5]; exact h)
      · rw [process_load_response_resupply s o hd hsz hb]
        simp only [Flow.state]
        rw [k5, List.nodup_append]
        refine ⟨h, List.nodup_singleton _, ?_⟩
        intro a ha hb'
        rw [List.mem_singleton] at hb'
        subst hb'
        have := hinv.update_queue _ ha trivial
        rw [hd] at this
        exact absurd (Option.some.inj this) (by decide)
    · rw [process_load_response_mismatch s o hd hsz]; exact h
  · rw [process_load_response_stale s o hd]; exact h

theorem process_load_loop_nodup (batch : List EmergeOutput) (s : Terrain) (hinv : Inv s)
    (hl : s.blocks_pending_load = []) (h : s.blocks_pending_update.Nodup) :
    (process_load_loop s batch).state.blocks_pending_update.Nodup := by
  induction batch generalizing s with
  | nil => exact h
  | cons o rest ih =>
    obtain ⟨i1, l1⟩ := process_load_response_inv s o hinv hl
    have n1 := process_load_response_nodup s o hinv hl h
    simp only [process_load_loop]
    cases hr : process_load_response s o with
    | next s1 =>
      rw [hr] at i1 l1 n1
      exact ih s1 i1 l1 n1
    | ret s1 =>
      rw [hr] at n1
      exact n1

/-- The load-result drain of a tick leaves the pending-update queue without
duplicates (and the pending-load queue empty). -/
theorem process_load_responses_nodup (s : Terrain) (batch : List EmergeOutput) (hinv : Inv s)
    (hl : s.blocks_pending_load = []) (h : s.blocks_pending_update.Nodup) :
    (process_load_responses s batch).state.blocks_pending_update.Nodup :=
  process_load_loop_nodup batch (pop_load_responses s batch)
    ⟨hinv.sent_resident, hinv.load_queue, hinv.update_queue⟩ hl h

theorem process_nodup (s : Terrain) (inp : TickInput) (hinv : Inv s) (h : QueuesNodup s) :
    (∀ s1, _process s inp = Outcome.done s1 → QueuesNodup s1) ∧
    (∀ s1, _process s inp = Outcome.failed s1 → QueuesNodup s1) := by
  have i1 := detect_required_blocks_inv s inp.viewer hinv
  have n1 := detect_required_blocks_nodup s inp.viewer hinv h
  obtain ⟨i2, l2⟩ := send_load_requests_inv _ i1
  obtain ⟨i3, l3⟩ := process_load_responses_inv _ inp.emerged_blocks i2 l2
  have n3 := process_load_responses_nodup _ inp.emerged_blocks i2 l2 n1.update
  cases hr : process_load_responses (send_load_requests (detect_required_blocks s inp.viewer))
      inp.emerged_blocks with
  | ret s3 =>
    rw [process_of_ret s s3 inp hr]
    rw [hr] at l3 n3
    refine ⟨fun s1 h1 => (by cases h1), fun s1 h1 => ?_⟩
    cases h1
    exact ⟨by rw [show s3.blocks_pending_load = [] from l3]; exact List.nodup_nil, n3⟩
  | next s3 =>
    rw [hr] at i3 l3 n3
    cases hm : send_mesh_updates s3 with
    | none =>
      rw [process_of_crash s s3 inp hr hm]
      exact ⟨fun s1 h1 => (by cases h1), fun s1 h1 => (by cases h1)⟩
    | some r =>
      obtain ⟨s4, batch⟩ := r
      rw [process_of_done s s3 s4 batch inp hr hm]
      refine ⟨fun s1 h1 => ?_, fun s1 h1 => (by cases h1)⟩
      cases h1
      obtain ⟨_, l4, u4, _⟩ := send_mesh_updates_inv s3 s4 batch hm i3 l3
      rw [process_mesh_responses_eq s4 inp.mesh_blocks inp.clock]
      obtain ⟨f1, f2⟩ := foldl_commit_block_frame
        ((s4.blocks_pending_main_thread_update ++ inp.mesh_blocks).take
          (commit_loop inp.clock (commit_timeout inp.clock) 2
            (pop_mesh_responses s4 inp.mesh_blocks)
            (s4.blocks_pending_main_thread_update ++ inp.mesh_blocks)).2)
        (pop_mesh_responses s4 inp.mesh_blocks)
      refine ⟨?_, ?_⟩
      · show (List.foldl commit_block _ _).blocks_pending_load.Nodup
        rw [f1]
        show s4.blocks_pending_load.Nodup
        rw [l4]; exact List.nodup_nil
      · show (List.foldl commit_block _ _).blocks_pending_update.Nodup
        rw [f2]
        show s4.blocks_pending_update.Nodup
        rw [u4]; exact List.nodup_nil

theorem op_run_nodup (s s1 : Terrain) (op : Op) (hinv : Inv s) (h : QueuesNodup s)
    (hr : op.run s = some s1) : QueuesNodup s1 := by
  cases op with
  | tick inp =>
    obtain ⟨hd, hf⟩ := process_nodup s inp hinv h
    simp only [Op.run] at hr
    cases ho : _process s inp with
    | done s2 =>
      rw [ho] at hr
      simp only [Option.some.injEq] at hr
      subst hr
      exact hd _ ho
    | failed s2 =>
      rw [ho] at hr
      simp only [Option.some.injEq] at hr
      subst hr
      exact hf _ ho
    | crashed => rw [ho] at hr; simp at hr
  | block_dirty bpos =>
    simp only [Op.run, Option.some.injEq] at hr
    subst hr
    exact make_block_dirty_nodup _ s bpos hinv trivial h
  | voxel_dirty pos =>
    simp only [Op.run, Option.some.injEq] at hr
    subst hr
    exact foldl_make_block_dirty_nodup _ s hinv h
  | area_dirty box =>
    simp only [Op.run, Option.some.injEq] at hr
    subst hr
    exact foldl_make_block_dirty_nodup _ s hinv h
  | view_distance d =>
    simp only [Op.run, Option.some.injEq] at hr
    subst hr
    rcases set_view_distance_cases s d with e | e
    · rw [e]; exact h
    · rw [e]; exact ⟨h.load, h.update⟩
  | all_view_dirty_deferred =>
    simp only [Op.run, Option.some.injEq] at hr
    subst hr
    exact ⟨h.load, h.update⟩

theorem reachable_nodup (allowed : Op → Prop) (B : Int) (s : Terrain)
    (h : ReachableBy allowed B s) : QueuesNodup s := by
  induction h with
  | init => exact ⟨List.nodup_nil, List.nodup_nil⟩
  | step hprev _ _ hr ih => exact op_run_nodup _ _ _ (reachable_inv _ B _ hprev) ih hr

/-- C11: in every state reachable from the freshly constructed manager by
scheduling ticks and dirty-marking calls, no block coordinate occurs more than
once in the pending-load queue and none occurs more than once in the
pending-update queue. The same holds when the viewer moves and when
`set_view_distance` and `make_all_view_dirty_deferred` are called as well. -/
theorem pending_queues_nodup :
    (∀ (B : Int) (s : Terrain), ReachableTD B s →
      s.blocks_pending_load.Nodup ∧ s.blocks_pending_update.Nodup ∧
      (∀ p, s.blocks_pending_load.count p ≤ 1 ∧ s.blocks_pending_update.count p ≤ 1)) ∧
    (∀ (B : Int) (s : Terrain), Reachable B s →
      s.blocks_pending_load.Nodup ∧ s.blocks_pending_update.Nodup) := by
  refine ⟨?_, ?_⟩
  · intro B s h
    have hn := reachable_nodup _ B s h
    exact ⟨hn.load, hn.update, fun p =>
      ⟨List.nodup_iff_count_le_one.1 hn.load p, List.nodup_iff_count_le_one.1 hn.update p⟩⟩
  · intro B s h
    have hn := reachable_nodup _ B s h
    exact ⟨hn.load, hn.update⟩

/-! ## The batch of the mesh dispatch -/

theorem is_dispatched_congr (s t : Terrain) (q : Vector3i) (h : t.blocks q = s.blocks q) :
    is_dispatched t q = is_dispatched s q := by
  simp only [is_dispatched, h]

/-- One iteration of the mesh-dispatch loop at a coordinate that, when
resident, has the entry `UPDATE_NOT_SENT`: no `CRASH_COND` fires. -/
theorem send_mesh_update_step (acc : Terrain × List Vector3i) (p : Vector3i)
    (h : (acc.1.blocks p).isSome → acc.1.dirty_blocks p = some BLOCK_UPDATE_NOT_SENT) :
    ∃ acc1, send_mesh_update acc p = some acc1 ∧
      acc1.2 = acc.2 ++ (if is_dispatched acc.1 p = true then [p] else []) ∧
      (is_dispatched acc.1 p = true → acc1.1.dirty_blocks p = some BLOCK_UPDATE_SENT) ∧
      (acc.1.blocks p = none → acc1 = acc) := by
  cases hb : acc.1.blocks p with
  | none =>
    refine ⟨acc, send_mesh_update_absent acc p hb, ?_, ?_, fun _ => rfl⟩
    · simp [is_dispatched, hb]
    · intro hd
      simp [is_dispatched, hb] at hd
  | some block =>
    have hd := h (by rw [hb]; rfl)
    cases hair : is_air block
    · refine ⟨_, send_mesh_update_send acc p block hb hd hair, ?_, ?_, fun h0 => (by cases h0)⟩
      · simp [is_dispatched, hb, hair]
      · intro _
        simp
    · refine ⟨_, send_mesh_update_air acc p block hb hd hair, ?_, ?_, fun h0 => (by cases h0)⟩
      · simp [is_dispatched, hb, hair]
      · intro hdis
        simp [is_dispatched, hb, hair] at hdis

theorem send_mesh_update_jobs (acc acc1 : Terrain × List Vector3i) (q : Vector3i)
    (h : send_mesh_update acc q = some acc1) : acc1.1.updater_jobs = acc.1.updater_jobs := by
  rcases send_mesh_update_some acc acc1 q h with ⟨_, rfl⟩ | ⟨b, _, _, _, rfl⟩ | ⟨b, _, _, _, rfl⟩
  · rfl
  · rfl
  · rfl

theorem send_mesh_loop_jobs (l : List Vector3i) (acc r : Terrain × List Vector3i)
    (h : send_mesh_loop acc l = some r) : r.1.updater_jobs = acc.1.updater_jobs := by
  induction l generalizing acc with
  | nil =>
    simp only [send_mesh_loop, Option.some.injEq] at h
    subst h
    rfl
  | cons q l ih =>
    rw [send_mesh_loop_cons] at h
    cases h1 : send_mesh_update acc q with
    | none => rw [h1] at h; simp at h
    | some acc1 =>
      rw [h1] at h
      simp only [Option.some_bind] at h
      exact (ih acc1 h).trans (send_mesh_update_jobs acc acc1 q h1)

/-- The mesh-dispatch loop over a list without duplicates whose resident
coordinates all have the entry `UPDATE_NOT_SENT` does not crash; it appends to
the batch the resident, non-air coordinates in order, leaves them in state
`UPDATE_SENT`, and touches neither the coordinates outside the list nor those
without a resident block. -/
theorem send_mesh_loop_batch (l : List Vector3i) (acc : Terrain × List Vector3i)
    (hn : l.Nodup)
    (hq : ∀ q ∈ l, (acc.1.blocks q).isSome → acc.1.dirty_blocks q = some BLOCK_UPDATE_NOT_SENT) :
    ∃ r, send_mesh_loop acc l = some r ∧
      r.2 = acc.2 ++ l.filter (fun q => is_dispatched acc.1 q) ∧
      (∀ q ∈ l, is_dispatched acc.1 q = true → r.1.dirty_blocks q = some BLOCK_UPDATE_SENT) ∧
      (∀ q, q ∉ l → r.1.dirty_blocks q = acc.1.dirty_blocks q ∧ r.1.blocks q = acc.1.blocks q) ∧
      (∀ q, acc.1.blocks q = none →
        r.1.dirty_blocks q = acc.1.dirty_blocks q ∧ r.1.blocks q = none) := by
  induction l generalizing acc with
  | nil =>
    exact ⟨acc, rfl, by simp, fun q hq => absurd hq (List.not_mem_nil q),
      fun q _ => ⟨rfl, rfl⟩, fun q h => ⟨rfl, h⟩⟩
  | cons p l ih =>
    have hpl : p ∉ l := (List.nodup_cons.1 hn).1
    have hnl : l.Nodup := (List.nodup_cons.1 hn).2
    obtain ⟨acc1, a1, a2, a3, a4⟩ := send_mesh_update_step acc p (hq p (List.mem_cons_self p l))
    have hother : ∀ q, q ≠ p →
        acc1.1.blocks q = acc.1.blocks q ∧ acc1.1.dirty_blocks q = acc.1.dirty_blocks q :=
      fun q hqp => ⟨(send_mesh_update_other acc acc1 p q a1 hqp).1,
        (send_mesh_update_other acc acc1 p q a1 hqp).2.1⟩
    have hne : ∀ q ∈ l, q ≠ p := fun q hql e => hpl (e ▸ hql)
    obtain ⟨r, h1, h2, h3, h4, h5⟩ := ih acc1 hnl (by
      intro q hql hres
      rw [(hother q (hne q hql)).1] at hres
      rw [(hother q (hne q hql)).2]
      exact hq q (List.mem_cons_of_mem p hql) hres)
    have hfilter : l.filter (fun q => is_dispatched acc1.1 q)
        = l.filter (fun q => is_dispatched acc.1 q) :=
      List.filter_congr (fun q hql => is_dispatched_congr acc.1 acc1.1 q (hother q (hne q hql)).1)
    refine ⟨r, ?_, ?_, ?_, ?_, ?_⟩
    · rw [send_mesh_loop_cons, a1]
      exact h1
    · rw [h2, a2, hfilter, List.filter_cons, List.append_assoc]
      split_ifs <;> rfl
    · intro q hqm hdis
      rcases List.mem_cons.1 hqm with rfl | hql
      · rw [(h4 q hpl).1]
        exact a3 hdis
      · refine h3 q hql ?_
        rw [is_dispatched_congr acc.1 acc1.1 q (hother q (hne q hql)).1]
        exact hdis
    · intro q hqm
      have hqp : q ≠ p := fun e => hqm (e ▸ List.mem_cons_self p l)
      have hql : q ∉ l := fun h => hqm (List.mem_cons_of_mem p h)
      exact ⟨(h4 q hql).1.trans (hother q hqp).2, (h4 q hql).2.trans (hother q hqp).1⟩
    · intro q hnone
      by_cases hqp : q = p
      · subst hqp
        have e := a4 hnone
        subst e
        exact h5 q hnone
      · have hb1 : acc1.1.blocks q = none := (hother q hqp).1.trans hnone
        exact ⟨(h5 q hb1).1.trans (hother q hqp).2, (h5 q hb1).2⟩

/-- The mesh-dispatch phase on a state whose pending-update queue has no
duplicates and only entries `UPDATE_NOT_SENT`. -/
theorem send_mesh_updates_batch (s : Terrain) (hn : s.blocks_pending_update.Nodup)
    (hq : ∀ q ∈ s.blocks_pending_update, s.dirty_blocks q = some BLOCK_UPDATE_NOT_SENT) :
    ∃ s1 batch, send_mesh_updates s = some (s1, batch) ∧
      s1.blocks_pending_update = [] ∧
      batch = s.blocks_pending_update.filter (fun q => is_dispatched s q) ∧
      s1.updater_jobs = s.updater_jobs ++ batch ∧
      (∀ q ∈ batch, s1.dirty_blocks q = some BLOCK_UPDATE_SENT) ∧
      (∀ q, s.blocks q = none → s1.dirty_blocks q = s.dirty_blocks q ∧ s1.blocks q = none) ∧
      (∀ q, q ∉ s.blocks_pending_update →
        s1.dirty_blocks q = s.dirty_blocks q ∧ s1.blocks q = s.blocks q) := by
  obtain ⟨r, h1, h2, h3, h4, h5⟩ := send_mesh_loop_batch s.blocks_pending_update (s, []) hn
    (fun q hql _ => hq q hql)
  obtain ⟨r1, r2⟩ := r
  simp only [List.nil_append] at h2
  refine ⟨{ r1 with updater_jobs := r1.updater_jobs ++ r2, blocks_pending_update := [] }, r2,
    ?_, rfl, h2, ?_, ?_, h5, h4⟩
  · simp only [send_mesh_updates, h1]
  · show r1.updater_jobs ++ r2 = s.updater_jobs ++ r2
    rw [show r1.updater_jobs = s.updater_jobs from
      send_mesh_loop_jobs s.blocks_pending_update (s, []) (r1, r2) h1]
  · intro q hqb
    have hqb' : q ∈ s.blocks_pending_update.filter (fun q => is_dispatched s q) := h2 ▸ hqb
    rw [List.mem_filter] at hqb'
    exact h3 q hqb'.1 hqb'.2

/-! ## Running operations on sample states -/

theorem op_run_eq_run_op (s : Terrain) (op : Op) (h : (op.run s).isSome = true) :
    op.run s = some (run_op s op) := by
  unfold run_op
  cases hr : op.run s with
  | none => rw [hr] at h; cases h
  | some s1 => rfl

theorem flow_next_state (f : Flow) (h : f.is_next = true) : f = Flow.next f.state := by
  cases f with
  | next s => rfl
  | ret s => cases h

/-- No `CRASH_COND` fires in a tick that starts in a state satisfying the
scheduler invariant whose queues have no duplicates. -/
theorem process_not_crashed (s : Terrain) (inp : TickInput) (hinv : Inv s)
    (hn : QueuesNodup s) : (Op.run s (Op.tick inp)).isSome = true := by
  have i1 := detect_required_blocks_inv s inp.viewer hinv
  have n1 := detect_required_blocks_nodup s inp.viewer hinv hn
  obtain ⟨i2, l2⟩ := send_load_requests_inv _ i1
  obtain ⟨i3, _⟩ := process_load_responses_inv _ inp.emerged_blocks i2 l2
  have n3 := process_load_responses_nodup _ inp.emerged_blocks i2 l2 n1.update
  simp only [Op.run]
  cases hr : process_load_responses (send_load_requests (detect_required_blocks s inp.viewer))
      inp.emerged_blocks with
  | ret s3 => rw [process_of_ret s s3 inp hr]; rfl
  | next s3 =>
    rw [hr] at i3 n3
    obtain ⟨s4, batch, e1, _⟩ := send_mesh_updates_batch s3 n3
      (fun q hq => i3.update_queue q hq trivial)
    rw [process_of_done s s3 s4 batch inp hr e1]
    rfl

/-- A tick that pops no mesh result and only load results the Loader Worker
holds is a valid step. -/
theorem reachable_run_tick (allowed : Op → Prop) (B : Int) (s : Terrain) (inp : TickInput)
    (hs : ReachableBy allowed B s) (ha : allowed (Op.tick inp)) (hm : inp.mesh_blocks = [])
    (hl : (inp.emerged_blocks.map (emerged_block_pos s)).Subperm
      (send_load_requests (detect_required_blocks s inp.viewer)).provider_requests) :
    ReachableBy allowed B (run_op s (Op.tick inp)) := by
  refine @ReachableBy.step allowed B s (run_op s (Op.tick inp)) (Op.tick inp) hs ha ?_
    (op_run_eq_run_op s (Op.tick inp)
      (process_not_crashed s inp (reachable_inv _ B s hs) (reachable_nodup _ B s hs)))
  refine ⟨hl, ?_⟩
  intro s3 s4 batch _ _
  rw [hm]
  exact List.nil_subperm

theorem reachable_sample_idle : Reachable 16 sample_idle :=
  @ReachableBy.step (fun _ => True) 16 (fresh 16) sample_idle (Op.view_distance 0)
    ReachableBy.init trivial trivial rfl

theorem reachable_sample_requested : Reachable 16 sample_requested :=
  reachable_run_tick _ 16 sample_idle away_tick reachable_sample_idle trivial rfl
    List.nil_subperm

theorem reachable_sample_requested_twice : Reachable 16 sample_requested_twice :=
  reachable_run_tick _ 16 _ away_tick
    (reachable_run_tick _ 16 sample_requested quiet_tick reachable_sample_requested trivial rfl
      List.nil_subperm)
    trivial rfl List.nil_subperm

/-- C20: in a tick that starts in a reachable state and reaches the mesh
dispatch, the dispatch phase runs to its end (no `CRASH_COND` fires);
afterwards the pending-update queue is empty; the batch pushed to the Mesh
Worker is the queue filtered, in queue order and once per queue entry, to the
coordinates whose block is resident and not uniformly air; every coordinate of
the batch has dirty state `UPDATE_SENT`; and a queued coordinate with no
resident block is left out of the batch with its dirty state as it was. -/
theorem dispatch_batch_exact (B : Int) (s : Terrain) (inp : TickInput) (s3 : Terrain)
    (hs : Reachable B s)
    (h3 : process_load_responses (send_load_requests (detect_required_blocks s inp.viewer))
      inp.emerged_blocks = Flow.next s3) :
    ∃ s4 batch, send_mesh_updates s3 = some (s4, batch) ∧
      s4.blocks_pending_update = [] ∧
      batch = s3.blocks_pending_update.filter (fun q => is_dispatched s3 q) ∧
      (∀ q, q ∈ batch ↔ q ∈ s3.blocks_pending_update ∧
        ∃ block, s3.blocks q = some block ∧ is_air block = false) ∧
      batch.Nodup ∧
      s4.updater_jobs = s3.updater_jobs ++ batch ∧
      (∀ q ∈ batch, s4.dirty_blocks q = some BLOCK_UPDATE_SENT) ∧
      (∀ q ∈ s3.blocks_pending_update, s3.blocks q = none →
        q ∉ batch ∧ s4.dirty_blocks q = s3.dirty_blocks q ∧ s4.blocks q = none) := by
  have hinv := reachable_inv _ B s hs
  have hnd := reachable_nodup _ B s hs
  have i1 := detect_required_blocks_inv s inp.viewer hinv
  have n1 := detect_required_blocks_nodup s inp.viewer hinv hnd
  obtain ⟨i2, l2⟩ := send_load_requests_inv _ i1
  obtain ⟨i3, _⟩ := process_load_responses_inv _ inp.emerged_blocks i2 l2
  have n3 := process_load_responses_nodup _ inp.emerged_blocks i2 l2 n1.update
  rw [h3] at i3 n3
  obtain ⟨s4, batch, e1, e2, e3, e4, e5, e6, _⟩ := send_mesh_updates_batch s3 n3
    (fun q hq => i3.update_queue q hq trivial)
  have hmem : ∀ q, q ∈ batch ↔ q ∈ s3.blocks_pending_update ∧
      ∃ block, s3.blocks q = some block ∧ is_air block = false := by
    intro q
    rw [e3, List.mem_filter]
    constructor
    · rintro ⟨hq, hd⟩
      refine ⟨hq, ?_⟩
      cases hb : s3.blocks q with
      | none => simp [is_dispatched, hb] at hd
      | some block =>
        refine ⟨block, rfl, ?_⟩
        simpa [is_dispatched, hb] using hd
    · rintro ⟨hq, block, hb, hair⟩
      exact ⟨hq, by simp [is_dispatched, hb, hair]⟩
  refine ⟨s4, batch, e1, e2, e3, hmem, ?_, e4, e5, ?_⟩
  · rw [e3]
    exact n3.filter _
  · intro q _ hnone
    refine ⟨?_, (e6 q hnone).1, (e6 q hnone).2⟩
    intro hqb
    obtain ⟨_, block, hb, _⟩ := (hmem q).1 hqb
    rw [hnone] at hb
    cases hb

/-- Witness for C20: from `sample_requested_twice` the Loader Worker returns
the block `sample_pos` twice; the second result queues it for a mesh update,
and the dispatch pushes the batch `[sample_pos]`. -/
theorem dispatch_batch_exact_witness :
    Reachable 16 sample_requested_twice ∧
    sample_reloaded.blocks_pending_update = [sample_pos] ∧
    ∃ s4 batch, send_mesh_updates sample_reloaded = some (s4, batch) ∧
      batch = [sample_pos] ∧ s4.dirty_blocks sample_pos = some BLOCK_UPDATE_SENT := by
  have hq : sample_reloaded.blocks_pending_update = [sample_pos] := by decide!
  have hf : sample_reloaded.blocks_pending_update.filter
      (fun q => is_dispatched sample_reloaded q) = [sample_pos] := by decide!
  obtain ⟨s4, batch, e1, _, e3, _, _, _, e7, _⟩ :=
    dispatch_batch_exact 16 sample_requested_twice away_reload_tick sample_reloaded
      reachable_sample_requested_twice (flow_next_state _ (by decide!))
  rw [hf] at e3
  exact ⟨reachable_sample_requested_twice, hq, s4, batch, e1, e3,
    e7 sample_pos (by rw [e3]; exact List.mem_singleton.2 rfl)⟩

/-! ## Accepted load results -/

theorem is_block_surrounded_blocks (s t : Terrain) (h : t.blocks = s.blocks) (x : Vector3i) :
    is_block_surrounded t x = is_block_surrounded s x := by
  simp only [is_block_surrounded, has_block, h]

theorem vector3i_add_eq_self (c d : Vector3i) : c + d = c ↔ d = Vector3i.zero := by
  rw [vector3i_ext_iff3, vector3i_ext_iff3]
  simp only [vector3i_add_def, Vector3i.zero]
  omega

/-- Installing the block at `x` does not change whether `x` is surrounded: the
test looks at the 26 neighbours only. -/
theorem is_block_surrounded_set_self (s : Terrain) (x : Vector3i) (buffer : VoxelBuffer) :
    is_block_surrounded (set_block_buffer s x buffer) x = is_block_surrounded s x := by
  have hb : ∀ d : Vector3i, d ≠ Vector3i.zero →
      has_block (set_block_buffer s x buffer) (x + d) = has_block s (x + d) := by
    intro d hd
    have hne : x + d ≠ x := fun e => hd ((vector3i_add_eq_self x d).1 e)
    simp only [has_block, set_block_buffer_other s x buffer (x + d) hne]
  simp only [is_block_surrounded, List.all_cons, List.all_nil, Bool.and_true]
  simp only [hb _ (by decide : (⟨-1, -1, -1⟩ : Vector3i) ≠ Vector3i.zero),
    hb _ (by decide : (⟨-1, -1, 0⟩ : Vector3i) ≠ Vector3i.zero),
    hb _ (by decide : (⟨-1, -1, 1⟩ : Vector3i) ≠ Vector3i.zero),
    hb _ (by decide : (⟨-1, 0, -1⟩ : Vector3i) ≠ Vector3i.zero),
    hb _ (by decide : (⟨-1, 0, 0⟩ : Vector3i) ≠ Vector3i.zero),
    hb _ (by decide : (⟨-1, 0, 1⟩ : Vector3i) ≠ Vector3i.zero),
    hb _ (by decide : (⟨-1, 1, -1⟩ : Vector3i) ≠ Vector3i.zero),
    hb _ (by decide : (⟨-1, 1, 0⟩ : Vector3i) ≠ Vector3i.zero),
    hb _ (by decide : (⟨-1, 1, 1⟩ : Vector3i) ≠ Vector3i.zero),
    hb _ (by decide : (⟨0, -1, -1⟩ : Vector3i) ≠ Vector3i.zero),
    hb _ (by decide : (⟨0, -1, 0⟩ : Vector3i) ≠ Vector3i.zero),
    hb _ (by decide : (⟨0, -1, 1⟩ : Vector3i) ≠ Vector3i.zero),
    hb _ (by decide : (⟨0, 0, -1⟩ : Vector3i) ≠ Vector3i.zero),
    hb _ (by decide : (⟨0, 0, 1⟩ : Vector3i) ≠ Vector3i.zero),
    hb _ (by decide : (⟨0, 1, -1⟩ : Vector3i) ≠ Vector3i.zero),
    hb _ (by decide : (⟨0, 1, 0⟩ : Vector3i) ≠ Vector3i.zero),
    hb _ (by decide : (⟨0, 1, 1⟩ : Vector3i) ≠ Vector3i.zero),
    hb _ (by decide : (⟨1, -1, -1⟩ : Vector3i) ≠ Vector3i.zero),
    hb _ (by decide : (⟨1, -1, 0⟩ : Vector3i) ≠ Vector3i.zero),
    hb _ (by decide : (⟨1, -1, 1⟩ : Vector3i) ≠ Vector3i.zero),
    hb _ (by decide : (⟨1, 0, -1⟩ : Vector3i) ≠ Vector3i.zero),
    hb _ (by decide : (⟨1, 0, 0⟩ : Vector3i) ≠ Vector3i.zero),
    hb _ (by decide : (⟨1, 0, 1⟩ : Vector3i) ≠ Vector3i.zero),
    hb _ (by decide : (⟨1, 1, -1⟩ : Vector3i) ≠ Vector3i.zero),
    hb _ (by decide : (⟨1, 1, 0⟩ : Vector3i) ≠ Vector3i.zero),
    hb _ (by decide : (⟨1, 1, 1⟩ : Vector3i) ≠ Vector3i.zero)]
  simp

theorem update_neighbor_off (s : Terrain) (npos p : Vector3i) (h : npos ≠ p) :
    (update_neighbor s npos).dirty_blocks p = s.dirty_blocks p ∧
    (p ∈ (update_neighbor s npos).blocks_pending_update ↔ p ∈ s.blocks_pending_update) := by
  unfold update_neighbor
  split_ifs
  · split
    · exact ⟨rfl, Iff.rfl⟩
    · refine ⟨Function.update_noteq (Ne.symm h) _ _, ?_⟩
      show p ∈ s.blocks_pending_update ++ [npos] ↔ _
      rw [List.mem_append, List.mem_singleton]
      exact ⟨fun hp => hp.resolve_right (Ne.symm h), Or.inl⟩
  · exact ⟨rfl, Iff.rfl⟩

theorem foldl_update_neighbor_off (l : List Vector3i) (c p : Vector3i) (s : Terrain)
    (h : ∀ d ∈ l, c + d ≠ p) :
    (l.foldl (fun acc ndir => update_neighbor acc (c + ndir)) s).dirty_blocks p
      = s.dirty_blocks p ∧
    (p ∈ (l.foldl (fun acc ndir => update_neighbor acc (c + ndir)) s).blocks_pending_update
      ↔ p ∈ s.blocks_pending_update) := by
  induction l generalizing s with
  | nil => exact ⟨rfl, Iff.rfl⟩
  | cons d l ih =>
    rw [List.foldl_cons]
    obtain ⟨h1, h2⟩ := ih (update_neighbor s (c + d)) (fun e he => h e (List.mem_cons_of_mem d he))
    obtain ⟨k1, k2⟩ := update_neighbor_off s (c + d) p (h d (List.mem_cons_self d l))
    exact ⟨h1.trans k1, h2.trans k2⟩

theorem neighbor_dirs_split :
    ∃ l1 l2, neighbor_dirs = l1 ++ Vector3i.zero :: l2 ∧
      Vector3i.zero ∉ l1 ∧ Vector3i.zero ∉ l2 :=
  ⟨neighbor_dirs.take 13, neighbor_dirs.drop 14, by decide, by decide, by decide⟩

/-- The neighbour loop of a first-time install at `p`, seen from `p` itself:
`p` goes to `UPDATE_NOT_SENT` and into the pending-update queue exactly when
it is surrounded; otherwise its entry and its queue membership stay. -/
theorem foldl_update_neighbor_center (p : Vector3i) (s : Terrain)
    (hd : s.dirty_blocks p ≠ some BLOCK_UPDATE_NOT_SENT) :
    (is_block_surrounded s p = true →
      (neighbor_dirs.foldl (fun acc ndir => update_neighbor acc (p + ndir)) s).dirty_blocks p
        = some BLOCK_UPDATE_NOT_SENT ∧
      p ∈ (neighbor_dirs.foldl
        (fun acc ndir => update_neighbor acc (p + ndir)) s).blocks_pending_update) ∧
    (is_block_surrounded s p = false →
      (neighbor_dirs.foldl (fun acc ndir => update_neighbor acc (p + ndir)) s).dirty_blocks p
        = s.dirty_blocks p ∧
      (p ∈ (neighbor_dirs.foldl
          (fun acc ndir => update_neighbor acc (p + ndir)) s).blocks_pending_update
        ↔ p ∈ s.blocks_pending_update)) := by
  obtain ⟨l1, l2, hsplit, hz1, hz2⟩ := neighbor_dirs_split
  have hoff : ∀ l : List Vector3i, Vector3i.zero ∉ l → ∀ d ∈ l, p + d ≠ p := by
    intro l hl d hdl e
    rw [vector3i_add_eq_self] at e
    exact hl (e ▸ hdl)
  have hp0 : p + Vector3i.zero = p := (vector3i_add_eq_self p _).2 rfl
  rw [hsplit, List.foldl_append, List.foldl_cons, hp0]
  generalize ht : l1.foldl (fun acc ndir => update_neighbor acc (p + ndir)) s = t
  obtain ⟨t1, t2⟩ := foldl_update_neighbor_off l1 p p s (hoff l1 hz1)
  rw [ht] at t1 t2
  have tb : t.blocks = s.blocks := by
    rw [← ht]; exact (foldl_update_neighbor_stats l1 p s).2.1
  have tsur : is_block_surrounded t p = is_block_surrounded s p :=
    is_block_surrounded_blocks s t tb p
  obtain ⟨u1, u2⟩ := foldl_update_neighbor_off l2 p p (update_neighbor t p) (hoff l2 hz2)
  rw [u1, u2]
  constructor
  · intro hsur
    have hne : t.dirty_blocks p ≠ some BLOCK_UPDATE_NOT_SENT := by rw [t1]; exact hd
    have e : update_neighbor t p =
        { t with
          dirty_blocks := Function.update t.dirty_blocks p (some BLOCK_UPDATE_NOT_SENT)
          blocks_pending_update := t.blocks_pending_update ++ [p] } := by
      unfold update_neighbor
      rw [tsur, hsur, if_pos rfl]
      split
      · rename_i heq
        exact absurd heq hne
      · rfl
    rw [e]
    exact ⟨Function.update_same _ _ _, by simp⟩
  · intro hsur
    have e : update_neighbor t p = t := by
      unfold update_neighbor
      rw [tsur, hsur]
      simp
    rw [e]
    exact ⟨t1, t2⟩

/-- C16 (amended): when the load-result drain accepts a result for a
coordinate `p` in state `LOAD` with a buffer of the right size, the buffer is
installed. On a re-supply (the block was resident) `p` goes to
`UPDATE_NOT_SENT` and is appended to the pending-update queue. On a first-time
install `p` goes to `UPDATE_NOT_SENT` and into the pending-update queue when
its 26 neighbours are all resident; otherwise `p` stays in state `LOAD` and is
not added to the queue. -/
theorem load_accept_marks_update (s : Terrain) (o : EmergeOutput)
    (h : s.dirty_blocks (emerged_block_pos s o) = some BLOCK_LOAD)
    (hsz : o.voxels.size = Vector3i.splat s.block_size) :
    ∃ s1, process_load_response s o = Flow.next s1 ∧
      (∃ block, s1.blocks (emerged_block_pos s o) = some block ∧ block.voxels = o.voxels) ∧
      (has_block s (emerged_block_pos s o) = true →
        s1.dirty_blocks (emerged_block_pos s o) = some BLOCK_UPDATE_NOT_SENT ∧
        s1.blocks_pending_update = s.blocks_pending_update ++ [emerged_block_pos s o]) ∧
      (has_block s (emerged_block_pos s o) = false →
        is_block_surrounded s (emerged_block_pos s o) = true →
        s1.dirty_blocks (emerged_block_pos s o) = some BLOCK_UPDATE_NOT_SENT ∧
        emerged_block_pos s o ∈ s1.blocks_pending_update) ∧
      (has_block s (emerged_block_pos s o) = false →
        is_block_surrounded s (emerged_block_pos s o) = false →
        s1.dirty_blocks (emerged_block_pos s o) = some BLOCK_LOAD ∧
        (emerged_block_pos s o ∈ s1.blocks_pending_update ↔
          emerged_block_pos s o ∈ s.blocks_pending_update)) := by
  obtain ⟨_, k2, _, _, k5, _⟩ := set_block_buffer_stats s (emerged_block_pos s o) o.voxels
  have hinst : ∃ block, (set_block_buffer s (emerged_block_pos s o) o.voxels).blocks
      (emerged_block_pos s o) = some block ∧ block.voxels = o.voxels := by
    unfold set_block_buffer
    split
    · exact ⟨_, Function.update_same _ _ _, rfl⟩
    · exact ⟨_, Function.update_same _ _ _, rfl⟩
  cases hb : has_block s (emerged_block_pos s o)
  · refine ⟨_, process_load_response_install s o h hsz hb, ?_, fun h0 => (by cases h0), ?_, ?_⟩
    · rw [(foldl_update_neighbor_stats neighbor_dirs (emerged_block_pos s o)
        (set_block_buffer s (emerged_block_pos s o) o.voxels)).2.1]
      exact hinst
    · intro _ hsur
      refine (foldl_update_neighbor_center (emerged_block_pos s o)
        (set_block_buffer s (emerged_block_pos s o) o.voxels) ?_).1 ?_
      · rw [k2, h]; decide
      · rw [is_block_surrounded_set_self]; exact hsur
    · intro _ hsur
      have := (foldl_update_neighbor_center (emerged_block_pos s o)
        (set_block_buffer s (emerged_block_pos s o) o.voxels) (by rw [k2, h]; decide)).2
        (by rw [is_block_surrounded_set_self]; exact hsur)
      rw [k2, k5, h] at this
      exact this
  · refine ⟨_, process_load_response_resupply s o h hsz hb, hinst, ?_, fun h0 => (by cases h0),
      fun h0 => (by cases h0)⟩
    intro _
    exact ⟨Function.update_same _ _ _, by rw [k5]⟩

theorem tick_valid_of_no_mesh (s : Terrain) (inp : TickInput) (hm : inp.mesh_blocks = [])
    (hl : (inp.emerged_blocks.map (emerged_block_pos s)).Subperm
      (send_load_requests (detect_required_blocks s inp.viewer)).provider_requests) :
    tick_valid s inp := by
  refine ⟨hl, ?_⟩
  intro s3 s4 batch _ _
  rw [hm]
  exact List.nil_subperm

/-! ## The required-area diff loop: what it calls and what it leaves -/

theorem update_required_blocks_of_ne (s : Terrain) (P N : Rect3i) (h : P ≠ N) :
    update_required_blocks s P N =
      (box_positions (Rect3i.get_bounding_box P N).pos
        ((Rect3i.get_bounding_box P N).pos + (Rect3i.get_bounding_box P N).size)).foldl
        (update_required_block P N) s := by
  unfold update_required_blocks
  rw [if_pos h]

theorem update_required_blocks_of_eq (s : Terrain) (P : Rect3i) :
    update_required_blocks s P P = s := by
  unfold update_required_blocks
  rw [if_neg (fun h => h rfl)]

/-- The required-area diff loop: when the previous box `P` differs from the
new box `N`, the diff loop visits every coordinate of `P` and of `N` exactly once; at a
coordinate of `P \ N` its body is `immerge_block`, at a coordinate of `N \ P`
it is `make_block_dirty`, and elsewhere it does nothing. Afterwards each
coordinate of `P \ N` has no resident block and no dirty-state entry; each
coordinate of `N \ P` has a dirty-state entry, which is `LOAD` when the
coordinate had no entry and its block is not resident (and in general the
entry `make_block_dirty` leaves); coordinates in both boxes and coordinates in
neither keep their block and their entry, and the queues only grow by
coordinates of `N \ P`. When `P = N` the loop does nothing. -/
theorem update_required_blocks_exact (s : Terrain) (P N : Rect3i) :
    (P ≠ N →
      update_required_blocks s P N =
        (box_positions (Rect3i.get_bounding_box P N).pos
          ((Rect3i.get_bounding_box P N).pos + (Rect3i.get_bounding_box P N).size)).foldl
          (update_required_block P N) s ∧
      (box_positions (Rect3i.get_bounding_box P N).pos
        ((Rect3i.get_bounding_box P N).pos + (Rect3i.get_bounding_box P N).size)).Nodup ∧
      (∀ q, P.contains q = true ∨ N.contains q = true →
        q ∈ box_positions (Rect3i.get_bounding_box P N).pos
          ((Rect3i.get_bounding_box P N).pos + (Rect3i.get_bounding_box P N).size))) ∧
    (∀ (t : Terrain) (q : Vector3i),
      (P.contains q = true → N.contains q = false →
        update_required_block P N t q = immerge_block t q) ∧
      (P.contains q = false → N.contains q = true →
        update_required_block P N t q = make_block_dirty t q) ∧
      (P.contains q = N.contains q → update_required_block P N t q = t)) ∧
    (P ≠ N → ∀ q, P.contains q = true → N.contains q = false →
      (update_required_blocks s P N).blocks q = none ∧
      (update_required_blocks s P N).dirty_blocks q = none) ∧
    (P ≠ N → ∀ q, P.contains q = false → N.contains q = true →
      ((update_required_blocks s P N).dirty_blocks q).isSome ∧
      (update_required_blocks s P N).dirty_blocks q
        = dirty_after (s.dirty_blocks q) (has_block s q) ∧
      (s.dirty_blocks q = none → has_block s q = false →
        (update_required_blocks s P N).dirty_blocks q = some BLOCK_LOAD) ∧
      (update_required_blocks s P N).blocks q = s.blocks q) ∧
    (∀ q, P.contains q = N.contains q →
      (update_required_blocks s P N).blocks q = s.blocks q ∧
      (update_required_blocks s P N).dirty_blocks q = s.dirty_blocks q) ∧
    (∃ l1 l2,
      (update_required_blocks s P N).blocks_pending_load = s.blocks_pending_load ++ l1 ∧
      (update_required_blocks s P N).blocks_pending_update = s.blocks_pending_update ++ l2 ∧
      ∀ q, q ∈ l1 ∨ q ∈ l2 → P.contains q = false ∧ N.contains q = true) ∧
    update_required_blocks s P P = s := by
  have hnd := box_positions_nodup (Rect3i.get_bounding_box P N).pos
    ((Rect3i.get_bounding_box P N).pos + (Rect3i.get_bounding_box P N).size)
  obtain ⟨g1, g2, g3, g4⟩ := foldl_update_required_block_spec P N s _ hnd
  refine ⟨fun h => ⟨update_required_blocks_of_ne s P N h, hnd, mem_bounds_of_contains P N⟩,
    ?_, ?_, ?_, ?_, ?_, update_required_blocks_of_eq s P⟩
  · intro t q
    refine ⟨?_, ?_, ?_⟩
    · intro hP hN
      simp [update_required_block, hP, hN]
    · intro hP hN
      simp [update_required_block, hP, hN]
    · intro hPN
      unfold update_required_block
      cases hN : N.contains q <;> simp [hPN, hN]
  · intro h q hP hN
    rw [update_required_blocks_of_ne s P N h, g1 q, g2 q]
    have hm := mem_bounds_of_contains P N q (Or.inl hP)
    exact ⟨if_pos ⟨hm, hP, hN⟩, if_pos ⟨hm, hP, hN⟩⟩
  · intro h q hP hN
    have hm := mem_bounds_of_contains P N q (Or.inr hN)
    have hd : (update_required_blocks s P N).dirty_blocks q
        = dirty_after (s.dirty_blocks q) (has_block s q) := by
      rw [update_required_blocks_of_ne s P N h, g2 q, if_neg (by simp [hP]),
        if_pos ⟨hm, hP, hN⟩]
    refine ⟨by rw [hd]; exact dirty_after_isSome _ _, hd, ?_, ?_⟩
    · intro h0 hb
      rw [hd, h0, hb]
      rfl
    · rw [update_required_blocks_of_ne s P N h, g1 q, if_neg (by simp [hP])]
  · intro q hPN
    by_cases h : P = N
    · subst h
      rw [update_required_blocks_of_eq]
      exact ⟨rfl, rfl⟩
    · rw [update_required_blocks_of_ne s P N h, g1 q, g2 q]
      cases hN : N.contains q
      · rw [hN] at hPN
        simp [hPN, hN]
      · rw [hN] at hPN
        simp [hPN, hN]
  · by_cases h : P = N
    · subst h
      rw [update_required_blocks_of_eq]
      exact ⟨[], [], by simp, by simp, fun q hq => (by simp at hq)⟩
    · rw [update_required_blocks_of_ne s P N h]
      refine ⟨_, _, g3, g4, ?_⟩
      intro q hq
      rcases hq with hq | hq
      · rw [List.mem_filter] at hq
        have h2 := hq.2
        simp only [Bool.and_eq_true, Bool.not_eq_true'] at h2
        exact h2.1
      · rw [List.mem_filter] at hq
        have h2 := hq.2
        simp only [Bool.and_eq_true, Bool.not_eq_true'] at h2
        exact h2.1

theorem reachable_run_plain (allowed : Op → Prop) (B : Int) (s : Terrain) (op : Op)
    (hs : ReachableBy allowed B s) (ha : allowed op) (hv : op.valid s)
    (hr : (op.run s).isSome = true) : ReachableBy allowed B (run_op s op) :=
  @ReachableBy.step allowed B s (run_op s op) op hs ha hv (op_run_eq_run_op s op hr)

theorem reachable_sample_ring_requested : Reachable 16 sample_ring_requested :=
  reachable_run_tick _ 16 _ quiet_tick
    (reachable_run_plain _ 16 (fresh 16) (Op.view_distance 16) ReachableBy.init trivial trivial
      rfl)
    trivial rfl List.nil_subperm

/-! ## Evaluations on sample runs -/

theorem process_done_run_op (s : Terrain) (inp : TickInput)
    (h : (_process s inp).is_done = true) :
    _process s inp = Outcome.done (run_op s (Op.tick inp)) := by
  unfold run_op
  simp only [Op.run]
  cases hp : _process s inp with
  | done s1 => rfl
  | failed s1 => rw [hp] at h; cases h
  | crashed => rw [hp] at h; cases h

set_option maxRecDepth 100000 in
theorem reachable_sample_one_loaded : Reachable 16 sample_one_loaded :=
  reachable_run_tick _ 16 sample_ring_requested west_load_tick reachable_sample_ring_requested
    trivial rfl (by decide!)

theorem reachable_sample_shrunk : Reachable 16 sample_shrunk :=
  reachable_run_plain _ 16 _ (Op.view_distance 0)
    (reachable_run_plain _ 16 sample_one_loaded Op.all_view_dirty_deferred
      reachable_sample_one_loaded trivial trivial rfl)
    trivial trivial rfl

set_option maxRecDepth 100000 in
theorem sample_after_shrink_facts :
    (_process sample_shrunk quiet_tick).is_done = true ∧
    required_box sample_shrunk quiet_tick.viewer = ⟨⟨0, 0, 0⟩, ⟨1, 1, 1⟩⟩ ∧
    (sample_after_shrink.blocks west_pos).isSome = true := by
  decide!

/-- C12 (the code at the failing input): with a view distance of one block the
first tick requests the 26 blocks around the origin and the second tick loads
block `(-1, 0, 0)`; then `make_all_view_dirty_deferred` and
`set_view_distance(0)` are called. The next tick runs to its end with the
single block at the origin as its required box, and block `(-1, 0, 0)`, which
lies outside it, is still resident afterwards. -/
theorem resident_outside_required_box :
    Reachable 16 sample_shrunk ∧ tick_valid sample_shrunk quiet_tick ∧
    _process sample_shrunk quiet_tick = Outcome.done sample_after_shrink ∧
    (required_box sample_shrunk quiet_tick.viewer).contains west_pos = false ∧
    (sample_after_shrink.blocks west_pos).isSome = true := by
  obtain ⟨h1, h2, h3⟩ := sample_after_shrink_facts
  refine ⟨reachable_sample_shrunk,
    tick_valid_of_no_mesh sample_shrunk quiet_tick rfl List.nil_subperm,
    process_done_run_op sample_shrunk quiet_tick h1, ?_, h3⟩
  rw [h2]
  decide

/-! ## The assertions of the mesh dispatch never fire -/

theorem process_crashed_iff_run_none (s : Terrain) (inp : TickInput)
    (h : (Op.run s (Op.tick inp)).isSome = true) : _process s inp ≠ Outcome.crashed := by
  intro hc
  simp only [Op.run, hc] at h
  cases h

/-- C24: in every state reachable from the freshly constructed manager by
scheduling ticks and dirty-marking calls (and also by viewer moves,
`set_view_distance` and `make_all_view_dirty_deferred`), no `CRASH_COND` of the
mesh-dispatch loop fires in the next tick: `_process` does not crash; the loop
runs over the whole pending-update queue; and each time it reaches a queued
coordinate `q` whose block is resident, `q` has a dirty-state entry and the
entry is `UPDATE_NOT_SENT`, so the iteration at `q` passes both assertions. -/
theorem dispatch_assertions_hold (allowed : Op → Prop) (B : Int) (s : Terrain)
    (inp : TickInput) (hs : ReachableBy allowed B s) :
    _process s inp ≠ Outcome.crashed ∧
    ∀ s3, process_load_responses (send_load_requests (detect_required_blocks s inp.viewer))
        inp.emerged_blocks = Flow.next s3 →
      (∃ r, send_mesh_loop (s3, []) s3.blocks_pending_update = some r) ∧
      ∀ (before after : List Vector3i) (q : Vector3i),
        s3.blocks_pending_update = before ++ q :: after →
        ∃ acc, send_mesh_loop (s3, []) before = some acc ∧
          ((acc.1.blocks q).isSome →
            ∃ block_state, acc.1.dirty_blocks q = some block_state ∧
              block_state = BLOCK_UPDATE_NOT_SENT) ∧
          (send_mesh_update acc q).isSome = true := by
  have hinv := reachable_inv _ B s hs
  have hnd := reachable_nodup _ B s hs
  refine ⟨process_crashed_iff_run_none s inp (process_not_crashed s inp hinv hnd), ?_⟩
  intro s3 h3
  have i1 := detect_required_blocks_inv s inp.viewer hinv
  have n1 := detect_required_blocks_nodup s inp.viewer hinv hnd
  obtain ⟨i2, l2⟩ := send_load_requests_inv _ i1
  obtain ⟨i3, _⟩ := process_load_responses_inv _ inp.emerged_blocks i2 l2
  have n3 := process_load_responses_nodup _ inp.emerged_blocks i2 l2 n1.update
  rw [h3] at i3 n3
  simp only [Flow.state] at i3 n3
  constructor
  · obtain ⟨r, hr, _⟩ := send_mesh_loop_batch s3.blocks_pending_update (s3, []) n3
      (fun q hq _ => i3.update_queue q hq trivial)
    exact ⟨r, hr⟩
  · intro before after q hsplit
    rw [hsplit] at n3
    have hnb : before.Nodup := (List.nodup_append.1 n3).1
    have hqb : q ∉ before := fun hq =>
      (List.nodup_append.1 n3).2.2 hq (List.mem_cons_self q after)
    have hmem : ∀ x ∈ before, x ∈ s3.blocks_pending_update := by
      intro x hx
      rw [hsplit]
      exact List.mem_append_left _ hx
    obtain ⟨acc, ha, _, _, h4, _⟩ := send_mesh_loop_batch before (s3, []) hnb
      (fun x hx _ => i3.update_queue x (hmem x hx) trivial)
    have hq : s3.dirty_blocks q = some BLOCK_UPDATE_NOT_SENT :=
      i3.update_queue q (by rw [hsplit]; simp) trivial
    have hd : acc.1.dirty_blocks q = some BLOCK_UPDATE_NOT_SENT := (h4 q hqb).1.trans hq
    refine ⟨acc, ha, fun _ => ⟨_, hd, rfl⟩, ?_⟩
    obtain ⟨acc1, e1, _⟩ := send_mesh_update_step acc q (fun _ => hd)
    rw [e1]
    rfl

/-- Witness for C24: the tick `away_reload_tick` from the reachable state
`sample_requested_twice`, whose dispatch loop meets the resident block
`sample_pos`, does not crash. -/
theorem dispatch_assertions_hold_witness :
    Reachable 16 sample_requested_twice ∧
    _process sample_requested_twice away_reload_tick ≠ Outcome.crashed :=
  ⟨reachable_sample_requested_twice,
    (dispatch_assertions_hold _ 16 sample_requested_twice away_reload_tick
      reachable_sample_requested_twice).1⟩

/-! ## The neighbour loop of a first-time install -/

theorem mem_neighbor_dirs (d : Vector3i) : d ∈ neighbor_dirs ↔ is_neighbor_dir d := by
  unfold neighbor_dirs is_neighbor_dir
  simp only [List.mem_flatMap, List.mem_map, mem_int_range]
  constructor
  · rintro ⟨z, hz, x, hx, y, hy, rfl⟩
    simp only
    omega
  · intro h
    exact ⟨d.z, by omega, d.x, by omega, d.y, by omega, rfl⟩

theorem is_block_surrounded_iff (s : Terrain) (q : Vector3i) :
    is_block_surrounded s q = true ↔ Surrounded s q := by
  have hmem : ∀ x : Int, x ∈ ([-1, 0, 1] : List Int) ↔ -1 ≤ x ∧ x ≤ 1 := by
    intro x
    simp only [List.mem_cons, List.mem_singleton, List.mem_nil_iff, or_false]
    omega
  unfold is_block_surrounded Surrounded is_neighbor_dir
  simp only [List.all_eq_true, Bool.or_eq_true, Bool.and_eq_true, beq_iff_eq, hmem, has_block]
  constructor
  · intro h d hd hne
    rcases h d.z hd.2.2 d.x hd.1 d.y hd.2.1 with h0 | h0
    · exact absurd ((vector3i_ext_iff3 d Vector3i.zero).2 ⟨h0.1.1, h0.1.2, h0.2⟩) hne
    · exact h0
  · intro h dz hz dx hx dy hy
    by_cases h0 : (dx = 0 ∧ dy = 0) ∧ dz = 0
    · exact Or.inl h0
    · refine Or.inr (h ⟨dx, dy, dz⟩ ⟨hx, hy, hz⟩ ?_)
      intro e
      rw [vector3i_ext_iff3] at e
      exact h0 ⟨⟨e.1, e.2.1⟩, e.2.2⟩

theorem update_neighbor_exact (s : Terrain) (a : Vector3i) :
    (update_neighbor s a).blocks = s.blocks ∧
    (update_neighbor s a).dirty_blocks =
      (if is_block_surrounded s a = true ∧ s.dirty_blocks a ≠ some BLOCK_UPDATE_NOT_SENT
        then Function.update s.dirty_blocks a (some BLOCK_UPDATE_NOT_SENT)
        else s.dirty_blocks) ∧
    (update_neighbor s a).blocks_pending_update = s.blocks_pending_update ++
      (if is_block_surrounded s a = true ∧ s.dirty_blocks a ≠ some BLOCK_UPDATE_NOT_SENT
        then [a] else []) := by
  unfold update_neighbor
  by_cases hs : is_block_surrounded s a = true
  · by_cases hd : s.dirty_blocks a = some BLOCK_UPDATE_NOT_SENT
    · simp [hs, hd]
    · rw [if_pos hs, if_pos ⟨hs, hd⟩, if_pos ⟨hs, hd⟩]
      split
      · rename_i e
        exact absurd e hd
      · exact ⟨rfl, rfl, rfl⟩
  · simp [hs]

/-- The exact effect of the neighbour loop over a list of distinct
coordinates: the blocks are untouched; a visited coordinate that is surrounded
and not `UPDATE_NOT_SENT` goes to `UPDATE_NOT_SENT` and is appended to the
pending-update queue, in the order of the visits; nothing else changes. -/
theorem foldl_update_neighbor_exact (l : List Vector3i) (s : Terrain) (hn : l.Nodup) :
    (l.foldl update_neighbor s).blocks = s.blocks ∧
    (∀ q, (l.foldl update_neighbor s).dirty_blocks q =
      if q ∈ l ∧ is_block_surrounded s q = true ∧
          s.dirty_blocks q ≠ some BLOCK_UPDATE_NOT_SENT
        then some BLOCK_UPDATE_NOT_SENT else s.dirty_blocks q) ∧
    (l.foldl update_neighbor s).blocks_pending_update = s.blocks_pending_update ++
      l.filter (fun q => is_block_surrounded s q &&
        decide (s.dirty_blocks q ≠ some BLOCK_UPDATE_NOT_SENT)) := by
  induction l generalizing s with
  | nil => simp
  | cons a l ih =>
    rw [List.foldl_cons]
    obtain ⟨hb, hd, hq⟩ := update_neighbor_exact s a
    obtain ⟨ib, id, iq⟩ := ih (update_neighbor s a) (List.nodup_cons.1 hn).2
    have ha : a ∉ l := (List.nodup_cons.1 hn).1
    have hsur : ∀ x, is_block_surrounded (update_neighbor s a) x = is_block_surrounded s x :=
      is_block_surrounded_blocks s _ hb
    have hoff : ∀ x, x ≠ a → (update_neighbor s a).dirty_blocks x = s.dirty_blocks x := by
      intro x hx
      rw [hd]
      split_ifs
      · exact Function.update_noteq hx _ _
      · rfl
    refine ⟨ib.trans hb, ?_, ?_⟩
    · intro q
      rw [id q]
      by_cases hqa : q = a
      · subst hqa
        rw [if_neg (fun h => ha h.1), hd]
        by_cases hc : is_block_surrounded s q = true ∧
            s.dirty_blocks q ≠ some BLOCK_UPDATE_NOT_SENT
        · rw [if_pos hc, if_pos ⟨List.mem_cons_self _ _, hc⟩, Function.update_same]
        · rw [if_neg hc, if_neg (fun h => hc h.2)]
      · rw [hsur q, hoff q hqa]
        simp only [List.mem_cons, hqa, false_or]
    · rw [iq, hq, List.append_assoc]
      congr 1
      have hfilter : l.filter (fun q => is_block_surrounded (update_neighbor s a) q &&
            decide ((update_neighbor s a).dirty_blocks q ≠ some BLOCK_UPDATE_NOT_SENT))
          = l.filter (fun q => is_block_surrounded s q &&
            decide (s.dirty_blocks q ≠ some BLOCK_UPDATE_NOT_SENT)) := by
        apply List.filter_congr
        intro x hx
        rw [hsur x, hoff x (fun e => ha (e ▸ hx))]
      rw [hfilter, List.filter_cons]
      by_cases hc : is_block_surrounded s a = true ∧
          s.dirty_blocks a ≠ some BLOCK_UPDATE_NOT_SENT
      · rw [if_pos hc, if_pos (by simpa using hc)]
        rfl
      · rw [if_neg hc, if_neg (by simpa using hc)]
        rfl

theorem neighbor_positions_nodup (p : Vector3i) :
    (neighbor_dirs.map (fun ndir => p + ndir)).Nodup := by
  refine List.Nodup.map ?_ (by decide)
  intro a b h
  simp only [vector3i_add_def, Vector3i.mk.injEq] at h
  rw [vector3i_ext_iff3]
  omega

/-- C21: the load-result drain accepts a result for the coordinate `p` (state
`LOAD`, buffer of the right size) and goes on with the state `s2`, whose
pending-update queue is the old one followed by `appended`. `Surrounded` means
that all 26 neighbours are resident (in the map with the new block installed).
First-time install (`p` was not resident): for each of the 27 coordinates
`q = p + d`, `d` in `{-1, 0, 1}³`: if `q` is surrounded and its state is not
`UPDATE_NOT_SENT`, its state becomes `UPDATE_NOT_SENT` and `q` occurs exactly
once in `appended`; if `q` is surrounded and already `UPDATE_NOT_SENT`, or not
surrounded, its dirty state is unchanged and `q` does not occur in `appended`;
a coordinate that is none of the 27 keeps its state and is not appended.
Re-supply (`p` was resident): only the entry of `p` is set, to
`UPDATE_NOT_SENT`, and `appended` is `[p]`. -/
theorem load_install_neighbor_check (s : Terrain) (o : EmergeOutput)
    (h : s.dirty_blocks (emerged_block_pos s o) = some BLOCK_LOAD)
    (hsz : o.voxels.size = Vector3i.splat s.block_size) :
    ∃ s2 appended, process_load_response s o = Flow.next s2 ∧
      s2.blocks_pending_update = s.blocks_pending_update ++ appended ∧
      (∃ block, s2.blocks (emerged_block_pos s o) = some block ∧ block.voxels = o.voxels) ∧
      (∀ q, q ≠ emerged_block_pos s o → s2.blocks q = s.blocks q) ∧
      (has_block s (emerged_block_pos s o) = false →
        (∀ d, is_neighbor_dir d →
          (Surrounded s2 (emerged_block_pos s o + d) →
            s.dirty_blocks (emerged_block_pos s o + d) ≠ some BLOCK_UPDATE_NOT_SENT →
            s2.dirty_blocks (emerged_block_pos s o + d) = some BLOCK_UPDATE_NOT_SENT ∧
            appended.count (emerged_block_pos s o + d) = 1) ∧
          (Surrounded s2 (emerged_block_pos s o + d) →
            s.dirty_blocks (emerged_block_pos s o + d) = some BLOCK_UPDATE_NOT_SENT →
            s2.dirty_blocks (emerged_block_pos s o + d) = some BLOCK_UPDATE_NOT_SENT ∧
            appended.count (emerged_block_pos s o + d) = 0) ∧
          (¬ Surrounded s2 (emerged_block_pos s o + d) →
            s2.dirty_blocks (emerged_block_pos s o + d)
              = s.dirty_blocks (emerged_block_pos s o + d) ∧
            appended.count (emerged_block_pos s o + d) = 0)) ∧
        (∀ q, (∀ d, is_neighbor_dir d → q ≠ emerged_block_pos s o + d) →
          s2.dirty_blocks q = s.dirty_blocks q ∧ appended.count q = 0)) ∧
      (has_block s (emerged_block_pos s o) = true →
        s2.dirty_blocks = Function.update s.dirty_blocks (emerged_block_pos s o)
          (some BLOCK_UPDATE_NOT_SENT) ∧
        appended = [emerged_block_pos s o]) := by
  obtain ⟨_, k2, _, _, k5, _⟩ := set_block_buffer_stats s (emerged_block_pos s o) o.voxels
  have hinst : ∃ block, (set_block_buffer s (emerged_block_pos s o) o.voxels).blocks
      (emerged_block_pos s o) = some block ∧ block.voxels = o.voxels := by
    unfold set_block_buffer
    split
    · exact ⟨_, Function.update_same _ _ _, rfl⟩
    · exact ⟨_, Function.update_same _ _ _, rfl⟩
  cases hb : has_block s (emerged_block_pos s o)
  · have hfold : neighbor_dirs.foldl
          (fun acc ndir => update_neighbor acc (emerged_block_pos s o + ndir))
          (set_block_buffer s (emerged_block_pos s o) o.voxels)
        = (neighbor_dirs.map (fun ndir => emerged_block_pos s o + ndir)).foldl update_neighbor
          (set_block_buffer s (emerged_block_pos s o) o.voxels) := by
      rw [List.foldl_map]
    obtain ⟨eb, ed, eq⟩ := foldl_update_neighbor_exact
      (neighbor_dirs.map (fun ndir => emerged_block_pos s o + ndir))
      (set_block_buffer s (emerged_block_pos s o) o.voxels)
      (neighbor_positions_nodup (emerged_block_pos s o))
    rw [← hfold] at eb ed eq
    have hnd := (neighbor_positions_nodup (emerged_block_pos s o)).filter
      (fun q => is_block_surrounded (set_block_buffer s (emerged_block_pos s o) o.voxels) q &&
        decide ((set_block_buffer s (emerged_block_pos s o) o.voxels).dirty_blocks q
          ≠ some BLOCK_UPDATE_NOT_SENT))
    have hsur : ∀ q, Surrounded (neighbor_dirs.foldl
          (fun acc ndir => update_neighbor acc (emerged_block_pos s o + ndir))
          (set_block_buffer s (emerged_block_pos s o) o.voxels)) q ↔
        is_block_surrounded (set_block_buffer s (emerged_block_pos s o) o.voxels) q = true := by
      intro q
      rw [← is_block_surrounded_iff, is_block_surrounded_blocks _ _ eb]
    have hmem : ∀ d, is_neighbor_dir d → emerged_block_pos s o + d ∈
        neighbor_dirs.map (fun ndir => emerged_block_pos s o + ndir) := fun d hd =>
      List.mem_map.2 ⟨d, (mem_neighbor_dirs d).2 hd, rfl⟩
    refine ⟨_, _, process_load_response_install s o h hsz hb, eq.trans (by rw [k5]), ?_, ?_,
      fun _ => ⟨?_, ?_⟩, fun h0 => (by cases h0)⟩
    · rw [eb]
      exact hinst
    · intro q hq
      rw [eb]
      exact set_block_buffer_other s _ _ q hq
    · intro d hd
      refine ⟨?_, ?_, ?_⟩
      · intro h1 h2
        rw [hsur] at h1
        rw [← k2] at h2
        refine ⟨?_, ?_⟩
        · rw [ed, if_pos ⟨hmem d hd, h1, h2⟩]
        · refine List.count_eq_one_of_mem hnd (List.mem_filter.2 ⟨hmem d hd, ?_⟩)
          simpa using ⟨h1, h2⟩
      · intro h1 h2
        rw [← k2] at h2
        refine ⟨?_, ?_⟩
        · rw [ed, if_neg (fun c => c.2.2 h2), h2]
        · refine List.count_eq_zero_of_not_mem (fun c => ?_)
          have c2 := (List.mem_filter.1 c).2
          simp only [Bool.and_eq_true, decide_eq_true_eq] at c2
          exact c2.2 h2
      · intro h1
        rw [hsur] at h1
        refine ⟨?_, ?_⟩
        · rw [ed, if_neg (fun c => h1 c.2.1), k2]
        · refine List.count_eq_zero_of_not_mem (fun c => ?_)
          have c2 := (List.mem_filter.1 c).2
          simp only [Bool.and_eq_true, decide_eq_true_eq] at c2
          exact h1 c2.1
    · intro q hq
      have hq2 : q ∉ neighbor_dirs.map (fun ndir => emerged_block_pos s o + ndir) := by
        intro c
        obtain ⟨d, hd, e⟩ := List.mem_map.1 c
        exact hq d ((mem_neighbor_dirs d).1 hd) e.symm
      refine ⟨?_, ?_⟩
      · rw [ed, if_neg (fun c => hq2 c.1), k2]
      · exact List.count_eq_zero_of_not_mem (fun c => hq2 (List.mem_filter.1 c).1)
  · refine ⟨_, [emerged_block_pos s o], process_load_response_resupply s o h hsz hb, ?_, ?_, ?_,
      fun h0 => (by cases h0), fun _ => ⟨?_, rfl⟩⟩
    · show (set_block_buffer s (emerged_block_pos s o) o.voxels).blocks_pending_update ++ _ = _
      rw [k5]
    · exact hinst
    · intro q hq
      exact set_block_buffer_other s _ _ q hq
    · show Function.update (set_block_buffer s (emerged_block_pos s o) o.voxels).dirty_blocks
        _ _ = _
      rw [k2]

theorem sample_ring_gap_facts :
    sample_ring_gap.dirty_blocks (emerged_block_pos sample_ring_gap ⟨⟨16, 0, 0⟩, sample_buffer⟩)
      = some BLOCK_LOAD ∧
    sample_buffer.size = Vector3i.splat sample_ring_gap.block_size ∧
    has_block sample_ring_gap (emerged_block_pos sample_ring_gap ⟨⟨16, 0, 0⟩, sample_buffer⟩)
      = false ∧
    emerged_block_pos sample_ring_gap ⟨⟨16, 0, 0⟩, sample_buffer⟩ + ⟨-1, 0, 0⟩
      = Vector3i.zero ∧
    sample_ring_gap.dirty_blocks Vector3i.zero = none ∧
    is_block_surrounded sample_ring_gap Vector3i.zero = false ∧
    is_block_surrounded (set_block_buffer sample_ring_gap
      (emerged_block_pos sample_ring_gap ⟨⟨16, 0, 0⟩, sample_buffer⟩) sample_buffer)
      Vector3i.zero = true := by
  decide!

/-- Witness for C21: in `sample_ring_gap` the load result for `sample_pos` is
a first-time install that completes the ring around the origin; the origin,
which had no entry, goes to `UPDATE_NOT_SENT` and is appended exactly once. -/
theorem load_install_neighbor_check_witness :
    sample_ring_gap.dirty_blocks sample_pos = some BLOCK_LOAD ∧
    is_block_surrounded sample_ring_gap Vector3i.zero = false ∧
    ∃ s2 appended,
      process_load_response sample_ring_gap ⟨⟨16, 0, 0⟩, sample_buffer⟩ = Flow.next s2 ∧
      s2.blocks_pending_update = sample_ring_gap.blocks_pending_update ++ appended ∧
      Surrounded s2 Vector3i.zero ∧
      s2.dirty_blocks Vector3i.zero = some BLOCK_UPDATE_NOT_SENT ∧
      appended.count Vector3i.zero = 1 := by
  obtain ⟨f1, f2, f3, f4, f5, f6, f7⟩ := sample_ring_gap_facts
  obtain ⟨s2, appended, e1, e2, _, _, e5, _⟩ :=
    load_install_neighbor_check sample_ring_gap ⟨⟨16, 0, 0⟩, sample_buffer⟩ f1 f2
  have e1c := e1
  rw [process_load_response_install _ _ f1 f2 f3] at e1c
  have hb : s2.blocks = (set_block_buffer sample_ring_gap
      (emerged_block_pos sample_ring_gap ⟨⟨16, 0, 0⟩, sample_buffer⟩) sample_buffer).blocks := by
    rw [← Flow.next.inj e1c]
    exact (foldl_update_neighbor_stats _ _ _).2.1
  have hs : Surrounded s2 Vector3i.zero := by
    rw [← is_block_surrounded_iff, is_block_surrounded_blocks _ _ hb]
    exact f7
  have h5 := ((e5 f3).1 ⟨-1, 0, 0⟩ (by unfold is_neighbor_dir; decide)).1
  rw [f4] at h5
  have h6 := h5 hs (by rw [f5]; simp)
  exact ⟨f1, f6, s2, appended, e1, e2, hs, h6.1, h6.2⟩

/-! ## `make_area_dirty` on a single voxel against `make_voxel_dirty` -/

theorem dirty_after_idem (d : Option BlockDirtyState) (r : Bool) :
    dirty_after (dirty_after d r) r = dirty_after d r := by
  cases d with
  | none => cases r <;> rfl
  | some st => cases st <;> rfl

theorem dirty_after_ne_sent (d : Option BlockDirtyState) (r : Bool) :
    (dirty_after d r).isSome = true ∧ dirty_after d r ≠ some BLOCK_UPDATE_SENT := by
  cases d with
  | none => cases r <;> exact ⟨rfl, by decide⟩
  | some st => cases st <;> cases r <;> exact ⟨rfl, by decide⟩

/-- The exact effect of a sequence of `make_block_dirty` calls, repeated
coordinates allowed: every called coordinate gets the entry the first call
leaves; each queue grows by the called coordinates whose first call appends
them, each once. -/
theorem foldl_make_block_dirty_exact (l : List Vector3i) (s : Terrain) :
    (l.foldl make_block_dirty s).blocks = s.blocks ∧
    (∀ q, (l.foldl make_block_dirty s).dirty_blocks q =
      if q ∈ l then dirty_after (s.dirty_blocks q) (has_block s q) else s.dirty_blocks q) ∧
    (∃ A, (l.foldl make_block_dirty s).blocks_pending_load = s.blocks_pending_load ++ A ∧
      A.Nodup ∧ ∀ q, q ∈ A ↔ q ∈ l ∧ loads_on_dirty s q = true) ∧
    (∃ U, (l.foldl make_block_dirty s).blocks_pending_update = s.blocks_pending_update ++ U ∧
      U.Nodup ∧ ∀ q, q ∈ U ↔ q ∈ l ∧ updates_on_dirty s q = true) := by
  induction l generalizing s with
  | nil => exact ⟨rfl, fun q => by simp, ⟨[], by simp⟩, ⟨[], by simp⟩⟩
  | cons a l ih =>
    rw [List.foldl_cons]
    obtain ⟨ib, id, ⟨A, iA, nA, mA⟩, ⟨U, iU, nU, mU⟩⟩ := ih (make_block_dirty s a)
    have hb : (make_block_dirty s a).blocks = s.blocks := by
      rw [make_block_dirty_eq]
    have hhb : ∀ q, has_block (make_block_dirty s a) q = has_block s q := by
      intro q
      simp only [has_block, hb]
    have hd : ∀ q, (make_block_dirty s a).dirty_blocks q =
        if q = a then dirty_after (s.dirty_blocks a) (has_block s a) else s.dirty_blocks q := by
      intro q
      rw [make_block_dirty_eq]
      by_cases hq : q = a
      · subst hq
        simp
      · simp [Function.update_noteq hq, hq]
    have hl : (make_block_dirty s a).blocks_pending_load =
        s.blocks_pending_load ++ (if loads_on_dirty s a = true then [a] else []) := by
      rw [make_block_dirty_eq]
    have hu : (make_block_dirty s a).blocks_pending_update =
        s.blocks_pending_update ++ (if updates_on_dirty s a = true then [a] else []) := by
      rw [make_block_dirty_eq]
    have hla : loads_on_dirty (make_block_dirty s a) a = false := by
      have h1 := (dirty_after_ne_sent (s.dirty_blocks a) (has_block s a)).1
      unfold loads_on_dirty
      rw [hd a, if_pos rfl]
      cases hx : dirty_after (s.dirty_blocks a) (has_block s a) with
      | none => rw [hx] at h1; cases h1
      | some st => rfl
    have hua : updates_on_dirty (make_block_dirty s a) a = false := by
      obtain ⟨h1, h2⟩ := dirty_after_ne_sent (s.dirty_blocks a) (has_block s a)
      unfold updates_on_dirty
      rw [hd a, if_pos rfl]
      cases hx : dirty_after (s.dirty_blocks a) (has_block s a) with
      | none => rw [hx] at h1; cases h1
      | some st =>
        rw [hx] at h2
        simpa using h2
    have hlo : ∀ q, q ≠ a → loads_on_dirty (make_block_dirty s a) q = loads_on_dirty s q := by
      intro q hq
      unfold loads_on_dirty
      rw [hd q, if_neg hq, hhb]
    have huo : ∀ q, q ≠ a →
        updates_on_dirty (make_block_dirty s a) q = updates_on_dirty s q := by
      intro q hq
      unfold updates_on_dirty
      rw [hd q, if_neg hq, hhb]
    refine ⟨ib.trans hb, ?_, ?_, ?_⟩
    · intro q
      rw [id q, hhb q, hd q]
      by_cases hq : q = a
      · subst hq
        simp [dirty_after_idem]
      · simp [hq]
    · refine ⟨(if loads_on_dirty s a = true then [a] else []) ++ A, ?_, ?_, ?_⟩
      · rw [iA, hl, List.append_assoc]
      · have haA : a ∉ A := fun h => by
          have := ((mA a).1 h).2
          rw [hla] at this
          cases this
        split_ifs
        · exact List.nodup_cons.2 ⟨haA, nA⟩
        · exact nA
      · intro q
        rw [List.mem_append, mA q, List.mem_cons]
        by_cases hq : q = a
        · subst hq
          rw [hla]
          by_cases hc : loads_on_dirty s q = true
          · simp [hc]
          · simp [hc]
        · rw [hlo q hq]
          by_cases hc : loads_on_dirty s a = true
          · simp [hc, hq]
          · simp [hc, hq]
    · refine ⟨(if updates_on_dirty s a = true then [a] else []) ++ U, ?_, ?_, ?_⟩
      · rw [iU, hu, List.append_assoc]
      · have haU : a ∉ U := fun h => by
          have := ((mU a).1 h).2
          rw [hua] at this
          cases this
        split_ifs
        · exact List.nodup_cons.2 ⟨haU, nU⟩
        · exact nU
      · intro q
        rw [List.mem_append, mU q, List.mem_cons]
        by_cases hq : q = a
        · subst hq
          rw [hua]
          by_cases hc : updates_on_dirty s q = true
          · simp [hc]
          · simp [hc]
        · rw [huo q hq]
          by_cases hc : updates_on_dirty s a = true
          · simp [hc, hq]
          · simp [hc, hq]

theorem ediv_pred (B x : Int) (hB : 2 ≤ B) :
    (x - 1) / B = if x % B = 0 then x / B - 1 else x / B := by
  have hx := Int.emod_add_ediv x B
  have h0 := Int.emod_nonneg x (by omega : B ≠ 0)
  have h1 := Int.emod_lt_of_pos x (by omega : 0 < B)
  split_ifs with h
  · refine ((@Int.ediv_emod_unique (x - 1) B (B - 1) (x / B - 1) (by omega)).2 ⟨?_, ?_, ?_⟩).1
    · rw [mul_sub, mul_one]
      omega
    · omega
    · omega
  · refine ((@Int.ediv_emod_unique (x - 1) B (x % B - 1) (x / B) (by omega)).2 ⟨?_, ?_, ?_⟩).1
    · omega
    · omega
    · omega

theorem ediv_succ (B x : Int) (hB : 2 ≤ B) :
    (x + 1) / B = if x % B = B - 1 then x / B + 1 else x / B := by
  have hx := Int.emod_add_ediv x B
  have h0 := Int.emod_nonneg x (by omega : B ≠ 0)
  have h1 := Int.emod_lt_of_pos x (by omega : 0 < B)
  split_ifs with h
  · refine ((@Int.ediv_emod_unique (x + 1) B 0 (x / B + 1) (by omega)).2 ⟨?_, ?_, ?_⟩).1
    · rw [mul_add, mul_one]
      omega
    · omega
    · omega
  · refine ((@Int.ediv_emod_unique (x + 1) B (x % B + 1) (x / B) (by omega)).2 ⟨?_, ?_, ?_⟩).1
    · omega
    · omega
    · omega

theorem unit_range_iff (B x c : Int) (hB : 2 ≤ B) :
    ((x - 1) / B ≤ c ∧ c ≤ (x + 1) / B) ↔
      ((c - x / B = -1 ∨ c - x / B = 0 ∨ c - x / B = 1) ∧
        (c - x / B = -1 → x % B = 0) ∧ (c - x / B = 1 → x % B = B - 1)) := by
  rw [ediv_pred B x hB, ediv_succ B x hB]
  split_ifs <;> omega

/-- The calls of `make_area_dirty` on the 1×1×1 box at `v` and the calls of
`make_voxel_dirty(v)` go to the same block coordinates. -/
theorem unit_area_calls_iff (B : Int) (hB : 2 ≤ B) (v c : Vector3i) :
    c ∈ make_area_dirty_calls B ⟨v, ⟨1, 1, 1⟩⟩ ↔ c ∈ make_voxel_dirty_calls B v := by
  rw [mem_make_area_dirty_calls, make_voxel_dirty_calls_mem B hB]
  have hx := unit_range_iff B v.x c.x hB
  have hy := unit_range_iff B v.y c.y hB
  have hz := unit_range_iff B v.z c.z hB
  constructor
  · rintro ⟨h1, h2, h3⟩
    obtain ⟨a1, a2, a3⟩ := hx.1 h1
    obtain ⟨b1, b2, b3⟩ := hy.1 h2
    obtain ⟨c1, c2, c3⟩ := hz.1 h3
    exact ⟨⟨a1, b1, c1⟩, ⟨a2, a3⟩, ⟨b2, b3⟩, ⟨c2, c3⟩⟩
  · rintro ⟨⟨a1, b1, c1⟩, ⟨a2, a3⟩, ⟨b2, b3⟩, ⟨c2, c3⟩⟩
    exact ⟨hx.2 ⟨a1, a2, a3⟩, hy.2 ⟨b1, b2, b3⟩, hz.2 ⟨c1, c2, c3⟩⟩

/-- C25: for a block size of at least 2, every voxel position `v` and every
scheduler state, `make_area_dirty` on the 1×1×1 box at `v` and
`make_voxel_dirty(v)` call `make_block_dirty` on the same set of block
coordinates, and they produce the same dirty-state map, the same Spatial Index
and the same pending-load and pending-update queues up to the order of the
appended entries: each queue is the old queue followed by the appended
entries, and the appended entries of the two operations are permutations of
each other. -/
theorem unit_area_dirty_eq_voxel_dirty (s : Terrain) (v : Vector3i)
    (hB : 2 ≤ s.block_size) :
    (∀ c, c ∈ make_area_dirty_calls s.block_size ⟨v, ⟨1, 1, 1⟩⟩ ↔
      c ∈ make_voxel_dirty_calls s.block_size v) ∧
    (make_area_dirty s ⟨v, ⟨1, 1, 1⟩⟩).dirty_blocks = (make_voxel_dirty s v).dirty_blocks ∧
    (make_area_dirty s ⟨v, ⟨1, 1, 1⟩⟩).blocks = (make_voxel_dirty s v).blocks ∧
    (∃ A1 A2,
      (make_area_dirty s ⟨v, ⟨1, 1, 1⟩⟩).blocks_pending_load = s.blocks_pending_load ++ A1 ∧
      (make_voxel_dirty s v).blocks_pending_load = s.blocks_pending_load ++ A2 ∧
      A1.Perm A2) ∧
    (∃ U1 U2,
      (make_area_dirty s ⟨v, ⟨1, 1, 1⟩⟩).blocks_pending_update
        = s.blocks_pending_update ++ U1 ∧
      (make_voxel_dirty s v).blocks_pending_update = s.blocks_pending_update ++ U2 ∧
      U1.Perm U2) := by
  have hmem := unit_area_calls_iff s.block_size hB v
  obtain ⟨b1, d1, ⟨A1, e1, n1, m1⟩, ⟨U1, f1, k1, u1⟩⟩ :=
    foldl_make_block_dirty_exact (make_area_dirty_calls s.block_size ⟨v, ⟨1, 1, 1⟩⟩) s
  obtain ⟨b2, d2, ⟨A2, e2, n2, m2⟩, ⟨U2, f2, k2, u2⟩⟩ :=
    foldl_make_block_dirty_exact (make_voxel_dirty_calls s.block_size v) s
  refine ⟨hmem, ?_, ?_, ⟨A1, A2, e1, e2, ?_⟩, ⟨U1, U2, f1, f2, ?_⟩⟩
  · funext q
    unfold make_area_dirty make_voxel_dirty
    rw [d1 q, d2 q]
    by_cases hq : q ∈ make_voxel_dirty_calls s.block_size v
    · rw [if_pos ((hmem q).2 hq), if_pos hq]
    · rw [if_neg (fun h => hq ((hmem q).1 h)), if_neg hq]
  · unfold make_area_dirty make_voxel_dirty
    rw [b1, b2]
  · refine (List.perm_ext_iff_of_nodup n1 n2).2 (fun q => ?_)
    rw [m1 q, m2 q, hmem q]
  · refine (List.perm_ext_iff_of_nodup k1 k2).2 (fun q => ?_)
    rw [u1 q, u2 q, hmem q]

/-- Witness for C25: block size 16, the block `sample_pos` resident, voxel
`(16, 5, 7)` (local `(0, 5, 7)` in block `(1, 0, 0)`). -/
theorem unit_area_dirty_eq_voxel_dirty_witness :
    (2 : Int) ≤ sample_resident.block_size ∧
    (make_area_dirty sample_resident ⟨⟨16, 5, 7⟩, ⟨1, 1, 1⟩⟩).dirty_blocks
      = (make_voxel_dirty sample_resident ⟨16, 5, 7⟩).dirty_blocks :=
  ⟨by decide, (unit_area_dirty_eq_voxel_dirty sample_resident ⟨16, 5, 7⟩ (by decide)).2.1⟩

/-! ## A block marked dirty while its mesh job is out -/

/-- The required-area diff and the prune keep a resident block of the new box
with its entry `UPDATE_NOT_SENT` and its place in the pending-update queue. -/
theorem detect_required_blocks_keeps_update (s : Terrain) (viewer : Option Vector3i)
    (p : Vector3i) (block : VoxelBlock)
    (hb : s.blocks p = some block)
    (hd : s.dirty_blocks p = some BLOCK_UPDATE_NOT_SENT)
    (hq : p ∈ s.blocks_pending_update)
    (hbox : (required_box s viewer).contains p = true) :
    (detect_required_blocks s viewer).blocks p = some block ∧
    (detect_required_blocks s viewer).dirty_blocks p = some BLOCK_UPDATE_NOT_SENT ∧
    p ∈ (detect_required_blocks s viewer).blocks_pending_update := by
  have hmid : (update_required_blocks s (previous_box s) (required_box s viewer)).blocks p
        = some block ∧
      (update_required_blocks s (previous_box s) (required_box s viewer)).dirty_blocks p
        = some BLOCK_UPDATE_NOT_SENT ∧
      p ∈ (update_required_blocks s (previous_box s)
        (required_box s viewer)).blocks_pending_update := by
    unfold update_required_blocks
    split_ifs
    · obtain ⟨e1, e2, _, e4⟩ := foldl_update_required_block_spec (previous_box s)
        (required_box s viewer) s _ (box_positions_nodup _ _)
      refine ⟨?_, ?_, ?_⟩
      · rw [e1 p, if_neg (fun c => by rw [hbox] at c; exact Bool.noConfusion c.2.2)]
        exact hb
      · rw [e2 p, if_neg (fun c => by rw [hbox] at c; exact Bool.noConfusion c.2.2)]
        split_ifs
        · rw [hd]
          rfl
        · exact hd
      · rw [e4]
        exact List.mem_append_left _ hq
    · exact ⟨hb, hd, hq⟩
  obtain ⟨m1, m2, m3⟩ := hmid
  generalize hs1 : update_required_blocks s (previous_box s) (required_box s viewer) = s1
    at m1 m2 m3
  obtain ⟨_, k1⟩ := remove_positions_outside_box_spec s1.blocks_pending_load
    (required_box s viewer) s1.dirty_blocks
  obtain ⟨p2, k2⟩ := remove_positions_outside_box_spec s1.blocks_pending_update
    (required_box s viewer)
    (remove_positions_outside_box s1.blocks_pending_load (required_box s viewer)
      s1.dirty_blocks).2
  refine ⟨?_, ?_, ?_⟩
  · simp only [detect_required_blocks, hs1]
    exact m1
  · simp only [detect_required_blocks, hs1]
    rw [k2 p, if_neg (by simp [hbox]), k1 p, if_neg (by simp [hbox])]
    exact m2
  · simp only [detect_required_blocks, hs1]
    exact p2.mem_iff.2 (List.mem_filter.2 ⟨m3, hbox⟩)

/-- One iteration of the load-result loop keeps a resident block whose entry
is `UPDATE_NOT_SENT` with its entry and its place in the pending-update
queue. -/
theorem process_load_response_keeps_update (s : Terrain) (o : EmergeOutput)
    (p : Vector3i) (block : VoxelBlock)
    (hb : s.blocks p = some block)
    (hd : s.dirty_blocks p = some BLOCK_UPDATE_NOT_SENT)
    (hq : p ∈ s.blocks_pending_update) :
    (process_load_response s o).state.blocks p = some block ∧
    (process_load_response s o).state.dirty_blocks p = some BLOCK_UPDATE_NOT_SENT ∧
    p ∈ (process_load_response s o).state.blocks_pending_update := by
  by_cases h : s.dirty_blocks (emerged_block_pos s o) = some BLOCK_LOAD
  · have hne : p ≠ emerged_block_pos s o := by
      intro e
      rw [← e, hd] at h
      cases h
    by_cases hsz : o.voxels.size = Vector3i.splat s.block_size
    · obtain ⟨_, k2, _, _, k5, _⟩ := set_block_buffer_stats s (emerged_block_pos s o) o.voxels
      have kb := set_block_buffer_other s (emerged_block_pos s o) o.voxels p hne
      cases hh : has_block s (emerged_block_pos s o)
      · rw [process_load_response_install s o h hsz hh]
        simp only [Flow.state]
        have hfold : neighbor_dirs.foldl
              (fun acc ndir => update_neighbor acc (emerged_block_pos s o + ndir))
              (set_block_buffer s (emerged_block_pos s o) o.voxels)
            = (neighbor_dirs.map (fun ndir => emerged_block_pos s o + ndir)).foldl
              update_neighbor (set_block_buffer s (emerged_block_pos s o) o.voxels) := by
          rw [List.foldl_map]
        obtain ⟨eb, ed, eq⟩ := foldl_update_neighbor_exact
          (neighbor_dirs.map (fun ndir => emerged_block_pos s o + ndir))
          (set_block_buffer s (emerged_block_pos s o) o.voxels)
          (neighbor_positions_nodup (emerged_block_pos s o))
        rw [← hfold] at eb ed eq
        refine ⟨?_, ?_, ?_⟩
        · rw [eb, kb]
          exact hb
        · rw [ed p, k2]
          split_ifs
          · rfl
          · exact hd
        · rw [eq, k5]
          exact List.mem_append_left _ hq
      · rw [process_load_response_resupply s o h hsz hh]
        simp only [Flow.state]
        refine ⟨?_, ?_, ?_⟩
        · rw [kb]
          exact hb
        · rw [Function.update_noteq hne, k2]
          exact hd
        · rw [k5]
          exact List.mem_append_left _ hq
    · rw [process_load_response_mismatch s o h hsz]
      exact ⟨hb, hd, hq⟩
  · rw [process_load_response_stale s o h]
    exact ⟨hb, hd, hq⟩

theorem process_load_loop_keeps_update (batch : List EmergeOutput) (s : Terrain)
    (p : Vector3i) (block : VoxelBlock)
    (hb : s.blocks p = some block)
    (hd : s.dirty_blocks p = some BLOCK_UPDATE_NOT_SENT)
    (hq : p ∈ s.blocks_pending_update) :
    (process_load_loop s batch).state.blocks p = some block ∧
    (process_load_loop s batch).state.dirty_blocks p = some BLOCK_UPDATE_NOT_SENT ∧
    p ∈ (process_load_loop s batch).state.blocks_pending_update := by
  induction batch generalizing s with
  | nil => exact ⟨hb, hd, hq⟩
  | cons o rest ih =>
    have h1 := process_load_response_keeps_update s o p block hb hd hq
    simp only [process_load_loop]
    cases hr : process_load_response s o with
    | next s1 =>
      rw [hr] at h1
      exact ih s1 h1.1 h1.2.1 h1.2.2
    | ret s1 =>
      rw [hr] at h1
      exact h1

/-- From the detection of the required blocks to the end of the load drain, a
resident block of the required box whose entry is `UPDATE_NOT_SENT` keeps its
entry and its place in the pending-update queue, whether the drain runs to its
end or stops at a buffer of the wrong size. -/
theorem drain_keeps_update (s : Terrain) (inp : TickInput) (p : Vector3i) (block : VoxelBlock)
    (hb : s.blocks p = some block)
    (hd : s.dirty_blocks p = some BLOCK_UPDATE_NOT_SENT)
    (hq : p ∈ s.blocks_pending_update)
    (hbox : (required_box s inp.viewer).contains p = true) :
    (process_load_responses (send_load_requests (detect_required_blocks s inp.viewer))
      inp.emerged_blocks).state.blocks p = some block ∧
    (process_load_responses (send_load_requests (detect_required_blocks s inp.viewer))
      inp.emerged_blocks).state.dirty_blocks p = some BLOCK_UPDATE_NOT_SENT ∧
    p ∈ (process_load_responses (send_load_requests (detect_required_blocks s inp.viewer))
      inp.emerged_blocks).state.blocks_pending_update := by
  obtain ⟨a1, a2, a3⟩ := detect_required_blocks_keeps_update s inp.viewer p block hb hd hq hbox
  exact process_load_loop_keeps_update inp.emerged_blocks _ p block a1 a2 a3

/-- A block whose mesh job is out and which is marked dirty again is
dispatched a second time by the next tick whose load drain runs to its end.
The state `s0` is reachable, `p` is in state `UPDATE_SENT` with a resident
block that is not uniformly air (the result of the first job may have been
returned or not), `make_block_dirty(p)` is called, and the next tick has `p` in
its required box and its load drain is not stopped by a buffer of the wrong
size. Then the dispatch phase runs, `p` is in its batch exactly once, `p` is
`UPDATE_SENT` after it, the Mesh Worker holds the new job besides the jobs it
held, and the tick runs to its end. -/
theorem redirty_dispatched_again (allowed : Op → Prop) (B : Int) (s0 : Terrain)
    (p : Vector3i) (block : VoxelBlock) (inp : TickInput)
    (hs : ReachableBy allowed B s0)
    (hd : s0.dirty_blocks p = some BLOCK_UPDATE_SENT)
    (hb : s0.blocks p = some block) (ha : is_air block = false)
    (hbox : (required_box (make_block_dirty s0 p) inp.viewer).contains p = true)
    (hnext : (process_load_responses
      (send_load_requests (detect_required_blocks (make_block_dirty s0 p) inp.viewer))
      inp.emerged_blocks).is_next = true) :
    (make_block_dirty s0 p).dirty_blocks p = some BLOCK_UPDATE_NOT_SENT ∧
    ∃ s3 s4 batch,
      process_load_responses
        (send_load_requests (detect_required_blocks (make_block_dirty s0 p) inp.viewer))
        inp.emerged_blocks = Flow.next s3 ∧
      send_mesh_updates s3 = some (s4, batch) ∧
      batch.count p = 1 ∧
      s4.dirty_blocks p = some BLOCK_UPDATE_SENT ∧
      s4.updater_jobs = s3.updater_jobs ++ batch ∧
      _process (make_block_dirty s0 p) inp
        = Outcome.done (process_mesh_responses s4 inp.mesh_blocks inp.clock) := by
  have hinv0 := reachable_inv _ B s0 hs
  have hnd0 := reachable_nodup _ B s0 hs
  have e1 := make_block_dirty_of_sent s0 p hd
  have k1 : (make_block_dirty s0 p).blocks p = some block := by rw [e1]; exact hb
  have k2 : (make_block_dirty s0 p).dirty_blocks p = some BLOCK_UPDATE_NOT_SENT := by
    rw [e1]
    exact Function.update_same _ _ _
  have k3 : p ∈ (make_block_dirty s0 p).blocks_pending_update := by
    rw [e1]
    exact List.mem_append_right _ (List.mem_singleton.2 rfl)
  have hinv : Inv (make_block_dirty s0 p) := make_block_dirty_inv _ s0 p hinv0 trivial
  have hnd : QueuesNodup (make_block_dirty s0 p) := by
    refine ⟨?_, ?_⟩
    · rw [e1]
      exact hnd0.load
    · rw [e1]
      show (s0.blocks_pending_update ++ [p]).Nodup
      rw [List.nodup_append]
      refine ⟨hnd0.update, List.nodup_singleton p, ?_⟩
      intro a h1 h2
      rw [List.mem_singleton] at h2
      subst h2
      have := hinv0.update_queue a h1 trivial
      rw [hd] at this
      cases this
  obtain ⟨a1, a2, a3⟩ := drain_keeps_update (make_block_dirty s0 p) inp p block k1 k2 k3 hbox
  have i1 := detect_required_blocks_inv _ inp.viewer hinv
  have n1 := detect_required_blocks_nodup _ inp.viewer hinv hnd
  obtain ⟨i2, l2⟩ := send_load_requests_inv _ i1
  obtain ⟨i3, _⟩ := process_load_responses_inv _ inp.emerged_blocks i2 l2
  have n3 := process_load_responses_nodup _ inp.emerged_blocks i2 l2 n1.update
  have h3 := flow_next_state _ hnext
  generalize (process_load_responses
      (send_load_requests (detect_required_blocks (make_block_dirty s0 p) inp.viewer))
      inp.emerged_blocks).state = s3 at a1 a2 a3 i3 n3 h3
  obtain ⟨s4, batch, m1, _, m3, m4, m5, _, _⟩ := send_mesh_updates_batch s3 n3
    (fun q hq => i3.update_queue q hq trivial)
  have hdisp : is_dispatched s3 p = true := by
    simp only [is_dispatched, a1, ha, Bool.not_false]
  have hmem : p ∈ batch := by
    rw [m3]
    exact List.mem_filter.2 ⟨a3, hdisp⟩
  have hbn : batch.Nodup := by
    rw [m3]
    exact n3.filter _
  exact ⟨k2, s3, s4, batch, h3, m1, List.count_eq_one_of_mem hbn hmem, m5 p hmem, m4,
    process_of_done _ s3 s4 batch inp h3 m1⟩

set_option maxRecDepth 100000 in
theorem reachable_sample_west_sent : Reachable 16 sample_west_sent :=
  reachable_run_tick _ 16 _ west_reload_tick
    (reachable_run_tick _ 16 sample_ring_requested far_tick reachable_sample_ring_requested
      trivial rfl List.nil_subperm)
    trivial rfl (by decide!)

set_option maxRecDepth 100000 in
theorem sample_west_facts :
    sample_west_sent.dirty_blocks west_pos = some BLOCK_UPDATE_SENT ∧
    sample_west_sent.blocks west_pos = some ⟨sample_buffer, none⟩ ∧
    is_air ⟨sample_buffer, none⟩ = false ∧
    sample_west_sent.updater_jobs = [west_pos] ∧
    sample_west_sent.blocks_pending_main_thread_update.length = 0 ∧
    (required_box sample_west_redirtied origin_wrong_size_tick.viewer).contains west_pos
      = true ∧
    sample_west_redirtied.dirty_blocks west_pos = some BLOCK_UPDATE_NOT_SENT ∧
    sample_west_redirtied.blocks_pending_update = [west_pos] ∧
    sample_west_redirtied.dirty_blocks Vector3i.zero = some BLOCK_LOAD ∧
    ((origin_wrong_size_tick.emerged_blocks.map
        (emerged_block_pos sample_west_redirtied)).Subperm
      (send_load_requests (detect_required_blocks sample_west_redirtied
        origin_wrong_size_tick.viewer)).provider_requests) ∧
    (process_load_responses
      (send_load_requests
        (detect_required_blocks sample_west_redirtied origin_wrong_size_tick.viewer))
      origin_wrong_size_tick.emerged_blocks).is_next = false ∧
    sample_west_halted.dirty_blocks west_pos = some BLOCK_UPDATE_NOT_SENT ∧
    sample_west_halted.blocks_pending_update = [west_pos] ∧
    sample_west_halted.updater_jobs = [west_pos] := by
  decide!

theorem flow_ret_state (f : Flow) (h : f.is_next = false) : f = Flow.ret f.state := by
  cases f with
  | next s => cases h
  | ret s => rfl

theorem process_load_responses_nil_next (s : Terrain) :
    (process_load_responses s []).is_next = true := rfl

theorem sample_west_redirtied_eq :
    sample_west_redirtied = make_block_dirty sample_west_sent west_pos := by
  unfold sample_west_redirtied run_op
  simp only [Op.run, Option.getD_some]

/-- C22 (the code at the failing input): the manager is set to a view distance
of one block; the viewer goes to block `(3, 0, 0)` and comes back, so that the
load of `west_pos` is requested twice; both results come back and `west_pos`
is dispatched: in the reachable state `sample_west_sent` it is resident, not
uniformly air, inside the required box, in state `UPDATE_SENT`, and the Mesh
Worker holds its job. `make_block_dirty(west_pos)` sets it to
`UPDATE_NOT_SENT` and queues it. In the next tick the Loader Worker returns,
for the block at the origin (state `LOAD`), a buffer of size 8×8×8: the
`ERR_FAIL_COND` of the load drain returns from `_process` before the dispatch
phase. `west_pos` is not dispatched by this tick: the Mesh Worker still holds
the first job only, and `west_pos` is still `UPDATE_NOT_SENT` and queued.
The same tick without the returned buffer dispatches `west_pos` a second
time. -/
theorem redirty_dispatch_halted :
    Reachable 16 sample_west_sent ∧
    sample_west_sent.dirty_blocks west_pos = some BLOCK_UPDATE_SENT ∧
    (∃ block, sample_west_sent.blocks west_pos = some block ∧ is_air block = false) ∧
    sample_west_sent.updater_jobs = [west_pos] ∧
    Op.run sample_west_sent (Op.block_dirty west_pos) = some sample_west_redirtied ∧
    sample_west_redirtied.dirty_blocks west_pos = some BLOCK_UPDATE_NOT_SENT ∧
    sample_west_redirtied.blocks_pending_update = [west_pos] ∧
    (required_box sample_west_redirtied origin_wrong_size_tick.viewer).contains west_pos
      = true ∧
    sample_west_redirtied.dirty_blocks Vector3i.zero = some BLOCK_LOAD ∧
    tick_valid sample_west_redirtied origin_wrong_size_tick ∧
    _process sample_west_redirtied origin_wrong_size_tick
      = Outcome.failed sample_west_halted ∧
    sample_west_halted.updater_jobs = [west_pos] ∧
    sample_west_halted.dirty_blocks west_pos = some BLOCK_UPDATE_NOT_SENT ∧
    sample_west_halted.blocks_pending_update = [west_pos] ∧
    (∃ s3 s4 batch,
      process_load_responses
        (send_load_requests (detect_required_blocks sample_west_redirtied quiet_tick.viewer))
        quiet_tick.emerged_blocks = Flow.next s3 ∧
      send_mesh_updates s3 = some (s4, batch) ∧ batch.count west_pos = 1 ∧
      s4.dirty_blocks west_pos = some BLOCK_UPDATE_SENT) := by
  obtain ⟨f1, f2, f3, f4, _, f6, f7, f8, f9, f10, f11, f12, f13, f14⟩ := sample_west_facts
  have hrun : Op.run sample_west_sent (Op.block_dirty west_pos) = some sample_west_redirtied := by
    rw [sample_west_redirtied_eq]
    rfl
  have hbox : (required_box (make_block_dirty sample_west_sent west_pos)
      quiet_tick.viewer).contains west_pos = true := by
    rw [← sample_west_redirtied_eq]
    exact f6
  obtain ⟨_, s3, s4, batch, e1, e2, e3, e4, _⟩ :=
    redirty_dispatched_again (fun _ => True) 16 sample_west_sent west_pos
      ⟨sample_buffer, none⟩ quiet_tick
      reachable_sample_west_sent f1 f2 f3 hbox (process_load_responses_nil_next _)
  rw [← sample_west_redirtied_eq] at e1
  exact ⟨reachable_sample_west_sent, f1, ⟨_, f2, f3⟩, f4, hrun, f7, f8, f6, f9,
    tick_valid_of_no_mesh _ _ rfl f10, process_of_ret _ _ _ (flow_ret_state _ f11),
    f14, f12, f13, s3, s4, batch, e1, e2, e3, e4⟩

/-! ## A coordinate marked `UPDATE_NOT_SENT` without a resident block -/

theorem set_block_buffer_blocks_eq (s : Terrain) (p : Vector3i) (v : VoxelBuffer) :
    (set_block_buffer s p v).blocks = Function.update s.blocks p
      (some (match s.blocks p with
        | none => ⟨v, none⟩
        | some block => { block with voxels := v })) := by
  unfold set_block_buffer
  cases s.blocks p <;> rfl

theorem set_block_buffer_drain_eq (s t : Terrain) (p : Vector3i) (v : VoxelBuffer)
    (h : DrainEq s t) : DrainEq (set_block_buffer s p v) (set_block_buffer t p v) := by
  obtain ⟨_, a2, a3, _, a5, _⟩ := set_block_buffer_stats s p v
  obtain ⟨_, b2, b3, _, b5, _⟩ := set_block_buffer_stats t p v
  refine ⟨?_, ?_, ?_, ?_⟩
  · rw [a3, b3, h.block_size]
  · rw [set_block_buffer_blocks_eq, set_block_buffer_blocks_eq, h.blocks]
  · rw [a2, b2, h.dirty]
  · rw [a5, b5, h.update]

theorem update_neighbor_drain_eq (s t : Terrain) (a : Vector3i) (h : DrainEq s t) :
    DrainEq (update_neighbor s a) (update_neighbor t a) := by
  obtain ⟨a1, a2, a3⟩ := update_neighbor_exact s a
  obtain ⟨b1, b2, b3⟩ := update_neighbor_exact t a
  have hs : is_block_surrounded s a = is_block_surrounded t a :=
    is_block_surrounded_blocks t s h.blocks a
  refine ⟨?_, ?_, ?_, ?_⟩
  · rw [(update_neighbor_stats s a).2.2.1, (update_neighbor_stats t a).2.2.1, h.block_size]
  · rw [a1, b1, h.blocks]
  · rw [a2, b2, hs, h.dirty]
  · rw [a3, b3, hs, h.dirty, h.update]

theorem foldl_update_neighbor_drain_eq (l : List Vector3i) (c : Vector3i) (s t : Terrain)
    (h : DrainEq s t) :
    DrainEq (l.foldl (fun acc ndir => update_neighbor acc (c + ndir)) s)
      (l.foldl (fun acc ndir => update_neighbor acc (c + ndir)) t) := by
  induction l generalizing s t with
  | nil => exact h
  | cons d l ih => exact ih _ _ (update_neighbor_drain_eq s t (c + d) h)

/-- One iteration of the load-result loop on two states that agree on the
block size, the Spatial Index, the dirty-state map and the pending-update queue
ends the same way and leaves states that agree on them. -/
theorem process_load_response_drain_eq (s t : Terrain) (o : EmergeOutput) (h : DrainEq s t) :
    (process_load_response s o).is_next = (process_load_response t o).is_next ∧
    DrainEq (process_load_response s o).state (process_load_response t o).state := by
  have hp : emerged_block_pos s o = emerged_block_pos t o := by
    unfold emerged_block_pos
    rw [h.block_size]
  by_cases hd : s.dirty_blocks (emerged_block_pos s o) = some BLOCK_LOAD
  · have hd' : t.dirty_blocks (emerged_block_pos t o) = some BLOCK_LOAD := by
      rw [← hp, ← h.dirty]
      exact hd
    by_cases hsz : o.voxels.size = Vector3i.splat s.block_size
    · have hsz' : o.voxels.size = Vector3i.splat t.block_size := by
        rw [← h.block_size]
        exact hsz
      cases hb : has_block s (emerged_block_pos s o)
      · have hb' : has_block t (emerged_block_pos t o) = false := by
          rw [← hp]
          unfold has_block at hb ⊢
          rw [← h.blocks]
          exact hb
        rw [process_load_response_install s o hd hsz hb,
          process_load_response_install t o hd' hsz' hb', ← hp]
        refine ⟨by simp only [Flow.is_next], ?_⟩
        simp only [Flow.state]
        exact foldl_update_neighbor_drain_eq neighbor_dirs (emerged_block_pos s o) _ _
          (set_block_buffer_drain_eq s t (emerged_block_pos s o) o.voxels h)
      · have hb' : has_block t (emerged_block_pos t o) = true := by
          rw [← hp]
          unfold has_block at hb ⊢
          rw [← h.blocks]
          exact hb
        rw [process_load_response_resupply s o hd hsz hb,
          process_load_response_resupply t o hd' hsz' hb', ← hp]
        have e := set_block_buffer_drain_eq s t (emerged_block_pos s o) o.voxels h
        refine ⟨by simp only [Flow.is_next], ⟨e.block_size, e.blocks, ?_, ?_⟩⟩
        · simp only [Flow.state]
          rw [e.dirty]
        · simp only [Flow.state]
          rw [e.update]
    · have hsz' : o.voxels.size ≠ Vector3i.splat t.block_size := by
        rw [← h.block_size]
        exact hsz
      rw [process_load_response_mismatch s o hd hsz, process_load_response_mismatch t o hd' hsz']
      exact ⟨by simp only [Flow.is_next], h⟩
  · have hd' : t.dirty_blocks (emerged_block_pos t o) ≠ some BLOCK_LOAD := by
      rw [← hp, ← h.dirty]
      exact hd
    rw [process_load_response_stale s o hd, process_load_response_stale t o hd']
    exact ⟨by simp only [Flow.is_next], ⟨h.block_size, h.blocks, h.dirty, h.update⟩⟩

theorem process_load_loop_drain_eq (batch : List EmergeOutput) (s t : Terrain)
    (h : DrainEq s t) :
    (process_load_loop s batch).is_next = (process_load_loop t batch).is_next ∧
    DrainEq (process_load_loop s batch).state (process_load_loop t batch).state := by
  induction batch generalizing s t with
  | nil => exact ⟨rfl, h⟩
  | cons o rest ih =>
    obtain ⟨h1, h2⟩ := process_load_response_drain_eq s t o h
    simp only [process_load_loop]
    cases hs : process_load_response s o with
    | next s1 =>
      cases ht : process_load_response t o with
      | next t1 =>
        rw [hs, ht] at h2
        exact ih s1 t1 h2
      | ret t1 =>
        rw [hs, ht] at h1
        cases h1
    | ret s1 =>
      cases ht : process_load_response t o with
      | next t1 =>
        rw [hs, ht] at h1
        cases h1
      | ret t1 =>
        rw [hs, ht] at h2
        exact ⟨rfl, h2⟩

set_option maxRecDepth 100000 in
theorem sample_wide_model_facts :
    (process_load_loop sample_wide_model hole_tick.emerged_blocks).is_next = true ∧
    (process_load_loop sample_wide_model hole_tick.emerged_blocks).state.dirty_blocks hole_pos
      = some BLOCK_UPDATE_NOT_SENT ∧
    (process_load_loop sample_wide_model hole_tick.emerged_blocks).state.blocks hole_pos
      = none ∧
    (process_load_loop sample_wide_model hole_tick.emerged_blocks).state.blocks_pending_update
      = [hole_pos] ∧
    hole_tick.emerged_blocks.map (fun o => voxel_to_block 16 o.origin_in_voxels) = hole_ring ∧
    hole_ring.Nodup ∧
    (∀ q ∈ hole_ring, (required_box (fresh 16) none).contains q = true ∧
      (previous_box (fresh 16)).contains q = false) ∧
    (required_box (fresh 16) none).contains hole_pos = true ∧
    (previous_box (fresh 16)).contains hole_pos = false ∧
    hole_pos ∉ hole_ring ∧
    is_block_surrounded (process_load_loop sample_wide_model hole_tick.emerged_blocks).state
      hole_pos = true := by
  decide!

theorem commit_block_keeps_hole (s : Terrain) (ob : OutputBlock) (q : Vector3i)
    (hd : s.dirty_blocks q = some BLOCK_UPDATE_NOT_SENT) (hb : s.blocks q = none) :
    (commit_block s ob).dirty_blocks q = some BLOCK_UPDATE_NOT_SENT ∧
    (commit_block s ob).blocks q = none := by
  have h1 : (clear_sent_entry s ob.position).dirty_blocks q = some BLOCK_UPDATE_NOT_SENT ∧
      (clear_sent_entry s ob.position).blocks = s.blocks := by
    unfold clear_sent_entry
    split
    · rename_i hs
      refine ⟨?_, rfl⟩
      have hne : q ≠ ob.position := by
        intro e
        rw [← e, hd] at hs
        cases hs
      show Function.update s.dirty_blocks ob.position none q = _
      rw [Function.update_noteq hne]
      exact hd
    · exact ⟨hd, rfl⟩
  unfold commit_block
  simp only
  split
  · exact ⟨h1.1, by rw [h1.2]; exact hb⟩
  · rename_i block hblock
    have hne : q ≠ ob.position := by
      intro e
      rw [h1.2, ← e, hb] at hblock
      cases hblock
    refine ⟨h1.1, ?_⟩
    show Function.update (clear_sent_entry s ob.position).blocks ob.position _ q = none
    rw [Function.update_noteq hne, h1.2]
    exact hb

theorem foldl_commit_block_keeps_hole (l : List OutputBlock) (s : Terrain) (q : Vector3i)
    (hd : s.dirty_blocks q = some BLOCK_UPDATE_NOT_SENT) (hb : s.blocks q = none) :
    (l.foldl commit_block s).dirty_blocks q = some BLOCK_UPDATE_NOT_SENT ∧
    (l.foldl commit_block s).blocks q = none := by
  induction l generalizing s with
  | nil => exact ⟨hd, hb⟩
  | cons ob l ih =>
    obtain ⟨h1, h2⟩ := commit_block_keeps_hole s ob q hd hb
    exact ih _ h1 h2

/-- The commit phase leaves a coordinate that is `UPDATE_NOT_SENT` without a
resident block as it is. -/
theorem process_mesh_responses_keeps_hole (s : Terrain) (blocks : List OutputBlock)
    (clock : Nat → Nat) (q : Vector3i)
    (hd : s.dirty_blocks q = some BLOCK_UPDATE_NOT_SENT) (hb : s.blocks q = none) :
    (process_mesh_responses s blocks clock).dirty_blocks q = some BLOCK_UPDATE_NOT_SENT ∧
    (process_mesh_responses s blocks clock).blocks q = none := by
  rw [process_mesh_responses_eq]
  exact foldl_commit_block_keeps_hole _ (pop_mesh_responses s blocks) q hd hb

/-- C23 (the code at the failing input): two ticks of the fresh manager (block
size 16, view distance 8 blocks, no viewer). The first requests the blocks of
the required box; in the second the Loader Worker returns the 26 blocks around
`hole_pos = (3, 0, 0)`, but not the block at `hole_pos` itself. When the last
of them is installed, the neighbour loop finds `hole_pos` surrounded and sets
it to `UPDATE_NOT_SENT`. The state after the second tick is reachable by ticks
only; in it `hole_pos` is `UPDATE_NOT_SENT` and no block is resident there.
From then on a load result for `hole_pos` is dropped by the load drain,
because the entry is not `LOAD`. -/
theorem update_not_sent_without_block :
    ∃ s1 s2, Op.run (fresh 16) (Op.tick quiet_tick) = some s1 ∧
      tick_valid (fresh 16) quiet_tick ∧
      s1.dirty_blocks hole_pos = some BLOCK_LOAD ∧
      Op.run s1 (Op.tick hole_tick) = some s2 ∧ tick_valid s1 hole_tick ∧
      _process s1 hole_tick = Outcome.done s2 ∧
      ReachableTD 16 s2 ∧
      s2.dirty_blocks hole_pos = some BLOCK_UPDATE_NOT_SENT ∧
      s2.blocks hole_pos = none ∧
      (∀ o : EmergeOutput, emerged_block_pos s2 o = hole_pos →
        process_load_response s2 o = Flow.next { s2 with stats :=
          { s2.stats with dropped_provider_blocks := s2.stats.dropped_provider_blocks + 1 } }) := by
  obtain ⟨s1, hp1, hv1, a1, a2, a3, a4, ⟨L, a5, a6, a7⟩, a8, a9, a10, a11, a12, a13⟩ :=
    quiet_tick_pristine (fresh 16) quiet_tick rfl rfl rfl rfl rfl rfl rfl
  obtain ⟨f1, f2, f3, f4, f5, f6, f7, f8, f9, f10, _⟩ := sample_wide_model_facts
  have hd : s1.dirty_blocks hole_pos = some BLOCK_LOAD := by
    rw [a2 hole_pos, if_pos ⟨f8, f9⟩]
  have hreq : s1.provider_requests = L := by
    rw [a5]; rfl
  have hbs : s1.block_size = 16 := a10
  have hvd : s1.view_distance_blocks = 8 := a11
  have hlv : s1.last_view_distance_blocks = 8 := a12
  have hlp : s1.last_viewer_block_pos = Vector3i.zero := a13
  have hr1 : Op.run (fresh 16) (Op.tick quiet_tick) = some s1 := op_run_tick_done _ _ _ hp1
  have hreach1 : ReachableTD 16 s1 :=
    @ReachableBy.step Op.is_tick_or_dirty 16 (fresh 16) s1 (Op.tick quiet_tick)
      ReachableBy.init rfl hv1 hr1
  have hdet : detect_required_blocks s1 hole_tick.viewer = s1 :=
    detect_required_blocks_same_box s1 hole_tick.viewer
      (by
        show Rect3i.from_center_extents s1.last_viewer_block_pos
            (Vector3i.splat s1.last_view_distance_blocks)
          = Rect3i.from_center_extents Vector3i.zero (Vector3i.splat s1.view_distance_blocks)
        rw [hlp, hlv, hvd])
      a3 a4 (by rw [hlv, hvd]) hlp
  have hpos : emerged_block_pos s1 = fun o => voxel_to_block 16 o.origin_in_voxels := by
    funext o
    unfold emerged_block_pos
    rw [hbs]
  have hv2 : tick_valid s1 hole_tick := by
    refine tick_valid_of_no_mesh s1 hole_tick rfl ?_
    rw [hdet, hpos, f5]
    refine List.subperm_of_subset f6 ?_
    intro q hq
    show q ∈ s1.provider_requests ++ s1.blocks_pending_load
    rw [hreq, a3, List.append_nil]
    exact (a7 q).2 (f7 q hq)
  have heq : DrainEq (pop_load_responses (send_load_requests s1) hole_tick.emerged_blocks)
      sample_wide_model := by
    refine ⟨hbs, a1, ?_, a4⟩
    funext q
    exact a2 q
  obtain ⟨e1, e2⟩ := process_load_loop_drain_eq hole_tick.emerged_blocks _ _ heq
  have hdrain : process_load_responses
      (send_load_requests (detect_required_blocks s1 hole_tick.viewer))
      hole_tick.emerged_blocks
      = process_load_loop (pop_load_responses (send_load_requests s1) hole_tick.emerged_blocks)
        hole_tick.emerged_blocks := by
    rw [hdet]
    rfl
  rw [f1, ← hdrain] at e1
  rw [← hdrain] at e2
  have h3 := flow_next_state _ e1
  generalize (process_load_responses
    (send_load_requests (detect_required_blocks s1 hole_tick.viewer))
    hole_tick.emerged_blocks).state = s3 at e2 h3
  have d3 : s3.dirty_blocks hole_pos = some BLOCK_UPDATE_NOT_SENT := by
    rw [e2.dirty]; exact f2
  have b3 : s3.blocks hole_pos = none := by
    rw [e2.blocks]; exact f3
  have q3 : s3.blocks_pending_update = [hole_pos] := by
    rw [e2.update]; exact f4
  obtain ⟨s4, batch, m1, _, _, _, _, m6, _⟩ := send_mesh_updates_batch s3
    (by rw [q3]; exact List.nodup_singleton _)
    (by
      intro q hq
      rw [q3, List.mem_singleton] at hq
      rw [hq]
      exact d3)
  obtain ⟨d4, b4⟩ := m6 hole_pos b3
  rw [d3] at d4
  have hp2 := process_of_done s1 s3 s4 batch hole_tick h3 m1
  obtain ⟨d5, b5⟩ := process_mesh_responses_keeps_hole s4 hole_tick.mesh_blocks
    hole_tick.clock hole_pos d4 b4
  have hr2 := op_run_tick_done _ _ _ hp2
  have hreach : ReachableTD 16 (process_mesh_responses s4 hole_tick.mesh_blocks hole_tick.clock) :=
    @ReachableBy.step Op.is_tick_or_dirty 16 s1 _ (Op.tick hole_tick) hreach1 rfl hv2 hr2
  refine ⟨s1, _, hr1, hv1, hd, hr2, hv2, hp2, hreach, d5, b5, ?_⟩
  intro o ho
  refine process_load_response_stale _ o ?_
  rw [ho, d5]
  decide

/-! ## An accepted load that leaves its coordinate in `LOAD` -/

theorem sample_loading_facts :
    sample_loading.dirty_blocks (emerged_block_pos sample_loading ⟨⟨16, 0, 0⟩, sample_buffer⟩)
      = some BLOCK_LOAD ∧
    sample_buffer.size = Vector3i.splat sample_loading.block_size ∧
    has_block sample_loading (emerged_block_pos sample_loading ⟨⟨16, 0, 0⟩, sample_buffer⟩)
      = false ∧
    is_block_surrounded sample_loading
      (emerged_block_pos sample_loading ⟨⟨16, 0, 0⟩, sample_buffer⟩) = false := by
  decide!

/-- Witness for the amended C16: in `sample_loading` the coordinate
`sample_pos` is in state `LOAD`, not resident and not surrounded; the accepted
result installs the block and leaves the entry `LOAD`. -/
theorem load_accept_marks_update_witness :
    sample_loading.dirty_blocks sample_pos = some BLOCK_LOAD ∧
    ∃ s1, process_load_response sample_loading ⟨⟨16, 0, 0⟩, sample_buffer⟩ = Flow.next s1 ∧
      s1.dirty_blocks sample_pos = some BLOCK_LOAD := by
  obtain ⟨f1, f2, f3, f4⟩ := sample_loading_facts
  obtain ⟨s1, e1, _, _, _, e5⟩ :=
    load_accept_marks_update sample_loading ⟨⟨16, 0, 0⟩, sample_buffer⟩ f1 f2
  exact ⟨f1, s1, e1, (e5 f3 f4).1⟩

set_option maxRecDepth 100000 in
theorem sample_wide_model_load_facts :
    (process_load_loop sample_wide_model load_tick.emerged_blocks).is_next = true ∧
    (process_load_loop sample_wide_model load_tick.emerged_blocks).state.blocks sample_pos
      = some ⟨sample_buffer, none⟩ ∧
    (process_load_loop sample_wide_model load_tick.emerged_blocks).state.dirty_blocks sample_pos
      = some BLOCK_LOAD ∧
    (process_load_loop sample_wide_model load_tick.emerged_blocks).state.blocks_pending_update
      = [] ∧
    load_tick.emerged_blocks.map (fun o => voxel_to_block 16 o.origin_in_voxels)
      = [sample_pos] ∧
    (required_box (fresh 16) none).contains sample_pos = true ∧
    (previous_box (fresh 16)).contains sample_pos = false := by
  decide!

/-- C16 (counterexample): two ticks of the fresh manager (block size 16, view
distance 8 blocks, no viewer). The first requests the blocks of the required
box, `sample_pos = (1, 0, 0)` among them; in the second the Loader Worker
returns a buffer of the right size for `sample_pos`, which is in state `LOAD`
when the drain starts. The drain accepts the result and installs the block,
yet when the drain ends `sample_pos` is still in state `LOAD` and is not in
the pending-update queue. -/
theorem load_accepted_stays_load :
    ∃ s1 s3, Op.run (fresh 16) (Op.tick quiet_tick) = some s1 ∧
      tick_valid (fresh 16) quiet_tick ∧ ReachableTD 16 s1 ∧ tick_valid s1 load_tick ∧
      (pop_load_responses (send_load_requests (detect_required_blocks s1 load_tick.viewer))
        load_tick.emerged_blocks).dirty_blocks sample_pos = some BLOCK_LOAD ∧
      (pop_load_responses (send_load_requests (detect_required_blocks s1 load_tick.viewer))
        load_tick.emerged_blocks).blocks sample_pos = none ∧
      process_load_responses (send_load_requests (detect_required_blocks s1 load_tick.viewer))
        load_tick.emerged_blocks = Flow.next s3 ∧
      s3.blocks sample_pos = some ⟨sample_buffer, none⟩ ∧
      s3.dirty_blocks sample_pos = some BLOCK_LOAD ∧
      sample_pos ∉ s3.blocks_pending_update ∧
      ¬ (s3.dirty_blocks sample_pos = some BLOCK_UPDATE_NOT_SENT ∧
        sample_pos ∈ s3.blocks_pending_update) := by
  obtain ⟨s1, hp1, hv1, a1, a2, a3, a4, ⟨L, a5, a6, a7⟩, a8, a9, a10, a11, a12, a13⟩ :=
    quiet_tick_pristine (fresh 16) quiet_tick rfl rfl rfl rfl rfl rfl rfl
  obtain ⟨f1, f2, f3, f4, f5, f6, f7⟩ := sample_wide_model_load_facts
  have hd : s1.dirty_blocks sample_pos = some BLOCK_LOAD := by
    rw [a2 sample_pos, if_pos ⟨f6, f7⟩]
  have hreq : s1.provider_requests = L := by
    rw [a5]; rfl
  have hbs : s1.block_size = 16 := a10
  have hvd : s1.view_distance_blocks = 8 := a11
  have hlv : s1.last_view_distance_blocks = 8 := a12
  have hlp : s1.last_viewer_block_pos = Vector3i.zero := a13
  have hr1 : Op.run (fresh 16) (Op.tick quiet_tick) = some s1 := op_run_tick_done _ _ _ hp1
  have hreach1 : ReachableTD 16 s1 :=
    @ReachableBy.step Op.is_tick_or_dirty 16 (fresh 16) s1 (Op.tick quiet_tick)
      ReachableBy.init rfl hv1 hr1
  have hdet : detect_required_blocks s1 load_tick.viewer = s1 :=
    detect_required_blocks_same_box s1 load_tick.viewer
      (by
        show Rect3i.from_center_extents s1.last_viewer_block_pos
            (Vector3i.splat s1.last_view_distance_blocks)
          = Rect3i.from_center_extents Vector3i.zero (Vector3i.splat s1.view_distance_blocks)
        rw [hlp, hlv, hvd])
      a3 a4 (by rw [hlv, hvd]) hlp
  have hpos : emerged_block_pos s1 = fun o => voxel_to_block 16 o.origin_in_voxels := by
    funext o
    unfold emerged_block_pos
    rw [hbs]
  have hv2 : tick_valid s1 load_tick := by
    refine tick_valid_of_no_mesh s1 load_tick rfl ?_
    rw [hdet, hpos, f5]
    refine List.subperm_of_subset (List.nodup_singleton _) ?_
    intro q hq
    rw [List.mem_singleton] at hq
    show q ∈ s1.provider_requests ++ s1.blocks_pending_load
    rw [hreq, a3, List.append_nil, hq]
    exact (a7 sample_pos).2 ⟨f6, f7⟩
  have heq : DrainEq (pop_load_responses (send_load_requests s1) load_tick.emerged_blocks)
      sample_wide_model := by
    refine ⟨hbs, a1, ?_, a4⟩
    funext q
    exact a2 q
  obtain ⟨e1, e2⟩ := process_load_loop_drain_eq load_tick.emerged_blocks _ _ heq
  have hdrain : process_load_responses
      (send_load_requests (detect_required_blocks s1 load_tick.viewer))
      load_tick.emerged_blocks
      = process_load_loop (pop_load_responses (send_load_requests s1) load_tick.emerged_blocks)
        load_tick.emerged_blocks := by
    rw [hdet]
    rfl
  rw [f1, ← hdrain] at e1
  rw [← hdrain] at e2
  have h3 := flow_next_state _ e1
  have hstart : (pop_load_responses
      (send_load_requests (detect_required_blocks s1 load_tick.viewer))
      load_tick.emerged_blocks).dirty_blocks sample_pos = some BLOCK_LOAD := by
    rw [hdet]
    exact hd
  have hstartb : (pop_load_responses
      (send_load_requests (detect_required_blocks s1 load_tick.viewer))
      load_tick.emerged_blocks).blocks sample_pos = none := by
    rw [hdet]
    show s1.blocks sample_pos = none
    rw [a1]
  generalize (process_load_responses
    (send_load_requests (detect_required_blocks s1 load_tick.viewer))
    load_tick.emerged_blocks).state = s3 at e2 h3
  have b3 : s3.blocks sample_pos = some ⟨sample_buffer, none⟩ := by
    rw [e2.blocks]; exact f2
  have d3 : s3.dirty_blocks sample_pos = some BLOCK_LOAD := by
    rw [e2.dirty]; exact f3
  have q3 : sample_pos ∉ s3.blocks_pending_update := by
    rw [e2.update, f4]
    exact List.not_mem_nil _
  refine ⟨s1, s3, hr1, hv1, hreach1, hv2, hstart, hstartb, h3, b3, d3, q3, ?_⟩
  rintro ⟨_, h⟩
  exact q3 h

/-! ## The dropped-load counter when the drain stops early -/

set_option maxRecDepth 100000 in
theorem sample_drop_facts :
    ((halted_drop_tick.emerged_blocks.map (emerged_block_pos sample_west_sent)).Subperm
      (send_load_requests (detect_required_blocks sample_west_sent
        halted_drop_tick.viewer)).provider_requests) ∧
    sample_drop_start.stats.dropped_provider_blocks = 0 ∧
    halted_drop_tick.emerged_blocks.map (emerged_block_pos sample_drop_start)
      = [Vector3i.zero, hole_pos] ∧
    sample_drop_start.dirty_blocks Vector3i.zero = some BLOCK_LOAD ∧
    sample_drop_start.dirty_blocks hole_pos = none ∧
    (halted_drop_tick.emerged_blocks.filter (fun o =>
      decide (sample_drop_start.dirty_blocks (emerged_block_pos sample_drop_start o)
        ≠ some BLOCK_LOAD))).length = 1 ∧
    (process_load_responses
      (send_load_requests (detect_required_blocks sample_west_sent halted_drop_tick.viewer))
      halted_drop_tick.emerged_blocks).is_next = false ∧
    sample_drop_halted.dirty_blocks Vector3i.zero = some BLOCK_LOAD ∧
    sample_drop_halted.dirty_blocks hole_pos = none ∧
    (halted_drop_tick.emerged_blocks.filter (fun o =>
      decide (sample_drop_halted.dirty_blocks (emerged_block_pos sample_drop_halted o)
        ≠ some BLOCK_LOAD))).length = 1 ∧
    sample_drop_halted.stats.dropped_provider_blocks = 0 := by
  decide!

/-- C6 (the code at the failing input): in the reachable state
`sample_west_sent` (view distance 1 block; the viewer went to block
`(3, 0, 0)` and came back, so the load request for `(3, 0, 0)` is still out
and its dirty-state entry is gone; the origin is in state `LOAD`) the Loader
Worker returns, in this order, a buffer of size 8×8×8 for the origin and a
buffer of the right size for `(3, 0, 0)`. One result of the batch, the
second, has no `LOAD` entry for its coordinate, at the start of the drain and
at its end. The `ERR_FAIL_COND` on the first result returns from `_process`,
the second result is never examined, and the dropped-load counter, reset to 0
at the start of the drain, is 0 after the drain, not 1. -/
theorem drain_halt_skips_drop :
    Reachable 16 sample_west_sent ∧ tick_valid sample_west_sent halted_drop_tick ∧
    sample_drop_start.stats.dropped_provider_blocks = 0 ∧
    halted_drop_tick.emerged_blocks.map (emerged_block_pos sample_drop_start)
      = [Vector3i.zero, hole_pos] ∧
    sample_drop_start.dirty_blocks Vector3i.zero = some BLOCK_LOAD ∧
    sample_drop_start.dirty_blocks hole_pos = none ∧
    (halted_drop_tick.emerged_blocks.filter (fun o =>
      decide (sample_drop_start.dirty_blocks (emerged_block_pos sample_drop_start o)
        ≠ some BLOCK_LOAD))).length = 1 ∧
    _process sample_west_sent halted_drop_tick = Outcome.failed sample_drop_halted ∧
    sample_drop_halted.dirty_blocks hole_pos = none ∧
    (halted_drop_tick.emerged_blocks.filter (fun o =>
      decide (sample_drop_halted.dirty_blocks (emerged_block_pos sample_drop_halted o)
        ≠ some BLOCK_LOAD))).length = 1 ∧
    sample_drop_halted.stats.dropped_provider_blocks = 0 := by
  obtain ⟨f1, f2, f3, f4, f5, f6, f7, _, f9, f10, f11⟩ := sample_drop_facts
  exact ⟨reachable_sample_west_sent, tick_valid_of_no_mesh _ _ rfl f1, f2, f3, f4, f5, f6,
    process_of_ret _ _ _ (flow_ret_state _ f7), f9, f10, f11⟩

/-! ## The diff loop on a coordinate that is `UPDATE_NOT_SENT` without a block -/

/-- Two ticks of the fresh manager (block size 16, view distance 8 blocks, no
viewer), the second returning the 26 blocks around `hole_pos`: afterwards
`hole_pos` is `UPDATE_NOT_SENT` and no block is resident there. -/
theorem hole_run :
    ∃ s1 s2, Op.run (fresh 16) (Op.tick quiet_tick) = some s1 ∧
      tick_valid (fresh 16) quiet_tick ∧
      Op.run s1 (Op.tick hole_tick) = some s2 ∧ tick_valid s1 hole_tick ∧
      s2.dirty_blocks hole_pos = some BLOCK_UPDATE_NOT_SENT ∧
      s2.blocks hole_pos = none := by
  obtain ⟨s1, hp1, hv1, a1, a2, a3, a4, ⟨L, a5, a6, a7⟩, a8, a9, a10, a11, a12, a13⟩ :=
    quiet_tick_pristine (fresh 16) quiet_tick rfl rfl rfl rfl rfl rfl rfl
  obtain ⟨f1, f2, f3, f4, f5, f6, f7, f8, f9, f10, _⟩ := sample_wide_model_facts
  have hreq : s1.provider_requests = L := by
    rw [a5]; rfl
  have hbs : s1.block_size = 16 := a10
  have hvd : s1.view_distance_blocks = 8 := a11
  have hlv : s1.last_view_distance_blocks = 8 := a12
  have hlp : s1.last_viewer_block_pos = Vector3i.zero := a13
  have hr1 : Op.run (fresh 16) (Op.tick quiet_tick) = some s1 := op_run_tick_done _ _ _ hp1
  have hdet : detect_required_blocks s1 hole_tick.viewer = s1 :=
    detect_required_blocks_same_box s1 hole_tick.viewer
      (by
        show Rect3i.from_center_extents s1.last_viewer_block_pos
            (Vector3i.splat s1.last_view_distance_blocks)
          = Rect3i.from_center_extents Vector3i.zero (Vector3i.splat s1.view_distance_blocks)
        rw [hlp, hlv, hvd])
      a3 a4 (by rw [hlv, hvd]) hlp
  have hpos : emerged_block_pos s1 = fun o => voxel_to_block 16 o.origin_in_voxels := by
    funext o
    unfold emerged_block_pos
    rw [hbs]
  have hv2 : tick_valid s1 hole_tick := by
    refine tick_valid_of_no_mesh s1 hole_tick rfl ?_
    rw [hdet, hpos, f5]
    refine List.subperm_of_subset f6 ?_
    intro q hq
    show q ∈ s1.provider_requests ++ s1.blocks_pending_load
    rw [hreq, a3, List.append_nil]
    exact (a7 q).2 (f7 q hq)
  have heq : DrainEq (pop_load_responses (send_load_requests s1) hole_tick.emerged_blocks)
      sample_wide_model := by
    refine ⟨hbs, a1, ?_, a4⟩
    funext q
    exact a2 q
  obtain ⟨e1, e2⟩ := process_load_loop_drain_eq hole_tick.emerged_blocks _ _ heq
  have hdrain : process_load_responses
      (send_load_requests (detect_required_blocks s1 hole_tick.viewer))
      hole_tick.emerged_blocks
      = process_load_loop (pop_load_responses (send_load_requests s1) hole_tick.emerged_blocks)
        hole_tick.emerged_blocks := by
    rw [hdet]
    rfl
  rw [f1, ← hdrain] at e1
  rw [← hdrain] at e2
  have h3 := flow_next_state _ e1
  generalize (process_load_responses
    (send_load_requests (detect_required_blocks s1 hole_tick.viewer))
    hole_tick.emerged_blocks).state = s3 at e2 h3
  have d3 : s3.dirty_blocks hole_pos = some BLOCK_UPDATE_NOT_SENT := by
    rw [e2.dirty]; exact f2
  have b3 : s3.blocks hole_pos = none := by
    rw [e2.blocks]; exact f3
  have q3 : s3.blocks_pending_update = [hole_pos] := by
    rw [e2.update]; exact f4
  obtain ⟨s4, batch, m1, _, _, _, _, m6, _⟩ := send_mesh_updates_batch s3
    (by rw [q3]; exact List.nodup_singleton _)
    (by
      intro q hq
      rw [q3, List.mem_singleton] at hq
      rw [hq]
      exact d3)
  obtain ⟨d4, b4⟩ := m6 hole_pos b3
  rw [d3] at d4
  have hp2 := process_of_done s1 s3 s4 batch hole_tick h3 m1
  obtain ⟨d5, b5⟩ := process_mesh_responses_keeps_hole s4 hole_tick.mesh_blocks
    hole_tick.clock hole_pos d4 b4
  exact ⟨s1, _, hr1, hv1, op_run_tick_done _ _ _ hp2, hv2, d5, b5⟩

/-- C13 (the code at the failing input): two ticks of the fresh manager (block
size 16, view distance 8 blocks, no viewer), the second returning the 26
blocks around `hole_pos = (3, 0, 0)`, which leaves `hole_pos` in state
`UPDATE_NOT_SENT` without a resident block; then
`make_all_view_dirty_deferred` is called. In the next tick the previous box
(last view distance 0 around the origin) differs from the new box (view
distance 8), `hole_pos` lies in the new box and not in the previous one, and
the diff loop calls `make_block_dirty` on it. After the loop the block at
`hole_pos` is not resident and its dirty-state entry is `UPDATE_NOT_SENT`,
not `LOAD`. -/
theorem entered_hole_keeps_update :
    ∃ s1 s2, Op.run (fresh 16) (Op.tick quiet_tick) = some s1 ∧
      tick_valid (fresh 16) quiet_tick ∧
      Op.run s1 (Op.tick hole_tick) = some s2 ∧ tick_valid s1 hole_tick ∧
      Op.run s2 Op.all_view_dirty_deferred = some (make_all_view_dirty_deferred s2) ∧
      Reachable 16 (make_all_view_dirty_deferred s2) ∧
      previous_box (make_all_view_dirty_deferred s2)
        ≠ required_box (make_all_view_dirty_deferred s2) none ∧
      (previous_box (make_all_view_dirty_deferred s2)).contains hole_pos = false ∧
      (required_box (make_all_view_dirty_deferred s2) none).contains hole_pos = true ∧
      hole_pos ∈ box_positions
        (Rect3i.get_bounding_box (previous_box (make_all_view_dirty_deferred s2))
          (required_box (make_all_view_dirty_deferred s2) none)).pos
        ((Rect3i.get_bounding_box (previous_box (make_all_view_dirty_deferred s2))
          (required_box (make_all_view_dirty_deferred s2) none)).pos +
         (Rect3i.get_bounding_box (previous_box (make_all_view_dirty_deferred s2))
          (required_box (make_all_view_dirty_deferred s2) none)).size) ∧
      update_required_block (previous_box (make_all_view_dirty_deferred s2))
          (required_box (make_all_view_dirty_deferred s2) none)
          (make_all_view_dirty_deferred s2) hole_pos
        = make_block_dirty (make_all_view_dirty_deferred s2) hole_pos ∧
      has_block (update_required_blocks (make_all_view_dirty_deferred s2)
        (previous_box (make_all_view_dirty_deferred s2))
        (required_box (make_all_view_dirty_deferred s2) none)) hole_pos = false ∧
      (update_required_blocks (make_all_view_dirty_deferred s2)
        (previous_box (make_all_view_dirty_deferred s2))
        (required_box (make_all_view_dirty_deferred s2) none)).dirty_blocks hole_pos
        = some BLOCK_UPDATE_NOT_SENT ∧
      (update_required_blocks (make_all_view_dirty_deferred s2)
        (previous_box (make_all_view_dirty_deferred s2))
        (required_box (make_all_view_dirty_deferred s2) none)).dirty_blocks hole_pos
        ≠ some BLOCK_LOAD := by
  obtain ⟨s1, s2, hr1, hv1, hr2, hv2, d2, b2⟩ := hole_run
  have htd : ReachableTD 16 s2 :=
    @ReachableBy.step Op.is_tick_or_dirty 16 s1 s2 (Op.tick hole_tick)
      (@ReachableBy.step Op.is_tick_or_dirty 16 (fresh 16) s1 (Op.tick quiet_tick)
        ReachableBy.init rfl hv1 hr1) rfl hv2 hr2
  have hall : Reachable 16 (make_all_view_dirty_deferred s2) :=
    @ReachableBy.step (fun _ => True) 16 s2 _ Op.all_view_dirty_deferred
      (@ReachableBy.step (fun _ => True) 16 s1 s2 (Op.tick hole_tick)
        (@ReachableBy.step (fun _ => True) 16 (fresh 16) s1 (Op.tick quiet_tick)
          ReachableBy.init trivial hv1 hr1) trivial hv2 hr2) trivial trivial rfl
  have hli := reachable_load_inv 16 s2 htd
  have hP : previous_box (make_all_view_dirty_deferred s2)
      = Rect3i.from_center_extents Vector3i.zero (Vector3i.splat 0) := by
    show Rect3i.from_center_extents s2.last_viewer_block_pos (Vector3i.splat 0) = _
    rw [hli.last_pos]
  have hN : required_box (make_all_view_dirty_deferred s2) none
      = Rect3i.from_center_extents Vector3i.zero (Vector3i.splat 8) := by
    show Rect3i.from_center_extents Vector3i.zero (Vector3i.splat s2.view_distance_blocks) = _
    rw [hli.view]
  have hne : previous_box (make_all_view_dirty_deferred s2)
      ≠ required_box (make_all_view_dirty_deferred s2) none := by
    rw [hP, hN]; decide
  have hPc : (previous_box (make_all_view_dirty_deferred s2)).contains hole_pos = false := by
    rw [hP]; decide
  have hNc : (required_box (make_all_view_dirty_deferred s2) none).contains hole_pos = true := by
    rw [hN]; decide
  obtain ⟨e1, e2, _, _⟩ := foldl_update_required_block_spec
    (previous_box (make_all_view_dirty_deferred s2))
    (required_box (make_all_view_dirty_deferred s2) none) (make_all_view_dirty_deferred s2) _
    (box_positions_nodup
      (Rect3i.get_bounding_box (previous_box (make_all_view_dirty_deferred s2))
        (required_box (make_all_view_dirty_deferred s2) none)).pos
      ((Rect3i.get_bounding_box (previous_box (make_all_view_dirty_deferred s2))
        (required_box (make_all_view_dirty_deferred s2) none)).pos +
       (Rect3i.get_bounding_box (previous_box (make_all_view_dirty_deferred s2))
        (required_box (make_all_view_dirty_deferred s2) none)).size))
  have hd : (update_required_blocks (make_all_view_dirty_deferred s2)
      (previous_box (make_all_view_dirty_deferred s2))
      (required_box (make_all_view_dirty_deferred s2) none)).dirty_blocks hole_pos
      = some BLOCK_UPDATE_NOT_SENT := by
    rw [update_required_blocks_of_ne _ _ _ hne, e2 hole_pos,
      if_neg (fun c => by rw [hNc] at c; exact Bool.noConfusion c.2.2)]
    have hs : (make_all_view_dirty_deferred s2).dirty_blocks hole_pos
        = some BLOCK_UPDATE_NOT_SENT := d2
    split_ifs
    · rw [hs]
      rfl
    · exact hs
  refine ⟨s1, s2, hr1, hv1, hr2, hv2, rfl, hall, hne, hPc, hNc,
    mem_bounds_of_contains _ _ _ (Or.inr hNc), ?_, ?_, hd, ?_⟩
  · unfold update_required_block
    simp only [hPc, hNc, Bool.false_and, Bool.not_false, Bool.and_self, if_true,
      Bool.not_true, Bool.and_false, Bool.false_eq_true, if_false]
  · unfold has_block
    rw [update_required_blocks_of_ne _ _ _ hne, e1 hole_pos,
      if_neg (fun c => by rw [hNc] at c; exact Bool.noConfusion c.2.2)]
    have hs : (make_all_view_dirty_deferred s2).blocks hole_pos = none := b2
    rw [hs]
    rfl
  · rw [hd]
    decide

/-! ## The first tick at a view distance of two blocks -/

theorem sample_view2_fields :
    sample_view2.view_distance_blocks = 2 ∧ sample_view2.last_view_distance_blocks = 0 ∧
    sample_view2.last_viewer_block_pos = Vector3i.zero ∧
    required_box sample_view2 none
      = Rect3i.from_center_extents Vector3i.zero (Vector3i.splat 2) ∧
    previous_box sample_view2
      = Rect3i.from_center_extents Vector3i.zero (Vector3i.splat 0) := by
  decide

/-- C15 (counterexample): the fresh manager (block size 16) after
`set_view_distance(32)`, a view distance of 2 blocks, in its first tick with
the viewer at the origin. After the required-area diff it is not the case that
every coordinate with all components in `[-2, 2]` has dirty state `LOAD`:
the diff loop marks a coordinate only when it lies in the required box and
outside the previous box, the previous box is the box of radius 0 at the
origin, and the origin and `(2, 0, 0)` are not both inside the box of radius 2
and outside the box of radius 0. -/
theorem first_tick_cube_not_all_load :
    Reachable 16 sample_view2 ∧ sample_view2.view_distance_blocks = 2 ∧
    sample_view2.last_view_distance_blocks = 0 ∧
    sample_view2.last_viewer_block_pos = Vector3i.zero ∧
    ¬ (∀ q : Vector3i,
      (-2 ≤ q.x ∧ q.x ≤ 2) ∧ (-2 ≤ q.y ∧ q.y ≤ 2) ∧ (-2 ≤ q.z ∧ q.z ≤ 2) →
      sample_view2_detected.dirty_blocks q = some BLOCK_LOAD) := by
  obtain ⟨g1, g2, g3, _, _⟩ := sample_view2_fields
  obtain ⟨_, hd, _, _, _⟩ := detect_required_blocks_pristine sample_view2 none rfl rfl rfl rfl
  refine ⟨reachable_run_plain _ 16 (fresh 16) (Op.view_distance 32) ReachableBy.init trivial
    trivial rfl, g1, g2, g3, ?_⟩
  intro h
  have h0 := h Vector3i.zero (by decide)
  have h2 := h ⟨2, 0, 0⟩ (by decide)
  unfold sample_view2_detected at h0 h2
  rw [hd] at h0 h2
  by_cases c0 : (required_box sample_view2 none).contains Vector3i.zero = true ∧
      (previous_box sample_view2).contains Vector3i.zero = false
  · by_cases c2 : (required_box sample_view2 none).contains ⟨2, 0, 0⟩ = true ∧
        (previous_box sample_view2).contains ⟨2, 0, 0⟩ = false
    · exact absurd (And.intro c0 c2) (by decide)
    · rw [if_neg c2] at h2
      cases h2
  · rw [if_neg c0] at h0
    cases h0

/-- C15 (amended): the fresh manager (block size 16) after
`set_view_distance(32)`, a view distance of 2 blocks, in its first tick with
the viewer at the origin. The required box is the box of radius 2 at the
origin and the previous box is the box of radius 0 at the origin. After the
required-area diff and the pruning, exactly the coordinates inside the
required box and outside the previous box have dirty state `LOAD`, each of
them is once in the pending-load queue, no other coordinate has a dirty-state
entry or is in the queue, no block is resident and the pending-update queue is
empty. -/
theorem first_tick_entering_load :
    Reachable 16 sample_view2 ∧ sample_view2.view_distance_blocks = 2 ∧
    required_box sample_view2 none
      = Rect3i.from_center_extents Vector3i.zero (Vector3i.splat 2) ∧
    previous_box sample_view2
      = Rect3i.from_center_extents Vector3i.zero (Vector3i.splat 0) ∧
    (∀ q, (required_box sample_view2 none).contains q = true →
      (previous_box sample_view2).contains q = false →
      sample_view2_detected.dirty_blocks q = some BLOCK_LOAD ∧
      sample_view2_detected.blocks_pending_load.count q = 1) ∧
    (∀ q, ¬ ((required_box sample_view2 none).contains q = true ∧
        (previous_box sample_view2).contains q = false) →
      sample_view2_detected.dirty_blocks q = none ∧
      sample_view2_detected.blocks_pending_load.count q = 0) ∧
    sample_view2_detected.blocks = (fun _ => none) ∧
    sample_view2_detected.blocks_pending_update = [] := by
  obtain ⟨g1, _, _, g4, g5⟩ := sample_view2_fields
  obtain ⟨hb, hd, hnd, hmem, hu⟩ :=
    detect_required_blocks_pristine sample_view2 none rfl rfl rfl rfl
  unfold sample_view2_detected
  refine ⟨reachable_run_plain _ 16 (fresh 16) (Op.view_distance 32) ReachableBy.init trivial
    trivial rfl, g1, g4, g5, ?_, ?_, hb, hu⟩
  · intro q hN hP
    refine ⟨?_, List.count_eq_one_of_mem hnd ((hmem q).2 ⟨hN, hP⟩)⟩
    rw [hd q, if_pos ⟨hN, hP⟩]
  · intro q hq
    refine ⟨?_, List.count_eq_zero_of_not_mem (fun h => hq ((hmem q).1 h))⟩
    rw [hd q, if_neg hq]

end VoxelTerrain
